import Mathlib

/-! ExaDG: the boundary-face routines of the dual-splitting operator, the multigrid
preconditioner of the momentum operator, the hooks of the moving-mesh time integrators, the
error calculator and the coupling surfaces of the preCICE adapter.

A shallow embedding of
`include/exadg/incompressible_navier_stokes/spatial_discretization/operator_dual_splitting.cpp`,
`include/incompressible_navier_stokes/preconditioners/multigrid_preconditioner_momentum.h`,
`include/exadg/time_integration/lambda_functions_ale.h`,
`include/incompressible_navier_stokes/postprocessor/error_calculation_navier_stokes.h`,
`include/exadg/fluid_structure_interaction/precice/quad_surface.h` and
`include/exadg/fluid_structure_interaction/precice/exadg_surface.h`.

* Numbers (`scalar = VectorizedArray<Number>`) are the elements of a commutative ring `R`;
  the lanes of a vectorised array form a product ring, so one `R` stands for a whole batch.
  The coupling surfaces address the lanes one by one: there a vectorised value is a function
  of the component and the lane.
* `AssertThrow` is `Except.error` carrying the message of the assertion; `Assert`, which is
  checked in a debug build only, takes the build mode as an argument.
* The deal.II objects the routines are handed (`MatrixFree`, the face integrators) are records
  of the data they expose; what deal.II computes inside them is a field of the record.
-/

namespace ExaDG

/-! ## Tensors (deal.II `Tensor<rank, dim, scalar>`) -/

/-- The type `vector = Tensor<1, dim, scalar>`. -/
abbrev Tensor1 (dim : Nat) (R : Type) : Type := Fin dim → R

/-- The type `tensor = Tensor<2, dim, scalar>`. -/
abbrev Tensor2 (dim : Nat) (R : Type) : Type := Fin dim → Fin dim → R

/-- The type `Point<dim, scalar>`. -/
abbrev Point (dim : Nat) (R : Type) : Type := Fin dim → R

/-- The distributed dof vector `VectorType`: global dof index to entry. -/
abbrev VectorType (R : Type) : Type := Nat → R

/-- The product `a * b` of two rank-1 tensors: the scalar product. -/
def dot {dim : Nat} {R : Type} [CommRing R] (a b : Tensor1 dim R) : R :=
  ∑ i, a i * b i

/-- The product `A * v` of a rank-2 and a rank-1 tensor: contraction over the last index. -/
def contract {dim : Nat} {R : Type} [CommRing R] (A : Tensor2 dim R) (v : Tensor1 dim R) :
    Tensor1 dim R :=
  fun i => ∑ j, A i j * v j

/-- The product `s * v` of a scalar and a rank-1 tensor. -/
def scale {dim : Nat} {R : Type} [CommRing R] (s : R) (v : Tensor1 dim R) : Tensor1 dim R :=
  fun i => s * v i

/-! ## Enumerations -/

/-- Modelled from the spec: the declaration of `BoundaryTypeU` is not among the sources.
The four kinds are those of the spec (section 3) and of the comparisons in the routines;
`Undefined` is the value that is none of them, reached by the final `else` branches. -/
inductive BoundaryTypeU where
  | Undefined
  | Dirichlet
  | DirichletCached
  | Neumann
  | Symmetry
  deriving DecidableEq, Repr

/-- Modelled from the spec: the declaration of `BoundaryTypeP` is not among the sources.
The pressure routines compare with `Neumann` and `Dirichlet` only; `Undefined` is the value
that is neither. -/
inductive BoundaryTypeP where
  | Undefined
  | Dirichlet
  | Neumann
  deriving DecidableEq, Repr

/-- Modelled from the spec: the declaration of `FormulationConvectiveTerm` is not among the
sources. The routines compare with the two formulations; `Undefined` is the unrecognised
selector. -/
inductive FormulationConvectiveTerm where
  | Undefined
  | DivergenceFormulation
  | ConvectiveFormulation
  deriving DecidableEq, Repr

/-! ## Collaborators -/

/-- The part of `Parameters` read by the boundary-face routines. -/
structure Parameters where
  ale_formulation : Bool
  formulation_convective_term_bc : FormulationConvectiveTerm

/-- The velocity part of the boundary descriptor. `dirichlet_bc b` is the function stored
under id `b` (the result of `dirichlet_bc.find(b)->second`), `dirichlet_cached_data face q
quad_index` the value `FunctionEvaluator::value(*bc, face, q, quad_index)` of the cached data. -/
structure BoundaryDescriptorU (dim : Nat) (R T : Type) where
  get_boundary_type : Nat → BoundaryTypeU
  dirichlet_bc : Nat → Point dim R → T → Tensor1 dim R
  dirichlet_cached_data : Nat → Nat → Nat → Tensor1 dim R

/-- The pressure part of the boundary descriptor. -/
structure BoundaryDescriptorP where
  get_boundary_type : Nat → BoundaryTypeP

/-- The boundary descriptor: one classification per field. -/
structure BoundaryDescriptor (dim : Nat) (R T : Type) where
  velocity : BoundaryDescriptorU dim R T
  pressure : BoundaryDescriptorP

/-- The field functions; `right_hand_side x t` is
`FunctionEvaluator<1, dim, Number>::value(*right_hand_side, x, t)`. -/
structure FieldFunctions (dim : Nat) (R T : Type) where
  right_hand_side : Point dim R → T → Tensor1 dim R

/-- The data of `dealii::MatrixFree` that the routines read, by dof index, quadrature index,
face and quadrature point. `integrate` and `distribute_local_to_global` are the two steps that
carry the submitted values of a face into the destination vector. -/
structure MatrixFree (dim : Nat) (R : Type) where
  get_boundary_id : Nat → Nat
  n_q_points : (quad_index face : Nat) → Nat
  quadrature_point : (quad_index face q : Nat) → Point dim R
  normal_vector : (quad_index face q : Nat) → Tensor1 dim R
  evaluate_value : (dof_index quad_index face : Nat) → VectorType R → Nat → Tensor1 dim R
  evaluate_gradient : (dof_index quad_index face : Nat) → VectorType R → Nat → Tensor2 dim R
  evaluate_divergence : (dof_index quad_index face : Nat) → VectorType R → Nat → R
  integrate : (dof_index quad_index face : Nat) → (Nat → R) → Nat → R
  distribute_local_to_global : (dof_index face : Nat) → (Nat → R) → VectorType R → VectorType R
  interior_face_no : Nat → Nat
  face_to_cell_index_nodal : (dof_index quad_index local_face q : Nat) → Nat
  dofs_per_component : (dof_index : Nat) → Nat
  dof_indices : (dof_index face i : Nat) → Fin dim → Nat

/-- The state of `OperatorDualSplitting` read by the boundary-face routines.
`grid_velocity` is `convective_kernel->get_grid_velocity()`, `viscosity_boundary_face` is
`get_viscosity_boundary_face`, `CurlCompute` is `CurlCompute<dim, FaceIntegratorU>::compute`
as a function of the gradient at the quadrature point. -/
structure OperatorDualSplitting (dim : Nat) (R T : Type) where
  dof_index_velocity : Nat
  dof_index_pressure : Nat
  quad_index_velocity_standard : Nat
  quad_index_velocity_overintegration : Nat
  quad_index_velocity_nodal_points : Nat
  quad_index_pressure : Nat
  evaluation_time : T
  boundary_descriptor : BoundaryDescriptor dim R T
  field_functions : FieldFunctions dim R T
  param : Parameters
  grid_velocity : VectorType R
  viscosity_boundary_face : (face q : Nat) → R
  CurlCompute : Tensor2 dim R → Tensor1 dim R

/-- The assignment `this->evaluation_time = time`. -/
def OperatorDualSplitting.set_evaluation_time {dim : Nat} {R T : Type}
    (op : OperatorDualSplitting dim R T) (time : T) : OperatorDualSplitting dim R T :=
  { op with evaluation_time := time }

/-- The operator with the parameter `ale_formulation` set to `ale`, all else unchanged. -/
def OperatorDualSplitting.set_ale_formulation {dim : Nat} {R T : Type}
    (op : OperatorDualSplitting dim R T) (ale : Bool) : OperatorDualSplitting dim R T :=
  { op with param := { op.param with ale_formulation := ale } }

/-! ## Face integrators -/

/-- The scalar face integrator `FaceIntegratorP`: the indices it was built with, the face of the
last `reinit`, the values submitted at the quadrature points. -/
structure FaceIntegratorP (R : Type) where
  dof_index : Nat
  quad_index : Nat
  face : Nat
  values_quad : Nat → R

/-- The vector face integrator `FaceIntegratorU`: indices, face, the quantities evaluated at the
quadrature points by `gather_evaluate`, and the dof values of the adjacent cell. -/
structure FaceIntegratorU (dim : Nat) (R : Type) where
  dof_index : Nat
  quad_index : Nat
  face : Nat
  get_value : Nat → Tensor1 dim R
  get_gradient : Nat → Tensor2 dim R
  get_divergence : Nat → R
  values_dofs : Nat → Tensor1 dim R

section Integrators

variable {dim : Nat} {R : Type}

/-- The constructor `FaceIntegratorP(matrix_free, true, dof_index, quad_index)`. -/
def FaceIntegratorP.create [Zero R] (dof_index quad_index : Nat) : FaceIntegratorP R :=
  { dof_index := dof_index, quad_index := quad_index, face := 0, values_quad := fun _ => 0 }

/-- The call `integrator.reinit(face)`. -/
def FaceIntegratorP.reinit (it : FaceIntegratorP R) (face : Nat) : FaceIntegratorP R :=
  { it with face := face }

/-- The member `integrator.n_q_points`. -/
def FaceIntegratorP.n_q_points (mf : MatrixFree dim R) (it : FaceIntegratorP R) : Nat :=
  mf.n_q_points it.quad_index it.face

/-- The call `integrator.quadrature_point(q)`. -/
def FaceIntegratorP.quadrature_point (mf : MatrixFree dim R) (it : FaceIntegratorP R)
    (q : Nat) : Point dim R :=
  mf.quadrature_point it.quad_index it.face q

/-- The call `integrator.get_normal_vector(q)`. -/
def FaceIntegratorP.get_normal_vector (mf : MatrixFree dim R) (it : FaceIntegratorP R)
    (q : Nat) : Tensor1 dim R :=
  mf.normal_vector it.quad_index it.face q

/-- The call `integrator.submit_value(v, q)`: slot `q` is overwritten with `v`. -/
def FaceIntegratorP.submit_value (it : FaceIntegratorP R) (v : R) (q : Nat) :
    FaceIntegratorP R :=
  { it with values_quad := Function.update it.values_quad q v }

/-- The calls `integrate(values)` and `distribute_local_to_global(dst)`, also fused as
`integrate_scatter(values, dst)`. -/
def FaceIntegratorP.integrate_scatter (mf : MatrixFree dim R) (it : FaceIntegratorP R)
    (dst : VectorType R) : VectorType R :=
  mf.distribute_local_to_global it.dof_index it.face
    (mf.integrate it.dof_index it.quad_index it.face it.values_quad) dst

/-- The constructor `FaceIntegratorU(matrix_free, true, dof_index, quad_index)`. -/
def FaceIntegratorU.create [Zero R] (dof_index quad_index : Nat) : FaceIntegratorU dim R :=
  { dof_index := dof_index, quad_index := quad_index, face := 0,
    get_value := fun _ => 0, get_gradient := fun _ => 0, get_divergence := fun _ => 0,
    values_dofs := fun _ => 0 }

/-- The call `integrator.reinit(face)`. -/
def FaceIntegratorU.reinit (it : FaceIntegratorU dim R) (face : Nat) : FaceIntegratorU dim R :=
  { it with face := face }

/-- The member `integrator.n_q_points`. -/
def FaceIntegratorU.n_q_points (mf : MatrixFree dim R) (it : FaceIntegratorU dim R) : Nat :=
  mf.n_q_points it.quad_index it.face

/-- The call `integrator.quadrature_point(q)`. -/
def FaceIntegratorU.quadrature_point (mf : MatrixFree dim R) (it : FaceIntegratorU dim R)
    (q : Nat) : Point dim R :=
  mf.quadrature_point it.quad_index it.face q

/-- The call `integrator.get_normal_vector(q)`. -/
def FaceIntegratorU.get_normal_vector (mf : MatrixFree dim R) (it : FaceIntegratorU dim R)
    (q : Nat) : Tensor1 dim R :=
  mf.normal_vector it.quad_index it.face q

/-- The call `gather_evaluate(src, flags)`: the quantities named by the flags are evaluated
from `src` on the current face; with the gradients the divergence becomes available too. -/
def FaceIntegratorU.gather_evaluate (mf : MatrixFree dim R) (it : FaceIntegratorU dim R)
    (src : VectorType R) (values gradients : Bool) : FaceIntegratorU dim R :=
  { it with
    get_value :=
      if values then mf.evaluate_value it.dof_index it.quad_index it.face src
      else it.get_value
    get_gradient :=
      if gradients then mf.evaluate_gradient it.dof_index it.quad_index it.face src
      else it.get_gradient
    get_divergence :=
      if gradients then mf.evaluate_divergence it.dof_index it.quad_index it.face src
      else it.get_divergence }

/-- The pairs (local dof, component) of one cell, in the order deal.II walks them. -/
def local_dof_pairs (dim n : Nat) : List (Nat × Fin dim) :=
  (List.range n).flatMap fun i => (List.finRange dim).map fun c => (i, c)

/-- The call `integrator.read_dof_values(dst)`: the dof values of the cell next to the face
are read from the global vector. -/
def FaceIntegratorU.read_dof_values (mf : MatrixFree dim R) (it : FaceIntegratorU dim R)
    (dst : VectorType R) : FaceIntegratorU dim R :=
  { it with
    values_dofs := fun i c =>
      if i < mf.dofs_per_component it.dof_index then dst (mf.dof_indices it.dof_index it.face i c)
      else it.values_dofs i c }

/-- The call `integrator.submit_dof_value(g, index)`: the local dof is overwritten with `g`. -/
def FaceIntegratorU.submit_dof_value (it : FaceIntegratorU dim R) (g : Tensor1 dim R)
    (index : Nat) : FaceIntegratorU dim R :=
  { it with values_dofs := Function.update it.values_dofs index g }

/-- The call `integrator.set_dof_values(dst)`: every local dof value is written to its global
entry, replacing what was there (deal.II: "the previous content is overwritten"). -/
def FaceIntegratorU.set_dof_values (mf : MatrixFree dim R) (it : FaceIntegratorU dim R)
    (dst : VectorType R) : VectorType R :=
  (local_dof_pairs dim (mf.dofs_per_component it.dof_index)).foldl
    (fun d p => Function.update d (mf.dof_indices it.dof_index it.face p.1 p.2)
      (it.values_dofs p.1 p.2))
    dst

end Integrators

/-! ## Loops -/

/-- The loop `for(unsigned int i = first; i < first + count; ++i) body(i)` over a state, an
`AssertThrow` in the body ending it. -/
def forLoop {σ : Type} (body : Nat → σ → Except String σ) : Nat → Nat → σ → Except String σ
  | 0, _, s => .ok s
  | count + 1, i, s =>
    match body i s with
    | .error e => .error e
    | .ok s' => forLoop body count (i + 1) s'

/-- The loop `for(unsigned int i = first; i < second; i++) body(i)`. -/
def forRange {σ : Type} (first second : Nat) (body : Nat → σ → Except String σ) (s : σ) :
    Except String σ :=
  forLoop body (second - first) first s

/-- The call `matrix_free.loop(cell_loop_empty, face_loop_empty, boundary_face, this, dst,
src)`: the cell and inner-face functions do nothing, the boundary function is run on each
range of boundary faces in turn. -/
def MatrixFree.loop (boundary_face_ranges : List (Nat × Nat))
    {V : Type} (boundary_face : V → Nat × Nat → Except String V) (dst : V) : Except String V :=
  boundary_face_ranges.foldlM boundary_face dst

/-! ## The boundary-face routines -/

section Routines

variable {dim : Nat} {R T : Type} [CommRing R]

/-- The body of the quadrature loop of `local_rhs_ppe_div_term_body_forces_boundary_face`. -/
def local_rhs_ppe_div_term_body_forces_q (op : OperatorDualSplitting dim R T)
    (mf : MatrixFree dim R) (boundary_type : BoundaryTypeU) (q : Nat)
    (integrator : FaceIntegratorP R) : Except String (FaceIntegratorP R) :=
  if boundary_type = BoundaryTypeU.Dirichlet ∨ boundary_type = BoundaryTypeU.DirichletCached then
    let q_points := integrator.quadrature_point mf q
    -- evaluate right-hand side
    let rhs := op.field_functions.right_hand_side q_points op.evaluation_time
    let flux_times_normal := dot rhs (integrator.get_normal_vector mf q)
    .ok (integrator.submit_value (-flux_times_normal) q)
  else if boundary_type = BoundaryTypeU.Neumann ∨ boundary_type = BoundaryTypeU.Symmetry then
    let zero : R := 0
    .ok (integrator.submit_value zero q)
  else
    .error "Boundary type of face is invalid or not implemented."

/-- The body of the face loop of `local_rhs_ppe_div_term_body_forces_boundary_face` up to the
end of the quadrature loop: the integrator holding the submitted values of `face`. -/
def local_rhs_ppe_div_term_body_forces_face (op : OperatorDualSplitting dim R T)
    (mf : MatrixFree dim R) (face : Nat) (integrator : FaceIntegratorP R) :
    Except String (FaceIntegratorP R) :=
  let integrator := integrator.reinit face
  let boundary_type := op.boundary_descriptor.velocity.get_boundary_type (mf.get_boundary_id face)
  forRange 0 (integrator.n_q_points mf)
    (local_rhs_ppe_div_term_body_forces_q op mf boundary_type) integrator

/-- The routine `local_rhs_ppe_div_term_body_forces_boundary_face`. -/
def local_rhs_ppe_div_term_body_forces_boundary_face (op : OperatorDualSplitting dim R T)
    (mf : MatrixFree dim R) (dst : VectorType R) (face_range : Nat × Nat) :
    Except String (VectorType R) := do
  let dof_index_pressure := op.dof_index_pressure
  let quad_index_pressure := op.quad_index_pressure
  let integrator : FaceIntegratorP R :=
    FaceIntegratorP.create dof_index_pressure quad_index_pressure
  let r ← forRange face_range.1 face_range.2
    (fun face (s : FaceIntegratorP R × VectorType R) => do
      let integrator ← local_rhs_ppe_div_term_body_forces_face op mf face s.1
      .ok (integrator, integrator.integrate_scatter mf s.2))
    (integrator, dst)
  .ok r.2

/-- The routine `rhs_ppe_div_term_body_forces_add`: the operator with the new evaluation
time, and the destination vector. -/
def rhs_ppe_div_term_body_forces_add (op : OperatorDualSplitting dim R T)
    (mf : MatrixFree dim R) (boundary_face_ranges : List (Nat × Nat)) (dst : VectorType R)
    (time : T) : Except String (OperatorDualSplitting dim R T × VectorType R) := do
  let op := op.set_evaluation_time time
  let dst ← MatrixFree.loop boundary_face_ranges
    (local_rhs_ppe_div_term_body_forces_boundary_face op mf) dst
  .ok (op, dst)

/-- The body of the quadrature loop of `local_rhs_ppe_div_term_convective_term_boundary_face`. -/
def local_rhs_ppe_div_term_convective_term_q (op : OperatorDualSplitting dim R T)
    (mf : MatrixFree dim R) (boundary_type : BoundaryTypeU)
    (velocity grid_velocity : FaceIntegratorU dim R) (q : Nat)
    (pressure : FaceIntegratorP R) : Except String (FaceIntegratorP R) :=
  if boundary_type = BoundaryTypeU.Dirichlet ∨ boundary_type = BoundaryTypeU.DirichletCached then do
    let normal := pressure.get_normal_vector mf q
    let u := velocity.get_value q
    let grad_u := velocity.get_gradient q
    let flux ←
      if op.param.formulation_convective_term_bc =
          FormulationConvectiveTerm.DivergenceFormulation then
        let div_u := velocity.get_divergence q
        (.ok (contract grad_u u + scale div_u u) : Except String (Tensor1 dim R))
      else if op.param.formulation_convective_term_bc =
          FormulationConvectiveTerm.ConvectiveFormulation then
        .ok (contract grad_u u)
      else
        .error "Not implemented."
    let flux :=
      if op.param.ale_formulation then flux - contract grad_u (grid_velocity.get_value q)
      else flux
    let flux_times_normal := dot flux normal
    .ok (pressure.submit_value flux_times_normal q)
  else if boundary_type = BoundaryTypeU.Neumann ∨ boundary_type = BoundaryTypeU.Symmetry then
    let zero : R := 0
    .ok (pressure.submit_value zero q)
  else
    .error "Boundary type of face is invalid or not implemented."

/-- The three integrators of the convective routines. -/
structure ConvectiveIntegrators (dim : Nat) (R : Type) where
  velocity : FaceIntegratorU dim R
  pressure : FaceIntegratorP R
  grid_velocity : FaceIntegratorU dim R

/-- The body of the face loop of `local_rhs_ppe_div_term_convective_term_boundary_face` up to
the end of the quadrature loop. -/
def local_rhs_ppe_div_term_convective_term_face (op : OperatorDualSplitting dim R T)
    (mf : MatrixFree dim R) (src : VectorType R) (face : Nat)
    (its : ConvectiveIntegrators dim R) : Except String (ConvectiveIntegrators dim R) := do
  let velocity := its.velocity.reinit face
  let velocity := velocity.gather_evaluate mf src true true
  let grid_velocity :=
    if op.param.ale_formulation then
      (its.grid_velocity.reinit face).gather_evaluate mf op.grid_velocity true false
    else its.grid_velocity
  let pressure := its.pressure.reinit face
  let boundary_type := op.boundary_descriptor.velocity.get_boundary_type (mf.get_boundary_id face)
  let pressure ← forRange 0 (pressure.n_q_points mf)
    (local_rhs_ppe_div_term_convective_term_q op mf boundary_type velocity grid_velocity)
    pressure
  .ok { velocity := velocity, pressure := pressure, grid_velocity := grid_velocity }

/-- The routine `local_rhs_ppe_div_term_convective_term_boundary_face`. -/
def local_rhs_ppe_div_term_convective_term_boundary_face (op : OperatorDualSplitting dim R T)
    (mf : MatrixFree dim R) (src : VectorType R) (dst : VectorType R) (face_range : Nat × Nat) :
    Except String (VectorType R) := do
  let dof_index_velocity := op.dof_index_velocity
  let dof_index_pressure := op.dof_index_pressure
  let quad_index := op.quad_index_velocity_overintegration
  let its : ConvectiveIntegrators dim R :=
    { velocity := FaceIntegratorU.create dof_index_velocity quad_index
      pressure := FaceIntegratorP.create dof_index_pressure quad_index
      grid_velocity := FaceIntegratorU.create dof_index_velocity quad_index }
  let r ← forRange face_range.1 face_range.2
    (fun face (s : ConvectiveIntegrators dim R × VectorType R) => do
      let its ← local_rhs_ppe_div_term_convective_term_face op mf src face s.1
      .ok (its, its.pressure.integrate_scatter mf s.2))
    (its, dst)
  .ok r.2

/-- The routine `rhs_ppe_div_term_convective_term_add`. -/
def rhs_ppe_div_term_convective_term_add (op : OperatorDualSplitting dim R T)
    (mf : MatrixFree dim R) (boundary_face_ranges : List (Nat × Nat)) (dst : VectorType R)
    (src : VectorType R) : Except String (VectorType R) :=
  MatrixFree.loop boundary_face_ranges
    (local_rhs_ppe_div_term_convective_term_boundary_face op mf src) dst

/-- The two integrators of the numerical-time-derivative routine. -/
structure TimeDerivativeIntegrators (dim : Nat) (R : Type) where
  integrator_velocity : FaceIntegratorU dim R
  integrator_pressure : FaceIntegratorP R

/-- The body of the quadrature loop of
`local_rhs_ppe_nbc_numerical_time_derivative_add_boundary_face`. -/
def local_rhs_ppe_nbc_numerical_time_derivative_add_q (data : MatrixFree dim R)
    (boundary_type : BoundaryTypeP) (integrator_velocity : FaceIntegratorU dim R) (q : Nat)
    (integrator_pressure : FaceIntegratorP R) : Except String (FaceIntegratorP R) :=
  if boundary_type = BoundaryTypeP.Neumann then
    let normal := integrator_velocity.get_normal_vector data q
    let dudt := integrator_velocity.get_value q
    let h := dot (-normal) dudt
    .ok (integrator_pressure.submit_value h q)
  else if boundary_type = BoundaryTypeP.Dirichlet then
    let zero : R := 0
    .ok (integrator_pressure.submit_value zero q)
  else
    .error "Boundary type of face is invalid or not implemented."

/-- The body of the face loop of `local_rhs_ppe_nbc_numerical_time_derivative_add_boundary_face`
up to the end of the quadrature loop. -/
def local_rhs_ppe_nbc_numerical_time_derivative_add_face (op : OperatorDualSplitting dim R T)
    (data : MatrixFree dim R) (acceleration : VectorType R) (face : Nat)
    (its : TimeDerivativeIntegrators dim R) :
    Except String (TimeDerivativeIntegrators dim R) := do
  let integrator_velocity := its.integrator_velocity.reinit face
  let integrator_velocity := integrator_velocity.gather_evaluate data acceleration true false
  let integrator_pressure := its.integrator_pressure.reinit face
  let boundary_id := data.get_boundary_id face
  let boundary_type := op.boundary_descriptor.pressure.get_boundary_type boundary_id
  let integrator_pressure ← forRange 0 (integrator_pressure.n_q_points data)
    (local_rhs_ppe_nbc_numerical_time_derivative_add_q data boundary_type integrator_velocity)
    integrator_pressure
  .ok { integrator_velocity := integrator_velocity, integrator_pressure := integrator_pressure }

/-- The routine `local_rhs_ppe_nbc_numerical_time_derivative_add_boundary_face`. -/
def local_rhs_ppe_nbc_numerical_time_derivative_add_boundary_face
    (op : OperatorDualSplitting dim R T) (data : MatrixFree dim R)
    (acceleration : VectorType R) (dst : VectorType R) (face_range : Nat × Nat) :
    Except String (VectorType R) := do
  let dof_index_velocity := op.dof_index_velocity
  let dof_index_pressure := op.dof_index_pressure
  let quad_index_velocity := op.quad_index_velocity_standard
  let its : TimeDerivativeIntegrators dim R :=
    { integrator_velocity := FaceIntegratorU.create dof_index_velocity quad_index_velocity
      integrator_pressure := FaceIntegratorP.create dof_index_pressure quad_index_velocity }
  let r ← forRange face_range.1 face_range.2
    (fun face (s : TimeDerivativeIntegrators dim R × VectorType R) => do
      let its ← local_rhs_ppe_nbc_numerical_time_derivative_add_face op data acceleration face s.1
      .ok (its, its.integrator_pressure.integrate_scatter data s.2))
    (its, dst)
  .ok r.2

/-- The routine `rhs_ppe_nbc_numerical_time_derivative_add`. -/
def rhs_ppe_nbc_numerical_time_derivative_add (op : OperatorDualSplitting dim R T)
    (mf : MatrixFree dim R) (boundary_face_ranges : List (Nat × Nat)) (dst : VectorType R)
    (acceleration : VectorType R) : Except String (VectorType R) :=
  MatrixFree.loop boundary_face_ranges
    (local_rhs_ppe_nbc_numerical_time_derivative_add_boundary_face op mf acceleration) dst

/-- The body of the quadrature loop of `local_rhs_ppe_nbc_body_force_term_add_boundary_face`. -/
def local_rhs_ppe_nbc_body_force_term_add_q (op : OperatorDualSplitting dim R T)
    (data : MatrixFree dim R) (boundary_type : BoundaryTypeP) (q : Nat)
    (integrator : FaceIntegratorP R) : Except String (FaceIntegratorP R) :=
  if boundary_type = BoundaryTypeP.Neumann then
    let q_points := integrator.quadrature_point data q
    -- evaluate right-hand side
    let rhs := op.field_functions.right_hand_side q_points op.evaluation_time
    let normal := integrator.get_normal_vector data q
    let h := dot normal rhs
    .ok (integrator.submit_value h q)
  else if boundary_type = BoundaryTypeP.Dirichlet then
    let zero : R := 0
    .ok (integrator.submit_value zero q)
  else
    .error "Boundary type of face is invalid or not implemented."

/-- The body of the face loop of `local_rhs_ppe_nbc_body_force_term_add_boundary_face` up to
the end of the quadrature loop. -/
def local_rhs_ppe_nbc_body_force_term_add_face (op : OperatorDualSplitting dim R T)
    (data : MatrixFree dim R) (face : Nat) (integrator : FaceIntegratorP R) :
    Except String (FaceIntegratorP R) :=
  let integrator := integrator.reinit face
  let boundary_id := data.get_boundary_id face
  let boundary_type := op.boundary_descriptor.pressure.get_boundary_type boundary_id
  forRange 0 (integrator.n_q_points data)
    (local_rhs_ppe_nbc_body_force_term_add_q op data boundary_type) integrator

/-- The routine `local_rhs_ppe_nbc_body_force_term_add_boundary_face`. -/
def local_rhs_ppe_nbc_body_force_term_add_boundary_face (op : OperatorDualSplitting dim R T)
    (data : MatrixFree dim R) (dst : VectorType R) (face_range : Nat × Nat) :
    Except String (VectorType R) := do
  let dof_index_pressure := op.dof_index_pressure
  let quad_index_pressure := op.quad_index_pressure
  let integrator : FaceIntegratorP R :=
    FaceIntegratorP.create dof_index_pressure quad_index_pressure
  let r ← forRange face_range.1 face_range.2
    (fun face (s : FaceIntegratorP R × VectorType R) => do
      let integrator ← local_rhs_ppe_nbc_body_force_term_add_face op data face s.1
      .ok (integrator, integrator.integrate_scatter data s.2))
    (integrator, dst)
  .ok r.2

/-- The routine `rhs_ppe_nbc_body_force_term_add`: the operator with the new evaluation time,
and the destination vector. -/
def rhs_ppe_nbc_body_force_term_add (op : OperatorDualSplitting dim R T)
    (mf : MatrixFree dim R) (boundary_face_ranges : List (Nat × Nat)) (dst : VectorType R)
    (time : T) : Except String (OperatorDualSplitting dim R T × VectorType R) := do
  let op := op.set_evaluation_time time
  let dst ← MatrixFree.loop boundary_face_ranges
    (local_rhs_ppe_nbc_body_force_term_add_boundary_face op mf) dst
  .ok (op, dst)

/-- The body of the quadrature loop of `local_rhs_ppe_nbc_convective_add_boundary_face`. -/
def local_rhs_ppe_nbc_convective_add_q (op : OperatorDualSplitting dim R T)
    (mf : MatrixFree dim R) (boundary_type : BoundaryTypeP)
    (velocity grid_velocity : FaceIntegratorU dim R) (q : Nat)
    (pressure : FaceIntegratorP R) : Except String (FaceIntegratorP R) :=
  if boundary_type = BoundaryTypeP.Neumann then do
    let normal := pressure.get_normal_vector mf q
    let u := velocity.get_value q
    let grad_u := velocity.get_gradient q
    let flux ←
      if op.param.formulation_convective_term_bc =
          FormulationConvectiveTerm.DivergenceFormulation then
        let div_u := velocity.get_divergence q
        (.ok (contract grad_u u + scale div_u u) : Except String (Tensor1 dim R))
      else if op.param.formulation_convective_term_bc =
          FormulationConvectiveTerm.ConvectiveFormulation then
        .ok (contract grad_u u)
      else
        .error "Not implemented."
    let flux :=
      if op.param.ale_formulation then flux - contract grad_u (grid_velocity.get_value q)
      else flux
    .ok (pressure.submit_value (dot (-normal) flux) q)
  else if boundary_type = BoundaryTypeP.Dirichlet then
    .ok (pressure.submit_value 0 q)
  else
    .error "Boundary type of face is invalid or not implemented."

/-- The body of the face loop of `local_rhs_ppe_nbc_convective_add_boundary_face` up to the
end of the quadrature loop. -/
def local_rhs_ppe_nbc_convective_add_face (op : OperatorDualSplitting dim R T)
    (mf : MatrixFree dim R) (src : VectorType R) (face : Nat)
    (its : ConvectiveIntegrators dim R) : Except String (ConvectiveIntegrators dim R) := do
  let velocity := its.velocity.reinit face
  let velocity := velocity.gather_evaluate mf src true true
  let grid_velocity :=
    if op.param.ale_formulation then
      (its.grid_velocity.reinit face).gather_evaluate mf op.grid_velocity true false
    else its.grid_velocity
  let pressure := its.pressure.reinit face
  let boundary_type := op.boundary_descriptor.pressure.get_boundary_type (mf.get_boundary_id face)
  let pressure ← forRange 0 (pressure.n_q_points mf)
    (local_rhs_ppe_nbc_convective_add_q op mf boundary_type velocity grid_velocity) pressure
  .ok { velocity := velocity, pressure := pressure, grid_velocity := grid_velocity }

/-- The routine `local_rhs_ppe_nbc_convective_add_boundary_face`. -/
def local_rhs_ppe_nbc_convective_add_boundary_face (op : OperatorDualSplitting dim R T)
    (mf : MatrixFree dim R) (src : VectorType R) (dst : VectorType R) (face_range : Nat × Nat) :
    Except String (VectorType R) := do
  let dof_index_velocity := op.dof_index_velocity
  let dof_index_pressure := op.dof_index_pressure
  let quad_index := op.quad_index_velocity_overintegration
  let its : ConvectiveIntegrators dim R :=
    { velocity := FaceIntegratorU.create dof_index_velocity quad_index
      pressure := FaceIntegratorP.create dof_index_pressure quad_index
      grid_velocity := FaceIntegratorU.create dof_index_velocity quad_index }
  let r ← forRange face_range.1 face_range.2
    (fun face (s : ConvectiveIntegrators dim R × VectorType R) => do
      let its ← local_rhs_ppe_nbc_convective_add_face op mf src face s.1
      .ok (its, its.pressure.integrate_scatter mf s.2))
    (its, dst)
  .ok r.2

/-- The routine `rhs_ppe_nbc_convective_add`. -/
def rhs_ppe_nbc_convective_add (op : OperatorDualSplitting dim R T)
    (mf : MatrixFree dim R) (boundary_face_ranges : List (Nat × Nat)) (dst : VectorType R)
    (src : VectorType R) : Except String (VectorType R) :=
  MatrixFree.loop boundary_face_ranges
    (local_rhs_ppe_nbc_convective_add_boundary_face op mf src) dst

/-- The two integrators of the viscous routine. -/
structure ViscousIntegrators (dim : Nat) (R : Type) where
  omega : FaceIntegratorU dim R
  pressure : FaceIntegratorP R

/-- The body of the quadrature loop of `local_rhs_ppe_nbc_viscous_add_boundary_face`. -/
def local_rhs_ppe_nbc_viscous_add_q (op : OperatorDualSplitting dim R T)
    (mf : MatrixFree dim R) (boundary_type : BoundaryTypeP) (face : Nat)
    (omega : FaceIntegratorU dim R) (q : Nat) (pressure : FaceIntegratorP R) :
    Except String (FaceIntegratorP R) :=
  let viscosity := op.viscosity_boundary_face face q
  if boundary_type = BoundaryTypeP.Neumann then
    let normal := pressure.get_normal_vector mf q
    let curl_omega := op.CurlCompute (omega.get_gradient q)
    let h := dot (-normal) (scale viscosity curl_omega)
    .ok (pressure.submit_value h q)
  else if boundary_type = BoundaryTypeP.Dirichlet then
    .ok (pressure.submit_value 0 q)
  else
    .error "Boundary type of face is invalid or not implemented."

/-- The body of the face loop of `local_rhs_ppe_nbc_viscous_add_boundary_face` up to the end
of the quadrature loop. -/
def local_rhs_ppe_nbc_viscous_add_face (op : OperatorDualSplitting dim R T)
    (mf : MatrixFree dim R) (src : VectorType R) (face : Nat)
    (its : ViscousIntegrators dim R) : Except String (ViscousIntegrators dim R) := do
  let pressure := its.pressure.reinit face
  let omega := its.omega.reinit face
  let omega := omega.gather_evaluate mf src false true
  let boundary_type := op.boundary_descriptor.pressure.get_boundary_type (mf.get_boundary_id face)
  let pressure ← forRange 0 (pressure.n_q_points mf)
    (local_rhs_ppe_nbc_viscous_add_q op mf boundary_type face omega) pressure
  .ok { omega := omega, pressure := pressure }

/-- The routine `local_rhs_ppe_nbc_viscous_add_boundary_face`. The local variable named
`dof_index_pressure` is initialised from `get_quad_index_pressure()`, as in the source. -/
def local_rhs_ppe_nbc_viscous_add_boundary_face (op : OperatorDualSplitting dim R T)
    (mf : MatrixFree dim R) (src : VectorType R) (dst : VectorType R) (face_range : Nat × Nat) :
    Except String (VectorType R) := do
  let dof_index_velocity := op.dof_index_velocity
  let dof_index_pressure := op.quad_index_pressure
  let quad_index := op.quad_index_velocity_standard
  let its : ViscousIntegrators dim R :=
    { omega := FaceIntegratorU.create dof_index_velocity quad_index
      pressure := FaceIntegratorP.create dof_index_pressure quad_index }
  let r ← forRange face_range.1 face_range.2
    (fun face (s : ViscousIntegrators dim R × VectorType R) => do
      let its ← local_rhs_ppe_nbc_viscous_add_face op mf src face s.1
      .ok (its, its.pressure.integrate_scatter mf s.2))
    (its, dst)
  .ok r.2

/-- The routine `rhs_ppe_nbc_viscous_add`. -/
def rhs_ppe_nbc_viscous_add (op : OperatorDualSplitting dim R T)
    (mf : MatrixFree dim R) (boundary_face_ranges : List (Nat × Nat)) (dst : VectorType R)
    (src : VectorType R) : Except String (VectorType R) :=
  MatrixFree.loop boundary_face_ranges
    (local_rhs_ppe_nbc_viscous_add_boundary_face op mf src) dst

/-- The body of the nodal-point loop of `local_interpolate_velocity_dirichlet_bc_boundary_face`. -/
def local_interpolate_velocity_dirichlet_bc_q (op : OperatorDualSplitting dim R T)
    (matrix_free : MatrixFree dim R) (dof_index quad_index face boundary_id : Nat)
    (boundary_type : BoundaryTypeU) (q : Nat) (integrator : FaceIntegratorU dim R) :
    Except String (FaceIntegratorU dim R) := do
  let local_face_number := matrix_free.interior_face_no face
  let index := matrix_free.face_to_cell_index_nodal dof_index quad_index local_face_number q
  let g ←
    if boundary_type = BoundaryTypeU.Dirichlet then
      let bc := op.boundary_descriptor.velocity.dirichlet_bc boundary_id
      let q_points := integrator.quadrature_point matrix_free q
      (.ok (bc q_points op.evaluation_time) : Except String (Tensor1 dim R))
    else if boundary_type = BoundaryTypeU.DirichletCached then
      let bc := op.boundary_descriptor.velocity.dirichlet_cached_data
      .ok (bc face q quad_index)
    else
      .error "Not implemented."
  .ok (integrator.submit_dof_value g index)

/-- The body of the face loop of `local_interpolate_velocity_dirichlet_bc_boundary_face`:
the integrator and the destination vector after `face`. -/
def local_interpolate_velocity_dirichlet_bc_face (op : OperatorDualSplitting dim R T)
    (matrix_free : MatrixFree dim R) (dof_index quad_index face : Nat)
    (s : FaceIntegratorU dim R × VectorType R) :
    Except String (FaceIntegratorU dim R × VectorType R) := do
  let integrator := s.1
  let dst := s.2
  let boundary_id := matrix_free.get_boundary_id face
  let boundary_type := op.boundary_descriptor.velocity.get_boundary_type boundary_id
  if boundary_type = BoundaryTypeU.Dirichlet ∨ boundary_type = BoundaryTypeU.DirichletCached then
    let integrator := integrator.reinit face
    let integrator := integrator.read_dof_values matrix_free dst
    let integrator ← forRange 0 (integrator.n_q_points matrix_free)
      (local_interpolate_velocity_dirichlet_bc_q op matrix_free dof_index quad_index face
        boundary_id boundary_type)
      integrator
    .ok (integrator, integrator.set_dof_values matrix_free dst)
  else if boundary_type = BoundaryTypeU.Neumann ∨ boundary_type = BoundaryTypeU.Symmetry then
    .ok (integrator, dst)
  else
    .error "BoundaryTypeU not implemented."

/-- The routine `local_interpolate_velocity_dirichlet_bc_boundary_face`. -/
def local_interpolate_velocity_dirichlet_bc_boundary_face (op : OperatorDualSplitting dim R T)
    (matrix_free : MatrixFree dim R) (dst : VectorType R) (face_range : Nat × Nat) :
    Except String (VectorType R) := do
  let dof_index := op.dof_index_velocity
  let quad_index := op.quad_index_velocity_nodal_points
  let integrator : FaceIntegratorU dim R := FaceIntegratorU.create dof_index quad_index
  let r ← forRange face_range.1 face_range.2
    (fun face s => local_interpolate_velocity_dirichlet_bc_face op matrix_free dof_index
      quad_index face s)
    (integrator, dst)
  .ok r.2

/-- The routine `interpolate_velocity_dirichlet_bc`: the evaluation time is stored, `dst` is
set to zero and the boundary faces are visited. -/
def interpolate_velocity_dirichlet_bc (op : OperatorDualSplitting dim R T)
    (mf : MatrixFree dim R) (boundary_face_ranges : List (Nat × Nat)) (_dst : VectorType R)
    (time : T) : Except String (OperatorDualSplitting dim R T × VectorType R) := do
  let op := op.set_evaluation_time time
  let dst : VectorType R := fun _ => 0
  let dst ← MatrixFree.loop boundary_face_ranges
    (local_interpolate_velocity_dirichlet_bc_boundary_face op mf) dst
  .ok (op, dst)

end Routines

/-! ## Recognised boundary kinds -/

/-- The velocity kinds for which the velocity-keyed routines have a branch. -/
def BoundaryTypeU.recognised (k : BoundaryTypeU) : Prop :=
  k = BoundaryTypeU.Dirichlet ∨ k = BoundaryTypeU.DirichletCached ∨
    k = BoundaryTypeU.Neumann ∨ k = BoundaryTypeU.Symmetry

/-- The pressure kinds for which the pressure-keyed routines have a branch. -/
def BoundaryTypeP.recognised (k : BoundaryTypeP) : Prop :=
  k = BoundaryTypeP.Neumann ∨ k = BoundaryTypeP.Dirichlet

/-- The formulation selectors for which the convective routines have a branch. -/
def FormulationConvectiveTerm.recognised (f : FormulationConvectiveTerm) : Prop :=
  f = FormulationConvectiveTerm.DivergenceFormulation ∨
    f = FormulationConvectiveTerm.ConvectiveFormulation

instance (k : BoundaryTypeU) : Decidable k.recognised := by
  unfold BoundaryTypeU.recognised
  infer_instance

instance (k : BoundaryTypeP) : Decidable k.recognised := by
  unfold BoundaryTypeP.recognised
  infer_instance

instance (f : FormulationConvectiveTerm) : Decidable f.recognised := by
  unfold FormulationConvectiveTerm.recognised
  infer_instance

/-! ## The boundary faces by kind -/

section FaceKinds

variable {dim : Nat} {R T : Type}

/-- The faces of velocity kind Dirichlet or DirichletCached. -/
def velocity_dirichlet_faces (op : OperatorDualSplitting dim R T) (mf : MatrixFree dim R)
    (face : Nat) : Bool :=
  decide (op.boundary_descriptor.velocity.get_boundary_type (mf.get_boundary_id face)
      = BoundaryTypeU.Dirichlet ∨
    op.boundary_descriptor.velocity.get_boundary_type (mf.get_boundary_id face)
      = BoundaryTypeU.DirichletCached)

/-- The faces of velocity kind Neumann or Symmetry. -/
def velocity_neumann_faces (op : OperatorDualSplitting dim R T) (mf : MatrixFree dim R)
    (face : Nat) : Bool :=
  decide (op.boundary_descriptor.velocity.get_boundary_type (mf.get_boundary_id face)
      = BoundaryTypeU.Neumann ∨
    op.boundary_descriptor.velocity.get_boundary_type (mf.get_boundary_id face)
      = BoundaryTypeU.Symmetry)

/-- The faces of pressure kind Dirichlet. -/
def pressure_dirichlet_faces (op : OperatorDualSplitting dim R T) (mf : MatrixFree dim R)
    (face : Nat) : Bool :=
  decide (op.boundary_descriptor.pressure.get_boundary_type (mf.get_boundary_id face)
    = BoundaryTypeP.Dirichlet)

/-- The faces of pressure kind Neumann. -/
def pressure_neumann_faces (op : OperatorDualSplitting dim R T) (mf : MatrixFree dim R)
    (face : Nat) : Bool :=
  decide (op.boundary_descriptor.pressure.get_boundary_type (mf.get_boundary_id face)
    = BoundaryTypeP.Neumann)

end FaceKinds

/-! ## The flux of the specification -/

/-- The convective flux in the words of the specification: `grad_u * u + (div u) * u` in
divergence form, `grad_u * u` in convective form, and, when ALE is active, `grad_u * w`
subtracted. -/
def flux_spec {dim : Nat} {R : Type} [CommRing R] (formulation : FormulationConvectiveTerm)
    (ale : Bool) (grad_u : Tensor2 dim R) (u : Tensor1 dim R) (div_u : R) (w : Tensor1 dim R) :
    Tensor1 dim R :=
  let flux :=
    match formulation with
    | FormulationConvectiveTerm.DivergenceFormulation => contract grad_u u + scale div_u u
    | _ => contract grad_u u
  if ale then flux - contract grad_u w else flux

/-! ## The multigrid preconditioner of the momentum operator

A shallow embedding of
`include/incompressible_navier_stokes/preconditioners/multigrid_preconditioner_momentum.h`.
The preconditioner is a record of its members; the calls it makes on its collaborators are
recorded, in order, in a log. `T` is the type of times and scaling factors (`double`), `VTop`
the vector type of the top-level operator, `V` the vector type of the level operators. -/

/-- Modelled from the spec: the declaration of `MultigridOperatorType` is not among the
sources; the three values are those the preconditioner compares with. -/
inductive MultigridOperatorType where
  | Undefined
  | ReactionDiffusion
  | ReactionConvectionDiffusion
  deriving DecidableEq, Repr

/-- The fields of `MomentumOperatorData` that the preconditioner names; `other` stands for
all remaining fields, which it only copies. -/
structure MomentumOperatorData where
  unsteady_problem : Bool
  convective_problem : Bool
  viscous_problem : Bool
  use_cell_based_loops : Bool
  dof_index : Nat
  quad_index : Nat
  other : Nat
  deriving DecidableEq, Repr

/-- Modelled from the spec: the class `MomentumOperator` is not among the sources. By
sections 3 and 4.3 an operator holds its data, the evaluation time, the scaling factor of the
mass matrix and the linearization velocity. -/
structure MomentumOperator (T V : Type) where
  data : MomentumOperatorData
  time : T
  scaling_factor_mass_matrix : T
  velocity : V

section MomentumOperatorMethods

variable {T V : Type}

/-- Modelled from the spec: `get_data()` returns the operator data. -/
def MomentumOperator.get_data (op : MomentumOperator T V) : MomentumOperatorData := op.data

/-- Modelled from the spec: `get_time()` returns the evaluation time. -/
def MomentumOperator.get_time (op : MomentumOperator T V) : T := op.time

/-- Modelled from the spec: `get_scaling_factor_mass_matrix()` returns the scaling factor. -/
def MomentumOperator.get_scaling_factor_mass_matrix (op : MomentumOperator T V) : T :=
  op.scaling_factor_mass_matrix

/-- Modelled from the spec: `get_velocity()` returns the linearization velocity. -/
def MomentumOperator.get_velocity (op : MomentumOperator T V) : V := op.velocity

/-- Modelled from the spec: `initialize(matrix_free, constraints, data)` stores the data. -/
def MomentumOperator.initialize (op : MomentumOperator T V) (data : MomentumOperatorData) :
    MomentumOperator T V :=
  { op with data := data }

/-- Modelled from the spec: `set_time(time)` mutates the evaluation time in place (4.3). -/
def MomentumOperator.set_time (op : MomentumOperator T V) (time : T) : MomentumOperator T V :=
  { op with time := time }

/-- Modelled from the spec: `set_scaling_factor_mass_matrix(factor)` mutates the scaling
factor in place (4.3). -/
def MomentumOperator.set_scaling_factor_mass_matrix (op : MomentumOperator T V) (factor : T) :
    MomentumOperator T V :=
  { op with scaling_factor_mass_matrix := factor }

/-- Modelled from the spec: `set_velocity_copy(velocity)` installs a copy of the vector as
the linearization velocity (4.3). -/
def MomentumOperator.set_velocity_copy (op : MomentumOperator T V) (velocity : V) :
    MomentumOperator T V :=
  { op with velocity := velocity }

end MomentumOperatorMethods

/-- The calls of the preconditioner on its collaborators. -/
inductive Event where
  | base_initialize
  | initialize_operator (level : Nat)
  | update_matrix_free
  | update_after_mesh_movement (level : Nat)
  | set_time (level : Nat)
  | set_scaling_factor_mass_matrix (level : Nat)
  | pde_operator_get_velocity
  | set_velocity_copy (level : Nat)
  | interpolate (level : Nat)
  | update_smoothers
  | update_coarse_solver (operator_is_singular : Bool)
  deriving DecidableEq, Repr

/-- The events that read or write a linearization velocity. -/
def Event.concerns_velocity : Event → Bool
  | Event.pde_operator_get_velocity => true
  | Event.set_velocity_copy _ => true
  | Event.interpolate _ => true
  | _ => false

/-- What the preconditioner is given from outside: the conversion of a top-level vector to the
multigrid number type, `transfers.interpolate(level, dst, src)` as the new content of `dst`,
the state of a `new PDEOperatorMG()`, `update_after_mesh_movement()` of a level operator, and
the indices `get_dof_index("std_dof_handler")`, `get_quad_index("std_quadrature")` of the
matrix-free data of a level. -/
structure MultigridEnvironment (T VTop V : Type) where
  convert : VTop → V
  interpolate : (level : Nat) → (dst src : V) → V
  new_operator : MomentumOperator T V
  update_after_mesh_movement : MomentumOperator T V → MomentumOperator T V
  get_dof_index : (level : Nat) → Nat
  get_quad_index : (level : Nat) → Nat

/-- The members of `MultigridPreconditioner` and of its base that the class reads or writes.
The member `pde_operator` is a pointer to the top-level operator: the functions that
dereference it take the operator it points to as an argument. -/
structure MultigridPreconditioner (T V : Type) where
  data : MomentumOperatorData
  mg_operator_type : MultigridOperatorType
  mesh_is_moving : Bool
  coarse_level : Nat
  fine_level : Nat
  operators : Nat → MomentumOperator T V
  log : List Event

/-- The loop `for(unsigned int level = first; ...; ++level)` with `count` passes. -/
def for_levels_loop {σ : Type} (body : Nat → σ → σ) : Nat → Nat → σ → σ
  | 0, _, s => s
  | count + 1, level, s => for_levels_loop body count (level + 1) (body level s)

/-- The loop `for(unsigned int level = coarse_level; level <= fine_level; ++level)`. The
levels of a hierarchy are far below the largest `unsigned int`, where `++level` would wrap. -/
def for_levels {σ : Type} (coarse_level fine_level : Nat) (body : Nat → σ → σ) (s : σ) : σ :=
  for_levels_loop body (fine_level + 1 - coarse_level) coarse_level s

section MultigridMethods

variable {T VTop V : Type}

/-- A call on a collaborator whose effect is outside this record: it is logged. -/
def MultigridPreconditioner.record (mg : MultigridPreconditioner T V) (ev : Event) :
    MultigridPreconditioner T V :=
  { mg with log := mg.log ++ [ev] }

/-- The call `get_operator(level)->method(...)`: the operator of the level is replaced by
what the method makes of it, and the call is logged. -/
def MultigridPreconditioner.call_operator (mg : MultigridPreconditioner T V) (level : Nat)
    (method : MomentumOperator T V → MomentumOperator T V) (ev : Event) :
    MultigridPreconditioner T V :=
  { mg with
    operators := Function.update mg.operators level (method (mg.operators level))
    log := mg.log ++ [ev] }

/-- The function `initialize_operator(level)`: the indices of the member `data` are set from
the matrix-free data of the level, a new operator is initialised with `data` and given the
scaling factor of the top-level operator. Returns the preconditioner (its `data` has
changed) and the new operator. -/
def MultigridPreconditioner.initialize_operator (env : MultigridEnvironment T VTop V)
    (pde_operator : MomentumOperator T VTop) (mg : MultigridPreconditioner T V) (level : Nat) :
    MultigridPreconditioner T V × MomentumOperator T V :=
  -- initialize pde_operator in a first step
  let pde_operator_level := env.new_operator
  let mg :=
    { mg with
      data :=
        { mg.data with
          dof_index := env.get_dof_index level
          quad_index := env.get_quad_index level } }
  let pde_operator_level := MomentumOperator.initialize pde_operator_level mg.data
  let pde_operator_level :=
    pde_operator_level.set_scaling_factor_mass_matrix
      pde_operator.get_scaling_factor_mass_matrix
  (mg.record (Event.initialize_operator level), pde_operator_level)

/-- Modelled from the spec: `MultigridPreconditionerBase::initialize` is not among the
sources. By section 4.4 it builds one level operator per level, from the coarse to the fine
level, each by `initialize_operator(level)`; the levels are what it derives from its
arguments. Its other work (smoothers, coarse solver, transfers) is the logged call. -/
def MultigridPreconditioner.base_initialize (env : MultigridEnvironment T VTop V)
    (pde_operator : MomentumOperator T VTop) (mg : MultigridPreconditioner T V)
    (coarse_level fine_level : Nat) : MultigridPreconditioner T V :=
  let mg := { mg with coarse_level := coarse_level, fine_level := fine_level }
  let mg := mg.record Event.base_initialize
  for_levels coarse_level fine_level
    (fun level (mg : MultigridPreconditioner T V) =>
      let r := MultigridPreconditioner.initialize_operator env pde_operator mg level
      { r.1 with operators := Function.update r.1.operators level r.2 })
    mg

/-- The function `initialize`. The arguments `mg_data`, `tria`, `fe`, `mapping` are
represented by the levels `Base::initialize` derives from them. An `AssertThrow` returns its
message together with the state of the object at the throw. -/
def MultigridPreconditioner.initialize (env : MultigridEnvironment T VTop V)
    (mg : MultigridPreconditioner T V) (coarse_level fine_level : Nat)
    (pde_operator : MomentumOperator T VTop) (mg_operator_type : MultigridOperatorType)
    (mesh_is_moving : Bool) :
    Except (String × MultigridPreconditioner T V) (MultigridPreconditioner T V) :=
  let mg := { mg with mg_operator_type := mg_operator_type }
  let mg := { mg with mesh_is_moving := mesh_is_moving }
  let mg := { mg with data := pde_operator.get_data }
  if mg.mg_operator_type = MultigridOperatorType.Undefined then
    .error ("Invalid parameter mg_operator_type.", mg)
  else if mg.mg_operator_type = MultigridOperatorType.ReactionDiffusion then
    -- deactivate convective term for multigrid preconditioner
    let mg := { mg with data := { mg.data with convective_problem := false } }
    .ok (MultigridPreconditioner.base_initialize env pde_operator mg coarse_level fine_level)
  else if mg.mg_operator_type = MultigridOperatorType.ReactionConvectionDiffusion then
    if mg.data.convective_problem = true then
      .ok (MultigridPreconditioner.base_initialize env pde_operator mg coarse_level fine_level)
    else
      .error ("Invalid parameter.", mg)
  else
    .error ("Not implemented.", mg)

/-- The function `set_time(time)`. -/
def MultigridPreconditioner.set_time (mg : MultigridPreconditioner T V) (time : T) :
    MultigridPreconditioner T V :=
  for_levels mg.coarse_level mg.fine_level
    (fun level (mg : MultigridPreconditioner T V) =>
      mg.call_operator level (fun op => op.set_time time) (Event.set_time level))
    mg

/-- The function `update_operators_after_mesh_movement()`. -/
def MultigridPreconditioner.update_operators_after_mesh_movement
    (env : MultigridEnvironment T VTop V) (mg : MultigridPreconditioner T V) :
    MultigridPreconditioner T V :=
  for_levels mg.coarse_level mg.fine_level
    (fun level (mg : MultigridPreconditioner T V) =>
      mg.call_operator level env.update_after_mesh_movement
        (Event.update_after_mesh_movement level))
    mg

/-- The function `set_scaling_factor_time_derivative_term(factor)`. -/
def MultigridPreconditioner.set_scaling_factor_time_derivative_term
    (mg : MultigridPreconditioner T V) (scaling_factor_time_derivative_term : T) :
    MultigridPreconditioner T V :=
  for_levels mg.coarse_level mg.fine_level
    (fun level (mg : MultigridPreconditioner T V) =>
      mg.call_operator level
        (fun op => op.set_scaling_factor_mass_matrix scaling_factor_time_derivative_term)
        (Event.set_scaling_factor_mass_matrix level))
    mg

/-- The body of the loop of `set_vector_linearization` at `level`. -/
def MultigridPreconditioner.set_vector_linearization_step
    (env : MultigridEnvironment T VTop V) (level : Nat) (mg : MultigridPreconditioner T V) :
    MultigridPreconditioner T V :=
  let vector_fine_level := (mg.operators (level - 0)).get_velocity
  let vector_coarse_level := (mg.operators (level - 1)).get_velocity
  let vector_coarse_level := env.interpolate level vector_coarse_level vector_fine_level
  let mg := mg.record (Event.interpolate level)
  mg.call_operator (level - 1) (fun op => op.set_velocity_copy vector_coarse_level)
    (Event.set_velocity_copy (level - 1))

/-- The loop `for(unsigned int level = fine_level; level > coarse_level; --level)` of
`set_vector_linearization`, from the current `level` on. -/
def MultigridPreconditioner.set_vector_linearization_loop
    (env : MultigridEnvironment T VTop V) (coarse_level : Nat) :
    Nat → MultigridPreconditioner T V → MultigridPreconditioner T V
  | 0, mg => mg
  | level + 1, mg =>
    if level + 1 > coarse_level then
      MultigridPreconditioner.set_vector_linearization_loop env coarse_level level
        (MultigridPreconditioner.set_vector_linearization_step env (level + 1) mg)
    else mg

/-- The function `set_vector_linearization(vector_linearization)`. -/
def MultigridPreconditioner.set_vector_linearization (env : MultigridEnvironment T VTop V)
    (mg : MultigridPreconditioner T V) (vector_linearization : V) :
    MultigridPreconditioner T V :=
  -- copy velocity to finest level
  let mg := mg.call_operator mg.fine_level (fun op => op.set_velocity_copy vector_linearization)
    (Event.set_velocity_copy mg.fine_level)
  -- interpolate velocity from fine to coarse level
  MultigridPreconditioner.set_vector_linearization_loop env mg.coarse_level mg.fine_level mg

/-- The first two statements of `update_operators()`: the update of the level operators
after a mesh movement and the propagation of time and scaling factor. -/
def MultigridPreconditioner.update_operators_levels (env : MultigridEnvironment T VTop V)
    (mg : MultigridPreconditioner T V) (pde_operator : MomentumOperator T VTop) :
    MultigridPreconditioner T V :=
  let mg := if mg.mesh_is_moving then mg.update_operators_after_mesh_movement env else mg
  if mg.data.unsteady_problem then
    (mg.set_time pde_operator.get_time).set_scaling_factor_time_derivative_term
      pde_operator.get_scaling_factor_mass_matrix
  else mg

/-- The function `update_operators()`; `pde_operator` is the operator the member points to. -/
def MultigridPreconditioner.update_operators (env : MultigridEnvironment T VTop V)
    (mg : MultigridPreconditioner T V) (pde_operator : MomentumOperator T VTop) :
    MultigridPreconditioner T V :=
  let mg := mg.update_operators_levels env pde_operator
  if mg.mg_operator_type = MultigridOperatorType.ReactionConvectionDiffusion then
    let mg := mg.record Event.pde_operator_get_velocity
    let vector_linearization := pde_operator.get_velocity
    -- convert Number --> MultigridNumber, e.g., double --> float, but only if necessary
    let vector_multigrid_type := env.convert vector_linearization
    mg.set_vector_linearization env vector_multigrid_type
  else mg

/-- The function `update()`; `pde_operator` is the operator the member points to. -/
def MultigridPreconditioner.update (env : MultigridEnvironment T VTop V)
    (mg : MultigridPreconditioner T V) (pde_operator : MomentumOperator T VTop) :
    MultigridPreconditioner T V :=
  let mg := if mg.mesh_is_moving then mg.record Event.update_matrix_free else mg
  let mg := mg.update_operators env pde_operator
  let mg := mg.record Event.update_smoothers
  -- singular operators do not occur for this operator
  mg.record (Event.update_coarse_solver false)

end MultigridMethods

/-- The levels visited by the loop of `set_vector_linearization`, in the order of the visits:
`fine_level`, `fine_level - 1`, ..., `coarse_level + 1`. -/
def linearization_levels (coarse_level fine_level : Nat) : List Nat :=
  (List.range (fine_level - coarse_level)).map (fun k => fine_level - k)

/-- The calls of one pass of the loop of `set_vector_linearization` at `level`. -/
def linearization_pass_events (level : Nat) : List Event :=
  [Event.interpolate level, Event.set_velocity_copy (level - 1)]

/-- The levels of the loops `for(level = coarse_level; level <= fine_level; ++level)`, in the
order of the visits. -/
def all_levels (coarse_level fine_level : Nat) : List Nat :=
  List.range' coarse_level (fine_level + 1 - coarse_level)

/-! ## The hooks of the arbitrary Lagrangian-Eulerian time integrators

The class `HelpersALE` of `lambda_functions_ale.h`. -/

/-- The class `HelpersALE`: three members of type `std::function`. A hook acts on what its
captures reach (grid, mapping, matrix-free object), the state `σ`, and
`fill_grid_coordinates_vector` also on the vector it is given by reference. A hook returns
the new state, or the message of an `AssertThrow` together with the state at the throw. -/
structure HelpersALE (T V σ : Type) where
  move_grid : (time : T) → σ → Except (String × σ) σ
  update_matrix_free_after_grid_motion : σ → Except (String × σ) σ
  fill_grid_coordinates_vector : (vector : V) → σ → Except (String × V × σ) (V × σ)

/-- The default member initialisers of `HelpersALE`: each hook is a lambda that ignores its
argument and whose only statement is `AssertThrow(false, ...)`. -/
def HelpersALE.default_constructed {T V σ : Type} : HelpersALE T V σ where
  move_grid := fun _time s =>
    .error ("The function move_grid() has not been implemented.", s)
  update_matrix_free_after_grid_motion := fun s =>
    .error ("The function update_matrix_free_after_grid_motion() has not been implemented.", s)
  fill_grid_coordinates_vector := fun vector s =>
    .error ("The function fill_grid_coordinates_vector() has not been implemented.",
      vector, s)

/-! ## The error calculator

The class `ErrorCalculator` of `error_calculation_navier_stokes.h`. Times are elements of a
linearly ordered field `K`, in which the comparison of `evaluate` is computed exactly. -/

/-- The fields of `ErrorCalculationData` that `evaluate` reads. -/
structure ErrorCalculationData (K : Type) where
  analytical_solution_available : Bool
  error_calc_start_time : K
  error_calc_interval_time : K

/-- The members of `ErrorCalculator` that `evaluate` reads or writes, and the calls of
`do_evaluate` made so far with their arguments, in the order of the calls. The member
`error_counter` is an `unsigned int`: a number below `2^32`, on which `++error_counter` is the
successor modulo `2^32`. -/
structure ErrorCalculator (K V : Type) where
  error_counter : Nat
  error_data : ErrorCalculationData K
  calculations : List (V × V × K)

section ErrorCalculatorMethods

variable {K V : Type}

/-- The constructor `ErrorCalculator()`: `error_counter(0)`; `error_data` is the
default-constructed member, nothing has been calculated. -/
def ErrorCalculator.construct (error_data : ErrorCalculationData K) : ErrorCalculator K V :=
  { error_counter := 0, error_data := error_data, calculations := [] }

/-- The function `setup`, as far as `evaluate` depends on it: `error_data = error_data_in`. -/
def ErrorCalculator.setup (c : ErrorCalculator K V) (error_data_in : ErrorCalculationData K) :
    ErrorCalculator K V :=
  { c with error_data := error_data_in }

/-- The function `do_evaluate(velocity, pressure, time)`: the two errors are calculated and
printed, which is outside this record; the call is recorded. -/
def ErrorCalculator.do_evaluate (c : ErrorCalculator K V) (velocity pressure : V) (time : K) :
    ErrorCalculator K V :=
  { c with calculations := c.calculations ++ [(velocity, pressure, time)] }

/-- The function `evaluate(velocity, pressure, time, time_step_number)`. -/
def ErrorCalculator.evaluate [LinearOrderedField K] (c : ErrorCalculator K V)
    (velocity pressure : V) (time : K) (time_step_number : Int) : ErrorCalculator K V :=
  -- small number which is much smaller than the time step size
  let EPSILON : K := 1 / 10 ^ 10
  if c.error_data.analytical_solution_available = true then
    if time_step_number ≥ 0 then -- unsteady problem
      if time > c.error_data.error_calc_start_time +
          (c.error_counter : K) * c.error_data.error_calc_interval_time - EPSILON then
        let c := c.do_evaluate velocity pressure time
        { c with error_counter := (c.error_counter + 1) % 2 ^ 32 }
      else c
    else -- steady problem (time_step_number = -1)
      let c := c.do_evaluate velocity pressure time
      { c with error_counter := (c.error_counter + 1) % 2 ^ 32 }
  else c

/-- A sequence of calls of `evaluate`, each with its four arguments. -/
def ErrorCalculator.evaluate_calls [LinearOrderedField K] (c : ErrorCalculator K V)
    (calls : List (V × V × K × Int)) : ErrorCalculator K V :=
  calls.foldl (fun c call => c.evaluate call.1 call.2.1 call.2.2.1 call.2.2.2) c

end ErrorCalculatorMethods

/-- The boundary faces of a list of face ranges, in the order in which `loop` visits them. -/
def faces_of_ranges (ranges : List (Nat × Nat)) : List Nat :=
  ranges.flatMap fun r => List.range' r.1 (r.2 - r.1)

/-- Whether the global dof `k` is a nodal point of a face of velocity kind Dirichlet or
DirichletCached among the faces of the ranges: a component of the local dof
`face_to_cell_index_nodal[interior_face_no][q]` of the cell next to such a face, for a nodal
point `q` of the face. -/
def dirichlet_nodal_dof {dim : Nat} {R T : Type} (op : OperatorDualSplitting dim R T)
    (mf : MatrixFree dim R) (ranges : List (Nat × Nat)) (k : Nat) : Bool :=
  (faces_of_ranges ranges).any fun face =>
    (decide (op.boundary_descriptor.velocity.get_boundary_type (mf.get_boundary_id face)
        = BoundaryTypeU.Dirichlet) ||
      decide (op.boundary_descriptor.velocity.get_boundary_type (mf.get_boundary_id face)
        = BoundaryTypeU.DirichletCached)) &&
    (List.range (mf.n_q_points op.quad_index_velocity_nodal_points face)).any fun q =>
      (List.finRange dim).any fun c =>
        decide (mf.dof_indices op.dof_index_velocity face
          (mf.face_to_cell_index_nodal op.dof_index_velocity
            op.quad_index_velocity_nodal_points (mf.interior_face_no face) q) c = k)

/-! ## The coupling surfaces of the preCICE adapter

The classes `QuadSurface` and `ExaDGSurface` of `quad_surface.h` and `exadg_surface.h`. A C
array is a function from the index to the entry; an array handed to preCICE as a pointer with
a size is the list of the entries the call is told to read. `Assert` is the deal.II macro
that is checked in a debug build only: the routines take the build mode as an argument. -/

/-- The first `count` entries of an array. -/
def read_array {α : Type} (count : Nat) (a : Nat → α) : List α :=
  (List.range count).map a

/-- The macro `Assert(cond, exc)`: in a debug build a violated condition throws `exc`. -/
def Assert (debug : Bool) (cond : Bool) (exc : String) : Except String Unit :=
  if debug && !cond then .error exc else .ok ()

/-- The index pairs of the loops `for(d = 0; d < n; ++d) for(v = 0; v < size; ++v)`, in the
order of the passes. -/
def unroll_pairs (n size : Nat) : List (Nat × Nat) :=
  (List.range n).flatMap fun d => (List.range size).map fun v => (d, v)

/-- The loops `for(d = 0; d < n; ++d) for(v = 0; v < size; ++v)
buffer[d + n * v] = local[d][v];` that unroll a vectorized point or tensor. -/
def unroll {R : Type} (n size : Nat) (local_values : Nat → Nat → R) (buffer : Nat → R) :
    Nat → R :=
  (unroll_pairs n size).foldl
    (fun b p => Function.update b (p.1 + n * p.2) (local_values p.1 p.2)) buffer

/-- The components `0, ..., n - 1` of the lanes `0, ..., active_faces - 1` of a vectorized
point or tensor, lane after lane. -/
def lane_components {R : Type} (n active_faces : Nat) (local_values : Nat → Nat → R) :
    List R :=
  (List.range active_faces).flatMap fun v => (List.range n).map fun d => local_values d v

/-- A call received by the preCICE solver interface, with the part of each array that the
call is told to read. -/
inductive PreciceCall (R : Type) where
  | setMeshVertices (mesh_id : Int) (size : Nat) (positions : List R)
  | writeBlockVectorData (data_id : Int) (size : Nat) (value_indices : List Int)
      (values : List R)
  | writeBlockScalarData (data_id : Int) (size : Nat) (value_indices : List Int)
      (values : List R)

/-- The vertex ids that a call hands to preCICE. -/
def PreciceCall.value_indices {R : Type} : PreciceCall R → List Int
  | PreciceCall.setMeshVertices _ _ _ => []
  | PreciceCall.writeBlockVectorData _ _ value_indices _ => value_indices
  | PreciceCall.writeBlockScalarData _ _ value_indices _ => value_indices

/-- The preCICE solver interface as the surfaces use it: the calls received, the number of
vertices of each mesh (`getMeshVertexSize`) and the id preCICE gives to the vertex of a mesh
with a given running number. -/
structure SolverInterface (R : Type) where
  calls : List (PreciceCall R)
  getMeshVertexSize : Int → Nat
  vertex_id : Int → Nat → Int

/-- The call `precice->setMeshVertices(mesh_id, size, positions, ids)` for points of
dimension `dim`: `dim * size` coordinates are read, `size` vertices are added to the mesh and
their ids are written to the first `size` entries of `ids`. -/
def SolverInterface.setMeshVertices {R : Type} (precice : SolverInterface R) (dim : Nat)
    (mesh_id : Int) (size : Nat) (positions : Nat → R) (ids : Nat → Int) :
    SolverInterface R × (Nat → Int) :=
  ({ precice with
      calls := precice.calls ++
        [PreciceCall.setMeshVertices mesh_id size (read_array (dim * size) positions)]
      getMeshVertexSize :=
        Function.update precice.getMeshVertexSize mesh_id
          (precice.getMeshVertexSize mesh_id + size) },
    fun i =>
      if i < size then precice.vertex_id mesh_id (precice.getMeshVertexSize mesh_id + i)
      else ids i)

/-- The call `precice->writeBlockVectorData(data_id, size, value_indices, values)` for data
of `data_dim` components: `size` ids and `data_dim * size` values are read. -/
def SolverInterface.writeBlockVectorData {R : Type} (precice : SolverInterface R)
    (data_dim : Nat) (data_id : Int) (size : Nat) (value_indices : List Int)
    (values : Nat → R) : SolverInterface R :=
  { precice with
    calls := precice.calls ++
      [PreciceCall.writeBlockVectorData data_id size (value_indices.take size)
        (read_array (data_dim * size) values)] }

/-- The call `precice->writeBlockScalarData(data_id, size, value_indices, values)`: `size`
ids and `size` values are read. -/
def SolverInterface.writeBlockScalarData {R : Type} (precice : SolverInterface R)
    (data_id : Int) (size : Nat) (value_indices : List Int) (values : Nat → R) :
    SolverInterface R :=
  { precice with
    calls := precice.calls ++
      [PreciceCall.writeBlockScalarData data_id size (value_indices.take size)
        (read_array size values)] }

/-- The face integrator `phi` of the surfaces: the indices it was built with, the face of
`reinit` and the vector read by `read_dof_values_plain`. -/
structure FEFaceIntegrator (R : Type) where
  dof_index : Nat
  quad_index : Nat
  face : Nat
  dof_values : Nat → R

/-- What the surfaces read from the `dealii::MatrixFree` object and from integrators built
on it: the face batches, the boundary id and the number of real entries of a batch, the
number of quadrature points, and component `d` of lane `v` of a quadrature point, of a value
and of a normal derivative at quadrature point `q`. -/
structure SurfaceMatrixFree (R : Type) where
  n_inner_face_batches : Nat
  n_boundary_face_batches : Nat
  get_boundary_id : (face : Nat) → Nat
  n_active_entries_per_face_batch : (face : Nat) → Nat
  n_q_points : (quad_index face : Nat) → Nat
  quadrature_point : (quad_index face q d v : Nat) → R
  get_value : FEFaceIntegrator R → (q d v : Nat) → R
  get_normal_derivative : FEFaceIntegrator R → (q d v : Nat) → R

/-- The members of the base class `CouplingSurface` that the two surfaces use, as their use
in the two headers shows them; `printed` holds the calls of `print_info`. -/
structure CouplingSurface (R : Type) where
  matrix_free : SurfaceMatrixFree R
  precice : SolverInterface R
  mesh_id : Int
  dealii_boundary_surface_id : Nat
  read_data_map : List (String × Int)
  write_data_map : List (String × Int)
  printed : List (Bool × Nat)

/-- The call `print_info(reader, n)` of the base class. -/
def CouplingSurface.print_info {R : Type} (s : CouplingSurface R) (reader : Bool) (n : Nat) :
    CouplingSurface R :=
  { s with printed := s.printed ++ [(reader, n)] }

/-- The class `QuadSurface<dim, data_dim, VectorizedArrayType>`, with `lanes` for
`VectorizedArrayType::size()`: the base class and the members `coupling_nodes_ids` (a vector
of arrays of `lanes` ids), `mf_dof_index`, `mf_quad_index`. -/
structure QuadSurface (dim data_dim lanes : Nat) (R : Type) extends CouplingSurface R where
  coupling_nodes_ids : List (List Int)
  mf_dof_index : Nat
  mf_quad_index : Nat

/-- The class `ExaDGSurface`: the base class and the member `coupling_nodes_ids` (a vector of
ids). -/
structure ExaDGSurface (dim data_dim lanes : Nat) (R : Type) extends CouplingSurface R where
  coupling_nodes_ids : List Int

/-- What the loops of `QuadSurface::define_coupling_mesh` change: the solver interface, the
member `coupling_nodes_ids` and the local variables `unrolled_vertices`, `node_ids`, `size`. -/
structure DefineState (R : Type) where
  precice : SolverInterface R
  coupling_nodes_ids : List (List Int)
  unrolled_vertices : Nat → R
  node_ids : Nat → Int
  size : Nat

/-- What the loops of `QuadSurface::write_data_factory` change: the solver interface and the
local variables `unrolled_local_data` and `index`, the iterator into `coupling_nodes_ids` as
its distance from `begin()`. -/
structure WriteState (R : Type) where
  precice : SolverInterface R
  unrolled_local_data : Nat → R
  index : Nat

section Surfaces

variable {dim data_dim lanes : Nat} {R : Type}

/-- The body of the quadrature loop of `QuadSurface::define_coupling_mesh`. -/
def QuadSurface.define_coupling_mesh_q (s : QuadSurface dim data_dim lanes R)
    (face active_faces q : Nat) (st : DefineState R) : Except String (DefineState R) :=
  let local_vertex := s.matrix_free.quadrature_point s.mf_quad_index face q
  -- Transform dealii::Point<Vectorized> into preCICE conform format
  let unrolled_vertices := unroll dim lanes local_vertex st.unrolled_vertices
  let r := st.precice.setMeshVertices dim s.mesh_id active_faces unrolled_vertices st.node_ids
  .ok
    { precice := r.1
      coupling_nodes_ids := st.coupling_nodes_ids ++ [read_array lanes r.2]
      unrolled_vertices := unrolled_vertices
      node_ids := r.2
      size := st.size + 1 }

/-- The body of the face loop of `QuadSurface::define_coupling_mesh`. -/
def QuadSurface.define_coupling_mesh_face (s : QuadSurface dim data_dim lanes R)
    (face : Nat) (st : DefineState R) : Except String (DefineState R) :=
  let boundary_id := s.matrix_free.get_boundary_id face
  -- Only for interface nodes
  if boundary_id ≠ s.dealii_boundary_surface_id then .ok st
  else
    let active_faces := s.matrix_free.n_active_entries_per_face_batch face
    -- Loop over all quadrature points and pass the vertices to preCICE
    forRange 0 (s.matrix_free.n_q_points s.mf_quad_index face)
      (s.define_coupling_mesh_q face active_faces) st

/-- The call `coupling_nodes_ids.resize(size)`: new arrays are value-initialised. -/
def resize_ids (lanes : Nat) (ids : List (List Int)) (size : Nat) : List (List Int) :=
  ids.take size ++ List.replicate (size - ids.length) (List.replicate lanes 0)

/-- The function `QuadSurface::define_coupling_mesh`; `unrolled_vertices` and `node_ids` are
the contents of the two local arrays before anything is written to them. -/
def QuadSurface.define_coupling_mesh (debug : Bool) (s : QuadSurface dim data_dim lanes R)
    (unrolled_vertices : Nat → R) (node_ids : Nat → Int) :
    Except String (QuadSurface dim data_dim lanes R) := do
  Assert debug (decide (s.mesh_id ≠ -1)) "ExcNotInitialized"
  -- In order to avoid that we define the surface multiple times when reader
  -- and writer refer to the same object
  if s.coupling_nodes_ids.length > 0 then .ok s
  else
    -- Initial guess: half of the boundary is part of the coupling surface
    -- (`reserve` changes the capacity of the vector, not its content)
    let st : DefineState R :=
      { precice := s.precice, coupling_nodes_ids := s.coupling_nodes_ids,
        unrolled_vertices := unrolled_vertices, node_ids := node_ids, size := 0 }
    -- Loop over all boundary faces
    let st ← forRange s.matrix_free.n_inner_face_batches
      (s.matrix_free.n_boundary_face_batches + s.matrix_free.n_inner_face_batches)
      s.define_coupling_mesh_face st
    -- resize the IDs in case the initial guess was too large
    let coupling_nodes_ids := resize_ids lanes st.coupling_nodes_ids st.size
    -- Consistency check: the number of IDs we stored is equal or greater than
    -- the IDs preCICE knows
    Assert debug (decide (st.size * lanes ≥ st.precice.getMeshVertexSize s.mesh_id))
      "ExcInternalError"
    let base : CouplingSurface R := { s.toCouplingSurface with precice := st.precice }
    let base : CouplingSurface R :=
      if base.read_data_map.length > 0 then
        base.print_info true (base.precice.getMeshVertexSize base.mesh_id)
      else base
    let base : CouplingSurface R :=
      if base.write_data_map.length > 0 then
        base.print_info false (base.precice.getMeshVertexSize base.mesh_id)
      else base
    .ok { s with toCouplingSurface := base, coupling_nodes_ids := coupling_nodes_ids }

/-- The body of the quadrature loop of `QuadSurface::write_data_factory`, with the increment
`++index` of the loop header. In a release build the `Assert` is not checked and the
dereference of `end()` is undefined; it fails here in the same way. -/
def QuadSurface.write_data_factory_q (s : QuadSurface dim data_dim lanes R)
    (write_data_id : Int) (get_write_value : FEFaceIntegrator R → Nat → Nat → Nat → R)
    (phi : FEFaceIntegrator R) (active_faces q : Nat) (st : WriteState R) :
    Except String (WriteState R) :=
  match s.coupling_nodes_ids[st.index]? with
  | none => .error "ExcInternalError"
  | some node_ids =>
    let local_data := get_write_value phi q
    if data_dim > 1 then
      -- Transform Tensor<1,dim,VectorizedArrayType> into preCICE conform format
      let unrolled_local_data := unroll data_dim lanes local_data st.unrolled_local_data
      .ok
        { precice := st.precice.writeBlockVectorData data_dim write_data_id active_faces
            node_ids unrolled_local_data
          unrolled_local_data := unrolled_local_data
          index := st.index + 1 }
    else
      .ok
        { precice := st.precice.writeBlockScalarData write_data_id active_faces node_ids
            (local_data 0)
          unrolled_local_data := st.unrolled_local_data
          index := st.index + 1 }

/-- The body of the face loop of `QuadSurface::write_data_factory`. -/
def QuadSurface.write_data_factory_face (s : QuadSurface dim data_dim lanes R)
    (data_vector : Nat → R) (write_data_id : Int)
    (get_write_value : FEFaceIntegrator R → Nat → Nat → Nat → R) (face : Nat)
    (st : WriteState R) : Except String (WriteState R) :=
  let boundary_id := s.matrix_free.get_boundary_id face
  -- Only for interface nodes
  if boundary_id ≠ s.dealii_boundary_surface_id then .ok st
  else
    -- Read and interpolate
    let phi : FEFaceIntegrator R :=
      { dof_index := s.mf_dof_index, quad_index := s.mf_quad_index, face := face,
        dof_values := data_vector }
    let active_faces := s.matrix_free.n_active_entries_per_face_batch face
    forRange 0 (s.matrix_free.n_q_points s.mf_quad_index face)
      (s.write_data_factory_q write_data_id get_write_value phi active_faces) st

/-- The function `QuadSurface::write_data_factory` up to the end of its face loop: the state
of the loops, the final position of the iterator `index` included. The argument `flags` of
the source selects what `evaluate` computes, which is what `get_write_value` reads;
`unrolled_local_data` is the content of the local array before anything is written to it. -/
def QuadSurface.write_data_factory_loop (debug : Bool) (s : QuadSurface dim data_dim lanes R)
    (data_vector : Nat → R) (write_data_id : Int)
    (get_write_value : FEFaceIntegrator R → Nat → Nat → Nat → R)
    (unrolled_local_data : Nat → R) : Except String (WriteState R) := do
  Assert debug (decide (write_data_id ≠ -1)) "ExcNotInitialized"
  Assert debug (decide (s.coupling_nodes_ids.length > 0)) "ExcNotInitialized"
  let st : WriteState R :=
    { precice := s.precice, unrolled_local_data := unrolled_local_data, index := 0 }
  -- Loop over all faces
  forRange s.matrix_free.n_inner_face_batches
    (s.matrix_free.n_boundary_face_batches + s.matrix_free.n_inner_face_batches)
    (s.write_data_factory_face data_vector write_data_id get_write_value) st

/-- The function `QuadSurface::write_data_factory`. -/
def QuadSurface.write_data_factory (debug : Bool) (s : QuadSurface dim data_dim lanes R)
    (data_vector : Nat → R) (write_data_id : Int)
    (get_write_value : FEFaceIntegrator R → Nat → Nat → Nat → R)
    (unrolled_local_data : Nat → R) : Except String (QuadSurface dim data_dim lanes R) := do
  let st ← s.write_data_factory_loop debug data_vector write_data_id get_write_value
    unrolled_local_data
  .ok { s with precice := st.precice }

/-- The function `ExaDGSurface::define_coupling_mesh(vec)`; a point is the list of its
coordinates. -/
def ExaDGSurface.define_coupling_mesh (debug : Bool) (s : ExaDGSurface dim data_dim lanes R)
    (vec : List (List R)) [Inhabited R] : Except String (ExaDGSurface dim data_dim lanes R) := do
  Assert debug (decide (s.mesh_id ≠ -1)) "ExcNotInitialized"
  -- In order to avoid that we define the surface multiple times when reader
  -- and writer refer to the same object
  if s.coupling_nodes_ids.length > 0 then .ok s
  else
    let coupling_nodes_ids :=
      s.coupling_nodes_ids.take vec.length ++
        List.replicate (vec.length - s.coupling_nodes_ids.length) 0
    let r := s.precice.setMeshVertices dim s.mesh_id vec.length
      (fun i => vec.flatten.getD i default) (fun i => coupling_nodes_ids.getD i 0)
    let coupling_nodes_ids := read_array vec.length r.2
    let base : CouplingSurface R := { s.toCouplingSurface with precice := r.1 }
    let base : CouplingSurface R :=
      if base.read_data_map.length > 0 then
        base.print_info true (base.precice.getMeshVertexSize base.mesh_id)
      else base
    let base : CouplingSurface R :=
      if base.write_data_map.length > 0 then
        base.print_info false (base.precice.getMeshVertexSize base.mesh_id)
      else base
    .ok { s with toCouplingSurface := base, coupling_nodes_ids := coupling_nodes_ids }

end Surfaces

/-- The quadrature points `(face, q)` of the interface faces among the `count` faces from
`first` on, in the order in which the loops of `QuadSurface` visit them. -/
def QuadSurface.interface_points_from {dim data_dim lanes : Nat} {R : Type}
    (s : QuadSurface dim data_dim lanes R) (first count : Nat) : List (Nat × Nat) :=
  (List.range' first count).flatMap fun face =>
    if s.matrix_free.get_boundary_id face = s.dealii_boundary_surface_id then
      (List.range (s.matrix_free.n_q_points s.mf_quad_index face)).map fun q => (face, q)
    else []

/-- The quadrature points of the interface faces among the boundary faces. -/
def QuadSurface.interface_points {dim data_dim lanes : Nat} {R : Type}
    (s : QuadSurface dim data_dim lanes R) : List (Nat × Nat) :=
  s.interface_points_from s.matrix_free.n_inner_face_batches
    s.matrix_free.n_boundary_face_batches

/-- The sum of `n_q_points` over the boundary faces whose boundary id is the surface id. -/
def QuadSurface.n_interface_q_points {dim data_dim lanes : Nat} {R : Type}
    (s : QuadSurface dim data_dim lanes R) : Nat :=
  ((List.range' s.matrix_free.n_inner_face_batches
      s.matrix_free.n_boundary_face_batches).map fun face =>
    if s.matrix_free.get_boundary_id face = s.dealii_boundary_surface_id then
      s.matrix_free.n_q_points s.mf_quad_index face
    else 0).sum

/-! ## A concrete configuration

Two dimensions over the integers: face `f` carries boundary id `f`, every face has two
quadrature points. Velocity kinds by id: 0 Dirichlet, 1 cached Dirichlet, 2 Neumann,
3 symmetry; pressure kinds by id: 0 Neumann, 1 Dirichlet. -/

/-- A two-dimensional `MatrixFree` over the integers. -/
def sample_mf : MatrixFree 2 ℤ where
  get_boundary_id := fun face => face
  n_q_points := fun _ _ => 2
  quadrature_point := fun _ face q => ![(face : ℤ), (q : ℤ)]
  normal_vector := fun _ _ _ => ![1, 0]
  evaluate_value := fun _ _ _ src q => ![src q, src (q + 1)]
  evaluate_gradient := fun _ _ _ src q => ![![src q, 1], ![2, src (q + 1)]]
  evaluate_divergence := fun _ _ _ src q => src q + src (q + 1)
  integrate := fun _ _ _ values => values
  distribute_local_to_global := fun _ face values dst => fun i => dst i + values (i - 2 * face)
  interior_face_no := fun _ => 0
  face_to_cell_index_nodal := fun _ _ _ q => q
  dofs_per_component := fun _ => 3
  dof_indices := fun _ face i c => 6 * face + 2 * i + c.val

/-- An operator on `sample_mf` with body force `f(x, t) = (x_0 + t, x_1 + 3)`. -/
def sample_op : OperatorDualSplitting 2 ℤ ℤ where
  dof_index_velocity := 0
  dof_index_pressure := 1
  quad_index_velocity_standard := 0
  quad_index_velocity_overintegration := 2
  quad_index_velocity_nodal_points := 3
  quad_index_pressure := 1
  evaluation_time := 0
  boundary_descriptor :=
    { velocity :=
        { get_boundary_type := fun b =>
            if b = 0 then BoundaryTypeU.Dirichlet
            else if b = 1 then BoundaryTypeU.DirichletCached
            else if b = 2 then BoundaryTypeU.Neumann
            else if b = 3 then BoundaryTypeU.Symmetry
            else BoundaryTypeU.Undefined
          dirichlet_bc := fun b x t => ![x 0 + t, x 1 + (b : ℤ)]
          dirichlet_cached_data := fun face q quad_index => ![(face : ℤ) + q, (quad_index : ℤ)] }
      pressure :=
        { get_boundary_type := fun b =>
            if b = 0 then BoundaryTypeP.Neumann
            else if b = 1 then BoundaryTypeP.Dirichlet
            else BoundaryTypeP.Undefined } }
  field_functions := { right_hand_side := fun x t => ![x 0 + t, x 1 + 3] }
  param :=
    { ale_formulation := true
      formulation_convective_term_bc := FormulationConvectiveTerm.DivergenceFormulation }
  grid_velocity := fun i => (i : ℤ)
  viscosity_boundary_face := fun face q => (face : ℤ) + q + 1
  CurlCompute := fun g => ![g 0 1, -g 0 0]

/-- The integrators of the convective routines as the routines build them for `sample_op`. -/
def sample_its : ConvectiveIntegrators 2 ℤ where
  velocity := FaceIntegratorU.create 0 2
  pressure := FaceIntegratorP.create 1 2
  grid_velocity := FaceIntegratorU.create 0 2

/-- A dof vector with entries `0, 1, 2, ...`. -/
def sample_src : VectorType ℤ := fun i => (i : ℤ)

/-- The integrators of the numerical-time-derivative routine as the routine builds them for
`sample_op`. -/
def sample_its_time_derivative : TimeDerivativeIntegrators 2 ℤ where
  integrator_velocity := FaceIntegratorU.create 0 0
  integrator_pressure := FaceIntegratorP.create 1 0

/-- The operator `sample_op` with a grid velocity that is zero. -/
def sample_op_zero_grid : OperatorDualSplitting 2 ℤ ℤ :=
  { sample_op with grid_velocity := fun _ => 0 }

/-- The integrators of the viscous routine as the routine builds them for `sample_op`. -/
def sample_its_viscous : ViscousIntegrators 2 ℤ where
  omega := FaceIntegratorU.create 0 0
  pressure := FaceIntegratorP.create 1 0

/-- The operator `sample_op` with an unrecognised formulation selector. -/
def sample_op_undefined_formulation : OperatorDualSplitting 2 ℤ ℤ :=
  { sample_op with
    param :=
      { ale_formulation := true
        formulation_convective_term_bc := FormulationConvectiveTerm.Undefined } }

/-- A multigrid environment over the integers: vectors are single numbers, the transfer to
the next coarser level doubles the fine value and adds the level. -/
def sample_env : MultigridEnvironment ℤ ℤ ℤ where
  convert := fun v => v
  interpolate := fun level _ src => 2 * src + level
  new_operator :=
    { data :=
        { unsteady_problem := false, convective_problem := false, viscous_problem := false,
          use_cell_based_loops := false, dof_index := 0, quad_index := 0, other := 0 }
      time := 0
      scaling_factor_mass_matrix := 0
      velocity := 0 }
  update_after_mesh_movement := fun op => op
  get_dof_index := fun level => level
  get_quad_index := fun level => level + 10

/-- A top-level momentum operator: unsteady and convective, at time 3 with scaling factor 2
and linearization velocity 5. -/
def sample_pde_operator : MomentumOperator ℤ ℤ where
  data :=
    { unsteady_problem := true, convective_problem := true, viscous_problem := true,
      use_cell_based_loops := false, dof_index := 0, quad_index := 0, other := 7 }
  time := 3
  scaling_factor_mass_matrix := 2
  velocity := 5

/-- A top-level momentum operator without convective term. -/
def sample_pde_operator_diffusive : MomentumOperator ℤ ℤ :=
  { sample_pde_operator with
    data := { sample_pde_operator.data with convective_problem := false } }

/-- A preconditioner as constructed: `ReactionDiffusion`, mesh not moving, nothing logged. -/
def sample_mg : MultigridPreconditioner ℤ ℤ where
  data := sample_env.new_operator.data
  mg_operator_type := MultigridOperatorType.ReactionDiffusion
  mesh_is_moving := false
  coarse_level := 0
  fine_level := 0
  operators := fun _ => sample_env.new_operator
  log := []

/-- A preconditioner with the levels 0 to 2 on an unsteady problem, of type
`ReactionDiffusion`, whose mesh is moving. -/
def sample_mg_reaction_diffusion : MultigridPreconditioner ℤ ℤ :=
  { sample_mg with
    data := { sample_pde_operator.data with convective_problem := false }
    mesh_is_moving := true
    fine_level := 2 }

/-- A preconditioner with the levels 0 to 2 on an unsteady problem, of type
`ReactionConvectionDiffusion`. -/
def sample_mg_reaction_convection_diffusion : MultigridPreconditioner ℤ ℤ :=
  { sample_mg with
    data := sample_pde_operator.data
    mg_operator_type := MultigridOperatorType.ReactionConvectionDiffusion
    fine_level := 2 }

/-- The operator `sample_op` with the quadrature index 4 for the pressure, which differs from
its pressure dof index 1. -/
def sample_op_quad_index_pressure : OperatorDualSplitting 2 ℤ ℤ :=
  { sample_op with quad_index_pressure := 4 }

/-- The operator with the parameter `formulation_convective_term_bc` set to `formulation`,
all else unchanged. -/
def OperatorDualSplitting.set_formulation_convective_term_bc {dim : Nat} {R T : Type}
    (op : OperatorDualSplitting dim R T) (formulation : FormulationConvectiveTerm) :
    OperatorDualSplitting dim R T :=
  { op with param := { op.param with formulation_convective_term_bc := formulation } }

/-- A dof vector with entries `1, -1, 1, -1, ...`: on `sample_mf` the velocity it gives is
`(1, -1)` or `(-1, 1)` and its divergence is zero at every quadrature point. -/
def sample_src_divergence_free : VectorType ℤ := fun i => if i % 2 = 0 then 1 else -1

/-- An error calculator over the rationals after construction and `setup`: an analytical
solution is available, errors are due from time 0 on at intervals of 1/2. -/
def sample_error_calculator : ErrorCalculator ℚ ℤ :=
  (ErrorCalculator.construct
    { analytical_solution_available := false, error_calc_start_time := 0,
      error_calc_interval_time := 0 } : ErrorCalculator ℚ ℤ).setup
    { analytical_solution_available := true, error_calc_start_time := 0,
      error_calc_interval_time := 1 / 2 }

/-- A matrix-free object for the surfaces over the integers, with two lanes: one batch of
inner faces (face 0) and three batches of boundary faces (faces 1, 2, 3) with the boundary ids
7, 9, 7; batch 3 has one real entry and one padding lane; every face has two quadrature
points. -/
def sample_surface_mf : SurfaceMatrixFree ℤ where
  n_inner_face_batches := 1
  n_boundary_face_batches := 3
  get_boundary_id := fun face => if face = 2 then 9 else 7
  n_active_entries_per_face_batch := fun face => if face = 3 then 1 else 2
  n_q_points := fun _ _ => 2
  quadrature_point := fun _ face q d v => 1000 * face + 100 * q + 10 * d + v
  get_value := fun phi q d v => phi.dof_values (phi.face + q) + 10 * d + v
  get_normal_derivative := fun phi q d v => -(phi.dof_values (phi.face + q) + 10 * d + v)

/-- A solver interface without calls and vertices that numbers its vertices from 50 on. -/
def sample_precice : SolverInterface ℤ where
  calls := []
  getMeshVertexSize := fun _ => 0
  vertex_id := fun _ k => 50 + k

/-- A quadrature-point surface in two dimensions with two lanes on `sample_surface_mf`, for
the boundary id 7, before its coupling mesh is defined. -/
def sample_quad_surface : QuadSurface 2 2 2 ℤ where
  matrix_free := sample_surface_mf
  precice := sample_precice
  mesh_id := 0
  dealii_boundary_surface_id := 7
  read_data_map := []
  write_data_map := [("Displacement", 3)]
  printed := []
  coupling_nodes_ids := []
  mf_dof_index := 0
  mf_quad_index := 0

/-- The state of the loops of `define_coupling_mesh` on `sample_quad_surface` at their
start, with zero for the content of the two local arrays. -/
def sample_define_state : DefineState ℤ where
  precice := sample_precice
  coupling_nodes_ids := []
  unrolled_vertices := fun _ => 0
  node_ids := fun _ => 0
  size := 0

/-- A shallow-wrapper surface on `sample_surface_mf` before its coupling mesh is defined. -/
def sample_exadg_surface : ExaDGSurface 2 2 2 ℤ where
  matrix_free := sample_surface_mf
  precice := sample_precice
  mesh_id := 0
  dealii_boundary_surface_id := 7
  read_data_map := [("Stress", 4)]
  write_data_map := []
  printed := []
  coupling_nodes_ids := []

/-- The arguments of `n` calls of `evaluate` on the sample calculator with the time step
number -1. -/
def sample_steady_calls (n : Nat) : List (ℤ × ℤ × ℚ × ℤ) :=
  List.replicate n (7, 8, 0, -1)

/-- The `MatrixFree` of the sample configuration with an `integrate` that sums the values
submitted at the two quadrature points of the face and a `distribute_local_to_global` that
adds this sum into the destination vector: what a pass adds to an entry is the sum over its
faces and their quadrature points of the submitted values. -/
def sample_mf_sum : MatrixFree 2 ℤ :=
  { sample_mf with
    integrate := fun _ _ _ values _ => values 0 + values 1
    distribute_local_to_global := fun _ _ values dst i => dst i + values i }

/-! ## Theorems -/

section LoopLemmas

/-- Two loops whose bodies agree on the indices visited give the same result. -/
theorem forLoop_congr {σ : Type} (b1 b2 : Nat → σ → Except String σ) (n : Nat) :
    ∀ (first : Nat) (s : σ),
      (∀ i s, first ≤ i → i < first + n → b1 i s = b2 i s) →
      forLoop b1 n first s = forLoop b2 n first s := by
  induction n with
  | zero => intro first s _; rfl
  | succ n ih =>
    intro first s h
    have h0 : b1 first s = b2 first s := h first s (Nat.le_refl _) (by omega)
    simp only [forLoop, h0]
    cases b2 first s with
    | error e => rfl
    | ok s' => exact ih (first + 1) s' (fun i t hi hlt => h i t (by omega) (by omega))

/-- A loop with at least one pass whose first pass throws, throws. -/
theorem forLoop_error {σ : Type} (body : Nat → σ → Except String σ) (n first : Nat) (s : σ)
    (e : String) (hn : 0 < n) (h : body first s = .error e) :
    forLoop body n first s = .error e := by
  cases n with
  | zero => omega
  | succ n => simp only [forLoop, h]

/-- A quadrature loop whose every pass submits `v q` at `q`, for integrators on quadrature
index `qi` and face `f`: the loop does not throw, the slots of the range hold `v`, the other
slots and the indices are untouched. -/
theorem forLoop_submit_value {R : Type} (body : Nat → FaceIntegratorP R →
    Except String (FaceIntegratorP R)) (v : Nat → R) (qi f : Nat) (n : Nat) :
    ∀ (first : Nat) (it : FaceIntegratorP R), it.quad_index = qi → it.face = f →
      (∀ q (it : FaceIntegratorP R), first ≤ q → q < first + n → it.quad_index = qi →
        it.face = f → body q it = .ok (it.submit_value (v q) q)) →
      forLoop body n first it =
        .ok { it with values_quad := fun q =>
                if first ≤ q ∧ q < first + n then v q else it.values_quad q } := by
  induction n with
  | zero =>
    intro first it _ _ _
    cases it with
    | mk d qi f vq =>
      simp only [forLoop, Nat.add_zero]
      congr 2
      funext q
      have hq : ¬ (first ≤ q ∧ q < first) := by omega
      simp [hq]
  | succ n ih =>
    intro first it hqi hf h
    have h0 := h first it (Nat.le_refl _) (by omega) hqi hf
    simp only [forLoop, h0]
    rw [ih (first + 1) (it.submit_value (v first) first) hqi hf
      (fun q t hq hlt => h q t (by omega) (by omega))]
    congr 1
    simp only [FaceIntegratorP.submit_value]
    congr 1
    funext q
    by_cases hq : q = first
    · subst hq
      simp
    · by_cases h1 : first + 1 ≤ q ∧ q < first + 1 + n
      · have h2 : first ≤ q ∧ q < first + (n + 1) := ⟨by omega, by omega⟩
        simp [h1, h2]
      · have h2 : ¬ (first ≤ q ∧ q < first + (n + 1)) := by
          intro h3
          exact h1 ⟨by omega, by omega⟩
        simp [h1, h2, Function.update_noteq hq]

/-- A mapped result that is a value comes from a value. -/
theorem except_map_ok {α β : Type} (f : α → β) (x : Except String α) (y : β)
    (h : Except.map f x = .ok y) : ∃ r, x = .ok r ∧ f r = y := by
  cases x with
  | error e => simp [Except.map] at h
  | ok r =>
    refine ⟨r, rfl, ?_⟩
    simpa [Except.map] using h

/-- A nodal-point loop whose every pass overwrites the local dof `idx q` with `g q`, for
integrators on quadrature index `qi` and face `f`: the loop does not throw and keeps the
indices; a local dof that no later pass hits again holds the value of its pass, and a local
dof hit by no pass keeps its value. -/
theorem forLoop_submit_dof_value {dim : Nat} {R : Type}
    (body : Nat → FaceIntegratorU dim R → Except String (FaceIntegratorU dim R))
    (g : Nat → Tensor1 dim R) (idx : Nat → Nat) (qi f : Nat) (n : Nat) :
    ∀ (first : Nat) (it : FaceIntegratorU dim R), it.quad_index = qi → it.face = f →
      (∀ q (it : FaceIntegratorU dim R), first ≤ q → q < first + n → it.quad_index = qi →
        it.face = f → body q it = .ok (it.submit_dof_value (g q) (idx q))) →
      ∃ it' : FaceIntegratorU dim R,
        forLoop body n first it = .ok it' ∧
          it'.dof_index = it.dof_index ∧ it'.quad_index = it.quad_index ∧ it'.face = it.face ∧
          (∀ q, first ≤ q → q < first + n →
            (∀ q', q < q' → q' < first + n → idx q' ≠ idx q) →
            it'.values_dofs (idx q) = g q) ∧
          (∀ i, (∀ q, first ≤ q → q < first + n → idx q ≠ i) →
            it'.values_dofs i = it.values_dofs i) := by
  induction n with
  | zero =>
    intro first it _ _ _
    refine ⟨it, rfl, rfl, rfl, rfl, ?_, ?_⟩
    · intro q h1 h2
      omega
    · intro i _
      rfl
  | succ n ih =>
    intro first it hqi hf h
    have h0 := h first it (Nat.le_refl _) (by omega) hqi hf
    obtain ⟨it', hrun, hd, hq, hface, hhit, hmiss⟩ :=
      ih (first + 1) (it.submit_dof_value (g first) (idx first)) hqi hf
        (fun q t hq hlt => h q t (by omega) (by omega))
    refine ⟨it', ?_, hd, hq, hface, ?_, ?_⟩
    · simp only [forLoop, h0]
      exact hrun
    · intro q h1 h2 hlater
      by_cases hq0 : q = first
      · subst hq0
        rw [hmiss (idx q) (fun q' hq1 hq2 => hlater q' (by omega) (by omega))]
        simp [FaceIntegratorU.submit_dof_value]
      · exact hhit q (by omega) (by omega)
          (fun q' hq1 hq2 => hlater q' hq1 (by omega))
    · intro i hi
      rw [hmiss i (fun q hq1 hq2 => hi q (by omega) (by omega))]
      have hne : i ≠ idx first := fun e => hi first (Nat.le_refl _) (by omega) e.symm
      simp [FaceIntegratorU.submit_dof_value, Function.update_noteq hne]

/-- A sequence of overwrites leaves the value `v` at entry `k` if `v` was there before and
every overwrite of `k` writes `v`. -/
theorem foldl_update_keep {α R : Type} (key : α → Nat) (val : α → R) (k : Nat) (v : R)
    (l : List α) :
    ∀ (dst : Nat → R), dst k = v → (∀ b ∈ l, key b = k → val b = v) →
      (l.foldl (fun d p => Function.update d (key p) (val p)) dst) k = v := by
  induction l with
  | nil =>
    intro dst h _
    exact h
  | cons b l ih =>
    intro dst h hall
    simp only [List.foldl_cons]
    apply ih
    · by_cases hk : key b = k
      · rw [← hk, Function.update_same, hall b (List.mem_cons_self _ _) hk]
      · rw [Function.update_noteq (fun e => hk e.symm)]
        exact h
    · intro c hc
      exact hall c (List.mem_cons_of_mem _ hc)

/-- After a sequence of overwrites the entry of a pair of the list holds the value of that
pair, provided every overwrite of the same entry writes the same value. -/
theorem foldl_update_mem {α R : Type} (key : α → Nat) (val : α → R) (a : α) (l : List α) :
    ∀ (dst : Nat → R), a ∈ l → (∀ b ∈ l, key b = key a → val b = val a) →
      (l.foldl (fun d p => Function.update d (key p) (val p)) dst) (key a) = val a := by
  induction l with
  | nil =>
    intro dst h _
    simp at h
  | cons b l ih =>
    intro dst hmem hall
    simp only [List.foldl_cons]
    by_cases hin : a ∈ l
    · exact ih _ hin (fun c hc => hall c (List.mem_cons_of_mem _ hc))
    · have hab : a = b := by
        rcases List.mem_cons.mp hmem with h | h
        · exact h
        · exact absurd h hin
      subst hab
      apply foldl_update_keep
      · exact Function.update_same _ _ _
      · intro c hc
        exact hall c (List.mem_cons_of_mem _ hc)

/-- The pairs of `local_dof_pairs dim n` are those with local dof below `n`. -/
theorem mem_local_dof_pairs (dim n i : Nat) (c : Fin dim) :
    (i, c) ∈ local_dof_pairs dim n ↔ i < n := by
  simp [local_dof_pairs, List.mem_flatMap, List.mem_range, List.mem_map, List.mem_finRange]

end LoopLemmas

section TensorLemmas

variable {dim : Nat} {R : Type} [CommRing R]

/-- The scalar product is symmetric. -/
theorem dot_comm (a b : Tensor1 dim R) : dot a b = dot b a := by
  unfold dot
  exact Finset.sum_congr rfl (fun i _ => mul_comm _ _)

/-- The sign of the left factor of a scalar product can be taken out. -/
theorem dot_neg_left (a b : Tensor1 dim R) : dot (-a) b = -(dot a b) := by
  unfold dot
  simp [Finset.sum_neg_distrib]

/-- A rank-2 tensor applied to the zero vector is the zero vector. -/
theorem contract_zero (A : Tensor2 dim R) : contract A (0 : Tensor1 dim R) = 0 := by
  funext i
  simp [contract]

end TensorLemmas

section DivTermBodyForces

variable {dim : Nat} {R T : Type} [CommRing R]

/-- On a face whose velocity kind is Dirichlet or DirichletCached, the quadrature loop of
`local_rhs_ppe_div_term_body_forces_boundary_face`, run at the evaluation time `t`, does not
throw and leaves in the pressure integrator, at every quadrature point `q` of the face, the
value `-(f_rhs(x_q, t) . n_q)`. -/
theorem div_term_body_forces_face_dirichlet (op : OperatorDualSplitting dim R T)
    (mf : MatrixFree dim R) (t : T) (face : Nat) (integrator : FaceIntegratorP R)
    (hkind :
      op.boundary_descriptor.velocity.get_boundary_type (mf.get_boundary_id face)
          = BoundaryTypeU.Dirichlet ∨
        op.boundary_descriptor.velocity.get_boundary_type (mf.get_boundary_id face)
          = BoundaryTypeU.DirichletCached) :
    ∃ it : FaceIntegratorP R,
      local_rhs_ppe_div_term_body_forces_face (op.set_evaluation_time t) mf face integrator
          = .ok it ∧
        ∀ q, q < mf.n_q_points integrator.quad_index face →
          it.values_quad q =
            -(dot (op.field_functions.right_hand_side
                    (mf.quadrature_point integrator.quad_index face q) t)
                  (mf.normal_vector integrator.quad_index face q)) := by
  have hloop := forLoop_submit_value
    (local_rhs_ppe_div_term_body_forces_q (op.set_evaluation_time t) mf
      ((op.set_evaluation_time t).boundary_descriptor.velocity.get_boundary_type
        (mf.get_boundary_id face)))
    (fun q => -(dot (op.field_functions.right_hand_side
                  (mf.quadrature_point integrator.quad_index face q) t)
                (mf.normal_vector integrator.quad_index face q)))
    integrator.quad_index face (mf.n_q_points integrator.quad_index face - 0) 0
    (integrator.reinit face) rfl rfl
    (by
      intro q it _ _ hqi hf
      simp only [local_rhs_ppe_div_term_body_forces_q,
        OperatorDualSplitting.set_evaluation_time, hkind, if_true,
        FaceIntegratorP.quadrature_point, FaceIntegratorP.get_normal_vector, hqi, hf])
  refine ⟨_, hloop, ?_⟩
  intro q hq
  have hq2 : 0 ≤ q ∧ q < 0 + (mf.n_q_points integrator.quad_index face - 0) := by
    constructor <;> omega
  simp only [hq2, and_self, if_true]

/-- On a Neumann or symmetry face the quadrature loop of the body-force divergence routine
returns the integrator with zero in every slot of the face. -/
theorem div_term_body_forces_neumann_loop (op : OperatorDualSplitting dim R T)
    (mf : MatrixFree dim R) (face : Nat) (integrator : FaceIntegratorP R)
    (hkind :
      op.boundary_descriptor.velocity.get_boundary_type (mf.get_boundary_id face)
          = BoundaryTypeU.Neumann ∨
        op.boundary_descriptor.velocity.get_boundary_type (mf.get_boundary_id face)
          = BoundaryTypeU.Symmetry) :
    local_rhs_ppe_div_term_body_forces_face op mf face integrator =
      .ok { integrator.reinit face with values_quad := fun q =>
              if 0 ≤ q ∧ q < 0 + (mf.n_q_points integrator.quad_index face - 0) then 0
              else integrator.values_quad q } :=
  forLoop_submit_value
    (local_rhs_ppe_div_term_body_forces_q op mf
      (op.boundary_descriptor.velocity.get_boundary_type (mf.get_boundary_id face)))
    (fun _ => 0) integrator.quad_index face (mf.n_q_points integrator.quad_index face - 0) 0
    (integrator.reinit face) rfl rfl
    (by
      intro q it _ _ _ _
      rcases hkind with h | h <;> simp [local_rhs_ppe_div_term_body_forces_q, h])

/-- C2: on a face whose velocity kind is Neumann or Symmetry, the quadrature loop of
`local_rhs_ppe_div_term_body_forces_boundary_face` does not throw and submits exactly zero at
every quadrature point, and the resulting integrator is the same for every body-force
function and every evaluation time: the body force is not used. -/
theorem div_term_body_forces_neumann_zero (op : OperatorDualSplitting dim R T)
    (mf : MatrixFree dim R) (face : Nat) (integrator : FaceIntegratorP R)
    (hkind :
      op.boundary_descriptor.velocity.get_boundary_type (mf.get_boundary_id face)
          = BoundaryTypeU.Neumann ∨
        op.boundary_descriptor.velocity.get_boundary_type (mf.get_boundary_id face)
          = BoundaryTypeU.Symmetry) :
    ∃ it : FaceIntegratorP R,
      local_rhs_ppe_div_term_body_forces_face op mf face integrator = .ok it ∧
        (∀ q, q < mf.n_q_points integrator.quad_index face → it.values_quad q = 0) ∧
        ∀ (f_rhs : Point dim R → T → Tensor1 dim R) (t : T),
          local_rhs_ppe_div_term_body_forces_face
              ({ op with field_functions := { right_hand_side := f_rhs } }.set_evaluation_time t)
              mf face integrator = .ok it := by
  refine ⟨_, div_term_body_forces_neumann_loop op mf face integrator hkind, ?_, ?_⟩
  · intro q hq
    have hq2 : 0 ≤ q ∧ q < 0 + (mf.n_q_points integrator.quad_index face - 0) := by
      constructor <;> omega
    simp only [hq2, and_self, if_true]
  · intro f_rhs t
    exact div_term_body_forces_neumann_loop
      ({ op with field_functions := { right_hand_side := f_rhs } }.set_evaluation_time t)
      mf face integrator hkind

/-- C2, at face 3 of the sample configuration (kind Symmetry), whose body force is not zero. -/
theorem div_term_body_forces_neumann_zero_witness :
    ∃ it : FaceIntegratorP ℤ,
      local_rhs_ppe_div_term_body_forces_face sample_op sample_mf 3
          (FaceIntegratorP.create 1 1) = .ok it ∧
        (∀ q, q < sample_mf.n_q_points (FaceIntegratorP.create 1 1 : FaceIntegratorP ℤ).quad_index 3 →
          it.values_quad q = 0) ∧
        ∀ (f_rhs : Point 2 ℤ → ℤ → Tensor1 2 ℤ) (t : ℤ),
          local_rhs_ppe_div_term_body_forces_face
              ({ sample_op with
                  field_functions := { right_hand_side := f_rhs } }.set_evaluation_time t)
              sample_mf 3 (FaceIntegratorP.create 1 1) = .ok it :=
  div_term_body_forces_neumann_zero sample_op sample_mf 3 (FaceIntegratorP.create 1 1)
    (Or.inr rfl)

end DivTermBodyForces

section DivTermConvective

variable {dim : Nat} {R T : Type} [CommRing R]

/-- The quadrature-loop body of the convective divergence routine on a Dirichlet-kind face with
a recognised formulation: it submits `flux . n` with the flux of the specification. -/
theorem div_term_convective_q_dirichlet (op : OperatorDualSplitting dim R T)
    (mf : MatrixFree dim R) (kind : BoundaryTypeU) (velocity grid_velocity : FaceIntegratorU dim R)
    (q : Nat) (pressure : FaceIntegratorP R)
    (hkind : kind = BoundaryTypeU.Dirichlet ∨ kind = BoundaryTypeU.DirichletCached)
    (hform :
      op.param.formulation_convective_term_bc = FormulationConvectiveTerm.DivergenceFormulation ∨
        op.param.formulation_convective_term_bc
          = FormulationConvectiveTerm.ConvectiveFormulation) :
    local_rhs_ppe_div_term_convective_term_q op mf kind velocity grid_velocity q pressure =
      .ok (pressure.submit_value
        (dot (flux_spec op.param.formulation_convective_term_bc op.param.ale_formulation
                (velocity.get_gradient q) (velocity.get_value q) (velocity.get_divergence q)
                (grid_velocity.get_value q))
             (pressure.get_normal_vector mf q)) q) := by
  unfold local_rhs_ppe_div_term_convective_term_q flux_spec
  rw [if_pos hkind]
  rcases hform with h | h <;> rw [h] <;> cases op.param.ale_formulation <;> rfl

/-- C3: on a face whose velocity kind is Dirichlet or DirichletCached, with the formulation
selector one of the two formulations, the quadrature loop of
`local_rhs_ppe_div_term_convective_term_boundary_face` does not throw and submits `flux . n`
at every quadrature point, where `flux` is `grad_u * u + (div u) * u` (divergence form) or
`grad_u * u` (convective form), minus `grad_u * w` exactly when `ale_formulation` is set;
`u`, `grad_u`, `div u` are evaluated from `src`, `w` from the grid velocity. -/
theorem div_term_convective_dirichlet (op : OperatorDualSplitting dim R T)
    (mf : MatrixFree dim R) (src : VectorType R) (face : Nat)
    (its : ConvectiveIntegrators dim R)
    (hkind :
      op.boundary_descriptor.velocity.get_boundary_type (mf.get_boundary_id face)
          = BoundaryTypeU.Dirichlet ∨
        op.boundary_descriptor.velocity.get_boundary_type (mf.get_boundary_id face)
          = BoundaryTypeU.DirichletCached)
    (hform :
      op.param.formulation_convective_term_bc = FormulationConvectiveTerm.DivergenceFormulation ∨
        op.param.formulation_convective_term_bc
          = FormulationConvectiveTerm.ConvectiveFormulation) :
    ∃ r : ConvectiveIntegrators dim R,
      local_rhs_ppe_div_term_convective_term_face op mf src face its = .ok r ∧
        ∀ q, q < mf.n_q_points its.pressure.quad_index face →
          r.pressure.values_quad q =
            dot (flux_spec op.param.formulation_convective_term_bc op.param.ale_formulation
                  (mf.evaluate_gradient its.velocity.dof_index its.velocity.quad_index face src q)
                  (mf.evaluate_value its.velocity.dof_index its.velocity.quad_index face src q)
                  (mf.evaluate_divergence its.velocity.dof_index its.velocity.quad_index face
                    src q)
                  (mf.evaluate_value its.grid_velocity.dof_index its.grid_velocity.quad_index
                    face op.grid_velocity q))
                (mf.normal_vector its.pressure.quad_index face q) := by
  have hloop := forLoop_submit_value
    (local_rhs_ppe_div_term_convective_term_q op mf
      (op.boundary_descriptor.velocity.get_boundary_type (mf.get_boundary_id face))
      ((its.velocity.reinit face).gather_evaluate mf src true true)
      (if op.param.ale_formulation then
        (its.grid_velocity.reinit face).gather_evaluate mf op.grid_velocity true false
       else its.grid_velocity))
    (fun q =>
      dot (flux_spec op.param.formulation_convective_term_bc op.param.ale_formulation
            (mf.evaluate_gradient its.velocity.dof_index its.velocity.quad_index face src q)
            (mf.evaluate_value its.velocity.dof_index its.velocity.quad_index face src q)
            (mf.evaluate_divergence its.velocity.dof_index its.velocity.quad_index face src q)
            (mf.evaluate_value its.grid_velocity.dof_index its.grid_velocity.quad_index
              face op.grid_velocity q))
          (mf.normal_vector its.pressure.quad_index face q))
    its.pressure.quad_index face (mf.n_q_points its.pressure.quad_index face - 0) 0
    (its.pressure.reinit face) rfl rfl
    (by
      intro q p _ _ hqi hf
      rw [div_term_convective_q_dirichlet op mf _ _ _ q p hkind hform]
      by_cases hale : op.param.ale_formulation = true
      · simp [FaceIntegratorP.get_normal_vector, hqi, hf, FaceIntegratorU.gather_evaluate,
          FaceIntegratorU.reinit, hale]
      · simp [FaceIntegratorP.get_normal_vector, hqi, hf, FaceIntegratorU.gather_evaluate,
          FaceIntegratorU.reinit, hale, flux_spec])
  unfold local_rhs_ppe_div_term_convective_term_face forRange
  simp only []
  erw [hloop]
  refine ⟨_, rfl, ?_⟩
  intro q hq
  have hq2 : 0 ≤ q ∧ q < 0 + (mf.n_q_points its.pressure.quad_index face - 0) := by
    constructor <;> omega
  simp only [hq2, and_self, if_true]

/-- C3, at face 0 of the sample configuration (kind Dirichlet, divergence form, ALE on): at
`q = 1` the data are `u = w = (1, 2)`, `grad_u = ((1, 1), (2, 2))`, `div u = 3`, `n = (1, 0)`,
so that `flux = (3, 6)` and the submitted value is 3. -/
theorem div_term_convective_dirichlet_witness :
    ∃ r : ConvectiveIntegrators 2 ℤ,
      local_rhs_ppe_div_term_convective_term_face sample_op sample_mf sample_src 0 sample_its
          = .ok r ∧ r.pressure.values_quad 1 = 3 := by
  obtain ⟨r, hr, hq⟩ :=
    div_term_convective_dirichlet sample_op sample_mf sample_src 0 sample_its
      (Or.inl rfl) (Or.inl rfl)
  refine ⟨r, hr, ?_⟩
  rw [hq 1 (by decide)]
  simp [dot, flux_spec, contract, scale, Fin.sum_univ_two, sample_op, sample_mf, sample_src,
    sample_its, FaceIntegratorU.create, FaceIntegratorP.create]

/-- C4: on a face whose velocity kind is Neumann or Symmetry, the quadrature loop of
`local_rhs_ppe_div_term_convective_term_boundary_face` does not throw and submits exactly
zero at every quadrature point, for every operator state (ALE flag, formulation selector,
grid velocity) and every source vector. -/
theorem div_term_convective_neumann_zero (op : OperatorDualSplitting dim R T)
    (mf : MatrixFree dim R) (src : VectorType R) (face : Nat)
    (its : ConvectiveIntegrators dim R)
    (hkind :
      op.boundary_descriptor.velocity.get_boundary_type (mf.get_boundary_id face)
          = BoundaryTypeU.Neumann ∨
        op.boundary_descriptor.velocity.get_boundary_type (mf.get_boundary_id face)
          = BoundaryTypeU.Symmetry) :
    ∃ r : ConvectiveIntegrators dim R,
      local_rhs_ppe_div_term_convective_term_face op mf src face its = .ok r ∧
        ∀ q, q < mf.n_q_points its.pressure.quad_index face →
          r.pressure.values_quad q = 0 := by
  have hloop := forLoop_submit_value
    (local_rhs_ppe_div_term_convective_term_q op mf
      (op.boundary_descriptor.velocity.get_boundary_type (mf.get_boundary_id face))
      ((its.velocity.reinit face).gather_evaluate mf src true true)
      (if op.param.ale_formulation then
        (its.grid_velocity.reinit face).gather_evaluate mf op.grid_velocity true false
       else its.grid_velocity))
    (fun _ => 0)
    its.pressure.quad_index face (mf.n_q_points its.pressure.quad_index face - 0) 0
    (its.pressure.reinit face) rfl rfl
    (by
      intro q p _ _ _ _
      rcases hkind with h | h <;> simp [local_rhs_ppe_div_term_convective_term_q, h])
  unfold local_rhs_ppe_div_term_convective_term_face forRange
  simp only []
  erw [hloop]
  refine ⟨_, rfl, ?_⟩
  intro q hq
  have hq2 : 0 ≤ q ∧ q < 0 + (mf.n_q_points its.pressure.quad_index face - 0) := by
    constructor <;> omega
  simp only [hq2, and_self, if_true]

/-- C4, at face 3 of the sample configuration (kind Symmetry) with an unrecognised
formulation selector and a source vector that is not zero. -/
theorem div_term_convective_neumann_zero_witness :
    ∃ r : ConvectiveIntegrators 2 ℤ,
      local_rhs_ppe_div_term_convective_term_face
          { sample_op with
            param :=
              { ale_formulation := true
                formulation_convective_term_bc := FormulationConvectiveTerm.Undefined } }
          sample_mf sample_src 3 sample_its = .ok r ∧
        ∀ q, q < sample_mf.n_q_points sample_its.pressure.quad_index 3 →
          r.pressure.values_quad q = 0 :=
  div_term_convective_neumann_zero _ sample_mf sample_src 3 sample_its (Or.inr rfl)

end DivTermConvective

section PressureNeumann

variable {dim : Nat} {R T : Type} [CommRing R]

/-- C6: the quadrature loop of `local_rhs_ppe_nbc_numerical_time_derivative_add_boundary_face`
does not throw on a face of pressure kind Neumann or Dirichlet; on a Neumann face it submits
`-(n . dudt)` at every quadrature point, `dudt` being the acceleration vector evaluated
there, and on a Dirichlet face it submits exactly zero, whatever the acceleration is. -/
theorem nbc_numerical_time_derivative_value (op : OperatorDualSplitting dim R T)
    (data : MatrixFree dim R) (acceleration : VectorType R) (face : Nat)
    (its : TimeDerivativeIntegrators dim R) :
    (op.boundary_descriptor.pressure.get_boundary_type (data.get_boundary_id face)
        = BoundaryTypeP.Neumann →
      ∃ r : TimeDerivativeIntegrators dim R,
        local_rhs_ppe_nbc_numerical_time_derivative_add_face op data acceleration face its
            = .ok r ∧
          ∀ q, q < data.n_q_points its.integrator_pressure.quad_index face →
            r.integrator_pressure.values_quad q =
              -(dot (data.normal_vector its.integrator_velocity.quad_index face q)
                    (data.evaluate_value its.integrator_velocity.dof_index
                      its.integrator_velocity.quad_index face acceleration q))) ∧
    (op.boundary_descriptor.pressure.get_boundary_type (data.get_boundary_id face)
        = BoundaryTypeP.Dirichlet →
      ∃ r : TimeDerivativeIntegrators dim R,
        local_rhs_ppe_nbc_numerical_time_derivative_add_face op data acceleration face its
            = .ok r ∧
          ∀ q, q < data.n_q_points its.integrator_pressure.quad_index face →
            r.integrator_pressure.values_quad q = 0) := by
  constructor
  · intro hkind
    have hloop := forLoop_submit_value
      (local_rhs_ppe_nbc_numerical_time_derivative_add_q data
        (op.boundary_descriptor.pressure.get_boundary_type (data.get_boundary_id face))
        ((its.integrator_velocity.reinit face).gather_evaluate data acceleration true false))
      (fun q =>
        -(dot (data.normal_vector its.integrator_velocity.quad_index face q)
              (data.evaluate_value its.integrator_velocity.dof_index
                its.integrator_velocity.quad_index face acceleration q)))
      its.integrator_pressure.quad_index face
      (data.n_q_points its.integrator_pressure.quad_index face - 0) 0
      (its.integrator_pressure.reinit face) rfl rfl
      (by
        intro q p _ _ _ _
        simp [local_rhs_ppe_nbc_numerical_time_derivative_add_q, hkind, dot_neg_left,
          FaceIntegratorU.get_normal_vector, FaceIntegratorU.gather_evaluate,
          FaceIntegratorU.reinit])
    unfold local_rhs_ppe_nbc_numerical_time_derivative_add_face forRange
    simp only []
    erw [hloop]
    refine ⟨_, rfl, ?_⟩
    intro q hq
    have hq2 : 0 ≤ q ∧ q < 0 + (data.n_q_points its.integrator_pressure.quad_index face - 0) := by
      constructor <;> omega
    simp only [hq2, and_self, if_true]
  · intro hkind
    have hloop := forLoop_submit_value
      (local_rhs_ppe_nbc_numerical_time_derivative_add_q data
        (op.boundary_descriptor.pressure.get_boundary_type (data.get_boundary_id face))
        ((its.integrator_velocity.reinit face).gather_evaluate data acceleration true false))
      (fun _ => 0)
      its.integrator_pressure.quad_index face
      (data.n_q_points its.integrator_pressure.quad_index face - 0) 0
      (its.integrator_pressure.reinit face) rfl rfl
      (by
        intro q p _ _ _ _
        simp [local_rhs_ppe_nbc_numerical_time_derivative_add_q, hkind])
    unfold local_rhs_ppe_nbc_numerical_time_derivative_add_face forRange
    simp only []
    erw [hloop]
    refine ⟨_, rfl, ?_⟩
    intro q hq
    have hq2 : 0 ≤ q ∧ q < 0 + (data.n_q_points its.integrator_pressure.quad_index face - 0) := by
      constructor <;> omega
    simp only [hq2, and_self, if_true]

/-- C6, on the sample configuration: on face 0 (pressure kind Neumann) the acceleration at
`q = 1` is `(1, 2)` and the normal `(1, 0)`, so the submitted value is -1; on face 1 (pressure
kind Dirichlet) the submitted value is 0. -/
theorem nbc_numerical_time_derivative_value_witness :
    (∃ r : TimeDerivativeIntegrators 2 ℤ,
      local_rhs_ppe_nbc_numerical_time_derivative_add_face sample_op sample_mf sample_src 0
          sample_its_time_derivative = .ok r ∧ r.integrator_pressure.values_quad 1 = -1) ∧
    (∃ r : TimeDerivativeIntegrators 2 ℤ,
      local_rhs_ppe_nbc_numerical_time_derivative_add_face sample_op sample_mf sample_src 1
          sample_its_time_derivative = .ok r ∧ r.integrator_pressure.values_quad 1 = 0) := by
  constructor
  · obtain ⟨r, hr, hq⟩ :=
      (nbc_numerical_time_derivative_value sample_op sample_mf sample_src 0
        sample_its_time_derivative).1 rfl
    refine ⟨r, hr, ?_⟩
    rw [hq 1 (by decide)]
    simp [dot, Fin.sum_univ_two, sample_mf, sample_src, sample_its_time_derivative,
      FaceIntegratorU.create]
  · obtain ⟨r, hr, hq⟩ :=
      (nbc_numerical_time_derivative_value sample_op sample_mf sample_src 1
        sample_its_time_derivative).2 rfl
    exact ⟨r, hr, hq 1 (by decide)⟩

/-- The quadrature loop of `local_rhs_ppe_nbc_body_force_term_add_boundary_face`, run at the
evaluation time `t`, does not throw on a face of pressure kind Neumann or Dirichlet; on a
Neumann face it submits `n . f_rhs(x_q, t)` at every quadrature point and on a Dirichlet face
exactly zero, whatever `f_rhs` is. -/
theorem nbc_body_force_face_value (op : OperatorDualSplitting dim R T)
    (data : MatrixFree dim R) (t : T) (face : Nat) (integrator : FaceIntegratorP R) :
    (op.boundary_descriptor.pressure.get_boundary_type (data.get_boundary_id face)
        = BoundaryTypeP.Neumann →
      ∃ it : FaceIntegratorP R,
        local_rhs_ppe_nbc_body_force_term_add_face (op.set_evaluation_time t) data face
            integrator = .ok it ∧
          ∀ q, q < data.n_q_points integrator.quad_index face →
            it.values_quad q =
              dot (data.normal_vector integrator.quad_index face q)
                  (op.field_functions.right_hand_side
                    (data.quadrature_point integrator.quad_index face q) t)) ∧
    (op.boundary_descriptor.pressure.get_boundary_type (data.get_boundary_id face)
        = BoundaryTypeP.Dirichlet →
      ∃ it : FaceIntegratorP R,
        local_rhs_ppe_nbc_body_force_term_add_face (op.set_evaluation_time t) data face
            integrator = .ok it ∧
          ∀ q, q < data.n_q_points integrator.quad_index face → it.values_quad q = 0) := by
  constructor
  · intro hkind
    have hloop := forLoop_submit_value
      (local_rhs_ppe_nbc_body_force_term_add_q (op.set_evaluation_time t) data
        ((op.set_evaluation_time t).boundary_descriptor.pressure.get_boundary_type
          (data.get_boundary_id face)))
      (fun q =>
        dot (data.normal_vector integrator.quad_index face q)
            (op.field_functions.right_hand_side
              (data.quadrature_point integrator.quad_index face q) t))
      integrator.quad_index face (data.n_q_points integrator.quad_index face - 0) 0
      (integrator.reinit face) rfl rfl
      (by
        intro q it _ _ hqi hf
        simp only [local_rhs_ppe_nbc_body_force_term_add_q,
          OperatorDualSplitting.set_evaluation_time, hkind, if_true,
          FaceIntegratorP.quadrature_point, FaceIntegratorP.get_normal_vector, hqi, hf])
    refine ⟨_, hloop, ?_⟩
    intro q hq
    have hq2 : 0 ≤ q ∧ q < 0 + (data.n_q_points integrator.quad_index face - 0) := by
      constructor <;> omega
    simp only [hq2, and_self, if_true]
  · intro hkind
    have hloop := forLoop_submit_value
      (local_rhs_ppe_nbc_body_force_term_add_q (op.set_evaluation_time t) data
        ((op.set_evaluation_time t).boundary_descriptor.pressure.get_boundary_type
          (data.get_boundary_id face)))
      (fun _ => 0)
      integrator.quad_index face (data.n_q_points integrator.quad_index face - 0) 0
      (integrator.reinit face) rfl rfl
      (by
        intro q it _ _ _ _
        simp [local_rhs_ppe_nbc_body_force_term_add_q,
          OperatorDualSplitting.set_evaluation_time, hkind])
    refine ⟨_, hloop, ?_⟩
    intro q hq
    have hq2 : 0 ≤ q ∧ q < 0 + (data.n_q_points integrator.quad_index face - 0) := by
      constructor <;> omega
    simp only [hq2, and_self, if_true]

/-- The pressure integrator that the face body of the convective divergence routine returns
is the result of its quadrature loop. -/
theorem div_term_convective_face_pressure (op : OperatorDualSplitting dim R T)
    (mf : MatrixFree dim R) (src : VectorType R) (face : Nat)
    (its : ConvectiveIntegrators dim R) :
    Except.map ConvectiveIntegrators.pressure
        (local_rhs_ppe_div_term_convective_term_face op mf src face its) =
      forLoop
        (local_rhs_ppe_div_term_convective_term_q op mf
          (op.boundary_descriptor.velocity.get_boundary_type (mf.get_boundary_id face))
          ((its.velocity.reinit face).gather_evaluate mf src true true)
          (if op.param.ale_formulation then
            (its.grid_velocity.reinit face).gather_evaluate mf op.grid_velocity true false
           else its.grid_velocity))
        (mf.n_q_points its.pressure.quad_index face - 0) 0 (its.pressure.reinit face) := by
  unfold local_rhs_ppe_div_term_convective_term_face forRange
  simp only [FaceIntegratorP.n_q_points, FaceIntegratorP.reinit]
  cases forLoop _ _ _ _ <;> rfl

/-- The pressure integrator that the face body of the convective pressure-Neumann routine
returns is the result of its quadrature loop. -/
theorem nbc_convective_face_pressure (op : OperatorDualSplitting dim R T)
    (mf : MatrixFree dim R) (src : VectorType R) (face : Nat)
    (its : ConvectiveIntegrators dim R) :
    Except.map ConvectiveIntegrators.pressure
        (local_rhs_ppe_nbc_convective_add_face op mf src face its) =
      forLoop
        (local_rhs_ppe_nbc_convective_add_q op mf
          (op.boundary_descriptor.pressure.get_boundary_type (mf.get_boundary_id face))
          ((its.velocity.reinit face).gather_evaluate mf src true true)
          (if op.param.ale_formulation then
            (its.grid_velocity.reinit face).gather_evaluate mf op.grid_velocity true false
           else its.grid_velocity))
        (mf.n_q_points its.pressure.quad_index face - 0) 0 (its.pressure.reinit face) := by
  unfold local_rhs_ppe_nbc_convective_add_face forRange
  simp only [FaceIntegratorP.n_q_points, FaceIntegratorP.reinit]
  cases forLoop _ _ _ _ <;> rfl

/-- The quadrature-loop body of the convective pressure-Neumann routine on a Neumann face with
a recognised formulation: it submits `-(n . flux)` with the flux of the specification. -/
theorem nbc_convective_q_neumann (op : OperatorDualSplitting dim R T)
    (mf : MatrixFree dim R) (kind : BoundaryTypeP) (velocity grid_velocity : FaceIntegratorU dim R)
    (q : Nat) (pressure : FaceIntegratorP R) (hkind : kind = BoundaryTypeP.Neumann)
    (hform :
      op.param.formulation_convective_term_bc = FormulationConvectiveTerm.DivergenceFormulation ∨
        op.param.formulation_convective_term_bc
          = FormulationConvectiveTerm.ConvectiveFormulation) :
    local_rhs_ppe_nbc_convective_add_q op mf kind velocity grid_velocity q pressure =
      .ok (pressure.submit_value
        (-(dot (pressure.get_normal_vector mf q)
            (flux_spec op.param.formulation_convective_term_bc op.param.ale_formulation
              (velocity.get_gradient q) (velocity.get_value q) (velocity.get_divergence q)
              (grid_velocity.get_value q)))) q) := by
  unfold local_rhs_ppe_nbc_convective_add_q flux_spec
  rw [if_pos hkind, ← dot_neg_left]
  rcases hform with h | h <;> rw [h] <;> cases op.param.ale_formulation <;> rfl

/-- With ALE switched off the flux of the specification does not depend on the grid
velocity, so the grid-velocity integrator may be taken as evaluated in both cases. -/
theorem flux_spec_grid_velocity (formulation : FormulationConvectiveTerm) (ale : Bool)
    (grad_u : Tensor2 dim R) (u : Tensor1 dim R) (div_u : R)
    (evaluated stale : FaceIntegratorU dim R) (q : Nat) :
    flux_spec formulation ale grad_u u div_u
        ((if ale then evaluated else stale).get_value q) =
      flux_spec formulation ale grad_u u div_u (evaluated.get_value q) := by
  cases ale
  · simp [flux_spec]
  · simp

/-- The pressure integrator after the quadrature loop of the convective divergence routine on
a Dirichlet-kind face with a recognised formulation. -/
theorem div_term_convective_face_dirichlet_pressure (op : OperatorDualSplitting dim R T)
    (mf : MatrixFree dim R) (src : VectorType R) (face : Nat)
    (its : ConvectiveIntegrators dim R)
    (hkind :
      op.boundary_descriptor.velocity.get_boundary_type (mf.get_boundary_id face)
          = BoundaryTypeU.Dirichlet ∨
        op.boundary_descriptor.velocity.get_boundary_type (mf.get_boundary_id face)
          = BoundaryTypeU.DirichletCached)
    (hform :
      op.param.formulation_convective_term_bc = FormulationConvectiveTerm.DivergenceFormulation ∨
        op.param.formulation_convective_term_bc
          = FormulationConvectiveTerm.ConvectiveFormulation) :
    Except.map ConvectiveIntegrators.pressure
        (local_rhs_ppe_div_term_convective_term_face op mf src face its) =
      .ok { its.pressure.reinit face with values_quad := fun q =>
              (if 0 ≤ q ∧ q < 0 + (mf.n_q_points its.pressure.quad_index face - 0) then
                dot (flux_spec op.param.formulation_convective_term_bc op.param.ale_formulation
                      (mf.evaluate_gradient its.velocity.dof_index its.velocity.quad_index face
                        src q)
                      (mf.evaluate_value its.velocity.dof_index its.velocity.quad_index face
                        src q)
                      (mf.evaluate_divergence its.velocity.dof_index its.velocity.quad_index face
                        src q)
                      (mf.evaluate_value its.grid_velocity.dof_index
                        its.grid_velocity.quad_index face op.grid_velocity q))
                    (mf.normal_vector its.pressure.quad_index face q)
              else its.pressure.values_quad q) } := by
  rw [div_term_convective_face_pressure]
  exact forLoop_submit_value _ _ its.pressure.quad_index face _ 0 (its.pressure.reinit face)
    rfl rfl
    (by
      intro q p _ _ hqi hf
      rw [div_term_convective_q_dirichlet op mf _ _ _ q p hkind hform,
        flux_spec_grid_velocity]
      simp [FaceIntegratorP.get_normal_vector, hqi, hf, FaceIntegratorU.gather_evaluate,
        FaceIntegratorU.reinit])

/-- The pressure integrator after the quadrature loop of the convective pressure-Neumann
routine on a Neumann face with a recognised formulation. -/
theorem nbc_convective_face_neumann_pressure (op : OperatorDualSplitting dim R T)
    (mf : MatrixFree dim R) (src : VectorType R) (face : Nat)
    (its : ConvectiveIntegrators dim R)
    (hkind :
      op.boundary_descriptor.pressure.get_boundary_type (mf.get_boundary_id face)
        = BoundaryTypeP.Neumann)
    (hform :
      op.param.formulation_convective_term_bc = FormulationConvectiveTerm.DivergenceFormulation ∨
        op.param.formulation_convective_term_bc
          = FormulationConvectiveTerm.ConvectiveFormulation) :
    Except.map ConvectiveIntegrators.pressure
        (local_rhs_ppe_nbc_convective_add_face op mf src face its) =
      .ok { its.pressure.reinit face with values_quad := fun q =>
              (if 0 ≤ q ∧ q < 0 + (mf.n_q_points its.pressure.quad_index face - 0) then
                -(dot (mf.normal_vector its.pressure.quad_index face q)
                    (flux_spec op.param.formulation_convective_term_bc
                      op.param.ale_formulation
                      (mf.evaluate_gradient its.velocity.dof_index its.velocity.quad_index face
                        src q)
                      (mf.evaluate_value its.velocity.dof_index its.velocity.quad_index face
                        src q)
                      (mf.evaluate_divergence its.velocity.dof_index its.velocity.quad_index
                        face src q)
                      (mf.evaluate_value its.grid_velocity.dof_index
                        its.grid_velocity.quad_index face op.grid_velocity q)))
              else its.pressure.values_quad q) } := by
  rw [nbc_convective_face_pressure]
  exact forLoop_submit_value _ _ its.pressure.quad_index face _ 0 (its.pressure.reinit face)
    rfl rfl
    (by
      intro q p _ _ hqi hf
      rw [nbc_convective_q_neumann op mf _ _ _ q p hkind hform, flux_spec_grid_velocity]
      simp [FaceIntegratorP.get_normal_vector, hqi, hf, FaceIntegratorU.gather_evaluate,
        FaceIntegratorU.reinit])

/-- C8: the quadrature loop of `local_rhs_ppe_nbc_convective_add_boundary_face`.
On a face of pressure kind Neumann, with the formulation selector one of the two formulations,
it does not throw and submits `-(n . flux)` at every quadrature point, `flux` being the flux of
the velocity-divergence convective term; if the face is moreover of velocity kind Dirichlet or
DirichletCached, the submitted value is the exact negative of the one
`local_rhs_ppe_div_term_convective_term_boundary_face` submits for the same integrators, source
vector and operator. On a face of pressure kind Dirichlet it submits exactly zero. -/
theorem nbc_convective_value (op : OperatorDualSplitting dim R T)
    (mf : MatrixFree dim R) (src : VectorType R) (face : Nat)
    (its : ConvectiveIntegrators dim R) :
    (op.boundary_descriptor.pressure.get_boundary_type (mf.get_boundary_id face)
        = BoundaryTypeP.Neumann →
      (op.param.formulation_convective_term_bc = FormulationConvectiveTerm.DivergenceFormulation ∨
        op.param.formulation_convective_term_bc
          = FormulationConvectiveTerm.ConvectiveFormulation) →
      ∃ r : ConvectiveIntegrators dim R,
        local_rhs_ppe_nbc_convective_add_face op mf src face its = .ok r ∧
          (∀ q, q < mf.n_q_points its.pressure.quad_index face →
            r.pressure.values_quad q =
              -(dot (mf.normal_vector its.pressure.quad_index face q)
                  (flux_spec op.param.formulation_convective_term_bc op.param.ale_formulation
                    (mf.evaluate_gradient its.velocity.dof_index its.velocity.quad_index face
                      src q)
                    (mf.evaluate_value its.velocity.dof_index its.velocity.quad_index face
                      src q)
                    (mf.evaluate_divergence its.velocity.dof_index its.velocity.quad_index face
                      src q)
                    (mf.evaluate_value its.grid_velocity.dof_index
                      its.grid_velocity.quad_index face op.grid_velocity q)))) ∧
          ((op.boundary_descriptor.velocity.get_boundary_type (mf.get_boundary_id face)
                = BoundaryTypeU.Dirichlet ∨
              op.boundary_descriptor.velocity.get_boundary_type (mf.get_boundary_id face)
                = BoundaryTypeU.DirichletCached) →
            ∃ r1 : ConvectiveIntegrators dim R,
              local_rhs_ppe_div_term_convective_term_face op mf src face its = .ok r1 ∧
                ∀ q, q < mf.n_q_points its.pressure.quad_index face →
                  r.pressure.values_quad q = -(r1.pressure.values_quad q))) ∧
    (op.boundary_descriptor.pressure.get_boundary_type (mf.get_boundary_id face)
        = BoundaryTypeP.Dirichlet →
      ∃ r : ConvectiveIntegrators dim R,
        local_rhs_ppe_nbc_convective_add_face op mf src face its = .ok r ∧
          ∀ q, q < mf.n_q_points its.pressure.quad_index face →
            r.pressure.values_quad q = 0) := by
  have hrange : ∀ q, q < mf.n_q_points its.pressure.quad_index face →
      (0 ≤ q ∧ q < 0 + (mf.n_q_points its.pressure.quad_index face - 0)) := by
    intro q hq
    constructor <;> omega
  constructor
  · intro hkind hform
    obtain ⟨r, hr, hp⟩ := except_map_ok _ _ _
      (nbc_convective_face_neumann_pressure op mf src face its hkind hform)
    refine ⟨r, hr, ?_, ?_⟩
    · intro q hq
      rw [hp]
      simp only [hrange q hq, and_self, if_true]
    · intro hU
      obtain ⟨r1, hr1, hp1⟩ := except_map_ok _ _ _
        (div_term_convective_face_dirichlet_pressure op mf src face its hU hform)
      refine ⟨r1, hr1, ?_⟩
      intro q hq
      rw [hp, hp1]
      simp only [hrange q hq, and_self, if_true]
      rw [dot_comm]
  · intro hkind
    have hloop := forLoop_submit_value
      (local_rhs_ppe_nbc_convective_add_q op mf
        (op.boundary_descriptor.pressure.get_boundary_type (mf.get_boundary_id face))
        ((its.velocity.reinit face).gather_evaluate mf src true true)
        (if op.param.ale_formulation then
          (its.grid_velocity.reinit face).gather_evaluate mf op.grid_velocity true false
         else its.grid_velocity))
      (fun _ => 0)
      its.pressure.quad_index face (mf.n_q_points its.pressure.quad_index face - 0) 0
      (its.pressure.reinit face) rfl rfl
      (by
        intro q p _ _ _ _
        simp [local_rhs_ppe_nbc_convective_add_q, hkind])
    obtain ⟨r, hr, hp⟩ := except_map_ok _ _ _
      ((nbc_convective_face_pressure op mf src face its).trans hloop)
    refine ⟨r, hr, ?_⟩
    intro q hq
    rw [hp]
    simp only [hrange q hq, and_self, if_true]

/-- C8, on the sample configuration (divergence form, ALE on): face 0 is of pressure kind
Neumann and of velocity kind Dirichlet, the divergence routine submits 3 at `q = 1` and this
routine submits -3; on face 1 (pressure kind Dirichlet) it submits 0. -/
theorem nbc_convective_value_witness :
    (∃ r r1 : ConvectiveIntegrators 2 ℤ,
      local_rhs_ppe_nbc_convective_add_face sample_op sample_mf sample_src 0 sample_its
          = .ok r ∧
        local_rhs_ppe_div_term_convective_term_face sample_op sample_mf sample_src 0 sample_its
          = .ok r1 ∧
        r.pressure.values_quad 1 = -3 ∧ r.pressure.values_quad 1 = -(r1.pressure.values_quad 1)) ∧
    (∃ r : ConvectiveIntegrators 2 ℤ,
      local_rhs_ppe_nbc_convective_add_face sample_op sample_mf sample_src 1 sample_its
          = .ok r ∧ r.pressure.values_quad 1 = 0) := by
  constructor
  · obtain ⟨r, hr, hq, hneg⟩ :=
      (nbc_convective_value sample_op sample_mf sample_src 0 sample_its).1 rfl (Or.inl rfl)
    obtain ⟨r1, hr1, hq1⟩ := hneg (Or.inl rfl)
    refine ⟨r, r1, hr, hr1, ?_, hq1 1 (by decide)⟩
    rw [hq 1 (by decide)]
    simp [dot, flux_spec, contract, scale, Fin.sum_univ_two, sample_op, sample_mf, sample_src,
      sample_its, FaceIntegratorU.create, FaceIntegratorP.create]
  · obtain ⟨r, hr, hq⟩ :=
      (nbc_convective_value sample_op sample_mf sample_src 1 sample_its).2 rfl
    exact ⟨r, hr, hq 1 (by decide)⟩

/-- C5: if the grid velocity evaluates to zero at every quadrature point of a face, each of
the two convective boundary routines returns, with `ale_formulation` set, the same pressure
integrator (the same submitted values, or the same error) as with `ale_formulation` unset,
for every source vector, boundary kind and formulation selector. -/
theorem convective_ale_zero_grid_velocity (op : OperatorDualSplitting dim R T)
    (mf : MatrixFree dim R) (src : VectorType R) (face : Nat)
    (its : ConvectiveIntegrators dim R)
    (hw : ∀ q, q < mf.n_q_points its.pressure.quad_index face →
      mf.evaluate_value its.grid_velocity.dof_index its.grid_velocity.quad_index face
        op.grid_velocity q = 0) :
    Except.map ConvectiveIntegrators.pressure
        (local_rhs_ppe_div_term_convective_term_face (op.set_ale_formulation true) mf src face
          its) =
      Except.map ConvectiveIntegrators.pressure
        (local_rhs_ppe_div_term_convective_term_face (op.set_ale_formulation false) mf src face
          its) ∧
    Except.map ConvectiveIntegrators.pressure
        (local_rhs_ppe_nbc_convective_add_face (op.set_ale_formulation true) mf src face its) =
      Except.map ConvectiveIntegrators.pressure
        (local_rhs_ppe_nbc_convective_add_face (op.set_ale_formulation false) mf src face
          its) := by
  constructor
  · rw [div_term_convective_face_pressure, div_term_convective_face_pressure]
    apply forLoop_congr
    intro q p _ hq
    have hq2 : q < mf.n_q_points its.pressure.quad_index face := by omega
    have hzero := hw q hq2
    simp [local_rhs_ppe_div_term_convective_term_q,
      OperatorDualSplitting.set_ale_formulation, FaceIntegratorU.gather_evaluate,
      FaceIntegratorU.reinit, hzero, contract_zero]
  · rw [nbc_convective_face_pressure, nbc_convective_face_pressure]
    apply forLoop_congr
    intro q p _ hq
    have hq2 : q < mf.n_q_points its.pressure.quad_index face := by omega
    have hzero := hw q hq2
    simp [local_rhs_ppe_nbc_convective_add_q,
      OperatorDualSplitting.set_ale_formulation, FaceIntegratorU.gather_evaluate,
      FaceIntegratorU.reinit, hzero, contract_zero]

/-- C5, at face 0 of the sample configuration with zero grid velocity. -/
theorem convective_ale_zero_grid_velocity_witness :
    Except.map ConvectiveIntegrators.pressure
        (local_rhs_ppe_div_term_convective_term_face
          (sample_op_zero_grid.set_ale_formulation true) sample_mf sample_src 0 sample_its) =
      Except.map ConvectiveIntegrators.pressure
        (local_rhs_ppe_div_term_convective_term_face
          (sample_op_zero_grid.set_ale_formulation false) sample_mf sample_src 0 sample_its) ∧
    Except.map ConvectiveIntegrators.pressure
        (local_rhs_ppe_nbc_convective_add_face
          (sample_op_zero_grid.set_ale_formulation true) sample_mf sample_src 0 sample_its) =
      Except.map ConvectiveIntegrators.pressure
        (local_rhs_ppe_nbc_convective_add_face
          (sample_op_zero_grid.set_ale_formulation false) sample_mf sample_src 0 sample_its) :=
  convective_ale_zero_grid_velocity sample_op_zero_grid sample_mf sample_src 0 sample_its
    (by
      intro q _
      funext i
      fin_cases i <;> rfl)

/-- C9: the quadrature loop of `local_rhs_ppe_nbc_viscous_add_boundary_face` does not throw
on a face of pressure kind Neumann or Dirichlet; on a Neumann face it submits
`-(n . (nu * curl))` at every quadrature point `q`, with `nu` the viscosity
`get_viscosity_boundary_face(face, q)` of that point and `curl` the result of `CurlCompute`
on the gradient of the source vector at `q`; on a Dirichlet face it submits exactly zero,
whatever the viscosity and the source vector are. -/
theorem nbc_viscous_value (op : OperatorDualSplitting dim R T)
    (mf : MatrixFree dim R) (src : VectorType R) (face : Nat)
    (its : ViscousIntegrators dim R) :
    (op.boundary_descriptor.pressure.get_boundary_type (mf.get_boundary_id face)
        = BoundaryTypeP.Neumann →
      ∃ r : ViscousIntegrators dim R,
        local_rhs_ppe_nbc_viscous_add_face op mf src face its = .ok r ∧
          ∀ q, q < mf.n_q_points its.pressure.quad_index face →
            r.pressure.values_quad q =
              -(dot (mf.normal_vector its.pressure.quad_index face q)
                  (scale (op.viscosity_boundary_face face q)
                    (op.CurlCompute
                      (mf.evaluate_gradient its.omega.dof_index its.omega.quad_index face
                        src q))))) ∧
    (op.boundary_descriptor.pressure.get_boundary_type (mf.get_boundary_id face)
        = BoundaryTypeP.Dirichlet →
      ∃ r : ViscousIntegrators dim R,
        local_rhs_ppe_nbc_viscous_add_face op mf src face its = .ok r ∧
          ∀ q, q < mf.n_q_points its.pressure.quad_index face →
            r.pressure.values_quad q = 0) := by
  have hrange : ∀ q, q < mf.n_q_points its.pressure.quad_index face →
      (0 ≤ q ∧ q < 0 + (mf.n_q_points its.pressure.quad_index face - 0)) := by
    intro q hq
    constructor <;> omega
  constructor
  · intro hkind
    have hloop := forLoop_submit_value
      (local_rhs_ppe_nbc_viscous_add_q op mf
        (op.boundary_descriptor.pressure.get_boundary_type (mf.get_boundary_id face)) face
        ((its.omega.reinit face).gather_evaluate mf src false true))
      (fun q =>
        -(dot (mf.normal_vector its.pressure.quad_index face q)
            (scale (op.viscosity_boundary_face face q)
              (op.CurlCompute
                (mf.evaluate_gradient its.omega.dof_index its.omega.quad_index face src q)))))
      its.pressure.quad_index face (mf.n_q_points its.pressure.quad_index face - 0) 0
      (its.pressure.reinit face) rfl rfl
      (by
        intro q p _ _ hqi hf
        simp [local_rhs_ppe_nbc_viscous_add_q, hkind, dot_neg_left,
          FaceIntegratorP.get_normal_vector, FaceIntegratorU.gather_evaluate,
          FaceIntegratorU.reinit, hqi, hf])
    unfold local_rhs_ppe_nbc_viscous_add_face forRange
    simp only []
    erw [hloop]
    refine ⟨_, rfl, ?_⟩
    intro q hq
    simp only [hrange q hq, and_self, if_true]
  · intro hkind
    have hloop := forLoop_submit_value
      (local_rhs_ppe_nbc_viscous_add_q op mf
        (op.boundary_descriptor.pressure.get_boundary_type (mf.get_boundary_id face)) face
        ((its.omega.reinit face).gather_evaluate mf src false true))
      (fun _ => 0)
      its.pressure.quad_index face (mf.n_q_points its.pressure.quad_index face - 0) 0
      (its.pressure.reinit face) rfl rfl
      (by
        intro q p _ _ _ _
        simp [local_rhs_ppe_nbc_viscous_add_q, hkind])
    unfold local_rhs_ppe_nbc_viscous_add_face forRange
    simp only []
    erw [hloop]
    refine ⟨_, rfl, ?_⟩
    intro q hq
    simp only [hrange q hq, and_self, if_true]

/-- C9, on the sample configuration: on face 0 (pressure kind Neumann) at `q = 1` the
viscosity is 2, the gradient `((1, 1), (2, 2))`, its curl `(1, -1)` and the normal `(1, 0)`, so
the submitted value is -2; at `q = 0` the viscosity is 1 and the gradient `((0, 1), (2, 1))`,
so the submitted value is -1; on face 1 (pressure kind Dirichlet) the submitted value is 0. -/
theorem nbc_viscous_value_witness :
    (∃ r : ViscousIntegrators 2 ℤ,
      local_rhs_ppe_nbc_viscous_add_face sample_op sample_mf sample_src 0 sample_its_viscous
          = .ok r ∧ r.pressure.values_quad 1 = -2 ∧ r.pressure.values_quad 0 = -1) ∧
    (∃ r : ViscousIntegrators 2 ℤ,
      local_rhs_ppe_nbc_viscous_add_face sample_op sample_mf sample_src 1 sample_its_viscous
          = .ok r ∧ r.pressure.values_quad 1 = 0) := by
  constructor
  · obtain ⟨r, hr, hq⟩ :=
      (nbc_viscous_value sample_op sample_mf sample_src 0 sample_its_viscous).1 rfl
    refine ⟨r, hr, ?_, ?_⟩
    · rw [hq 1 (by decide)]
      simp [dot, scale, Fin.sum_univ_two, sample_op, sample_mf, sample_src,
        sample_its_viscous, FaceIntegratorU.create, FaceIntegratorP.create]
    · rw [hq 0 (by decide)]
      simp [dot, scale, Fin.sum_univ_two, sample_op, sample_mf, sample_src,
        sample_its_viscous, FaceIntegratorU.create, FaceIntegratorP.create]
  · obtain ⟨r, hr, hq⟩ :=
      (nbc_viscous_value sample_op sample_mf sample_src 1 sample_its_viscous).2 rfl
    exact ⟨r, hr, hq 1 (by decide)⟩

end PressureNeumann

section DirichletInterpolation

variable {dim : Nat} {R T : Type}

/-- On a face of velocity kind Dirichlet or DirichletCached the face body of the interpolation
routine returns the destination vector written by `set_dof_values` from an integrator whose
local dof `index(q)`, for every nodal point `q`, holds the boundary value `g q` of that kind,
given that the table `face_to_cell_index_nodal` maps the nodal points of the face to distinct
local dofs. -/
theorem interpolate_face_dirichlet (op : OperatorDualSplitting dim R T)
    (matrix_free : MatrixFree dim R) (dof_index quad_index face : Nat)
    (integrator : FaceIntegratorU dim R) (dst : VectorType R) (g : Nat → Tensor1 dim R)
    (hkind :
      op.boundary_descriptor.velocity.get_boundary_type (matrix_free.get_boundary_id face)
          = BoundaryTypeU.Dirichlet ∨
        op.boundary_descriptor.velocity.get_boundary_type (matrix_free.get_boundary_id face)
          = BoundaryTypeU.DirichletCached)
    (hg : ∀ q (it : FaceIntegratorU dim R), it.quad_index = integrator.quad_index →
      it.face = face →
      local_interpolate_velocity_dirichlet_bc_q op matrix_free dof_index quad_index face
          (matrix_free.get_boundary_id face)
          (op.boundary_descriptor.velocity.get_boundary_type (matrix_free.get_boundary_id face))
          q it =
        .ok (it.submit_dof_value (g q)
          (matrix_free.face_to_cell_index_nodal dof_index quad_index
            (matrix_free.interior_face_no face) q)))
    (hnodal_inj : ∀ q q', q < matrix_free.n_q_points integrator.quad_index face →
      q' < matrix_free.n_q_points integrator.quad_index face →
      matrix_free.face_to_cell_index_nodal dof_index quad_index
          (matrix_free.interior_face_no face) q =
        matrix_free.face_to_cell_index_nodal dof_index quad_index
          (matrix_free.interior_face_no face) q' →
      q = q') :
    ∃ it : FaceIntegratorU dim R,
      local_interpolate_velocity_dirichlet_bc_face op matrix_free dof_index quad_index face
          (integrator, dst) = .ok (it, it.set_dof_values matrix_free dst) ∧
        it.dof_index = integrator.dof_index ∧ it.face = face ∧
        ∀ q, q < matrix_free.n_q_points integrator.quad_index face →
          it.values_dofs
              (matrix_free.face_to_cell_index_nodal dof_index quad_index
                (matrix_free.interior_face_no face) q) = g q := by
  obtain ⟨it, hrun, hd, _, hface, hhit, _⟩ :=
    forLoop_submit_dof_value
      (local_interpolate_velocity_dirichlet_bc_q op matrix_free dof_index quad_index face
        (matrix_free.get_boundary_id face)
        (op.boundary_descriptor.velocity.get_boundary_type (matrix_free.get_boundary_id face)))
      g
      (matrix_free.face_to_cell_index_nodal dof_index quad_index
        (matrix_free.interior_face_no face))
      integrator.quad_index face (matrix_free.n_q_points integrator.quad_index face - 0) 0
      ((integrator.reinit face).read_dof_values matrix_free dst) rfl rfl
      (fun q it _ _ hqi hf => hg q it hqi hf)
  refine ⟨it, ?_, hd, hface, ?_⟩
  · unfold local_interpolate_velocity_dirichlet_bc_face forRange
    simp only [if_pos hkind]
    erw [hrun]
    rfl
  · intro q hq
    apply hhit q (Nat.zero_le _) (by omega)
    intro q' h1 h2 heq
    have := hnodal_inj q' q (by omega) hq heq
    omega

/-- C10: the face body of `local_interpolate_velocity_dirichlet_bc_boundary_face`, run with
the evaluation time `t` that `interpolate_velocity_dirichlet_bc` stores. Provided the table
`face_to_cell_index_nodal` maps the nodal points of the face to distinct local dofs of the
cell and the dof map of the cell is one-to-one (both hold for the tables deal.II builds), for
every nodal point `q` and component `c` the entry of the destination vector that belongs to
the local dof `face_to_cell_index_nodal[interior_face_no][q]` is, on a Dirichlet face, the
value at `(x_q, t)` of the function registered for the boundary id of the face and, on a
DirichletCached face, the cached value at `(face, q, quad_index)`. This holds for every
destination vector on entry: the old entry is replaced, not added to. -/
theorem interpolate_velocity_dirichlet_bc_face_value (op : OperatorDualSplitting dim R T)
    (matrix_free : MatrixFree dim R) (t : T) (dof_index quad_index face : Nat)
    (integrator : FaceIntegratorU dim R) (dst : VectorType R)
    (hnodal_inj : ∀ q q', q < matrix_free.n_q_points integrator.quad_index face →
      q' < matrix_free.n_q_points integrator.quad_index face →
      matrix_free.face_to_cell_index_nodal dof_index quad_index
          (matrix_free.interior_face_no face) q =
        matrix_free.face_to_cell_index_nodal dof_index quad_index
          (matrix_free.interior_face_no face) q' →
      q = q')
    (hnodal_lt : ∀ q, q < matrix_free.n_q_points integrator.quad_index face →
      matrix_free.face_to_cell_index_nodal dof_index quad_index
          (matrix_free.interior_face_no face) q <
        matrix_free.dofs_per_component integrator.dof_index)
    (hdof_inj : ∀ (i i' : Nat) (c c' : Fin dim),
      i < matrix_free.dofs_per_component integrator.dof_index →
      i' < matrix_free.dofs_per_component integrator.dof_index →
      matrix_free.dof_indices integrator.dof_index face i c =
        matrix_free.dof_indices integrator.dof_index face i' c' →
      i = i' ∧ c = c') :
    (op.boundary_descriptor.velocity.get_boundary_type (matrix_free.get_boundary_id face)
        = BoundaryTypeU.Dirichlet →
      ∃ s : FaceIntegratorU dim R × VectorType R,
        local_interpolate_velocity_dirichlet_bc_face (op.set_evaluation_time t) matrix_free
            dof_index quad_index face (integrator, dst) = .ok s ∧
          ∀ q, q < matrix_free.n_q_points integrator.quad_index face → ∀ c : Fin dim,
            s.2 (matrix_free.dof_indices integrator.dof_index face
                  (matrix_free.face_to_cell_index_nodal dof_index quad_index
                    (matrix_free.interior_face_no face) q) c) =
              op.boundary_descriptor.velocity.dirichlet_bc (matrix_free.get_boundary_id face)
                (matrix_free.quadrature_point integrator.quad_index face q) t c) ∧
    (op.boundary_descriptor.velocity.get_boundary_type (matrix_free.get_boundary_id face)
        = BoundaryTypeU.DirichletCached →
      ∃ s : FaceIntegratorU dim R × VectorType R,
        local_interpolate_velocity_dirichlet_bc_face (op.set_evaluation_time t) matrix_free
            dof_index quad_index face (integrator, dst) = .ok s ∧
          ∀ q, q < matrix_free.n_q_points integrator.quad_index face → ∀ c : Fin dim,
            s.2 (matrix_free.dof_indices integrator.dof_index face
                  (matrix_free.face_to_cell_index_nodal dof_index quad_index
                    (matrix_free.interior_face_no face) q) c) =
              op.boundary_descriptor.velocity.dirichlet_cached_data face q quad_index c) := by
  have hwrite : ∀ (it : FaceIntegratorU dim R) (g : Nat → Tensor1 dim R),
      it.dof_index = integrator.dof_index → it.face = face →
      (∀ q, q < matrix_free.n_q_points integrator.quad_index face →
        it.values_dofs (matrix_free.face_to_cell_index_nodal dof_index quad_index
          (matrix_free.interior_face_no face) q) = g q) →
      ∀ q, q < matrix_free.n_q_points integrator.quad_index face → ∀ c : Fin dim,
        (it.set_dof_values matrix_free dst)
            (matrix_free.dof_indices integrator.dof_index face
              (matrix_free.face_to_cell_index_nodal dof_index quad_index
                (matrix_free.interior_face_no face) q) c) = g q c := by
    intro it g hd hface hval q hq c
    unfold FaceIntegratorU.set_dof_values
    rw [hd, hface]
    have hmem := (mem_local_dof_pairs dim (matrix_free.dofs_per_component integrator.dof_index)
      (matrix_free.face_to_cell_index_nodal dof_index quad_index
        (matrix_free.interior_face_no face) q) c).mpr (hnodal_lt q hq)
    have h := foldl_update_mem
      (fun p : Nat × Fin dim => matrix_free.dof_indices integrator.dof_index face p.1 p.2)
      (fun p : Nat × Fin dim => it.values_dofs p.1 p.2) _ _ dst hmem
      (by
        intro b hb heq
        have hb1 : b.1 < matrix_free.dofs_per_component integrator.dof_index :=
          (mem_local_dof_pairs dim _ b.1 b.2).mp hb
        obtain ⟨h1, h2⟩ := hdof_inj b.1 _ b.2 c hb1 (hnodal_lt q hq) heq
        simp only [h1, h2])
    simp only [] at h
    rw [h, hval q hq]
  constructor
  · intro hkind
    obtain ⟨it, hrun, hd, hface, hval⟩ :=
      interpolate_face_dirichlet (op.set_evaluation_time t) matrix_free dof_index quad_index
        face integrator dst
        (fun q => op.boundary_descriptor.velocity.dirichlet_bc
          (matrix_free.get_boundary_id face)
          (matrix_free.quadrature_point integrator.quad_index face q) t)
        (Or.inl hkind)
        (by
          intro q it hqi hf
          simp [local_interpolate_velocity_dirichlet_bc_q,
            OperatorDualSplitting.set_evaluation_time, hkind,
            FaceIntegratorU.quadrature_point, hqi, hf]
          rfl)
        hnodal_inj
    exact ⟨_, hrun, hwrite it _ hd hface hval⟩
  · intro hkind
    obtain ⟨it, hrun, hd, hface, hval⟩ :=
      interpolate_face_dirichlet (op.set_evaluation_time t) matrix_free dof_index quad_index
        face integrator dst
        (fun q => op.boundary_descriptor.velocity.dirichlet_cached_data face q quad_index)
        (Or.inr hkind)
        (by
          intro q it hqi hf
          simp [local_interpolate_velocity_dirichlet_bc_q,
            OperatorDualSplitting.set_evaluation_time, hkind]
          rfl)
        hnodal_inj
    exact ⟨_, hrun, hwrite it _ hd hface hval⟩

/-- C10, on the sample configuration at time 5 with the destination vector `0, 1, 2, ...` on
entry. Face 0 is of kind Dirichlet: the nodal point `q = 1` is `x = (0, 1)`, the registered
function gives `(5, 1)` there, and entries 2 and 3 of the vector (local dof 1 of the cell,
before 2 and 3) become 5 and 1. Face 1 is of kind DirichletCached: the cached value at
`q = 1` for quadrature index 3 is `(2, 3)`, and entries 8 and 9 become 2 and 3. -/
theorem interpolate_velocity_dirichlet_bc_face_value_witness :
    (∃ s : FaceIntegratorU 2 ℤ × VectorType ℤ,
      local_interpolate_velocity_dirichlet_bc_face (sample_op.set_evaluation_time 5) sample_mf
          0 3 0 (FaceIntegratorU.create 0 3, sample_src) = .ok s ∧ s.2 2 = 5 ∧ s.2 3 = 1) ∧
    (∃ s : FaceIntegratorU 2 ℤ × VectorType ℤ,
      local_interpolate_velocity_dirichlet_bc_face (sample_op.set_evaluation_time 5) sample_mf
          0 3 1 (FaceIntegratorU.create 0 3, sample_src) = .ok s ∧ s.2 8 = 2 ∧ s.2 9 = 3) := by
  have hinj : ∀ (face i i' : Nat) (c c' : Fin 2),
      i < sample_mf.dofs_per_component (FaceIntegratorU.create 0 3 : FaceIntegratorU 2 ℤ).dof_index →
      i' < sample_mf.dofs_per_component (FaceIntegratorU.create 0 3 : FaceIntegratorU 2 ℤ).dof_index →
      sample_mf.dof_indices (FaceIntegratorU.create 0 3 : FaceIntegratorU 2 ℤ).dof_index face i c =
        sample_mf.dof_indices (FaceIntegratorU.create 0 3 : FaceIntegratorU 2 ℤ).dof_index face
          i' c' →
      i = i' ∧ c = c' := by
    intro face i i' c c' _ _ h
    have hc := c.isLt
    have hc' := c'.isLt
    simp only [sample_mf] at h
    exact ⟨by omega, Fin.ext (by omega)⟩
  have hlt : ∀ face q,
      q < sample_mf.n_q_points (FaceIntegratorU.create 0 3 : FaceIntegratorU 2 ℤ).quad_index face →
      sample_mf.face_to_cell_index_nodal 0 3 (sample_mf.interior_face_no face) q <
        sample_mf.dofs_per_component (FaceIntegratorU.create 0 3 : FaceIntegratorU 2 ℤ).dof_index := by
    intro face q hq
    simp only [sample_mf] at hq ⊢
    omega
  constructor
  · obtain ⟨s, hs, hq⟩ :=
      (interpolate_velocity_dirichlet_bc_face_value sample_op sample_mf 5 0 3 0
        (FaceIntegratorU.create 0 3) sample_src (fun q q' _ _ h => h) (hlt 0) (hinj 0)).1 rfl
    refine ⟨s, hs, ?_, ?_⟩
    · have h := hq 1 (by decide) 0
      simpa [sample_op, sample_mf, FaceIntegratorU.create] using h
    · have h := hq 1 (by decide) 1
      simpa [sample_op, sample_mf, FaceIntegratorU.create] using h
  · obtain ⟨s, hs, hq⟩ :=
      (interpolate_velocity_dirichlet_bc_face_value sample_op sample_mf 5 0 3 1
        (FaceIntegratorU.create 0 3) sample_src (fun q q' _ _ h => h) (hlt 1) (hinj 1)).2 rfl
    refine ⟨s, hs, ?_, ?_⟩
    · have h := hq 1 (by decide) 0
      simpa [sample_op, sample_mf, FaceIntegratorU.create] using h
    · have h := hq 1 (by decide) 1
      simpa [sample_op, sample_mf, FaceIntegratorU.create] using h

end DirichletInterpolation

section ErrorLemmas

/-- A loop that throws got its message from one of its passes. -/
theorem forLoop_error_origin {σ : Type} (body : Nat → σ → Except String σ) (e : String)
    (n : Nat) :
    ∀ (first : Nat) (s : σ), forLoop body n first s = .error e →
      ∃ i s', first ≤ i ∧ i < first + n ∧ body i s' = .error e := by
  induction n with
  | zero =>
    intro first s h
    simp [forLoop] at h
  | succ n ih =>
    intro first s h
    cases hb : body first s with
    | error e' =>
      simp only [forLoop, hb] at h
      refine ⟨first, s, Nat.le_refl _, by omega, ?_⟩
      rw [hb, h]
    | ok s' =>
      simp only [forLoop, hb] at h
      obtain ⟨i, t, h1, h2, h3⟩ := ih (first + 1) s' h
      exact ⟨i, t, by omega, by omega, h3⟩

/-- A loop none of whose passes throws does not throw. -/
theorem forLoop_ok_of_body {σ : Type} (body : Nat → σ → Except String σ) (n : Nat) :
    ∀ (first : Nat) (s : σ),
      (∀ i s, first ≤ i → i < first + n → ∃ s', body i s = .ok s') →
      ∃ s', forLoop body n first s = .ok s' := by
  induction n with
  | zero =>
    intro first s _
    exact ⟨s, rfl⟩
  | succ n ih =>
    intro first s h
    obtain ⟨s', hs'⟩ := h first s (Nat.le_refl _) (by omega)
    simp only [forLoop, hs']
    exact ih (first + 1) s' (fun i t h1 h2 => h i t (by omega) (by omega))

/-- A loop over states that keep an invariant, in which pass `i` throws exactly when `P i`:
the loop throws exactly when `P` holds somewhere in its range. -/
theorem forLoop_error_iff {σ : Type} (body : Nat → σ → Except String σ) (Inv : σ → Prop)
    (P : Nat → Prop) (hinv : ∀ i s s', Inv s → body i s = .ok s' → Inv s')
    (h : ∀ i s, Inv s → ((∃ e, body i s = .error e) ↔ P i)) (n : Nat) :
    ∀ (first : Nat) (s : σ), Inv s →
      ((∃ e, forLoop body n first s = .error e) ↔ ∃ i, first ≤ i ∧ i < first + n ∧ P i) := by
  induction n with
  | zero =>
    intro first s _
    constructor
    · rintro ⟨e, he⟩
      simp [forLoop] at he
    · rintro ⟨i, h1, h2, _⟩
      omega
  | succ n ih =>
    intro first s hs
    cases hb : body first s with
    | error e =>
      constructor
      · intro _
        exact ⟨first, Nat.le_refl _, by omega, (h first s hs).mp ⟨e, hb⟩⟩
      · intro _
        exact ⟨e, by simp only [forLoop, hb]⟩
    | ok s' =>
      have hs' := hinv first s s' hs hb
      simp only [forLoop, hb]
      rw [ih (first + 1) s' hs']
      constructor
      · rintro ⟨i, h1, h2, h3⟩
        exact ⟨i, by omega, by omega, h3⟩
      · rintro ⟨i, h1, h2, h3⟩
        by_cases hi : i = first
        · subst hi
          obtain ⟨e, he⟩ := (h i s hs).mpr h3
          rw [hb] at he
          cases he
        · exact ⟨i, by omega, by omega, h3⟩

/-- An invariant kept by every pass is kept by the loop. -/
theorem forLoop_invariant {σ : Type} (body : Nat → σ → Except String σ) (Inv : σ → Prop)
    (hinv : ∀ i s s', Inv s → body i s = .ok s' → Inv s') (n : Nat) :
    ∀ (first : Nat) (s s' : σ), Inv s → forLoop body n first s = .ok s' → Inv s' := by
  induction n with
  | zero =>
    intro first s s' hs h
    simp only [forLoop, Except.ok.injEq] at h
    rw [← h]
    exact hs
  | succ n ih =>
    intro first s s' hs h
    cases hb : body first s with
    | error e => simp [forLoop, hb] at h
    | ok t =>
      simp only [forLoop, hb] at h
      exact ih (first + 1) t s' (hinv first s t hs hb) h

/-- A fold over a list in which the step at `r` throws exactly when `Q r`, whatever the
state: the fold throws exactly when `Q` holds for an element of the list. -/
theorem foldlM_error_iff {σ α : Type} (f : σ → α → Except String σ) (Q : α → Prop)
    (h : ∀ r s, (∃ e, f s r = .error e) ↔ Q r) (l : List α) :
    ∀ (s : σ), ((∃ e, l.foldlM f s = .error e) ↔ ∃ r ∈ l, Q r) := by
  induction l with
  | nil =>
    intro s
    simp [pure, Except.pure]
  | cons a l ih =>
    intro s
    cases ha : f s a with
    | error e =>
      constructor
      · intro _
        exact ⟨a, List.mem_cons_self _ _, (h a s).mp ⟨e, ha⟩⟩
      · intro _
        exact ⟨e, by simp [List.foldlM, ha, bind, Except.bind]⟩
    | ok s' =>
      have hstep : (a :: l).foldlM f s = l.foldlM f s' := by
        simp [List.foldlM, ha, bind, Except.bind]
      rw [hstep, ih s']
      constructor
      · rintro ⟨r, hr, hq⟩
        exact ⟨r, List.mem_cons_of_mem _ hr, hq⟩
      · rintro ⟨r, hr, hq⟩
        rcases List.mem_cons.mp hr with h1 | h1
        · subst h1
          obtain ⟨e, he⟩ := (h r s).mpr hq
          rw [ha] at he
          cases he
        · exact ⟨r, h1, hq⟩

/-- A mapped result is an error exactly when the result is that error. -/
theorem except_map_error_iff {α β : Type} (f : α → β) (x : Except String α) (e : String) :
    Except.map f x = .error e ↔ x = .error e := by
  cases x <;> simp [Except.map]

/-- A result that is not an error is a value. -/
theorem except_ok_of_no_error {α : Type} (x : Except String α) (h : ∀ e, x ≠ .error e) :
    ∃ r, x = .ok r := by
  cases x with
  | error e => exact absurd rfl (h e)
  | ok r => exact ⟨r, rfl⟩

end ErrorLemmas

section BoundaryKindErrors

variable {dim : Nat} {R T : Type} [CommRing R]

/-- The quadrature-loop body of the body-force divergence routine throws the boundary-type
error on an unrecognised kind and returns on a recognised one. -/
theorem div_term_body_forces_q_cases (op : OperatorDualSplitting dim R T)
    (mf : MatrixFree dim R) (kind : BoundaryTypeU) (q : Nat) (it : FaceIntegratorP R) :
    (¬ kind.recognised →
      local_rhs_ppe_div_term_body_forces_q op mf kind q it =
        .error "Boundary type of face is invalid or not implemented.") ∧
    (kind.recognised → ∃ it', local_rhs_ppe_div_term_body_forces_q op mf kind q it = .ok it') := by
  cases kind <;> simp [local_rhs_ppe_div_term_body_forces_q, BoundaryTypeU.recognised]

/-- The quadrature-loop body of the numerical-time-derivative routine throws the
boundary-type error on an unrecognised kind and returns on a recognised one. -/
theorem nbc_numerical_time_derivative_q_cases (data : MatrixFree dim R)
    (kind : BoundaryTypeP) (velocity : FaceIntegratorU dim R) (q : Nat)
    (it : FaceIntegratorP R) :
    (¬ kind.recognised →
      local_rhs_ppe_nbc_numerical_time_derivative_add_q data kind velocity q it =
        .error "Boundary type of face is invalid or not implemented.") ∧
    (kind.recognised →
      ∃ it', local_rhs_ppe_nbc_numerical_time_derivative_add_q data kind velocity q it
        = .ok it') := by
  cases kind <;>
    simp [local_rhs_ppe_nbc_numerical_time_derivative_add_q, BoundaryTypeP.recognised]

/-- The quadrature-loop body of the body-force pressure-Neumann routine throws the
boundary-type error on an unrecognised kind and returns on a recognised one. -/
theorem nbc_body_force_q_cases (op : OperatorDualSplitting dim R T)
    (data : MatrixFree dim R) (kind : BoundaryTypeP) (q : Nat) (it : FaceIntegratorP R) :
    (¬ kind.recognised →
      local_rhs_ppe_nbc_body_force_term_add_q op data kind q it =
        .error "Boundary type of face is invalid or not implemented.") ∧
    (kind.recognised →
      ∃ it', local_rhs_ppe_nbc_body_force_term_add_q op data kind q it = .ok it') := by
  cases kind <;> simp [local_rhs_ppe_nbc_body_force_term_add_q, BoundaryTypeP.recognised]

/-- The quadrature-loop body of the viscous routine throws the boundary-type error on an
unrecognised kind and returns on a recognised one. -/
theorem nbc_viscous_q_cases (op : OperatorDualSplitting dim R T)
    (mf : MatrixFree dim R) (kind : BoundaryTypeP) (face : Nat) (omega : FaceIntegratorU dim R)
    (q : Nat) (it : FaceIntegratorP R) :
    (¬ kind.recognised →
      local_rhs_ppe_nbc_viscous_add_q op mf kind face omega q it =
        .error "Boundary type of face is invalid or not implemented.") ∧
    (kind.recognised →
      ∃ it', local_rhs_ppe_nbc_viscous_add_q op mf kind face omega q it = .ok it') := by
  cases kind <;> simp [local_rhs_ppe_nbc_viscous_add_q, BoundaryTypeP.recognised]

/-- The quadrature-loop body of the convective divergence routine: the boundary-type error
on an unrecognised kind and on no other; a value on a Neumann or symmetry face; on a Dirichlet
or cached-Dirichlet face a value if the formulation selector is recognised and the error
"Not implemented." if it is not. -/
theorem div_term_convective_q_cases (op : OperatorDualSplitting dim R T)
    (mf : MatrixFree dim R) (kind : BoundaryTypeU) (velocity grid_velocity : FaceIntegratorU dim R)
    (q : Nat) (it : FaceIntegratorP R) :
    (¬ kind.recognised →
      local_rhs_ppe_div_term_convective_term_q op mf kind velocity grid_velocity q it =
        .error "Boundary type of face is invalid or not implemented.") ∧
    (kind.recognised →
      local_rhs_ppe_div_term_convective_term_q op mf kind velocity grid_velocity q it ≠
        .error "Boundary type of face is invalid or not implemented.") ∧
    (kind = BoundaryTypeU.Neumann ∨ kind = BoundaryTypeU.Symmetry →
      ∃ it', local_rhs_ppe_div_term_convective_term_q op mf kind velocity grid_velocity q it
        = .ok it') ∧
    (kind = BoundaryTypeU.Dirichlet ∨ kind = BoundaryTypeU.DirichletCached →
      op.param.formulation_convective_term_bc.recognised →
      ∃ it', local_rhs_ppe_div_term_convective_term_q op mf kind velocity grid_velocity q it
        = .ok it') ∧
    (kind = BoundaryTypeU.Dirichlet ∨ kind = BoundaryTypeU.DirichletCached →
      ¬ op.param.formulation_convective_term_bc.recognised →
      local_rhs_ppe_div_term_convective_term_q op mf kind velocity grid_velocity q it =
        .error "Not implemented.") := by
  cases kind <;> cases hf : op.param.formulation_convective_term_bc <;>
    simp [local_rhs_ppe_div_term_convective_term_q, BoundaryTypeU.recognised,
      FormulationConvectiveTerm.recognised, hf, bind, Except.bind]

/-- The quadrature-loop body of the convective pressure-Neumann routine: the boundary-type
error on an unrecognised kind and on no other; a value on a Dirichlet face; on a Neumann face
a value if the formulation selector is recognised and the error "Not implemented." if it is
not. -/
theorem nbc_convective_q_cases (op : OperatorDualSplitting dim R T)
    (mf : MatrixFree dim R) (kind : BoundaryTypeP) (velocity grid_velocity : FaceIntegratorU dim R)
    (q : Nat) (it : FaceIntegratorP R) :
    (¬ kind.recognised →
      local_rhs_ppe_nbc_convective_add_q op mf kind velocity grid_velocity q it =
        .error "Boundary type of face is invalid or not implemented.") ∧
    (kind.recognised →
      local_rhs_ppe_nbc_convective_add_q op mf kind velocity grid_velocity q it ≠
        .error "Boundary type of face is invalid or not implemented.") ∧
    (kind = BoundaryTypeP.Dirichlet →
      ∃ it', local_rhs_ppe_nbc_convective_add_q op mf kind velocity grid_velocity q it
        = .ok it') ∧
    (kind = BoundaryTypeP.Neumann →
      op.param.formulation_convective_term_bc.recognised →
      ∃ it', local_rhs_ppe_nbc_convective_add_q op mf kind velocity grid_velocity q it
        = .ok it') ∧
    (kind = BoundaryTypeP.Neumann →
      ¬ op.param.formulation_convective_term_bc.recognised →
      local_rhs_ppe_nbc_convective_add_q op mf kind velocity grid_velocity q it =
        .error "Not implemented.") := by
  cases kind <;> cases hf : op.param.formulation_convective_term_bc <;>
    simp [local_rhs_ppe_nbc_convective_add_q, BoundaryTypeP.recognised,
      FormulationConvectiveTerm.recognised, hf, bind, Except.bind]

/-- A mapped result is a value exactly when the result is a value. -/
theorem except_map_isOk {α β : Type} (f : α → β) (x : Except String α) :
    (∃ p, Except.map f x = .ok p) ↔ ∃ r, x = .ok r := by
  cases x <;> simp [Except.map]

/-- From the passes of a loop to the loop: if every pass throws `msg` the loop with at least
one pass throws `msg`; if no pass throws `msg` the loop does not; if every pass returns the
loop returns. -/
theorem forLoop_cases {σ : Type} (body : Nat → σ → Except String σ) (msg : String)
    (n first : Nat) (s : σ) :
    ((∀ q t, body q t = .error msg) → 0 < n → forLoop body n first s = .error msg) ∧
    ((∀ q t, body q t ≠ .error msg) → forLoop body n first s ≠ .error msg) ∧
    ((∀ q t, ∃ t', body q t = .ok t') → ∃ s', forLoop body n first s = .ok s') := by
  refine ⟨?_, ?_, ?_⟩
  · intro h hn
    exact forLoop_error body n first s msg hn (h first s)
  · intro h herr
    obtain ⟨i, t, _, _, hb⟩ := forLoop_error_origin body msg n first s herr
    exact h i t hb
  · intro h
    exact forLoop_ok_of_body body n first s (fun i t _ _ => h i t)

/-- The pressure integrator that the face body of the numerical-time-derivative routine
returns is the result of its quadrature loop. -/
theorem nbc_numerical_time_derivative_face_pressure (op : OperatorDualSplitting dim R T)
    (data : MatrixFree dim R) (acceleration : VectorType R) (face : Nat)
    (its : TimeDerivativeIntegrators dim R) :
    Except.map TimeDerivativeIntegrators.integrator_pressure
        (local_rhs_ppe_nbc_numerical_time_derivative_add_face op data acceleration face its) =
      forLoop
        (local_rhs_ppe_nbc_numerical_time_derivative_add_q data
          (op.boundary_descriptor.pressure.get_boundary_type (data.get_boundary_id face))
          ((its.integrator_velocity.reinit face).gather_evaluate data acceleration true false))
        (data.n_q_points its.integrator_pressure.quad_index face - 0) 0
        (its.integrator_pressure.reinit face) := by
  unfold local_rhs_ppe_nbc_numerical_time_derivative_add_face forRange
  simp only [FaceIntegratorP.n_q_points, FaceIntegratorP.reinit]
  cases forLoop _ _ _ _ <;> rfl

/-- The pressure integrator that the face body of the viscous routine returns is the result
of its quadrature loop. -/
theorem nbc_viscous_face_pressure (op : OperatorDualSplitting dim R T)
    (mf : MatrixFree dim R) (src : VectorType R) (face : Nat)
    (its : ViscousIntegrators dim R) :
    Except.map ViscousIntegrators.pressure
        (local_rhs_ppe_nbc_viscous_add_face op mf src face its) =
      forLoop
        (local_rhs_ppe_nbc_viscous_add_q op mf
          (op.boundary_descriptor.pressure.get_boundary_type (mf.get_boundary_id face)) face
          ((its.omega.reinit face).gather_evaluate mf src false true))
        (mf.n_q_points its.pressure.quad_index face - 0) 0 (its.pressure.reinit face) := by
  unfold local_rhs_ppe_nbc_viscous_add_face forRange
  simp only [FaceIntegratorP.n_q_points, FaceIntegratorP.reinit]
  cases forLoop _ _ _ _ <;> rfl

/-- The face body of the body-force divergence routine: the boundary-type error on a face
with a quadrature point whose velocity kind is not recognised, a value on a recognised
kind. -/
theorem div_term_body_forces_face_cases (op : OperatorDualSplitting dim R T)
    (mf : MatrixFree dim R) (face : Nat) (integrator : FaceIntegratorP R) :
    (¬ (op.boundary_descriptor.velocity.get_boundary_type (mf.get_boundary_id face)).recognised →
      0 < mf.n_q_points integrator.quad_index face →
      local_rhs_ppe_div_term_body_forces_face op mf face integrator =
        .error "Boundary type of face is invalid or not implemented.") ∧
    ((op.boundary_descriptor.velocity.get_boundary_type (mf.get_boundary_id face)).recognised →
      ∃ it, local_rhs_ppe_div_term_body_forces_face op mf face integrator = .ok it) := by
  have hloop := forLoop_cases
    (local_rhs_ppe_div_term_body_forces_q op mf
      (op.boundary_descriptor.velocity.get_boundary_type (mf.get_boundary_id face)))
    "Boundary type of face is invalid or not implemented."
    (mf.n_q_points integrator.quad_index face - 0) 0 (integrator.reinit face)
  constructor
  · intro hk hn
    exact hloop.1 (fun q t => (div_term_body_forces_q_cases op mf _ q t).1 hk)
      (by omega)
  · intro hk
    exact hloop.2.2 (fun q t => (div_term_body_forces_q_cases op mf _ q t).2 hk)

/-- The face body of the body-force pressure-Neumann routine: the boundary-type error on a
face with a quadrature point whose pressure kind is not recognised, a value on a recognised
kind. -/
theorem nbc_body_force_face_cases (op : OperatorDualSplitting dim R T)
    (data : MatrixFree dim R) (face : Nat) (integrator : FaceIntegratorP R) :
    (¬ (op.boundary_descriptor.pressure.get_boundary_type (data.get_boundary_id face)).recognised →
      0 < data.n_q_points integrator.quad_index face →
      local_rhs_ppe_nbc_body_force_term_add_face op data face integrator =
        .error "Boundary type of face is invalid or not implemented.") ∧
    ((op.boundary_descriptor.pressure.get_boundary_type (data.get_boundary_id face)).recognised →
      ∃ it, local_rhs_ppe_nbc_body_force_term_add_face op data face integrator = .ok it) := by
  have hloop := forLoop_cases
    (local_rhs_ppe_nbc_body_force_term_add_q op data
      (op.boundary_descriptor.pressure.get_boundary_type (data.get_boundary_id face)))
    "Boundary type of face is invalid or not implemented."
    (data.n_q_points integrator.quad_index face - 0) 0 (integrator.reinit face)
  constructor
  · intro hk hn
    exact hloop.1 (fun q t => (nbc_body_force_q_cases op data _ q t).1 hk) (by omega)
  · intro hk
    exact hloop.2.2 (fun q t => (nbc_body_force_q_cases op data _ q t).2 hk)

/-- The face body of the numerical-time-derivative routine: the boundary-type error on a
face with a quadrature point whose pressure kind is not recognised, a value on a recognised
kind. -/
theorem nbc_numerical_time_derivative_face_cases (op : OperatorDualSplitting dim R T)
    (data : MatrixFree dim R) (acceleration : VectorType R) (face : Nat)
    (its : TimeDerivativeIntegrators dim R) :
    (¬ (op.boundary_descriptor.pressure.get_boundary_type (data.get_boundary_id face)).recognised →
      0 < data.n_q_points its.integrator_pressure.quad_index face →
      local_rhs_ppe_nbc_numerical_time_derivative_add_face op data acceleration face its =
        .error "Boundary type of face is invalid or not implemented.") ∧
    ((op.boundary_descriptor.pressure.get_boundary_type (data.get_boundary_id face)).recognised →
      ∃ r, local_rhs_ppe_nbc_numerical_time_derivative_add_face op data acceleration face its
        = .ok r) := by
  have hloop := forLoop_cases
    (local_rhs_ppe_nbc_numerical_time_derivative_add_q data
      (op.boundary_descriptor.pressure.get_boundary_type (data.get_boundary_id face))
      ((its.integrator_velocity.reinit face).gather_evaluate data acceleration true false))
    "Boundary type of face is invalid or not implemented."
    (data.n_q_points its.integrator_pressure.quad_index face - 0) 0
    (its.integrator_pressure.reinit face)
  rw [← nbc_numerical_time_derivative_face_pressure op data acceleration face its] at hloop
  constructor
  · intro hk hn
    exact (except_map_error_iff _ _ _).mp
      (hloop.1 (fun q t => (nbc_numerical_time_derivative_q_cases data _ _ q t).1 hk)
        (by omega))
  · intro hk
    exact (except_map_isOk _ _).mp
      (hloop.2.2 (fun q t => (nbc_numerical_time_derivative_q_cases data _ _ q t).2 hk))

/-- The face body of the viscous routine: the boundary-type error on a face with a
quadrature point whose pressure kind is not recognised, a value on a recognised kind. -/
theorem nbc_viscous_face_cases (op : OperatorDualSplitting dim R T)
    (mf : MatrixFree dim R) (src : VectorType R) (face : Nat)
    (its : ViscousIntegrators dim R) :
    (¬ (op.boundary_descriptor.pressure.get_boundary_type (mf.get_boundary_id face)).recognised →
      0 < mf.n_q_points its.pressure.quad_index face →
      local_rhs_ppe_nbc_viscous_add_face op mf src face its =
        .error "Boundary type of face is invalid or not implemented.") ∧
    ((op.boundary_descriptor.pressure.get_boundary_type (mf.get_boundary_id face)).recognised →
      ∃ r, local_rhs_ppe_nbc_viscous_add_face op mf src face its = .ok r) := by
  have hloop := forLoop_cases
    (local_rhs_ppe_nbc_viscous_add_q op mf
      (op.boundary_descriptor.pressure.get_boundary_type (mf.get_boundary_id face)) face
      ((its.omega.reinit face).gather_evaluate mf src false true))
    "Boundary type of face is invalid or not implemented."
    (mf.n_q_points its.pressure.quad_index face - 0) 0 (its.pressure.reinit face)
  rw [← nbc_viscous_face_pressure op mf src face its] at hloop
  constructor
  · intro hk hn
    exact (except_map_error_iff _ _ _).mp
      (hloop.1 (fun q t => (nbc_viscous_q_cases op mf _ face _ q t).1 hk) (by omega))
  · intro hk
    exact (except_map_isOk _ _).mp
      (hloop.2.2 (fun q t => (nbc_viscous_q_cases op mf _ face _ q t).2 hk))

/-- The face body of the convective divergence routine: the boundary-type error on a face
with a quadrature point whose velocity kind is not recognised and on no face of a recognised
kind; a value on a recognised kind if the formulation selector is recognised. -/
theorem div_term_convective_face_cases (op : OperatorDualSplitting dim R T)
    (mf : MatrixFree dim R) (src : VectorType R) (face : Nat)
    (its : ConvectiveIntegrators dim R) :
    (¬ (op.boundary_descriptor.velocity.get_boundary_type (mf.get_boundary_id face)).recognised →
      0 < mf.n_q_points its.pressure.quad_index face →
      local_rhs_ppe_div_term_convective_term_face op mf src face its =
        .error "Boundary type of face is invalid or not implemented.") ∧
    ((op.boundary_descriptor.velocity.get_boundary_type (mf.get_boundary_id face)).recognised →
      local_rhs_ppe_div_term_convective_term_face op mf src face its ≠
        .error "Boundary type of face is invalid or not implemented.") ∧
    ((op.boundary_descriptor.velocity.get_boundary_type (mf.get_boundary_id face)).recognised →
      op.param.formulation_convective_term_bc.recognised →
      ∃ r, local_rhs_ppe_div_term_convective_term_face op mf src face its = .ok r) := by
  have hloop := forLoop_cases
    (local_rhs_ppe_div_term_convective_term_q op mf
      (op.boundary_descriptor.velocity.get_boundary_type (mf.get_boundary_id face))
      ((its.velocity.reinit face).gather_evaluate mf src true true)
      (if op.param.ale_formulation then
        (its.grid_velocity.reinit face).gather_evaluate mf op.grid_velocity true false
       else its.grid_velocity))
    "Boundary type of face is invalid or not implemented."
    (mf.n_q_points its.pressure.quad_index face - 0) 0 (its.pressure.reinit face)
  rw [← div_term_convective_face_pressure op mf src face its] at hloop
  refine ⟨?_, ?_, ?_⟩
  · intro hk hn
    exact (except_map_error_iff _ _ _).mp
      (hloop.1 (fun q t => (div_term_convective_q_cases op mf _ _ _ q t).1 hk) (by omega))
  · intro hk herr
    exact hloop.2.1 (fun q t => (div_term_convective_q_cases op mf _ _ _ q t).2.1 hk)
      ((except_map_error_iff _ _ _).mpr herr)
  · intro hk hform
    apply (except_map_isOk _ _).mp
    apply hloop.2.2
    intro q t
    rcases hk with h | h | h | h
    · exact (div_term_convective_q_cases op mf _ _ _ q t).2.2.2.1 (Or.inl h) hform
    · exact (div_term_convective_q_cases op mf _ _ _ q t).2.2.2.1 (Or.inr h) hform
    · exact (div_term_convective_q_cases op mf _ _ _ q t).2.2.1 (Or.inl h)
    · exact (div_term_convective_q_cases op mf _ _ _ q t).2.2.1 (Or.inr h)

/-- The face body of the convective pressure-Neumann routine: the boundary-type error on a
face with a quadrature point whose pressure kind is not recognised and on no face of a
recognised kind; a value on a recognised kind if the formulation selector is recognised. -/
theorem nbc_convective_face_cases (op : OperatorDualSplitting dim R T)
    (mf : MatrixFree dim R) (src : VectorType R) (face : Nat)
    (its : ConvectiveIntegrators dim R) :
    (¬ (op.boundary_descriptor.pressure.get_boundary_type (mf.get_boundary_id face)).recognised →
      0 < mf.n_q_points its.pressure.quad_index face →
      local_rhs_ppe_nbc_convective_add_face op mf src face its =
        .error "Boundary type of face is invalid or not implemented.") ∧
    ((op.boundary_descriptor.pressure.get_boundary_type (mf.get_boundary_id face)).recognised →
      local_rhs_ppe_nbc_convective_add_face op mf src face its ≠
        .error "Boundary type of face is invalid or not implemented.") ∧
    ((op.boundary_descriptor.pressure.get_boundary_type (mf.get_boundary_id face)).recognised →
      op.param.formulation_convective_term_bc.recognised →
      ∃ r, local_rhs_ppe_nbc_convective_add_face op mf src face its = .ok r) := by
  have hloop := forLoop_cases
    (local_rhs_ppe_nbc_convective_add_q op mf
      (op.boundary_descriptor.pressure.get_boundary_type (mf.get_boundary_id face))
      ((its.velocity.reinit face).gather_evaluate mf src true true)
      (if op.param.ale_formulation then
        (its.grid_velocity.reinit face).gather_evaluate mf op.grid_velocity true false
       else its.grid_velocity))
    "Boundary type of face is invalid or not implemented."
    (mf.n_q_points its.pressure.quad_index face - 0) 0 (its.pressure.reinit face)
  rw [← nbc_convective_face_pressure op mf src face its] at hloop
  refine ⟨?_, ?_, ?_⟩
  · intro hk hn
    exact (except_map_error_iff _ _ _).mp
      (hloop.1 (fun q t => (nbc_convective_q_cases op mf _ _ _ q t).1 hk) (by omega))
  · intro hk herr
    exact hloop.2.1 (fun q t => (nbc_convective_q_cases op mf _ _ _ q t).2.1 hk)
      ((except_map_error_iff _ _ _).mpr herr)
  · intro hk hform
    apply (except_map_isOk _ _).mp
    apply hloop.2.2
    intro q t
    rcases hk with h | h
    · exact (nbc_convective_q_cases op mf _ _ _ q t).2.2.2.1 h hform
    · exact (nbc_convective_q_cases op mf _ _ _ q t).2.2.1 h

/-- C11: each of the six boundary-face right-hand-side routines, on a face with at least one
quadrature point whose boundary kind it does not recognise (velocity kind for the two
divergence routines, pressure kind for the four pressure-Neumann routines), throws with the
message "Boundary type of face is invalid or not implemented."; on a face of a recognised
kind none of them throws that error: the four routines without a formulation selector return
a value, and so do the two convective routines when the selector is recognised (with an
unrecognised selector their only error is "Not implemented."). -/
theorem boundary_kind_errors (op : OperatorDualSplitting dim R T) (mf : MatrixFree dim R)
    (src : VectorType R) (face : Nat) (integrator : FaceIntegratorP R)
    (its : ConvectiveIntegrators dim R) (its_t : TimeDerivativeIntegrators dim R)
    (its_v : ViscousIntegrators dim R) :
    ((¬ (op.boundary_descriptor.velocity.get_boundary_type
            (mf.get_boundary_id face)).recognised →
        (0 < mf.n_q_points integrator.quad_index face →
          local_rhs_ppe_div_term_body_forces_face op mf face integrator =
            .error "Boundary type of face is invalid or not implemented.") ∧
        (0 < mf.n_q_points its.pressure.quad_index face →
          local_rhs_ppe_div_term_convective_term_face op mf src face its =
            .error "Boundary type of face is invalid or not implemented.")) ∧
      ((op.boundary_descriptor.velocity.get_boundary_type
            (mf.get_boundary_id face)).recognised →
        (∃ it, local_rhs_ppe_div_term_body_forces_face op mf face integrator = .ok it) ∧
        local_rhs_ppe_div_term_convective_term_face op mf src face its ≠
          .error "Boundary type of face is invalid or not implemented." ∧
        (op.param.formulation_convective_term_bc.recognised →
          ∃ r, local_rhs_ppe_div_term_convective_term_face op mf src face its = .ok r))) ∧
    ((¬ (op.boundary_descriptor.pressure.get_boundary_type
            (mf.get_boundary_id face)).recognised →
        (0 < mf.n_q_points its_t.integrator_pressure.quad_index face →
          local_rhs_ppe_nbc_numerical_time_derivative_add_face op mf src face its_t =
            .error "Boundary type of face is invalid or not implemented.") ∧
        (0 < mf.n_q_points integrator.quad_index face →
          local_rhs_ppe_nbc_body_force_term_add_face op mf face integrator =
            .error "Boundary type of face is invalid or not implemented.") ∧
        (0 < mf.n_q_points its.pressure.quad_index face →
          local_rhs_ppe_nbc_convective_add_face op mf src face its =
            .error "Boundary type of face is invalid or not implemented.") ∧
        (0 < mf.n_q_points its_v.pressure.quad_index face →
          local_rhs_ppe_nbc_viscous_add_face op mf src face its_v =
            .error "Boundary type of face is invalid or not implemented.")) ∧
      ((op.boundary_descriptor.pressure.get_boundary_type
            (mf.get_boundary_id face)).recognised →
        (∃ r, local_rhs_ppe_nbc_numerical_time_derivative_add_face op mf src face its_t
          = .ok r) ∧
        (∃ it, local_rhs_ppe_nbc_body_force_term_add_face op mf face integrator = .ok it) ∧
        local_rhs_ppe_nbc_convective_add_face op mf src face its ≠
          .error "Boundary type of face is invalid or not implemented." ∧
        (op.param.formulation_convective_term_bc.recognised →
          ∃ r, local_rhs_ppe_nbc_convective_add_face op mf src face its = .ok r) ∧
        (∃ r, local_rhs_ppe_nbc_viscous_add_face op mf src face its_v = .ok r))) := by
  have h1 := div_term_body_forces_face_cases op mf face integrator
  have h2 := div_term_convective_face_cases op mf src face its
  have h3 := nbc_numerical_time_derivative_face_cases op mf src face its_t
  have h4 := nbc_body_force_face_cases op mf face integrator
  have h5 := nbc_convective_face_cases op mf src face its
  have h6 := nbc_viscous_face_cases op mf src face its_v
  refine ⟨⟨?_, ?_⟩, ⟨?_, ?_⟩⟩
  · intro hk
    exact ⟨h1.1 hk, h2.1 hk⟩
  · intro hk
    exact ⟨h1.2 hk, h2.2.1 hk, h2.2.2 hk⟩
  · intro hk
    exact ⟨h3.1 hk, h4.1 hk, h5.1 hk, h6.1 hk⟩
  · intro hk
    exact ⟨h3.2 hk, h4.2 hk, h5.2.1 hk, h5.2.2 hk, h6.2 hk⟩

/-- C11, on the sample configuration (two quadrature points per face). Face 4 has neither a
recognised velocity kind nor a recognised pressure kind: all six routines throw the
boundary-type error there. Face 0 is of velocity kind Dirichlet and pressure kind Neumann and
the formulation selector is recognised: all six routines return. -/
theorem boundary_kind_errors_witness :
    (local_rhs_ppe_div_term_body_forces_face sample_op sample_mf 4 (FaceIntegratorP.create 1 1)
        = .error "Boundary type of face is invalid or not implemented." ∧
      local_rhs_ppe_div_term_convective_term_face sample_op sample_mf sample_src 4 sample_its
        = .error "Boundary type of face is invalid or not implemented." ∧
      local_rhs_ppe_nbc_numerical_time_derivative_add_face sample_op sample_mf sample_src 4
          sample_its_time_derivative
        = .error "Boundary type of face is invalid or not implemented." ∧
      local_rhs_ppe_nbc_body_force_term_add_face sample_op sample_mf 4
          (FaceIntegratorP.create 1 1)
        = .error "Boundary type of face is invalid or not implemented." ∧
      local_rhs_ppe_nbc_convective_add_face sample_op sample_mf sample_src 4 sample_its
        = .error "Boundary type of face is invalid or not implemented." ∧
      local_rhs_ppe_nbc_viscous_add_face sample_op sample_mf sample_src 4 sample_its_viscous
        = .error "Boundary type of face is invalid or not implemented.") ∧
    ((∃ it, local_rhs_ppe_div_term_body_forces_face sample_op sample_mf 0
        (FaceIntegratorP.create 1 1) = .ok it) ∧
      (∃ r, local_rhs_ppe_div_term_convective_term_face sample_op sample_mf sample_src 0
        sample_its = .ok r) ∧
      (∃ r, local_rhs_ppe_nbc_numerical_time_derivative_add_face sample_op sample_mf sample_src
        0 sample_its_time_derivative = .ok r) ∧
      (∃ it, local_rhs_ppe_nbc_body_force_term_add_face sample_op sample_mf 0
        (FaceIntegratorP.create 1 1) = .ok it) ∧
      (∃ r, local_rhs_ppe_nbc_convective_add_face sample_op sample_mf sample_src 0 sample_its
        = .ok r) ∧
      (∃ r, local_rhs_ppe_nbc_viscous_add_face sample_op sample_mf sample_src 0
        sample_its_viscous = .ok r)) := by
  have h4 := boundary_kind_errors sample_op sample_mf sample_src 4 (FaceIntegratorP.create 1 1)
    sample_its sample_its_time_derivative sample_its_viscous
  have h0 := boundary_kind_errors sample_op sample_mf sample_src 0 (FaceIntegratorP.create 1 1)
    sample_its sample_its_time_derivative sample_its_viscous
  have hu := h4.1.1 (by decide)
  have hp := h4.2.1 (by decide)
  have hu0 := h0.1.2 (by decide)
  have hp0 := h0.2.2 (by decide)
  exact ⟨⟨hu.1 (by decide), hu.2 (by decide), hp.1 (by decide), hp.2.1 (by decide),
      hp.2.2.1 (by decide), hp.2.2.2 (by decide)⟩,
    ⟨hu0.1, hu0.2.2 (by decide), hp0.1, hp0.2.1, hp0.2.2.2.1 (by decide), hp0.2.2.2.2⟩⟩

end BoundaryKindErrors

section InterpolationErrors

variable {dim : Nat} {R T : Type}

/-- The nodal-point loop of the interpolation routine returns on a Dirichlet or
cached-Dirichlet face. -/
theorem interpolate_loop_ok (op : OperatorDualSplitting dim R T)
    (matrix_free : MatrixFree dim R) (dof_index quad_index face boundary_id : Nat)
    (kind : BoundaryTypeU)
    (hkind : kind = BoundaryTypeU.Dirichlet ∨ kind = BoundaryTypeU.DirichletCached)
    (n first : Nat) (it : FaceIntegratorU dim R) :
    ∃ it', forLoop
      (local_interpolate_velocity_dirichlet_bc_q op matrix_free dof_index quad_index face
        boundary_id kind) n first it = .ok it' := by
  apply forLoop_ok_of_body
  intro q t _ _
  rcases hkind with h | h
  · exact ⟨_, by simp [local_interpolate_velocity_dirichlet_bc_q, h]; rfl⟩
  · exact ⟨_, by simp [local_interpolate_velocity_dirichlet_bc_q, h]; rfl⟩

/-- C12: the face body of `local_interpolate_velocity_dirichlet_bc_boundary_face` throws
exactly when the velocity kind of the face is none of Dirichlet, DirichletCached, Neumann,
Symmetry (the message is "BoundaryTypeU not implemented."); on a Neumann or Symmetry face it
returns the integrator and the destination vector it was given, unchanged. -/
theorem interpolate_velocity_dirichlet_bc_face_errors (op : OperatorDualSplitting dim R T)
    (matrix_free : MatrixFree dim R) (dof_index quad_index face : Nat)
    (s : FaceIntegratorU dim R × VectorType R) :
    ((∃ e, local_interpolate_velocity_dirichlet_bc_face op matrix_free dof_index quad_index
          face s = .error e) ↔
        ¬ (op.boundary_descriptor.velocity.get_boundary_type
            (matrix_free.get_boundary_id face)).recognised) ∧
    (¬ (op.boundary_descriptor.velocity.get_boundary_type
          (matrix_free.get_boundary_id face)).recognised →
      local_interpolate_velocity_dirichlet_bc_face op matrix_free dof_index quad_index face s
        = .error "BoundaryTypeU not implemented.") ∧
    (op.boundary_descriptor.velocity.get_boundary_type (matrix_free.get_boundary_id face)
          = BoundaryTypeU.Neumann ∨
        op.boundary_descriptor.velocity.get_boundary_type (matrix_free.get_boundary_id face)
          = BoundaryTypeU.Symmetry →
      local_interpolate_velocity_dirichlet_bc_face op matrix_free dof_index quad_index face s
        = .ok s) := by
  have hD : (op.boundary_descriptor.velocity.get_boundary_type
        (matrix_free.get_boundary_id face) = BoundaryTypeU.Dirichlet ∨
      op.boundary_descriptor.velocity.get_boundary_type
        (matrix_free.get_boundary_id face) = BoundaryTypeU.DirichletCached) →
      ∃ r, local_interpolate_velocity_dirichlet_bc_face op matrix_free dof_index quad_index
        face s = .ok r := by
    intro hk
    obtain ⟨it', hit⟩ := interpolate_loop_ok op matrix_free dof_index quad_index face
      (matrix_free.get_boundary_id face) _ hk
      (matrix_free.n_q_points s.1.quad_index face - 0) 0
      ((s.1.reinit face).read_dof_values matrix_free s.2)
    refine ⟨(it', it'.set_dof_values matrix_free s.2), ?_⟩
    unfold local_interpolate_velocity_dirichlet_bc_face forRange
    simp only [if_pos hk]
    erw [hit]
    rfl
  have hN : (op.boundary_descriptor.velocity.get_boundary_type
        (matrix_free.get_boundary_id face) = BoundaryTypeU.Neumann ∨
      op.boundary_descriptor.velocity.get_boundary_type
        (matrix_free.get_boundary_id face) = BoundaryTypeU.Symmetry) →
      local_interpolate_velocity_dirichlet_bc_face op matrix_free dof_index quad_index face s
        = .ok s := by
    intro hk
    unfold local_interpolate_velocity_dirichlet_bc_face
    rcases hk with h | h <;> simp [h]
  have hU : ¬ (op.boundary_descriptor.velocity.get_boundary_type
        (matrix_free.get_boundary_id face)).recognised →
      local_interpolate_velocity_dirichlet_bc_face op matrix_free dof_index quad_index face s
        = .error "BoundaryTypeU not implemented." := by
    intro hk
    unfold local_interpolate_velocity_dirichlet_bc_face
    unfold BoundaryTypeU.recognised at hk
    cases hkind : op.boundary_descriptor.velocity.get_boundary_type
        (matrix_free.get_boundary_id face) <;> simp [hkind] at hk ⊢
  refine ⟨⟨?_, ?_⟩, hU, hN⟩
  · rintro ⟨e, he⟩ hk
    rcases hk with h | h | h | h
    · obtain ⟨r, hr⟩ := hD (Or.inl h)
      rw [hr] at he
      cases he
    · obtain ⟨r, hr⟩ := hD (Or.inr h)
      rw [hr] at he
      cases he
    · rw [hN (Or.inl h)] at he
      cases he
    · rw [hN (Or.inr h)] at he
      cases he
  · intro hk
    exact ⟨_, hU hk⟩

/-- C12, on the sample configuration: on face 4 (no recognised velocity kind) the face body
throws, on face 2 (Neumann) and face 3 (Symmetry) it returns its argument. -/
theorem interpolate_velocity_dirichlet_bc_face_errors_witness :
    local_interpolate_velocity_dirichlet_bc_face sample_op sample_mf 0 3 4
        (FaceIntegratorU.create 0 3, sample_src) = .error "BoundaryTypeU not implemented." ∧
      local_interpolate_velocity_dirichlet_bc_face sample_op sample_mf 0 3 2
        (FaceIntegratorU.create 0 3, sample_src) = .ok (FaceIntegratorU.create 0 3, sample_src) ∧
      local_interpolate_velocity_dirichlet_bc_face sample_op sample_mf 0 3 3
        (FaceIntegratorU.create 0 3, sample_src) = .ok (FaceIntegratorU.create 0 3, sample_src) :=
  ⟨(interpolate_velocity_dirichlet_bc_face_errors sample_op sample_mf 0 3 4
      (FaceIntegratorU.create 0 3, sample_src)).2.1 (by decide),
    (interpolate_velocity_dirichlet_bc_face_errors sample_op sample_mf 0 3 2
      (FaceIntegratorU.create 0 3, sample_src)).2.2 (Or.inl rfl),
    (interpolate_velocity_dirichlet_bc_face_errors sample_op sample_mf 0 3 3
      (FaceIntegratorU.create 0 3, sample_src)).2.2 (Or.inr rfl)⟩

end InterpolationErrors

section FormulationErrors

variable {dim : Nat} {R T : Type} [CommRing R]

/-- A step followed by a step that cannot throw throws exactly when the first one does. -/
theorem except_bind_ok_error_iff {α β : Type} (m : Except String α) (f : α → β) :
    (∃ e, (m >>= fun x => (Except.ok (f x) : Except String β)) = .error e) ↔
      ∃ e, m = .error e := by
  cases m <;> simp [bind, Except.bind]

/-- A step followed by a step that cannot throw returns the image of what the first one
returns. -/
theorem except_bind_ok_eq {α β : Type} (m : Except String α) (f : α → β) (y : β)
    (h : (m >>= fun x => (Except.ok (f x) : Except String β)) = .ok y) :
    ∃ x, m = .ok x ∧ f x = y := by
  cases m with
  | error e => simp [bind, Except.bind] at h
  | ok x =>
    refine ⟨x, rfl, ?_⟩
    simpa [bind, Except.bind] using h

/-- With an unrecognised formulation selector the quadrature-loop body of the convective
divergence routine throws exactly on the kinds other than Neumann and Symmetry. -/
theorem div_term_convective_q_error_iff (op : OperatorDualSplitting dim R T)
    (mf : MatrixFree dim R) (kind : BoundaryTypeU) (velocity grid_velocity : FaceIntegratorU dim R)
    (q : Nat) (it : FaceIntegratorP R)
    (hsel : ¬ op.param.formulation_convective_term_bc.recognised) :
    (∃ e, local_rhs_ppe_div_term_convective_term_q op mf kind velocity grid_velocity q it
        = .error e) ↔
      ¬ (kind = BoundaryTypeU.Neumann ∨ kind = BoundaryTypeU.Symmetry) := by
  unfold FormulationConvectiveTerm.recognised at hsel
  cases kind <;> cases hf : op.param.formulation_convective_term_bc <;>
    simp [local_rhs_ppe_div_term_convective_term_q, hf, bind, Except.bind] at hsel ⊢

/-- A pass of the quadrature loop of the convective divergence routine that returns keeps the
quadrature index of the pressure integrator. -/
theorem div_term_convective_q_quad_index (op : OperatorDualSplitting dim R T)
    (mf : MatrixFree dim R) (kind : BoundaryTypeU) (velocity grid_velocity : FaceIntegratorU dim R)
    (q : Nat) (it it' : FaceIntegratorP R)
    (h : local_rhs_ppe_div_term_convective_term_q op mf kind velocity grid_velocity q it
      = .ok it') :
    it'.quad_index = it.quad_index := by
  cases kind <;> cases hf : op.param.formulation_convective_term_bc <;>
    simp [local_rhs_ppe_div_term_convective_term_q, hf, bind, Except.bind] at h <;>
    (rw [← h]; rfl)

/-- With an unrecognised formulation selector the quadrature-loop body of the convective
pressure-Neumann routine throws exactly on the kinds other than Dirichlet. -/
theorem nbc_convective_q_error_iff (op : OperatorDualSplitting dim R T)
    (mf : MatrixFree dim R) (kind : BoundaryTypeP) (velocity grid_velocity : FaceIntegratorU dim R)
    (q : Nat) (it : FaceIntegratorP R)
    (hsel : ¬ op.param.formulation_convective_term_bc.recognised) :
    (∃ e, local_rhs_ppe_nbc_convective_add_q op mf kind velocity grid_velocity q it
        = .error e) ↔
      ¬ (kind = BoundaryTypeP.Dirichlet) := by
  unfold FormulationConvectiveTerm.recognised at hsel
  cases kind <;> cases hf : op.param.formulation_convective_term_bc <;>
    simp [local_rhs_ppe_nbc_convective_add_q, hf, bind, Except.bind] at hsel ⊢

/-- A pass of the quadrature loop of the convective pressure-Neumann routine that returns
keeps the quadrature index of the pressure integrator. -/
theorem nbc_convective_q_quad_index (op : OperatorDualSplitting dim R T)
    (mf : MatrixFree dim R) (kind : BoundaryTypeP) (velocity grid_velocity : FaceIntegratorU dim R)
    (q : Nat) (it it' : FaceIntegratorP R)
    (h : local_rhs_ppe_nbc_convective_add_q op mf kind velocity grid_velocity q it = .ok it') :
    it'.quad_index = it.quad_index := by
  cases kind <;> cases hf : op.param.formulation_convective_term_bc <;>
    simp [local_rhs_ppe_nbc_convective_add_q, hf, bind, Except.bind] at h <;>
    (rw [← h]; rfl)

/-- With an unrecognised formulation selector the face body of the convective divergence
routine throws exactly on a face with a quadrature point whose velocity kind is neither
Neumann nor Symmetry. -/
theorem div_term_convective_face_error_iff (op : OperatorDualSplitting dim R T)
    (mf : MatrixFree dim R) (src : VectorType R) (face : Nat)
    (its : ConvectiveIntegrators dim R)
    (hsel : ¬ op.param.formulation_convective_term_bc.recognised) :
    (∃ e, local_rhs_ppe_div_term_convective_term_face op mf src face its = .error e) ↔
      (0 < mf.n_q_points its.pressure.quad_index face ∧
        ¬ (op.boundary_descriptor.velocity.get_boundary_type (mf.get_boundary_id face)
              = BoundaryTypeU.Neumann ∨
            op.boundary_descriptor.velocity.get_boundary_type (mf.get_boundary_id face)
              = BoundaryTypeU.Symmetry)) := by
  have hmap : (∃ e, local_rhs_ppe_div_term_convective_term_face op mf src face its = .error e) ↔
      ∃ e, Except.map ConvectiveIntegrators.pressure
        (local_rhs_ppe_div_term_convective_term_face op mf src face its) = .error e := by
    constructor
    · rintro ⟨e, he⟩
      exact ⟨e, (except_map_error_iff _ _ _).mpr he⟩
    · rintro ⟨e, he⟩
      exact ⟨e, (except_map_error_iff _ _ _).mp he⟩
  rw [hmap, div_term_convective_face_pressure,
    forLoop_error_iff _ (fun _ => True) _ (fun _ _ _ _ _ => trivial)
      (fun q it _ => div_term_convective_q_error_iff op mf _ _ _ q it hsel) _ 0 _ trivial]
  constructor
  · rintro ⟨q, _, hq, hP⟩
    exact ⟨by omega, hP⟩
  · rintro ⟨hn, hP⟩
    exact ⟨0, Nat.le_refl _, by omega, hP⟩

/-- The face body of the convective divergence routine keeps the quadrature index of the
pressure integrator. -/
theorem div_term_convective_face_quad_index (op : OperatorDualSplitting dim R T)
    (mf : MatrixFree dim R) (src : VectorType R) (face : Nat)
    (its r : ConvectiveIntegrators dim R)
    (h : local_rhs_ppe_div_term_convective_term_face op mf src face its = .ok r) :
    r.pressure.quad_index = its.pressure.quad_index := by
  have hmap := div_term_convective_face_pressure op mf src face its
  rw [h] at hmap
  exact forLoop_invariant _ (fun it => it.quad_index = its.pressure.quad_index)
    (fun q it it' hit hb =>
      (div_term_convective_q_quad_index op mf _ _ _ q it it' hb).trans hit)
    _ 0 _ _ rfl hmap.symm

/-- With an unrecognised formulation selector the face body of the convective
pressure-Neumann routine throws exactly on a face with a quadrature point whose pressure
kind is not Dirichlet. -/
theorem nbc_convective_face_error_iff (op : OperatorDualSplitting dim R T)
    (mf : MatrixFree dim R) (src : VectorType R) (face : Nat)
    (its : ConvectiveIntegrators dim R)
    (hsel : ¬ op.param.formulation_convective_term_bc.recognised) :
    (∃ e, local_rhs_ppe_nbc_convective_add_face op mf src face its = .error e) ↔
      (0 < mf.n_q_points its.pressure.quad_index face ∧
        ¬ (op.boundary_descriptor.pressure.get_boundary_type (mf.get_boundary_id face)
              = BoundaryTypeP.Dirichlet)) := by
  have hmap : (∃ e, local_rhs_ppe_nbc_convective_add_face op mf src face its = .error e) ↔
      ∃ e, Except.map ConvectiveIntegrators.pressure
        (local_rhs_ppe_nbc_convective_add_face op mf src face its) = .error e := by
    constructor
    · rintro ⟨e, he⟩
      exact ⟨e, (except_map_error_iff _ _ _).mpr he⟩
    · rintro ⟨e, he⟩
      exact ⟨e, (except_map_error_iff _ _ _).mp he⟩
  rw [hmap, nbc_convective_face_pressure,
    forLoop_error_iff _ (fun _ => True) _ (fun _ _ _ _ _ => trivial)
      (fun q it _ => nbc_convective_q_error_iff op mf _ _ _ q it hsel) _ 0 _ trivial]
  constructor
  · rintro ⟨q, _, hq, hP⟩
    exact ⟨by omega, hP⟩
  · rintro ⟨hn, hP⟩
    exact ⟨0, Nat.le_refl _, by omega, hP⟩

/-- The face body of the convective pressure-Neumann routine keeps the quadrature index of
the pressure integrator. -/
theorem nbc_convective_face_quad_index (op : OperatorDualSplitting dim R T)
    (mf : MatrixFree dim R) (src : VectorType R) (face : Nat)
    (its r : ConvectiveIntegrators dim R)
    (h : local_rhs_ppe_nbc_convective_add_face op mf src face its = .ok r) :
    r.pressure.quad_index = its.pressure.quad_index := by
  have hmap := nbc_convective_face_pressure op mf src face its
  rw [h] at hmap
  exact forLoop_invariant _ (fun it => it.quad_index = its.pressure.quad_index)
    (fun q it it' hit hb =>
      (nbc_convective_q_quad_index op mf _ _ _ q it it' hb).trans hit)
    _ 0 _ _ rfl hmap.symm

/-- With an unrecognised formulation selector the convective divergence routine throws on a
range of faces exactly when the range holds a face with a quadrature point whose velocity
kind is neither Neumann nor Symmetry. -/
theorem div_term_convective_boundary_face_error_iff (op : OperatorDualSplitting dim R T)
    (mf : MatrixFree dim R) (src dst : VectorType R) (face_range : Nat × Nat)
    (hsel : ¬ op.param.formulation_convective_term_bc.recognised) :
    (∃ e, local_rhs_ppe_div_term_convective_term_boundary_face op mf src dst face_range
        = .error e) ↔
      ∃ face, face_range.1 ≤ face ∧ face < face_range.2 ∧
        0 < mf.n_q_points op.quad_index_velocity_overintegration face ∧
        ¬ (op.boundary_descriptor.velocity.get_boundary_type (mf.get_boundary_id face)
              = BoundaryTypeU.Neumann ∨
            op.boundary_descriptor.velocity.get_boundary_type (mf.get_boundary_id face)
              = BoundaryTypeU.Symmetry) := by
  unfold local_rhs_ppe_div_term_convective_term_boundary_face forRange
  simp only []
  rw [except_bind_ok_error_iff,
    forLoop_error_iff _
      (fun s : ConvectiveIntegrators dim R × VectorType R =>
        s.1.pressure.quad_index = op.quad_index_velocity_overintegration)
      (fun face => 0 < mf.n_q_points op.quad_index_velocity_overintegration face ∧
        ¬ (op.boundary_descriptor.velocity.get_boundary_type (mf.get_boundary_id face)
              = BoundaryTypeU.Neumann ∨
            op.boundary_descriptor.velocity.get_boundary_type (mf.get_boundary_id face)
              = BoundaryTypeU.Symmetry))
      (by
        intro face s s' hs hb
        obtain ⟨its, hits, hs'⟩ := except_bind_ok_eq _ _ _ hb
        rw [← hs']
        exact (div_term_convective_face_quad_index op mf src face s.1 its hits).trans hs)
      (by
        intro face s hs
        rw [except_bind_ok_error_iff, div_term_convective_face_error_iff op mf src face s.1 hsel,
          hs])
      _ _ _ rfl]
  constructor
  · rintro ⟨face, h1, h2, h3⟩
    exact ⟨face, h1, by omega, h3⟩
  · rintro ⟨face, h1, h2, h3⟩
    exact ⟨face, h1, by omega, h3⟩

/-- With an unrecognised formulation selector the convective pressure-Neumann routine throws
on a range of faces exactly when the range holds a face with a quadrature point whose
pressure kind is not Dirichlet. -/
theorem nbc_convective_boundary_face_error_iff (op : OperatorDualSplitting dim R T)
    (mf : MatrixFree dim R) (src dst : VectorType R) (face_range : Nat × Nat)
    (hsel : ¬ op.param.formulation_convective_term_bc.recognised) :
    (∃ e, local_rhs_ppe_nbc_convective_add_boundary_face op mf src dst face_range
        = .error e) ↔
      ∃ face, face_range.1 ≤ face ∧ face < face_range.2 ∧
        0 < mf.n_q_points op.quad_index_velocity_overintegration face ∧
        ¬ (op.boundary_descriptor.pressure.get_boundary_type (mf.get_boundary_id face)
              = BoundaryTypeP.Dirichlet) := by
  unfold local_rhs_ppe_nbc_convective_add_boundary_face forRange
  simp only []
  rw [except_bind_ok_error_iff,
    forLoop_error_iff _
      (fun s : ConvectiveIntegrators dim R × VectorType R =>
        s.1.pressure.quad_index = op.quad_index_velocity_overintegration)
      (fun face => 0 < mf.n_q_points op.quad_index_velocity_overintegration face ∧
        ¬ (op.boundary_descriptor.pressure.get_boundary_type (mf.get_boundary_id face)
              = BoundaryTypeP.Dirichlet))
      (by
        intro face s s' hs hb
        obtain ⟨its, hits, hs'⟩ := except_bind_ok_eq _ _ _ hb
        rw [← hs']
        exact (nbc_convective_face_quad_index op mf src face s.1 its hits).trans hs)
      (by
        intro face s hs
        rw [except_bind_ok_error_iff, nbc_convective_face_error_iff op mf src face s.1 hsel,
          hs])
      _ _ _ rfl]
  constructor
  · rintro ⟨face, h1, h2, h3⟩
    exact ⟨face, h1, by omega, h3⟩
  · rintro ⟨face, h1, h2, h3⟩
    exact ⟨face, h1, by omega, h3⟩

/-- C13 (amended): with a formulation selector that is neither `DivergenceFormulation` nor
`ConvectiveFormulation`, `rhs_ppe_div_term_convective_term_add` throws exactly when one of the
boundary face ranges holds a face with a quadrature point whose velocity kind is neither
Neumann nor Symmetry, and `rhs_ppe_nbc_convective_add` throws exactly when one of them holds
a face with a quadrature point whose pressure kind is not Dirichlet. On a mesh all of whose
boundary faces are of these kinds the routines return, whatever the selector. -/
theorem convective_selector_error_iff (op : OperatorDualSplitting dim R T)
    (mf : MatrixFree dim R) (boundary_face_ranges : List (Nat × Nat)) (dst src : VectorType R)
    (hsel : ¬ op.param.formulation_convective_term_bc.recognised) :
    ((∃ e, rhs_ppe_div_term_convective_term_add op mf boundary_face_ranges dst src
          = .error e) ↔
        ∃ r ∈ boundary_face_ranges, ∃ face, r.1 ≤ face ∧ face < r.2 ∧
          0 < mf.n_q_points op.quad_index_velocity_overintegration face ∧
          ¬ (op.boundary_descriptor.velocity.get_boundary_type (mf.get_boundary_id face)
                = BoundaryTypeU.Neumann ∨
              op.boundary_descriptor.velocity.get_boundary_type (mf.get_boundary_id face)
                = BoundaryTypeU.Symmetry)) ∧
    ((∃ e, rhs_ppe_nbc_convective_add op mf boundary_face_ranges dst src = .error e) ↔
        ∃ r ∈ boundary_face_ranges, ∃ face, r.1 ≤ face ∧ face < r.2 ∧
          0 < mf.n_q_points op.quad_index_velocity_overintegration face ∧
          ¬ (op.boundary_descriptor.pressure.get_boundary_type (mf.get_boundary_id face)
                = BoundaryTypeP.Dirichlet)) := by
  constructor
  · unfold rhs_ppe_div_term_convective_term_add MatrixFree.loop
    exact foldlM_error_iff _ _
      (fun r s => div_term_convective_boundary_face_error_iff op mf src s r hsel) _ dst
  · unfold rhs_ppe_nbc_convective_add MatrixFree.loop
    exact foldlM_error_iff _ _
      (fun r s => nbc_convective_boundary_face_error_iff op mf src s r hsel) _ dst

/-- C13 (amended), on the sample configuration with an unrecognised selector: over the faces
0 to 3 both routines throw, since face 0 is of velocity kind Dirichlet and of pressure kind
Neumann. -/
theorem convective_selector_error_iff_witness :
    (∃ e, rhs_ppe_div_term_convective_term_add sample_op_undefined_formulation sample_mf
        [(0, 4)] sample_src sample_src = .error e) ∧
    (∃ e, rhs_ppe_nbc_convective_add sample_op_undefined_formulation sample_mf
        [(0, 4)] sample_src sample_src = .error e) := by
  have h := convective_selector_error_iff sample_op_undefined_formulation sample_mf [(0, 4)]
    sample_src sample_src (by decide)
  constructor
  · exact h.1.mpr ⟨(0, 4), List.mem_singleton.mpr rfl, 0, by decide, by decide, by decide,
      by decide⟩
  · exact h.2.mpr ⟨(0, 4), List.mem_singleton.mpr rfl, 0, by decide, by decide, by decide,
      by decide⟩

/-- C13 as stated fails: the sample operator with the selector `Undefined`, on a mesh whose
boundary faces 2 and 3 (velocity kinds Neumann and Symmetry) have two quadrature points each,
lets `rhs_ppe_div_term_convective_term_add` return; and on a mesh whose only boundary face 1
(pressure kind Dirichlet) has two quadrature points, lets `rhs_ppe_nbc_convective_add`
return. -/
theorem convective_selector_counterexample :
    sample_op_undefined_formulation.param.formulation_convective_term_bc
        = FormulationConvectiveTerm.Undefined ∧
      0 < sample_mf.n_q_points
        sample_op_undefined_formulation.quad_index_velocity_overintegration 2 ∧
      0 < sample_mf.n_q_points
        sample_op_undefined_formulation.quad_index_velocity_overintegration 1 ∧
      (∃ d, rhs_ppe_div_term_convective_term_add sample_op_undefined_formulation sample_mf
        [(2, 4)] sample_src sample_src = .ok d) ∧
      (∃ d, rhs_ppe_nbc_convective_add sample_op_undefined_formulation sample_mf
        [(1, 2)] sample_src sample_src = .ok d) :=
  ⟨rfl, by decide, by decide, ⟨_, rfl⟩, ⟨_, rfl⟩⟩

end FormulationErrors

section MaskLemmas

variable {dim : Nat} {R T : Type}

/-- A face of recognised velocity kind is in exactly one of the two velocity masks. -/
theorem velocity_masks_partition (op : OperatorDualSplitting dim R T) (mf : MatrixFree dim R)
    (face : Nat)
    (h : (op.boundary_descriptor.velocity.get_boundary_type
      (mf.get_boundary_id face)).recognised) :
    (velocity_dirichlet_faces op mf face = true ∧ velocity_neumann_faces op mf face = false) ∨
      (velocity_dirichlet_faces op mf face = false ∧
        velocity_neumann_faces op mf face = true) := by
  unfold velocity_dirichlet_faces velocity_neumann_faces
  unfold BoundaryTypeU.recognised at h
  cases hk : op.boundary_descriptor.velocity.get_boundary_type (mf.get_boundary_id face) <;>
    simp [hk] at h ⊢

/-- A face of recognised pressure kind is in exactly one of the two pressure masks. -/
theorem pressure_masks_partition (op : OperatorDualSplitting dim R T) (mf : MatrixFree dim R)
    (face : Nat)
    (h : (op.boundary_descriptor.pressure.get_boundary_type
      (mf.get_boundary_id face)).recognised) :
    (pressure_dirichlet_faces op mf face = true ∧ pressure_neumann_faces op mf face = false) ∨
      (pressure_dirichlet_faces op mf face = false ∧
        pressure_neumann_faces op mf face = true) := by
  unfold pressure_dirichlet_faces pressure_neumann_faces
  unfold BoundaryTypeP.recognised at h
  cases hk : op.boundary_descriptor.pressure.get_boundary_type (mf.get_boundary_id face) <;>
    simp [hk] at h ⊢

end MaskLemmas

section MultigridLemmas

variable {T VTop V : Type}

/-- An invariant that every pass of a loop over levels carries from its level to the next
holds after the loop. -/
theorem for_levels_loop_invariant {σ : Type} (body : Nat → σ → σ) (Inv : Nat → σ → Prop)
    (count : Nat) :
    ∀ (first : Nat) (s : σ), Inv first s →
      (∀ level s, first ≤ level → level < first + count → Inv level s →
        Inv (level + 1) (body level s)) →
      Inv (first + count) (for_levels_loop body count first s) := by
  induction count with
  | zero =>
    intro first s h0 _
    exact h0
  | succ count ih =>
    intro first s h0 hstep
    have h1 := hstep first s (Nat.le_refl _) (by omega) h0
    have h2 := ih (first + 1) (body first s) h1
      (fun level t hl hlt ht => hstep level t (by omega) (by omega) ht)
    have hidx : first + 1 + count = first + (count + 1) := by omega
    rw [hidx] at h2
    exact h2

/-- A loop over levels that calls one method on the operator of each level: the operators of
the levels visited are replaced by what the method makes of them, the calls are logged in the
order of the levels, nothing else changes. -/
theorem for_levels_loop_call_operator (method : Nat → MomentumOperator T V → MomentumOperator T V)
    (ev : Nat → Event) (count : Nat) :
    ∀ (first : Nat) (mg : MultigridPreconditioner T V),
      for_levels_loop
          (fun level (mg : MultigridPreconditioner T V) =>
            mg.call_operator level (method level) (ev level))
          count first mg =
        { mg with
          operators := fun l =>
            (if first ≤ l ∧ l < first + count then method l (mg.operators l)
             else mg.operators l)
          log := mg.log ++ (List.range' first count).map ev } := by
  induction count with
  | zero =>
    intro first mg
    cases mg with
    | mk d t m c f ops lg =>
      simp only [for_levels_loop, List.range'_zero, List.map_nil, List.append_nil,
        Nat.add_zero]
      congr 1
      funext l
      have hl : ¬ (first ≤ l ∧ l < first) := by omega
      simp [hl]
  | succ count ih =>
    intro first mg
    simp only [for_levels_loop]
    rw [ih (first + 1)]
    simp only [MultigridPreconditioner.call_operator]
    congr 1
    · funext l
      by_cases hl : l = first
      · subst hl
        have h1 : ¬ (l + 1 ≤ l ∧ l < l + 1 + count) := by omega
        have h2 : l ≤ l ∧ l < l + (count + 1) := ⟨Nat.le_refl _, by omega⟩
        simp [h1, h2]
      · by_cases h1 : first + 1 ≤ l ∧ l < first + 1 + count
        · have h2 : first ≤ l ∧ l < first + (count + 1) := ⟨by omega, by omega⟩
          simp [h1, h2, Function.update_noteq hl]
        · have h2 : ¬ (first ≤ l ∧ l < first + (count + 1)) := by
            intro h3
            exact h1 ⟨by omega, by omega⟩
          simp [h1, h2, Function.update_noteq hl]
    · simp [List.range'_succ, List.append_assoc]

/-- The base initialisation builds, for every level from coarse to fine, an operator whose
data are the data of the preconditioner with the two indices of that level, and leaves the
data of the preconditioner unchanged up to the two indices. -/
theorem base_initialize_data (env : MultigridEnvironment T VTop V)
    (pde_operator : MomentumOperator T VTop) (mg : MultigridPreconditioner T V)
    (coarse_level fine_level : Nat) :
    (∃ di qi,
      (MultigridPreconditioner.base_initialize env pde_operator mg coarse_level
          fine_level).data =
        { mg.data with dof_index := di, quad_index := qi }) ∧
    ∀ l, coarse_level ≤ l → l ≤ fine_level →
      ((MultigridPreconditioner.base_initialize env pde_operator mg coarse_level
          fine_level).operators l).data =
        { mg.data with
          dof_index := env.get_dof_index l
          quad_index := env.get_quad_index l } := by
  have h := for_levels_loop_invariant
    (fun level (mg : MultigridPreconditioner T V) =>
      let r := MultigridPreconditioner.initialize_operator env pde_operator mg level
      { r.1 with operators := Function.update r.1.operators level r.2 })
    (fun k (s : MultigridPreconditioner T V) =>
      (∃ di qi, s.data = { mg.data with dof_index := di, quad_index := qi }) ∧
      ∀ l, coarse_level ≤ l → l < k →
        (s.operators l).data =
          { mg.data with
            dof_index := env.get_dof_index l
            quad_index := env.get_quad_index l })
    (fine_level + 1 - coarse_level) coarse_level
    (({ mg with coarse_level := coarse_level, fine_level := fine_level } :
      MultigridPreconditioner T V).record Event.base_initialize)
    (by
      refine ⟨⟨mg.data.dof_index, mg.data.quad_index, rfl⟩, ?_⟩
      intro l h1 h2
      omega)
    (by
      rintro level s _ _ ⟨⟨di, qi, hd⟩, hops⟩
      refine ⟨⟨env.get_dof_index level, env.get_quad_index level, ?_⟩, ?_⟩
      · simp [ MultigridPreconditioner.initialize_operator, MultigridPreconditioner.record, hd]
      · intro l h1 h2
        by_cases hl : l = level
        · subst hl
          simp [ MultigridPreconditioner.initialize_operator, MultigridPreconditioner.record,
            MomentumOperator.initialize, MomentumOperator.set_scaling_factor_mass_matrix, hd]
        · simp only [MultigridPreconditioner.initialize_operator,
            MultigridPreconditioner.record, Function.update_noteq hl]
          exact hops l h1 (by omega))
  refine ⟨h.1, ?_⟩
  intro l h1 h2
  exact h.2 l h1 (by omega)

end MultigridLemmas

section MultigridInitialize

variable {T VTop V : Type}

/-- C15: `initialize` called with `mg_operator_type = Undefined` throws "Invalid parameter
mg_operator_type.", whatever the other arguments are, and it throws before
`Base::initialize` is invoked: at the throw nothing has been added to the log of calls and no
level operator has been touched. -/
theorem initialize_undefined_throws (env : MultigridEnvironment T VTop V)
    (mg : MultigridPreconditioner T V) (coarse_level fine_level : Nat)
    (pde_operator : MomentumOperator T VTop) (mesh_is_moving : Bool) :
    ∃ s : MultigridPreconditioner T V,
      MultigridPreconditioner.initialize env mg coarse_level fine_level pde_operator
          MultigridOperatorType.Undefined mesh_is_moving =
        .error ("Invalid parameter mg_operator_type.", s) ∧
      s.log = mg.log ∧ s.operators = mg.operators := by
  refine ⟨{ mg with
      mg_operator_type := MultigridOperatorType.Undefined
      mesh_is_moving := mesh_is_moving
      data := pde_operator.get_data }, ?_, rfl, rfl⟩
  simp [ MultigridPreconditioner.initialize]

/-- C16: `initialize` called with `mg_operator_type = ReactionConvectionDiffusion` throws
exactly when the data of the top-level operator have `convective_problem == false` (the
message is "Invalid parameter." and `Base::initialize` has not been invoked); when they have
`convective_problem == true` it returns and the data stored in the preconditioner have
`convective_problem == true`. -/
theorem initialize_reaction_convection_diffusion (env : MultigridEnvironment T VTop V)
    (mg : MultigridPreconditioner T V) (coarse_level fine_level : Nat)
    (pde_operator : MomentumOperator T VTop) (mesh_is_moving : Bool) :
    ((∃ e, MultigridPreconditioner.initialize env mg coarse_level fine_level pde_operator
          MultigridOperatorType.ReactionConvectionDiffusion mesh_is_moving = .error e) ↔
        pde_operator.get_data.convective_problem = false) ∧
    (pde_operator.get_data.convective_problem = false →
      ∃ s : MultigridPreconditioner T V,
        MultigridPreconditioner.initialize env mg coarse_level fine_level pde_operator
            MultigridOperatorType.ReactionConvectionDiffusion mesh_is_moving =
          .error ("Invalid parameter.", s) ∧ s.log = mg.log) ∧
    (pde_operator.get_data.convective_problem = true →
      ∃ mg' : MultigridPreconditioner T V,
        MultigridPreconditioner.initialize env mg coarse_level fine_level pde_operator
            MultigridOperatorType.ReactionConvectionDiffusion mesh_is_moving = .ok mg' ∧
          mg'.data.convective_problem = true) := by
  have hfalse : pde_operator.get_data.convective_problem = false →
      ∃ s : MultigridPreconditioner T V,
        MultigridPreconditioner.initialize env mg coarse_level fine_level pde_operator
            MultigridOperatorType.ReactionConvectionDiffusion mesh_is_moving =
          .error ("Invalid parameter.", s) ∧ s.log = mg.log := by
    intro h
    refine ⟨{ mg with
      mg_operator_type := MultigridOperatorType.ReactionConvectionDiffusion
      mesh_is_moving := mesh_is_moving
      data := pde_operator.get_data }, ?_, rfl⟩
    simp [ MultigridPreconditioner.initialize, h]
  have htrue : pde_operator.get_data.convective_problem = true →
      ∃ mg' : MultigridPreconditioner T V,
        MultigridPreconditioner.initialize env mg coarse_level fine_level pde_operator
            MultigridOperatorType.ReactionConvectionDiffusion mesh_is_moving = .ok mg' ∧
          mg'.data.convective_problem = true := by
    intro h
    refine ⟨_, by simp [ MultigridPreconditioner.initialize, h]; rfl, ?_⟩
    obtain ⟨di, qi, hd⟩ := (base_initialize_data env pde_operator
      ({ mg with
        mg_operator_type := MultigridOperatorType.ReactionConvectionDiffusion
        mesh_is_moving := mesh_is_moving
        data := pde_operator.get_data } : MultigridPreconditioner T V)
      coarse_level fine_level).1
    rw [hd]
    exact h
  refine ⟨⟨?_, ?_⟩, hfalse, htrue⟩
  · rintro ⟨e, he⟩
    cases hc : pde_operator.get_data.convective_problem with
    | false => rfl
    | true =>
      obtain ⟨mg', hmg', _⟩ := htrue hc
      rw [hmg'] at he
      cases he
  · intro h
    obtain ⟨s, hs, _⟩ := hfalse h
    exact ⟨_, hs⟩

/-- C16, on the sample configuration: with a top-level operator without convective term the
call throws, with the convective sample operator it returns with `convective_problem` set. -/
theorem initialize_reaction_convection_diffusion_witness :
    (∃ s : MultigridPreconditioner ℤ ℤ,
      MultigridPreconditioner.initialize sample_env sample_mg 0 2 sample_pde_operator_diffusive
          MultigridOperatorType.ReactionConvectionDiffusion false =
        .error ("Invalid parameter.", s) ∧ s.log = sample_mg.log) ∧
    (∃ mg' : MultigridPreconditioner ℤ ℤ,
      MultigridPreconditioner.initialize sample_env sample_mg 0 2 sample_pde_operator
          MultigridOperatorType.ReactionConvectionDiffusion false = .ok mg' ∧
        mg'.data.convective_problem = true) :=
  ⟨(initialize_reaction_convection_diffusion sample_env sample_mg 0 2
      sample_pde_operator_diffusive false).2.1 rfl,
    (initialize_reaction_convection_diffusion sample_env sample_mg 0 2
      sample_pde_operator false).2.2 rfl⟩

/-- C17: `initialize` called with `mg_operator_type = ReactionDiffusion` returns, and the
data with which the operator of every level from coarse to fine has been built are the data
of the top-level operator (`get_data()`) with `convective_problem` set to false, whatever it
was, and with `dof_index` and `quad_index` set by `initialize_operator` to the indices of the
level; the data kept in the preconditioner differ from these in the two indices only. -/
theorem initialize_reaction_diffusion_data (env : MultigridEnvironment T VTop V)
    (mg : MultigridPreconditioner T V) (coarse_level fine_level : Nat)
    (pde_operator : MomentumOperator T VTop) (mesh_is_moving : Bool) :
    ∃ mg' : MultigridPreconditioner T V,
      MultigridPreconditioner.initialize env mg coarse_level fine_level pde_operator
          MultigridOperatorType.ReactionDiffusion mesh_is_moving = .ok mg' ∧
        (∀ l, coarse_level ≤ l → l ≤ fine_level →
          (mg'.operators l).data =
            { pde_operator.get_data with
              convective_problem := false
              dof_index := env.get_dof_index l
              quad_index := env.get_quad_index l }) ∧
        ∃ di qi,
          mg'.data =
            { pde_operator.get_data with
              convective_problem := false, dof_index := di, quad_index := qi } := by
  have hbase := base_initialize_data env pde_operator
    ({ mg with
      mg_operator_type := MultigridOperatorType.ReactionDiffusion
      mesh_is_moving := mesh_is_moving
      data := { pde_operator.get_data with convective_problem := false } } :
      MultigridPreconditioner T V)
    coarse_level fine_level
  refine ⟨_, by simp [ MultigridPreconditioner.initialize]; rfl, ?_, ?_⟩
  · intro l h1 h2
    exact hbase.2 l h1 h2
  · exact hbase.1

/-- C17, on the sample configuration with levels 0 to 2 and a convective top-level operator:
the operator of level 1 is built with the data of the top-level operator, `convective_problem`
false and the indices 1 and 11 of the level. -/
theorem initialize_reaction_diffusion_data_witness :
    ∃ mg' : MultigridPreconditioner ℤ ℤ,
      MultigridPreconditioner.initialize sample_env sample_mg 0 2 sample_pde_operator
          MultigridOperatorType.ReactionDiffusion false = .ok mg' ∧
        (mg'.operators 1).data =
          { unsteady_problem := true, convective_problem := false, viscous_problem := true,
            use_cell_based_loops := false, dof_index := 1, quad_index := 11, other := 7 } := by
  obtain ⟨mg', hmg', hops, _⟩ :=
    initialize_reaction_diffusion_data sample_env sample_mg 0 2 sample_pde_operator false
  refine ⟨mg', hmg', ?_⟩
  rw [hops 1 (by decide) (by decide)]
  rfl

end MultigridInitialize

section MultigridUpdateLemmas

variable {T VTop V : Type}

/-- The function `set_time` in closed form. -/
theorem set_time_eq (mg : MultigridPreconditioner T V) (time : T) :
    mg.set_time time =
      { mg with
        operators := fun l =>
          (if mg.coarse_level ≤ l ∧ l < mg.coarse_level + (mg.fine_level + 1 - mg.coarse_level)
            then (mg.operators l).set_time time else mg.operators l)
        log := mg.log ++
          (List.range' mg.coarse_level (mg.fine_level + 1 - mg.coarse_level)).map
            Event.set_time } := by
  unfold MultigridPreconditioner.set_time for_levels
  exact for_levels_loop_call_operator (fun _ op => op.set_time time) Event.set_time _ _ mg

/-- The function `set_scaling_factor_time_derivative_term` in closed form. -/
theorem set_scaling_factor_time_derivative_term_eq (mg : MultigridPreconditioner T V)
    (factor : T) :
    mg.set_scaling_factor_time_derivative_term factor =
      { mg with
        operators := fun l =>
          (if mg.coarse_level ≤ l ∧ l < mg.coarse_level + (mg.fine_level + 1 - mg.coarse_level)
            then (mg.operators l).set_scaling_factor_mass_matrix factor else mg.operators l)
        log := mg.log ++
          (List.range' mg.coarse_level (mg.fine_level + 1 - mg.coarse_level)).map
            Event.set_scaling_factor_mass_matrix } := by
  unfold MultigridPreconditioner.set_scaling_factor_time_derivative_term for_levels
  exact for_levels_loop_call_operator
    (fun _ op => op.set_scaling_factor_mass_matrix factor)
    Event.set_scaling_factor_mass_matrix _ _ mg

/-- The function `update_operators_after_mesh_movement` in closed form. -/
theorem update_operators_after_mesh_movement_eq (env : MultigridEnvironment T VTop V)
    (mg : MultigridPreconditioner T V) :
    mg.update_operators_after_mesh_movement env =
      { mg with
        operators := fun l =>
          (if mg.coarse_level ≤ l ∧ l < mg.coarse_level + (mg.fine_level + 1 - mg.coarse_level)
            then env.update_after_mesh_movement (mg.operators l) else mg.operators l)
        log := mg.log ++
          (List.range' mg.coarse_level (mg.fine_level + 1 - mg.coarse_level)).map
            Event.update_after_mesh_movement } := by
  unfold MultigridPreconditioner.update_operators_after_mesh_movement for_levels
  exact for_levels_loop_call_operator (fun _ => env.update_after_mesh_movement)
    Event.update_after_mesh_movement _ _ mg

/-- The loop of `set_vector_linearization` started at `level`: the operators of the levels
from `level` upwards are untouched; for every level `l` above the coarse level and up to
`level` the velocity of level `l - 1` is the transfer from level `l` of the velocity of level
`l`; times, scaling factors and data of all operators and the other members of the
preconditioner are unchanged. -/
theorem set_vector_linearization_loop_spec (env : MultigridEnvironment T VTop V)
    (coarse_level : Nat) :
    ∀ (level : Nat) (mg : MultigridPreconditioner T V),
      (∀ l, level ≤ l →
        (MultigridPreconditioner.set_vector_linearization_loop env coarse_level level
          mg).operators l = mg.operators l) ∧
      (∀ l, coarse_level < l → l ≤ level →
        ∃ dst,
          ((MultigridPreconditioner.set_vector_linearization_loop env coarse_level level
              mg).operators (l - 1)).velocity =
            env.interpolate l dst
              ((MultigridPreconditioner.set_vector_linearization_loop env coarse_level level
                mg).operators l).velocity) ∧
      (∀ l,
        ((MultigridPreconditioner.set_vector_linearization_loop env coarse_level level
            mg).operators l).time = (mg.operators l).time ∧
        ((MultigridPreconditioner.set_vector_linearization_loop env coarse_level level
            mg).operators l).scaling_factor_mass_matrix =
          (mg.operators l).scaling_factor_mass_matrix ∧
        ((MultigridPreconditioner.set_vector_linearization_loop env coarse_level level
            mg).operators l).data = (mg.operators l).data) := by
  intro level
  induction level with
  | zero =>
    intro mg
    refine ⟨fun l _ => rfl, ?_, fun l => ⟨rfl, rfl, rfl⟩⟩
    intro l h1 h2
    omega
  | succ level ih =>
    intro mg
    by_cases hc : level + 1 > coarse_level
    · have hloop : MultigridPreconditioner.set_vector_linearization_loop env coarse_level
          (level + 1) mg =
          MultigridPreconditioner.set_vector_linearization_loop env coarse_level level
            (MultigridPreconditioner.set_vector_linearization_step env (level + 1) mg) := by
        simp [MultigridPreconditioner.set_vector_linearization_loop, hc]
      rw [hloop]
      obtain ⟨hup, hint, hframe⟩ :=
        ih (MultigridPreconditioner.set_vector_linearization_step env (level + 1) mg)
      have hstep_ne : ∀ l, l ≠ level →
          (MultigridPreconditioner.set_vector_linearization_step env (level + 1)
            mg).operators l = mg.operators l := by
        intro l hl
        simp [MultigridPreconditioner.set_vector_linearization_step,
          MultigridPreconditioner.call_operator, MultigridPreconditioner.record,
          Function.update_noteq hl]
      have hstep_eq :
          ((MultigridPreconditioner.set_vector_linearization_step env (level + 1)
            mg).operators level).velocity =
            env.interpolate (level + 1) (mg.operators level).velocity
              (mg.operators (level + 1)).velocity := by
        simp [MultigridPreconditioner.set_vector_linearization_step,
          MultigridPreconditioner.call_operator, MultigridPreconditioner.record,
          MomentumOperator.set_velocity_copy, MomentumOperator.get_velocity]
      refine ⟨?_, ?_, ?_⟩
      · intro l hl
        rw [hup l (by omega), hstep_ne l (by omega)]
      · intro l h1 h2
        by_cases hl : l = level + 1
        · subst hl
          refine ⟨(mg.operators level).velocity, ?_⟩
          have h3 : level + 1 - 1 = level := by omega
          rw [h3, hup level (Nat.le_refl _), hup (level + 1) (by omega),
            hstep_ne (level + 1) (by omega), hstep_eq]
        · exact hint l h1 (by omega)
      · intro l
        obtain ⟨h1, h2, h3⟩ := hframe l
        rw [h1, h2, h3]
        by_cases hl : l = level
        · subst hl
          simp [MultigridPreconditioner.set_vector_linearization_step,
            MultigridPreconditioner.call_operator, MultigridPreconditioner.record,
            MomentumOperator.set_velocity_copy]
        · rw [hstep_ne l hl]
          exact ⟨rfl, rfl, rfl⟩
    · have hloop : MultigridPreconditioner.set_vector_linearization_loop env coarse_level
          (level + 1) mg = mg := by
        simp [MultigridPreconditioner.set_vector_linearization_loop, hc]
      rw [hloop]
      refine ⟨fun l _ => rfl, ?_, fun l => ⟨rfl, rfl, rfl⟩⟩
      intro l h1 h2
      omega

/-- The function `set_vector_linearization`: the finest level holds the vector it is given,
every coarser level down to the coarse level holds the transfer of the velocity of the level
above it, and times, scaling factors and data of the operators are unchanged. -/
theorem set_vector_linearization_spec (env : MultigridEnvironment T VTop V)
    (mg : MultigridPreconditioner T V) (v : V) :
    ((mg.set_vector_linearization env v).operators mg.fine_level).velocity = v ∧
    (∀ l, mg.coarse_level < l → l ≤ mg.fine_level →
      ∃ dst,
        ((mg.set_vector_linearization env v).operators (l - 1)).velocity =
          env.interpolate l dst ((mg.set_vector_linearization env v).operators l).velocity) ∧
    (∀ l,
      ((mg.set_vector_linearization env v).operators l).time = (mg.operators l).time ∧
      ((mg.set_vector_linearization env v).operators l).scaling_factor_mass_matrix =
        (mg.operators l).scaling_factor_mass_matrix ∧
      ((mg.set_vector_linearization env v).operators l).data = (mg.operators l).data) := by
  obtain ⟨hup, hint, hframe⟩ := set_vector_linearization_loop_spec env mg.coarse_level
    mg.fine_level
    (mg.call_operator mg.fine_level (fun op => op.set_velocity_copy v)
      (Event.set_velocity_copy mg.fine_level))
  refine ⟨?_, hint, ?_⟩
  · have h := hup mg.fine_level (Nat.le_refl _)
    simp only [MultigridPreconditioner.set_vector_linearization]
    erw [h]
    simp [MultigridPreconditioner.call_operator, MomentumOperator.set_velocity_copy]
  · intro l
    obtain ⟨h1, h2, h3⟩ := hframe l
    simp only [MultigridPreconditioner.set_vector_linearization]
    erw [h1, h2, h3]
    by_cases hl : l = mg.fine_level
    · subst hl
      simp [MultigridPreconditioner.call_operator, MomentumOperator.set_velocity_copy]
    · simp [MultigridPreconditioner.call_operator, Function.update_noteq hl]

/-- The first two statements of `update_operators()`: levels, operator type and data of the
preconditioner are unchanged; on an unsteady problem every operator from the coarse to the
fine level holds time and scaling factor of the top-level operator; no logged call concerns a
velocity unless it was logged before; nothing depends on the velocity of the top-level
operator. -/
theorem update_operators_levels_spec (env : MultigridEnvironment T VTop V)
    (mg : MultigridPreconditioner T V) (pde_operator : MomentumOperator T VTop) :
    (mg.update_operators_levels env pde_operator).coarse_level = mg.coarse_level ∧
    (mg.update_operators_levels env pde_operator).fine_level = mg.fine_level ∧
    (mg.update_operators_levels env pde_operator).mg_operator_type = mg.mg_operator_type ∧
    (mg.data.unsteady_problem = true →
      ∀ l, mg.coarse_level ≤ l → l ≤ mg.fine_level →
        ((mg.update_operators_levels env pde_operator).operators l).time =
            pde_operator.get_time ∧
          ((mg.update_operators_levels env pde_operator).operators l).scaling_factor_mass_matrix =
            pde_operator.get_scaling_factor_mass_matrix) ∧
    (∀ ev ∈ (mg.update_operators_levels env pde_operator).log,
      ev.concerns_velocity = true → ev ∈ mg.log) ∧
    (∀ v : VTop,
      mg.update_operators_levels env { pde_operator with velocity := v } =
        mg.update_operators_levels env pde_operator) := by
  refine ⟨?_, ?_, ?_, ?_, ?_, ?_⟩
  · cases hm : mg.mesh_is_moving <;> cases hu : mg.data.unsteady_problem <;>
      simp [MultigridPreconditioner.update_operators_levels, set_time_eq,
        set_scaling_factor_time_derivative_term_eq, update_operators_after_mesh_movement_eq,
        hm, hu]
  · cases hm : mg.mesh_is_moving <;> cases hu : mg.data.unsteady_problem <;>
      simp [MultigridPreconditioner.update_operators_levels, set_time_eq,
        set_scaling_factor_time_derivative_term_eq, update_operators_after_mesh_movement_eq,
        hm, hu]
  · cases hm : mg.mesh_is_moving <;> cases hu : mg.data.unsteady_problem <;>
      simp [MultigridPreconditioner.update_operators_levels, set_time_eq,
        set_scaling_factor_time_derivative_term_eq, update_operators_after_mesh_movement_eq,
        hm, hu]
  · intro hu l h1 h2
    have hl : mg.coarse_level ≤ l ∧
        l < mg.coarse_level + (mg.fine_level + 1 - mg.coarse_level) := ⟨h1, by omega⟩
    cases hm : mg.mesh_is_moving <;>
      simp [MultigridPreconditioner.update_operators_levels, set_time_eq,
        set_scaling_factor_time_derivative_term_eq, update_operators_after_mesh_movement_eq,
        hm, hu, hl, MomentumOperator.set_time, MomentumOperator.set_scaling_factor_mass_matrix]
  · intro ev hev hc
    cases hm : mg.mesh_is_moving <;> cases hu : mg.data.unsteady_problem <;>
      simp [MultigridPreconditioner.update_operators_levels, set_time_eq,
        set_scaling_factor_time_derivative_term_eq, update_operators_after_mesh_movement_eq,
        hm, hu] at hev <;>
      cases ev <;> simp [Event.concerns_velocity] at hc <;> simpa using hev
  · intro v
    rfl

/-- With an operator type other than `ReactionConvectionDiffusion`, `update_operators()` is
its first two statements. -/
theorem update_operators_of_not_convective (env : MultigridEnvironment T VTop V)
    (mg : MultigridPreconditioner T V) (pde_operator : MomentumOperator T VTop)
    (h : mg.mg_operator_type ≠ MultigridOperatorType.ReactionConvectionDiffusion) :
    mg.update_operators env pde_operator = mg.update_operators_levels env pde_operator := by
  have htype := (update_operators_levels_spec env mg pde_operator).2.2.1
  unfold MultigridPreconditioner.update_operators
  simp only [htype, if_neg h]

/-- With the operator type `ReactionConvectionDiffusion`, `update_operators()` ends with
`set_vector_linearization` of the converted velocity of the top-level operator. -/
theorem update_operators_of_convective (env : MultigridEnvironment T VTop V)
    (mg : MultigridPreconditioner T V) (pde_operator : MomentumOperator T VTop)
    (h : mg.mg_operator_type = MultigridOperatorType.ReactionConvectionDiffusion) :
    mg.update_operators env pde_operator =
      ((mg.update_operators_levels env pde_operator).record
          Event.pde_operator_get_velocity).set_vector_linearization env
        (env.convert pde_operator.get_velocity) := by
  have htype := (update_operators_levels_spec env mg pde_operator).2.2.1
  unfold MultigridPreconditioner.update_operators
  simp only [htype, h, if_true]

/-- The function `update()`: the operators after it are those after `update_operators()`, run
on the preconditioner with `update_matrix_free()` logged if the mesh is moving. -/
theorem update_operators_of_update (env : MultigridEnvironment T VTop V)
    (mg : MultigridPreconditioner T V) (pde_operator : MomentumOperator T VTop) :
    (mg.update env pde_operator).operators =
      ((if mg.mesh_is_moving then mg.record Event.update_matrix_free
        else mg).update_operators env pde_operator).operators := by
  rfl

/-- Logging `update_matrix_free()` when the mesh is moving changes neither the levels nor the
operator type nor the data nor the operators. -/
theorem update_matrix_free_frame (mg : MultigridPreconditioner T V) :
    (if mg.mesh_is_moving then mg.record Event.update_matrix_free else mg).coarse_level
        = mg.coarse_level ∧
      (if mg.mesh_is_moving then mg.record Event.update_matrix_free else mg).fine_level
        = mg.fine_level ∧
      (if mg.mesh_is_moving then mg.record Event.update_matrix_free else mg).mg_operator_type
        = mg.mg_operator_type ∧
      (if mg.mesh_is_moving then mg.record Event.update_matrix_free else mg).data = mg.data ∧
      (∀ ev ∈ (if mg.mesh_is_moving then mg.record Event.update_matrix_free else mg).log,
        ev.concerns_velocity = true → ev ∈ mg.log) := by
  cases hm : mg.mesh_is_moving
  · simp only [Bool.false_eq_true, if_false]
    exact ⟨trivial, trivial, trivial, trivial, fun ev hev _ => hev⟩
  · refine ⟨rfl, rfl, rfl, rfl, ?_⟩
    intro ev hev hc
    simp [MultigridPreconditioner.record] at hev
    rcases hev with h | h
    · exact h
    · subst h
      simp [Event.concerns_velocity] at hc

end MultigridUpdateLemmas

section MultigridUpdate

variable {T VTop V : Type}

/-- C18: with `mg_operator_type = ReactionDiffusion`, `update()` logs no call that concerns a
velocity (no `get_velocity()` on the top-level operator, no `set_velocity_copy` on a level
operator, no `interpolate` of the transfer) beyond those logged before, and its result, the
state of every level operator included, is the same whatever the linearization velocity of
the top-level operator is. -/
theorem update_reaction_diffusion_ignores_velocity (env : MultigridEnvironment T VTop V)
    (mg : MultigridPreconditioner T V) (pde_operator : MomentumOperator T VTop)
    (h : mg.mg_operator_type = MultigridOperatorType.ReactionDiffusion) :
    (∀ ev ∈ (mg.update env pde_operator).log, ev.concerns_velocity = true → ev ∈ mg.log) ∧
    (∀ v : VTop, mg.update env { pde_operator with velocity := v } =
      mg.update env pde_operator) ∧
    (∀ (v : VTop) (l : Nat),
      (mg.update env { pde_operator with velocity := v }).operators l =
        (mg.update env pde_operator).operators l) := by
  obtain ⟨_, _, htype, _, hlog0⟩ := update_matrix_free_frame mg
  have hne : (if mg.mesh_is_moving then mg.record Event.update_matrix_free
      else mg).mg_operator_type ≠ MultigridOperatorType.ReactionConvectionDiffusion := by
    rw [htype, h]
    decide
  have hupd : ∀ p : MomentumOperator T VTop,
      mg.update env p =
        (((if mg.mesh_is_moving then mg.record Event.update_matrix_free
            else mg).update_operators_levels env p).record Event.update_smoothers).record
          (Event.update_coarse_solver false) := by
    intro p
    unfold MultigridPreconditioner.update
    simp only []
    rw [update_operators_of_not_convective env _ p hne]
  have hindep : ∀ v : VTop, mg.update env { pde_operator with velocity := v } =
      mg.update env pde_operator := by
    intro v
    rw [hupd, hupd]
    rfl
  refine ⟨?_, hindep, ?_⟩
  · intro ev hev hc
    rw [hupd] at hev
    simp only [MultigridPreconditioner.record, List.mem_append, List.mem_singleton] at hev
    rcases hev with (hev | hev) | hev
    · exact hlog0 ev
        ((update_operators_levels_spec env _ pde_operator).2.2.2.2.1 ev hev hc) hc
    · subst hev
      simp [Event.concerns_velocity] at hc
    · subst hev
      simp [Event.concerns_velocity] at hc
  · intro v l
    rw [hindep v]

/-- C18, on the sample preconditioner of type `ReactionDiffusion` (levels 0 to 2, moving
mesh, empty log before): after `update()` no logged call concerns a velocity, and the result
with the top-level velocity replaced by 9 is the same. -/
theorem update_reaction_diffusion_ignores_velocity_witness :
    (∀ ev ∈ (sample_mg_reaction_diffusion.update sample_env sample_pde_operator).log,
      ev.concerns_velocity = true → ev ∈ sample_mg_reaction_diffusion.log) ∧
    sample_mg_reaction_diffusion.update sample_env { sample_pde_operator with velocity := 9 } =
      sample_mg_reaction_diffusion.update sample_env sample_pde_operator :=
  ⟨(update_reaction_diffusion_ignores_velocity sample_env sample_mg_reaction_diffusion
      sample_pde_operator rfl).1,
    (update_reaction_diffusion_ignores_velocity sample_env sample_mg_reaction_diffusion
      sample_pde_operator rfl).2.1 9⟩

/-- C19: after `update()` on an unsteady problem (`data.unsteady_problem == true`), the
operator of every level from `coarse_level` to `fine_level` holds the evaluation time
`pde_operator->get_time()` and the scaling factor
`pde_operator->get_scaling_factor_mass_matrix()` of the top-level operator, whatever the
operator type and whether or not the mesh is moving. -/
theorem update_unsteady_time_and_scaling (env : MultigridEnvironment T VTop V)
    (mg : MultigridPreconditioner T V) (pde_operator : MomentumOperator T VTop)
    (hu : mg.data.unsteady_problem = true) :
    ∀ l, mg.coarse_level ≤ l → l ≤ mg.fine_level →
      ((mg.update env pde_operator).operators l).time = pde_operator.get_time ∧
        ((mg.update env pde_operator).operators l).scaling_factor_mass_matrix =
          pde_operator.get_scaling_factor_mass_matrix := by
  intro l h1 h2
  obtain ⟨hc, hf, htype, hdata, _⟩ := update_matrix_free_frame mg
  have hlev := (update_operators_levels_spec env
    (if mg.mesh_is_moving then mg.record Event.update_matrix_free else mg)
    pde_operator).2.2.2.1 (by rw [hdata]; exact hu) l (by rw [hc]; exact h1)
    (by rw [hf]; exact h2)
  rw [update_operators_of_update]
  by_cases ht : mg.mg_operator_type = MultigridOperatorType.ReactionConvectionDiffusion
  · rw [update_operators_of_convective env _ pde_operator (by rw [htype]; exact ht)]
    obtain ⟨h3, h4, _⟩ := (set_vector_linearization_spec env
      (((if mg.mesh_is_moving then mg.record Event.update_matrix_free
        else mg).update_operators_levels env pde_operator).record
          Event.pde_operator_get_velocity)
      (env.convert pde_operator.get_velocity)).2.2 l
    rw [h3, h4]
    exact hlev
  · rw [update_operators_of_not_convective env _ pde_operator (by rw [htype]; exact ht)]
    exact hlev

/-- C19, on the sample preconditioner of type `ReactionConvectionDiffusion` with levels 0 to
2: after `update()` each of the three level operators is at time 3 with scaling factor 2, the
values of the top-level operator. -/
theorem update_unsteady_time_and_scaling_witness :
    (((sample_mg_reaction_convection_diffusion.update sample_env
          sample_pde_operator).operators 0).time = 3 ∧
      ((sample_mg_reaction_convection_diffusion.update sample_env
          sample_pde_operator).operators 0).scaling_factor_mass_matrix = 2) ∧
    (((sample_mg_reaction_convection_diffusion.update sample_env
          sample_pde_operator).operators 1).time = 3 ∧
      ((sample_mg_reaction_convection_diffusion.update sample_env
          sample_pde_operator).operators 1).scaling_factor_mass_matrix = 2) ∧
    (((sample_mg_reaction_convection_diffusion.update sample_env
          sample_pde_operator).operators 2).time = 3 ∧
      ((sample_mg_reaction_convection_diffusion.update sample_env
          sample_pde_operator).operators 2).scaling_factor_mass_matrix = 2) :=
  ⟨update_unsteady_time_and_scaling sample_env sample_mg_reaction_convection_diffusion
      sample_pde_operator rfl 0 (by decide) (by decide),
    update_unsteady_time_and_scaling sample_env sample_mg_reaction_convection_diffusion
      sample_pde_operator rfl 1 (by decide) (by decide),
    update_unsteady_time_and_scaling sample_env sample_mg_reaction_convection_diffusion
      sample_pde_operator rfl 2 (by decide) (by decide)⟩

/-- C20: after `update()` with `mg_operator_type = ReactionConvectionDiffusion`, the operator
of the fine level holds the velocity of the top-level operator converted to the multigrid
number type, and for every level `l` with `coarse_level < l <= fine_level` the velocity of
level `l - 1` is the result of `transfers.interpolate(l, ., v_l)` for the velocity `v_l` of
level `l`. -/
theorem update_convective_velocity (env : MultigridEnvironment T VTop V)
    (mg : MultigridPreconditioner T V) (pde_operator : MomentumOperator T VTop)
    (h : mg.mg_operator_type = MultigridOperatorType.ReactionConvectionDiffusion) :
    ((mg.update env pde_operator).operators mg.fine_level).velocity =
        env.convert pde_operator.get_velocity ∧
      ∀ l, mg.coarse_level < l → l ≤ mg.fine_level →
        ∃ dst,
          ((mg.update env pde_operator).operators (l - 1)).velocity =
            env.interpolate l dst ((mg.update env pde_operator).operators l).velocity := by
  obtain ⟨hc, hf, htype, _, _⟩ := update_matrix_free_frame mg
  obtain ⟨hc2, hf2, _⟩ := update_operators_levels_spec env
    (if mg.mesh_is_moving then mg.record Event.update_matrix_free else mg) pde_operator
  obtain ⟨hfine, hchain, _⟩ := set_vector_linearization_spec env
    (((if mg.mesh_is_moving then mg.record Event.update_matrix_free
      else mg).update_operators_levels env pde_operator).record
        Event.pde_operator_get_velocity)
    (env.convert pde_operator.get_velocity)
  have hc3 : (((if mg.mesh_is_moving then mg.record Event.update_matrix_free
      else mg).update_operators_levels env pde_operator).record
        Event.pde_operator_get_velocity).coarse_level = mg.coarse_level := hc2.trans hc
  have hf3 : (((if mg.mesh_is_moving then mg.record Event.update_matrix_free
      else mg).update_operators_levels env pde_operator).record
        Event.pde_operator_get_velocity).fine_level = mg.fine_level := hf2.trans hf
  rw [hf3] at hfine
  rw [update_operators_of_update,
    update_operators_of_convective env _ pde_operator (by rw [htype]; exact h)]
  refine ⟨hfine, ?_⟩
  intro l h1 h2
  exact hchain l (by rw [hc3]; exact h1) (by rw [hf3]; exact h2)

/-- C20, on the sample preconditioner of type `ReactionConvectionDiffusion` with levels 0 to
2, where the transfer to the next coarser level maps a fine value `v` at level `l` to
`2 v + l`: after `update()` the velocities of the levels 2, 1, 0 are 5, 12, 25. -/
theorem update_convective_velocity_witness :
    ((sample_mg_reaction_convection_diffusion.update sample_env
        sample_pde_operator).operators 2).velocity = 5 ∧
      ((sample_mg_reaction_convection_diffusion.update sample_env
        sample_pde_operator).operators 1).velocity = 12 ∧
      ((sample_mg_reaction_convection_diffusion.update sample_env
        sample_pde_operator).operators 0).velocity = 25 := by
  obtain ⟨h2, hchain⟩ := update_convective_velocity sample_env
    sample_mg_reaction_convection_diffusion sample_pde_operator rfl
  obtain ⟨d1, h1⟩ := hchain 2 (by decide) (by decide)
  obtain ⟨d0, h0⟩ := hchain 1 (by decide) (by decide)
  have h2' : ((sample_mg_reaction_convection_diffusion.update sample_env
      sample_pde_operator).operators 2).velocity = 5 := h2
  have h1' : ((sample_mg_reaction_convection_diffusion.update sample_env
      sample_pde_operator).operators 1).velocity = 12 := by
    have e : (2 : Nat) - 1 = 1 := rfl
    rw [e, h2'] at h1
    rw [h1]
    rfl
  refine ⟨h2', h1', ?_⟩
  have e : (1 : Nat) - 1 = 0 := rfl
  rw [e, h1'] at h0
  rw [h0]
  rfl

end MultigridUpdate

section MultigridOrderLemmas

variable {T VTop V : Type}

/-- The levels visited from `level + 1` on are `level + 1` followed by those visited from
`level` on, if `level + 1` is above the coarse level. -/
theorem linearization_levels_succ (coarse_level level : Nat) (h : level + 1 > coarse_level) :
    linearization_levels coarse_level (level + 1) =
      (level + 1) :: linearization_levels coarse_level level := by
  unfold linearization_levels
  have e : level + 1 - coarse_level = (level - coarse_level) + 1 := by omega
  rw [e, List.range_succ_eq_map]
  simp only [List.map_cons, List.map_map, Nat.sub_zero]
  congr 1
  apply List.map_congr_left
  intro k _
  simp only [Function.comp]
  omega

/-- No level is visited from a level that is not above the coarse level. -/
theorem linearization_levels_nil (coarse_level level : Nat) (h : ¬ level > coarse_level) :
    linearization_levels coarse_level level = [] := by
  unfold linearization_levels
  have e : level - coarse_level = 0 := by omega
  rw [e]
  rfl

/-- The loop of `set_vector_linearization` started at `level` logs one `interpolate` and one
`set_velocity_copy` for each of the levels `level`, `level - 1`, ..., `coarse_level + 1`, in
this order, and leaves the operators below the coarse level untouched. -/
theorem set_vector_linearization_loop_log (env : MultigridEnvironment T VTop V)
    (coarse_level : Nat) :
    ∀ (level : Nat) (mg : MultigridPreconditioner T V),
      (MultigridPreconditioner.set_vector_linearization_loop env coarse_level level mg).log =
          mg.log ++ (linearization_levels coarse_level level).flatMap linearization_pass_events ∧
        ∀ l, l < coarse_level →
          (MultigridPreconditioner.set_vector_linearization_loop env coarse_level level
            mg).operators l = mg.operators l := by
  intro level
  induction level with
  | zero =>
    intro mg
    simp [MultigridPreconditioner.set_vector_linearization_loop, linearization_levels]
  | succ level ih =>
    intro mg
    by_cases hc : level + 1 > coarse_level
    · have hloop : MultigridPreconditioner.set_vector_linearization_loop env coarse_level
          (level + 1) mg =
          MultigridPreconditioner.set_vector_linearization_loop env coarse_level level
            (MultigridPreconditioner.set_vector_linearization_step env (level + 1) mg) := by
        simp [MultigridPreconditioner.set_vector_linearization_loop, hc]
      obtain ⟨hlog, hop⟩ :=
        ih (MultigridPreconditioner.set_vector_linearization_step env (level + 1) mg)
      rw [hloop, linearization_levels_succ coarse_level level hc]
      refine ⟨?_, ?_⟩
      · rw [hlog]
        simp [MultigridPreconditioner.set_vector_linearization_step,
          MultigridPreconditioner.call_operator, MultigridPreconditioner.record,
          linearization_pass_events]
      · intro l hl
        rw [hop l hl]
        have hne : l ≠ level := by omega
        simp [MultigridPreconditioner.set_vector_linearization_step,
          MultigridPreconditioner.call_operator, MultigridPreconditioner.record,
          Function.update_noteq hne]
    · have hloop : MultigridPreconditioner.set_vector_linearization_loop env coarse_level
          (level + 1) mg = mg := by
        simp [MultigridPreconditioner.set_vector_linearization_loop, hc]
      rw [hloop, linearization_levels_nil coarse_level (level + 1) hc]
      simp

/-- The calls logged by `set_vector_linearization`: `set_velocity_copy` on the fine level,
then the passes of the loop. -/
theorem set_vector_linearization_log (env : MultigridEnvironment T VTop V)
    (mg : MultigridPreconditioner T V) (v : V) :
    (mg.set_vector_linearization env v).log =
      mg.log ++ Event.set_velocity_copy mg.fine_level ::
        (linearization_levels mg.coarse_level mg.fine_level).flatMap
          linearization_pass_events := by
  have h := (set_vector_linearization_loop_log env mg.coarse_level mg.fine_level
    (mg.call_operator mg.fine_level (fun op => op.set_velocity_copy v)
      (Event.set_velocity_copy mg.fine_level))).1
  simp only [MultigridPreconditioner.set_vector_linearization]
  erw [h]
  simp [MultigridPreconditioner.call_operator]

/-- The calls logged by the first two statements of `update_operators()`. -/
theorem update_operators_levels_log (env : MultigridEnvironment T VTop V)
    (mg : MultigridPreconditioner T V) (pde_operator : MomentumOperator T VTop) :
    (mg.update_operators_levels env pde_operator).log =
      mg.log ++
        (if mg.mesh_is_moving then
          (all_levels mg.coarse_level mg.fine_level).map Event.update_after_mesh_movement
         else []) ++
        (if mg.data.unsteady_problem then
          (all_levels mg.coarse_level mg.fine_level).map Event.set_time ++
            (all_levels mg.coarse_level mg.fine_level).map Event.set_scaling_factor_mass_matrix
         else []) := by
  cases hm : mg.mesh_is_moving <;> cases hu : mg.data.unsteady_problem <;>
    simp [MultigridPreconditioner.update_operators_levels, set_time_eq,
      set_scaling_factor_time_derivative_term_eq, update_operators_after_mesh_movement_eq,
      hm, hu, all_levels]

end MultigridOrderLemmas

section MultigridOrder

variable {T VTop V : Type}

/-- C21: the calls logged by `update()` are, for every configuration and in this order:
(1) if and only if `mesh_is_moving`, `update_matrix_free` followed by
`update_after_mesh_movement` on every level from the coarse to the fine level; (2) if and only
if `data.unsteady_problem`, `set_time` on every level followed by
`set_scaling_factor_mass_matrix` on every level; (3) if and only if the operator type is
`ReactionConvectionDiffusion`, the read of the top-level velocity, `set_velocity_copy` on the
fine level and the passes of the restriction loop; (4) always `update_smoothers` and then
`update_coarse_solver(false)`. So every `update_after_mesh_movement` precedes step 3 and the
smoothers and the coarse solver follow all operator updates. -/
theorem update_order (env : MultigridEnvironment T VTop V)
    (mg : MultigridPreconditioner T V) (pde_operator : MomentumOperator T VTop) :
    (mg.update env pde_operator).log =
      mg.log ++
        (if mg.mesh_is_moving then
          Event.update_matrix_free ::
            (all_levels mg.coarse_level mg.fine_level).map Event.update_after_mesh_movement
         else []) ++
        (if mg.data.unsteady_problem then
          (all_levels mg.coarse_level mg.fine_level).map Event.set_time ++
            (all_levels mg.coarse_level mg.fine_level).map Event.set_scaling_factor_mass_matrix
         else []) ++
        (if mg.mg_operator_type = MultigridOperatorType.ReactionConvectionDiffusion then
          Event.pde_operator_get_velocity :: Event.set_velocity_copy mg.fine_level ::
            (linearization_levels mg.coarse_level mg.fine_level).flatMap
              linearization_pass_events
         else []) ++
        [Event.update_smoothers, Event.update_coarse_solver false] := by
  obtain ⟨hc, hf, htype, hdata, _⟩ := update_matrix_free_frame mg
  obtain ⟨hc2, hf2, _⟩ := update_operators_levels_spec env
    (if mg.mesh_is_moving then mg.record Event.update_matrix_free else mg) pde_operator
  have hlog0 : (if mg.mesh_is_moving then mg.record Event.update_matrix_free else mg).log =
      mg.log ++ (if mg.mesh_is_moving then [Event.update_matrix_free] else []) := by
    cases hm : mg.mesh_is_moving <;> simp [MultigridPreconditioner.record]
  have hmov : (if mg.mesh_is_moving then mg.record Event.update_matrix_free
      else mg).mesh_is_moving = mg.mesh_is_moving := by
    cases hm : mg.mesh_is_moving <;> simp [MultigridPreconditioner.record, hm]
  have hlev := update_operators_levels_log env
    (if mg.mesh_is_moving then mg.record Event.update_matrix_free else mg) pde_operator
  rw [hc, hf, hdata, hmov, hlog0] at hlev
  have hupd : (mg.update env pde_operator).log =
      ((if mg.mesh_is_moving then mg.record Event.update_matrix_free
        else mg).update_operators env pde_operator).log ++
        [Event.update_smoothers, Event.update_coarse_solver false] := by
    simp [MultigridPreconditioner.update, MultigridPreconditioner.record]
  rw [hupd]
  by_cases ht : mg.mg_operator_type = MultigridOperatorType.ReactionConvectionDiffusion
  · rw [update_operators_of_convective env _ pde_operator (by rw [htype]; exact ht),
      set_vector_linearization_log]
    have hc3 : (((if mg.mesh_is_moving then mg.record Event.update_matrix_free
        else mg).update_operators_levels env pde_operator).record
          Event.pde_operator_get_velocity).coarse_level = mg.coarse_level := hc2.trans hc
    have hf3 : (((if mg.mesh_is_moving then mg.record Event.update_matrix_free
        else mg).update_operators_levels env pde_operator).record
          Event.pde_operator_get_velocity).fine_level = mg.fine_level := hf2.trans hf
    have hl3 : (((if mg.mesh_is_moving then mg.record Event.update_matrix_free
        else mg).update_operators_levels env pde_operator).record
          Event.pde_operator_get_velocity).log =
        ((if mg.mesh_is_moving then mg.record Event.update_matrix_free
          else mg).update_operators_levels env pde_operator).log ++
          [Event.pde_operator_get_velocity] := rfl
    rw [hc3, hf3, hl3, hlev]
    cases hm : mg.mesh_is_moving <;> cases hu : mg.data.unsteady_problem <;> simp [ht]
  · rw [update_operators_of_not_convective env _ pde_operator (by rw [htype]; exact ht), hlev]
    cases hm : mg.mesh_is_moving <;> cases hu : mg.data.unsteady_problem <;> simp [ht]

/-- The restriction loop started at the coarse level itself does nothing. -/
theorem set_vector_linearization_loop_self (env : MultigridEnvironment T VTop V)
    (level : Nat) (mg : MultigridPreconditioner T V) :
    MultigridPreconditioner.set_vector_linearization_loop env level level mg = mg := by
  cases level <;> simp [MultigridPreconditioner.set_vector_linearization_loop]

/-- C29: with `coarse_level <= fine_level`, `set_vector_linearization` logs
`set_velocity_copy` on the fine level and then one pass (`interpolate(l)`,
`set_velocity_copy` on level `l - 1`) for each of the `fine_level - coarse_level` levels
`l = fine_level, fine_level - 1, ..., coarse_level + 1`, in this order; every level `l` of a
pass and its `l - 1` lie in `[coarse_level, fine_level]` and `l - 1` is below `l` (no wrap);
every operator index of a logged call lies in `[coarse_level, fine_level]`; the operators
outside this range are untouched; with `fine_level == coarse_level` nothing is interpolated
and only the velocity of the single level is installed. -/
theorem set_vector_linearization_order (env : MultigridEnvironment T VTop V)
    (mg : MultigridPreconditioner T V) (v : V) (h : mg.coarse_level ≤ mg.fine_level) :
    (mg.set_vector_linearization env v).log =
        mg.log ++ Event.set_velocity_copy mg.fine_level ::
          (linearization_levels mg.coarse_level mg.fine_level).flatMap
            linearization_pass_events ∧
      (linearization_levels mg.coarse_level mg.fine_level).length =
        mg.fine_level - mg.coarse_level ∧
      (∀ k, k < mg.fine_level - mg.coarse_level →
        (linearization_levels mg.coarse_level mg.fine_level)[k]? = some (mg.fine_level - k)) ∧
      (∀ l ∈ linearization_levels mg.coarse_level mg.fine_level,
        mg.coarse_level < l ∧ l ≤ mg.fine_level ∧ mg.coarse_level ≤ l - 1 ∧ l - 1 < l) ∧
      (∀ l, Event.set_velocity_copy l ∈ Event.set_velocity_copy mg.fine_level ::
          (linearization_levels mg.coarse_level mg.fine_level).flatMap
            linearization_pass_events → mg.coarse_level ≤ l ∧ l ≤ mg.fine_level) ∧
      (∀ l, Event.interpolate l ∈ Event.set_velocity_copy mg.fine_level ::
          (linearization_levels mg.coarse_level mg.fine_level).flatMap
            linearization_pass_events → mg.coarse_level < l ∧ l ≤ mg.fine_level) ∧
      (∀ l, l < mg.coarse_level ∨ mg.fine_level < l →
        (mg.set_vector_linearization env v).operators l = mg.operators l) ∧
      (mg.fine_level = mg.coarse_level →
        (mg.set_vector_linearization env v).log =
            mg.log ++ [Event.set_velocity_copy mg.fine_level] ∧
          (mg.set_vector_linearization env v).operators =
            Function.update mg.operators mg.fine_level
              ((mg.operators mg.fine_level).set_velocity_copy v)) := by
  have hmem : ∀ l ∈ linearization_levels mg.coarse_level mg.fine_level,
      mg.coarse_level < l ∧ l ≤ mg.fine_level ∧ mg.coarse_level ≤ l - 1 ∧ l - 1 < l := by
    intro l hl
    simp only [linearization_levels, List.mem_map, List.mem_range] at hl
    obtain ⟨k, hk, rfl⟩ := hl
    omega
  refine ⟨set_vector_linearization_log env mg v, by simp [linearization_levels], ?_, hmem,
    ?_, ?_, ?_, ?_⟩
  · intro k hk
    simp [linearization_levels, List.getElem?_map, List.getElem?_range hk]
  · intro l hl
    simp only [List.mem_cons, Event.set_velocity_copy.injEq, List.mem_flatMap,
      linearization_pass_events, List.mem_singleton] at hl
    rcases hl with hl | ⟨a, ha, hl⟩
    · omega
    · obtain ⟨h1, h2, h3, h4⟩ := hmem a ha
      simp at hl
      omega
  · intro l hl
    simp only [List.mem_cons, List.mem_flatMap, linearization_pass_events,
      List.mem_singleton] at hl
    rcases hl with hl | ⟨a, ha, hl⟩
    · simp at hl
    · obtain ⟨h1, h2, h3, h4⟩ := hmem a ha
      simp at hl
      omega
  · intro l hl
    have hne : l ≠ mg.fine_level := by omega
    simp only [MultigridPreconditioner.set_vector_linearization]
    rcases hl with hl | hl
    · erw [(set_vector_linearization_loop_log env mg.coarse_level mg.fine_level _).2 l hl]
      simp [MultigridPreconditioner.call_operator, Function.update_noteq hne]
    · erw [(set_vector_linearization_loop_spec env mg.coarse_level mg.fine_level _).1 l
        (Nat.le_of_lt hl)]
      simp [MultigridPreconditioner.call_operator, Function.update_noteq hne]
  · intro he
    have hloop : MultigridPreconditioner.set_vector_linearization_loop env mg.coarse_level
        mg.fine_level
        (mg.call_operator mg.fine_level (fun op => op.set_velocity_copy v)
          (Event.set_velocity_copy mg.fine_level)) =
        mg.call_operator mg.fine_level (fun op => op.set_velocity_copy v)
          (Event.set_velocity_copy mg.fine_level) := by
      rw [he]
      exact set_vector_linearization_loop_self env _ _
    simp only [MultigridPreconditioner.set_vector_linearization]
    erw [hloop]
    simp [MultigridPreconditioner.call_operator]

/-- C29, on the sample preconditioner with the levels 0 to 2 and an empty log: the calls of
`set_vector_linearization` are `set_velocity_copy(2)`, `interpolate(2)`,
`set_velocity_copy(1)`, `interpolate(1)`, `set_velocity_copy(0)`. -/
theorem set_vector_linearization_order_witness :
    sample_mg_reaction_convection_diffusion.coarse_level ≤
        sample_mg_reaction_convection_diffusion.fine_level ∧
      (sample_mg_reaction_convection_diffusion.set_vector_linearization sample_env 5).log =
        [Event.set_velocity_copy 2, Event.interpolate 2, Event.set_velocity_copy 1,
          Event.interpolate 1, Event.set_velocity_copy 0] :=
  ⟨by decide,
    (set_vector_linearization_order sample_env sample_mg_reaction_convection_diffusion 5
      (by decide)).1.trans (by decide)⟩

end MultigridOrder

section HelpersALEHooks

variable {T V σ : Type}

/-- C22: for a default-constructed `HelpersALE`, `move_grid` (for every time),
`update_matrix_free_after_grid_motion` and `fill_grid_coordinates_vector` (for every vector)
throw the message naming the function that has not been implemented, with the state and the
vector as they were given; a hook that has been assigned is the one that is called, and the
other two hooks stay the default ones. -/
theorem helpers_ale_default_hooks :
    (∀ (time : T) (s : σ),
      (HelpersALE.default_constructed : HelpersALE T V σ).move_grid time s =
        .error ("The function move_grid() has not been implemented.", s)) ∧
    (∀ s : σ,
      (HelpersALE.default_constructed :
          HelpersALE T V σ).update_matrix_free_after_grid_motion s =
        .error
          ("The function update_matrix_free_after_grid_motion() has not been implemented.",
            s)) ∧
    (∀ (vector : V) (s : σ),
      (HelpersALE.default_constructed :
          HelpersALE T V σ).fill_grid_coordinates_vector vector s =
        .error ("The function fill_grid_coordinates_vector() has not been implemented.",
          vector, s)) ∧
    (∀ (f : T → σ → Except (String × σ) σ) (time : T) (vector : V) (s : σ),
      ({ (HelpersALE.default_constructed : HelpersALE T V σ) with
          move_grid := f }).move_grid time s = f time s ∧
        ({ (HelpersALE.default_constructed : HelpersALE T V σ) with
            move_grid := f }).update_matrix_free_after_grid_motion s =
          (HelpersALE.default_constructed :
            HelpersALE T V σ).update_matrix_free_after_grid_motion s ∧
        ({ (HelpersALE.default_constructed : HelpersALE T V σ) with
            move_grid := f }).fill_grid_coordinates_vector vector s =
          (HelpersALE.default_constructed :
            HelpersALE T V σ).fill_grid_coordinates_vector vector s) ∧
    (∀ (g : σ → Except (String × σ) σ) (time : T) (vector : V) (s : σ),
      ({ (HelpersALE.default_constructed : HelpersALE T V σ) with
          update_matrix_free_after_grid_motion :=
            g }).update_matrix_free_after_grid_motion s = g s ∧
        ({ (HelpersALE.default_constructed : HelpersALE T V σ) with
            update_matrix_free_after_grid_motion := g }).move_grid time s =
          (HelpersALE.default_constructed : HelpersALE T V σ).move_grid time s ∧
        ({ (HelpersALE.default_constructed : HelpersALE T V σ) with
            update_matrix_free_after_grid_motion :=
              g }).fill_grid_coordinates_vector vector s =
          (HelpersALE.default_constructed :
            HelpersALE T V σ).fill_grid_coordinates_vector vector s) ∧
    (∀ (k : V → σ → Except (String × V × σ) (V × σ)) (time : T) (vector : V) (s : σ),
      ({ (HelpersALE.default_constructed : HelpersALE T V σ) with
          fill_grid_coordinates_vector := k }).fill_grid_coordinates_vector vector s =
          k vector s ∧
        ({ (HelpersALE.default_constructed : HelpersALE T V σ) with
            fill_grid_coordinates_vector := k }).move_grid time s =
          (HelpersALE.default_constructed : HelpersALE T V σ).move_grid time s ∧
        ({ (HelpersALE.default_constructed : HelpersALE T V σ) with
            fill_grid_coordinates_vector := k }).update_matrix_free_after_grid_motion s =
          (HelpersALE.default_constructed :
            HelpersALE T V σ).update_matrix_free_after_grid_motion s) :=
  ⟨fun _ _ => rfl, fun _ => rfl, fun _ _ => rfl, fun _ _ _ _ => ⟨rfl, rfl, rfl⟩,
    fun _ _ _ _ => ⟨rfl, rfl, rfl⟩, fun _ _ _ _ => ⟨rfl, rfl, rfl⟩⟩

end HelpersALEHooks

section PressureDofIndexLemmas

variable {dim : Nat} {R : Type}

/-- A face loop over the single face `face` whose face body leaves a pressure integrator on
`face` with dof index `d` and quadrature index `qi`: what is added to the destination vector
is integrated and distributed with the dof index `d`. -/
theorem single_face_scatter {σ : Type} (mf : MatrixFree dim R) (P : σ → FaceIntegratorP R)
    (body : Nat → σ → Except String σ) (d qi face : Nat) (s0 : σ) (dst result : VectorType R)
    (hbody : ∀ s, body face s0 = .ok s →
      (P s).dof_index = d ∧ (P s).quad_index = qi ∧ (P s).face = face)
    (hres : (do
      let r ← forRange face (face + 1)
        (fun face (s : σ × VectorType R) => do
          let its ← body face s.1
          .ok (its, (P its).integrate_scatter mf s.2))
        (s0, dst)
      (.ok r.2 : Except String (VectorType R))) = .ok result) :
    ∃ values, result =
      mf.distribute_local_to_global d face (mf.integrate d qi face values) dst := by
  have e : face + 1 - face = 1 := by omega
  simp only [forRange, e, forLoop] at hres
  cases hb : body face s0 with
  | error msg =>
    simp [hb, bind, Except.bind] at hres
  | ok s =>
    obtain ⟨h1, h2, h3⟩ := hbody s hb
    simp [hb, bind, Except.bind, FaceIntegratorP.integrate_scatter, h1, h2, h3] at hres
    exact ⟨(P s).values_quad, hres.symm⟩

/-- A quadrature loop whose passes only submit values keeps the indices and the face of the
integrator. -/
theorem forLoop_keeps_indices (body : Nat → FaceIntegratorP R → Except String (FaceIntegratorP R))
    (hbody : ∀ q it it', body q it = .ok it' →
      it'.dof_index = it.dof_index ∧ it'.quad_index = it.quad_index ∧ it'.face = it.face)
    (n first : Nat) (it it' : FaceIntegratorP R) (h : forLoop body n first it = .ok it') :
    it'.dof_index = it.dof_index ∧ it'.quad_index = it.quad_index ∧ it'.face = it.face := by
  refine forLoop_invariant body
    (fun t => t.dof_index = it.dof_index ∧ t.quad_index = it.quad_index ∧ t.face = it.face)
    ?_ n first it it' ⟨rfl, rfl, rfl⟩ h
  intro i s s' hs hb
  obtain ⟨h1, h2, h3⟩ := hbody i s s' hb
  exact ⟨h1.trans hs.1, h2.trans hs.2.1, h3.trans hs.2.2⟩

end PressureDofIndexLemmas

section PressureDofIndex

variable {dim : Nat} {R T : Type} [CommRing R]

/-- The face body of the body-force divergence routine keeps the indices of its integrator
and leaves it on the face. -/
theorem div_term_body_forces_face_indices (op : OperatorDualSplitting dim R T)
    (mf : MatrixFree dim R) (face : Nat) (it it' : FaceIntegratorP R)
    (h : local_rhs_ppe_div_term_body_forces_face op mf face it = .ok it') :
    it'.dof_index = it.dof_index ∧ it'.quad_index = it.quad_index ∧ it'.face = face := by
  unfold local_rhs_ppe_div_term_body_forces_face forRange at h
  refine forLoop_keeps_indices _ ?_ _ _ (it.reinit face) it' h
  intro q t t' ht
  unfold local_rhs_ppe_div_term_body_forces_q at ht
  split_ifs at ht <;> cases ht <;> exact ⟨rfl, rfl, rfl⟩

/-- The face body of the body-force pressure-Neumann routine keeps the indices of its
integrator and leaves it on the face. -/
theorem nbc_body_force_face_indices (op : OperatorDualSplitting dim R T)
    (mf : MatrixFree dim R) (face : Nat) (it it' : FaceIntegratorP R)
    (h : local_rhs_ppe_nbc_body_force_term_add_face op mf face it = .ok it') :
    it'.dof_index = it.dof_index ∧ it'.quad_index = it.quad_index ∧ it'.face = face := by
  unfold local_rhs_ppe_nbc_body_force_term_add_face forRange at h
  refine forLoop_keeps_indices _ ?_ _ _ (it.reinit face) it' h
  intro q t t' ht
  unfold local_rhs_ppe_nbc_body_force_term_add_q at ht
  split_ifs at ht <;> cases ht <;> exact ⟨rfl, rfl, rfl⟩

/-- The face body of the numerical-time-derivative routine keeps the indices of its pressure
integrator and leaves it on the face. -/
theorem nbc_numerical_time_derivative_face_indices (op : OperatorDualSplitting dim R T)
    (mf : MatrixFree dim R) (acceleration : VectorType R) (face : Nat)
    (its its' : TimeDerivativeIntegrators dim R)
    (h : local_rhs_ppe_nbc_numerical_time_derivative_add_face op mf acceleration face its =
      .ok its') :
    its'.integrator_pressure.dof_index = its.integrator_pressure.dof_index ∧
      its'.integrator_pressure.quad_index = its.integrator_pressure.quad_index ∧
      its'.integrator_pressure.face = face := by
  have hp := nbc_numerical_time_derivative_face_pressure op mf acceleration face its
  rw [h] at hp
  refine forLoop_keeps_indices _ ?_ _ _ (its.integrator_pressure.reinit face)
    its'.integrator_pressure hp.symm
  intro q t t' ht
  unfold local_rhs_ppe_nbc_numerical_time_derivative_add_q at ht
  split_ifs at ht <;> cases ht <;> exact ⟨rfl, rfl, rfl⟩

/-- The face body of the viscous routine keeps the indices of its pressure integrator and
leaves it on the face. -/
theorem nbc_viscous_face_indices (op : OperatorDualSplitting dim R T)
    (mf : MatrixFree dim R) (src : VectorType R) (face : Nat)
    (its its' : ViscousIntegrators dim R)
    (h : local_rhs_ppe_nbc_viscous_add_face op mf src face its = .ok its') :
    its'.pressure.dof_index = its.pressure.dof_index ∧
      its'.pressure.quad_index = its.pressure.quad_index ∧ its'.pressure.face = face := by
  have hp := nbc_viscous_face_pressure op mf src face its
  rw [h] at hp
  refine forLoop_keeps_indices _ ?_ _ _ (its.pressure.reinit face) its'.pressure hp.symm
  intro q t t' ht
  unfold local_rhs_ppe_nbc_viscous_add_q at ht
  split_ifs at ht <;> cases ht <;> exact ⟨rfl, rfl, rfl⟩

/-- The face body of the convective divergence routine keeps the indices of its pressure
integrator and leaves it on the face. -/
theorem div_term_convective_face_indices (op : OperatorDualSplitting dim R T)
    (mf : MatrixFree dim R) (src : VectorType R) (face : Nat)
    (its its' : ConvectiveIntegrators dim R)
    (h : local_rhs_ppe_div_term_convective_term_face op mf src face its = .ok its') :
    its'.pressure.dof_index = its.pressure.dof_index ∧
      its'.pressure.quad_index = its.pressure.quad_index ∧ its'.pressure.face = face := by
  have hp := div_term_convective_face_pressure op mf src face its
  rw [h] at hp
  refine forLoop_keeps_indices _ ?_ _ _ (its.pressure.reinit face) its'.pressure hp.symm
  intro q t t' ht
  unfold local_rhs_ppe_div_term_convective_term_q at ht
  split_ifs at ht <;> simp [bind, Except.bind] at ht <;> subst ht <;> exact ⟨rfl, rfl, rfl⟩

/-- The face body of the convective pressure-Neumann routine keeps the indices of its
pressure integrator and leaves it on the face. -/
theorem nbc_convective_face_indices (op : OperatorDualSplitting dim R T)
    (mf : MatrixFree dim R) (src : VectorType R) (face : Nat)
    (its its' : ConvectiveIntegrators dim R)
    (h : local_rhs_ppe_nbc_convective_add_face op mf src face its = .ok its') :
    its'.pressure.dof_index = its.pressure.dof_index ∧
      its'.pressure.quad_index = its.pressure.quad_index ∧ its'.pressure.face = face := by
  have hp := nbc_convective_face_pressure op mf src face its
  rw [h] at hp
  refine forLoop_keeps_indices _ ?_ _ _ (its.pressure.reinit face) its'.pressure hp.symm
  intro q t t' ht
  unfold local_rhs_ppe_nbc_convective_add_q at ht
  split_ifs at ht <;> simp [bind, Except.bind] at ht <;> subst ht <;> exact ⟨rfl, rfl, rfl⟩

end PressureDofIndex

section PressureDofIndexClaim

variable {dim : Nat} {R T : Type} [CommRing R]

/-- C23: on a range of one boundary face, what `local_rhs_ppe_nbc_viscous_add_boundary_face`
adds to the destination vector is integrated and distributed by its pressure integrator with
the dof index `get_quad_index_pressure()`, whereas the other three pressure-Neumann routines
and the two velocity-divergence routines do so with `get_dof_index_pressure()`; the pressure
integrator the viscous routine constructs is the one constructed from
`get_dof_index_pressure()` if and only if the two indices are equal. -/
theorem viscous_pressure_dof_index (op : OperatorDualSplitting dim R T)
    (mf : MatrixFree dim R) (src dst : VectorType R) (face : Nat) :
    (∀ result,
      local_rhs_ppe_nbc_viscous_add_boundary_face op mf src dst (face, face + 1) = .ok result →
      ∃ values, result =
        mf.distribute_local_to_global op.quad_index_pressure face
          (mf.integrate op.quad_index_pressure op.quad_index_velocity_standard face values)
          dst) ∧
    (∀ result,
      local_rhs_ppe_nbc_numerical_time_derivative_add_boundary_face op mf src dst
        (face, face + 1) = .ok result →
      ∃ values, result =
        mf.distribute_local_to_global op.dof_index_pressure face
          (mf.integrate op.dof_index_pressure op.quad_index_velocity_standard face values)
          dst) ∧
    (∀ result,
      local_rhs_ppe_nbc_body_force_term_add_boundary_face op mf dst (face, face + 1) =
        .ok result →
      ∃ values, result =
        mf.distribute_local_to_global op.dof_index_pressure face
          (mf.integrate op.dof_index_pressure op.quad_index_pressure face values) dst) ∧
    (∀ result,
      local_rhs_ppe_nbc_convective_add_boundary_face op mf src dst (face, face + 1) =
        .ok result →
      ∃ values, result =
        mf.distribute_local_to_global op.dof_index_pressure face
          (mf.integrate op.dof_index_pressure op.quad_index_velocity_overintegration face
            values) dst) ∧
    (∀ result,
      local_rhs_ppe_div_term_body_forces_boundary_face op mf dst (face, face + 1) =
        .ok result →
      ∃ values, result =
        mf.distribute_local_to_global op.dof_index_pressure face
          (mf.integrate op.dof_index_pressure op.quad_index_pressure face values) dst) ∧
    (∀ result,
      local_rhs_ppe_div_term_convective_term_boundary_face op mf src dst (face, face + 1) =
        .ok result →
      ∃ values, result =
        mf.distribute_local_to_global op.dof_index_pressure face
          (mf.integrate op.dof_index_pressure op.quad_index_velocity_overintegration face
            values) dst) ∧
    ((FaceIntegratorP.create op.quad_index_pressure op.quad_index_velocity_standard :
        FaceIntegratorP R) =
        FaceIntegratorP.create op.dof_index_pressure op.quad_index_velocity_standard ↔
      op.quad_index_pressure = op.dof_index_pressure) := by
  refine ⟨?_, ?_, ?_, ?_, ?_, ?_, ?_⟩
  · intro result hres
    exact single_face_scatter mf ViscousIntegrators.pressure
      (local_rhs_ppe_nbc_viscous_add_face op mf src) op.quad_index_pressure
      op.quad_index_velocity_standard face _ dst result
      (fun s hs => nbc_viscous_face_indices op mf src face _ s hs) hres
  · intro result hres
    exact single_face_scatter mf TimeDerivativeIntegrators.integrator_pressure
      (local_rhs_ppe_nbc_numerical_time_derivative_add_face op mf src) op.dof_index_pressure
      op.quad_index_velocity_standard face _ dst result
      (fun s hs => nbc_numerical_time_derivative_face_indices op mf src face _ s hs) hres
  · intro result hres
    exact single_face_scatter mf (fun s => s)
      (local_rhs_ppe_nbc_body_force_term_add_face op mf) op.dof_index_pressure
      op.quad_index_pressure face
      (FaceIntegratorP.create op.dof_index_pressure op.quad_index_pressure) dst result
      (fun s hs => nbc_body_force_face_indices op mf face
        (FaceIntegratorP.create op.dof_index_pressure op.quad_index_pressure) s hs) hres
  · intro result hres
    exact single_face_scatter mf ConvectiveIntegrators.pressure
      (local_rhs_ppe_nbc_convective_add_face op mf src) op.dof_index_pressure
      op.quad_index_velocity_overintegration face _ dst result
      (fun s hs => nbc_convective_face_indices op mf src face _ s hs) hres
  · intro result hres
    exact single_face_scatter mf (fun s => s)
      (local_rhs_ppe_div_term_body_forces_face op mf) op.dof_index_pressure
      op.quad_index_pressure face
      (FaceIntegratorP.create op.dof_index_pressure op.quad_index_pressure) dst result
      (fun s hs => div_term_body_forces_face_indices op mf face
        (FaceIntegratorP.create op.dof_index_pressure op.quad_index_pressure) s hs) hres
  · intro result hres
    exact single_face_scatter mf ConvectiveIntegrators.pressure
      (local_rhs_ppe_div_term_convective_term_face op mf src) op.dof_index_pressure
      op.quad_index_velocity_overintegration face _ dst result
      (fun s hs => div_term_convective_face_indices op mf src face _ s hs) hres
  · constructor
    · intro h
      exact congrArg FaceIntegratorP.dof_index h
    · intro h
      rw [h]

/-- C23, on face 0 of the sample configuration with pressure quadrature index 4 and pressure
dof index 1: the viscous routine returns, and what it adds is integrated and distributed with
the index 4. -/
theorem viscous_pressure_dof_index_witness :
    ∃ result,
      local_rhs_ppe_nbc_viscous_add_boundary_face sample_op_quad_index_pressure sample_mf
          sample_src sample_src (0, 0 + 1) = .ok result ∧
        ∃ values, result =
          sample_mf.distribute_local_to_global 4 0 (sample_mf.integrate 4 0 0 values)
            sample_src :=
  ⟨_, rfl,
    (viscous_pressure_dof_index sample_op_quad_index_pressure sample_mf sample_src sample_src
      0).1 _ rfl⟩

end PressureDofIndexClaim

section FormulationDifference

variable {dim : Nat} {R T : Type} [CommRing R]

/-- The scalar product is additive in its first argument. -/
theorem dot_add_left (a b c : Tensor1 dim R) : dot (a + b) c = dot a c + dot b c := by
  simp only [dot, Pi.add_apply, add_mul, Finset.sum_add_distrib]

/-- A scalar factor of the first argument of the scalar product can be taken out. -/
theorem dot_scale_left (s : R) (a b : Tensor1 dim R) : dot (scale s a) b = s * dot a b := by
  simp only [dot, scale, Finset.mul_sum, mul_assoc]

/-- The flux in divergence form is the flux in convective form plus `(div u) u`. -/
theorem flux_spec_divergence_form (ale : Bool) (grad_u : Tensor2 dim R) (u : Tensor1 dim R)
    (div_u : R) (w : Tensor1 dim R) :
    flux_spec FormulationConvectiveTerm.DivergenceFormulation ale grad_u u div_u w =
      flux_spec FormulationConvectiveTerm.ConvectiveFormulation ale grad_u u div_u w +
        scale div_u u := by
  cases ale
  · simp [flux_spec]
  · simp [flux_spec]
    abel

/-- C28: at the quadrature points of a boundary face, (1) if the velocity divergence is zero
at every quadrature point, each of the two convective boundary routines (velocity-divergence
term and pressure-Neumann term) returns under `DivergenceFormulation` the same pressure
integrator (the same submitted values, or the same error) as under `ConvectiveFormulation`,
for every source vector, grid velocity, ALE flag, normal and boundary kind; (2) in general, on
a face where the flux is computed, the value submitted under `DivergenceFormulation` is the
one submitted under `ConvectiveFormulation` plus `(div u)(u . n)` for the velocity-divergence
routine (Dirichlet-kind velocity face) and minus `(div u)(u . n)` for the pressure-Neumann
routine (Neumann pressure face). -/
theorem convective_formulations_differ_by_divergence (op : OperatorDualSplitting dim R T)
    (mf : MatrixFree dim R) (src : VectorType R) (face : Nat)
    (its : ConvectiveIntegrators dim R) :
    ((∀ q, q < mf.n_q_points its.pressure.quad_index face →
        mf.evaluate_divergence its.velocity.dof_index its.velocity.quad_index face src q = 0) →
      Except.map ConvectiveIntegrators.pressure
          (local_rhs_ppe_div_term_convective_term_face
            (op.set_formulation_convective_term_bc
              FormulationConvectiveTerm.DivergenceFormulation) mf src face its) =
        Except.map ConvectiveIntegrators.pressure
          (local_rhs_ppe_div_term_convective_term_face
            (op.set_formulation_convective_term_bc
              FormulationConvectiveTerm.ConvectiveFormulation) mf src face its) ∧
      Except.map ConvectiveIntegrators.pressure
          (local_rhs_ppe_nbc_convective_add_face
            (op.set_formulation_convective_term_bc
              FormulationConvectiveTerm.DivergenceFormulation) mf src face its) =
        Except.map ConvectiveIntegrators.pressure
          (local_rhs_ppe_nbc_convective_add_face
            (op.set_formulation_convective_term_bc
              FormulationConvectiveTerm.ConvectiveFormulation) mf src face its)) ∧
    ((op.boundary_descriptor.velocity.get_boundary_type (mf.get_boundary_id face)
          = BoundaryTypeU.Dirichlet ∨
        op.boundary_descriptor.velocity.get_boundary_type (mf.get_boundary_id face)
          = BoundaryTypeU.DirichletCached) →
      ∃ pd pc,
        Except.map ConvectiveIntegrators.pressure
          (local_rhs_ppe_div_term_convective_term_face
            (op.set_formulation_convective_term_bc
              FormulationConvectiveTerm.DivergenceFormulation) mf src face its) = .ok pd ∧
        Except.map ConvectiveIntegrators.pressure
          (local_rhs_ppe_div_term_convective_term_face
            (op.set_formulation_convective_term_bc
              FormulationConvectiveTerm.ConvectiveFormulation) mf src face its) = .ok pc ∧
        ∀ q, q < mf.n_q_points its.pressure.quad_index face →
          pd.values_quad q = pc.values_quad q +
            mf.evaluate_divergence its.velocity.dof_index its.velocity.quad_index face src q *
              dot (mf.evaluate_value its.velocity.dof_index its.velocity.quad_index face src q)
                (mf.normal_vector its.pressure.quad_index face q)) ∧
    (op.boundary_descriptor.pressure.get_boundary_type (mf.get_boundary_id face)
        = BoundaryTypeP.Neumann →
      ∃ pd pc,
        Except.map ConvectiveIntegrators.pressure
          (local_rhs_ppe_nbc_convective_add_face
            (op.set_formulation_convective_term_bc
              FormulationConvectiveTerm.DivergenceFormulation) mf src face its) = .ok pd ∧
        Except.map ConvectiveIntegrators.pressure
          (local_rhs_ppe_nbc_convective_add_face
            (op.set_formulation_convective_term_bc
              FormulationConvectiveTerm.ConvectiveFormulation) mf src face its) = .ok pc ∧
        ∀ q, q < mf.n_q_points its.pressure.quad_index face →
          pd.values_quad q = pc.values_quad q -
            mf.evaluate_divergence its.velocity.dof_index its.velocity.quad_index face src q *
              dot (mf.evaluate_value its.velocity.dof_index its.velocity.quad_index face src q)
                (mf.normal_vector its.pressure.quad_index face q)) := by
  refine ⟨?_, ?_, ?_⟩
  · intro hdiv
    constructor
    · rw [div_term_convective_face_pressure, div_term_convective_face_pressure]
      apply forLoop_congr
      intro q p _ hq
      have hq2 : q < mf.n_q_points its.pressure.quad_index face := by omega
      have hzero := hdiv q hq2
      have hscale : ∀ u : Tensor1 dim R, scale (0 : R) u = 0 := by
        intro u
        funext i
        simp [scale]
      simp [local_rhs_ppe_div_term_convective_term_q,
        OperatorDualSplitting.set_formulation_convective_term_bc,
        FaceIntegratorU.gather_evaluate, FaceIntegratorU.reinit, hzero, hscale]
    · rw [nbc_convective_face_pressure, nbc_convective_face_pressure]
      apply forLoop_congr
      intro q p _ hq
      have hq2 : q < mf.n_q_points its.pressure.quad_index face := by omega
      have hzero := hdiv q hq2
      have hscale : ∀ u : Tensor1 dim R, scale (0 : R) u = 0 := by
        intro u
        funext i
        simp [scale]
      simp [local_rhs_ppe_nbc_convective_add_q,
        OperatorDualSplitting.set_formulation_convective_term_bc,
        FaceIntegratorU.gather_evaluate, FaceIntegratorU.reinit, hzero, hscale]
  · intro hkind
    refine ⟨_, _,
      div_term_convective_face_dirichlet_pressure
        (op.set_formulation_convective_term_bc FormulationConvectiveTerm.DivergenceFormulation)
        mf src face its hkind (Or.inl rfl),
      div_term_convective_face_dirichlet_pressure
        (op.set_formulation_convective_term_bc FormulationConvectiveTerm.ConvectiveFormulation)
        mf src face its hkind (Or.inr rfl), ?_⟩
    intro q hq
    have hq2 : 0 ≤ q ∧ q < 0 + (mf.n_q_points its.pressure.quad_index face - 0) :=
      ⟨Nat.zero_le _, by omega⟩
    simp only [hq2, and_self, if_true,
      OperatorDualSplitting.set_formulation_convective_term_bc]
    rw [flux_spec_divergence_form, dot_add_left, dot_scale_left]
  · intro hkind
    refine ⟨_, _,
      nbc_convective_face_neumann_pressure
        (op.set_formulation_convective_term_bc FormulationConvectiveTerm.DivergenceFormulation)
        mf src face its hkind (Or.inl rfl),
      nbc_convective_face_neumann_pressure
        (op.set_formulation_convective_term_bc FormulationConvectiveTerm.ConvectiveFormulation)
        mf src face its hkind (Or.inr rfl), ?_⟩
    intro q hq
    have hq2 : 0 ≤ q ∧ q < 0 + (mf.n_q_points its.pressure.quad_index face - 0) :=
      ⟨Nat.zero_le _, by omega⟩
    simp only [hq2, and_self, if_true,
      OperatorDualSplitting.set_formulation_convective_term_bc]
    rw [flux_spec_divergence_form, dot_comm, dot_add_left, dot_scale_left, dot_comm]
    ring

/-- C28, on face 0 of the sample configuration (velocity kind Dirichlet, pressure kind
Neumann, two quadrature points): with the source vector `1, -1, 1, ...`, whose velocity is not
zero and whose divergence is zero, both routines return the same pressure integrator under the
two formulations; with the source vector `0, 1, 2, ...` the values of the two formulations
differ by `(div u)(u . n)` with the sign of the routine. -/
theorem convective_formulations_differ_by_divergence_witness :
    ((∀ q, q < sample_mf.n_q_points sample_its.pressure.quad_index 0 →
        sample_mf.evaluate_divergence sample_its.velocity.dof_index
          sample_its.velocity.quad_index 0 sample_src_divergence_free q = 0) ∧
      Except.map ConvectiveIntegrators.pressure
          (local_rhs_ppe_div_term_convective_term_face
            (sample_op.set_formulation_convective_term_bc
              FormulationConvectiveTerm.DivergenceFormulation) sample_mf
            sample_src_divergence_free 0 sample_its) =
        Except.map ConvectiveIntegrators.pressure
          (local_rhs_ppe_div_term_convective_term_face
            (sample_op.set_formulation_convective_term_bc
              FormulationConvectiveTerm.ConvectiveFormulation) sample_mf
            sample_src_divergence_free 0 sample_its) ∧
      Except.map ConvectiveIntegrators.pressure
          (local_rhs_ppe_nbc_convective_add_face
            (sample_op.set_formulation_convective_term_bc
              FormulationConvectiveTerm.DivergenceFormulation) sample_mf
            sample_src_divergence_free 0 sample_its) =
        Except.map ConvectiveIntegrators.pressure
          (local_rhs_ppe_nbc_convective_add_face
            (sample_op.set_formulation_convective_term_bc
              FormulationConvectiveTerm.ConvectiveFormulation) sample_mf
            sample_src_divergence_free 0 sample_its)) ∧
    (∃ pd pc,
      Except.map ConvectiveIntegrators.pressure
          (local_rhs_ppe_div_term_convective_term_face
            (sample_op.set_formulation_convective_term_bc
              FormulationConvectiveTerm.DivergenceFormulation) sample_mf sample_src 0
            sample_its) = .ok pd ∧
        Except.map ConvectiveIntegrators.pressure
          (local_rhs_ppe_div_term_convective_term_face
            (sample_op.set_formulation_convective_term_bc
              FormulationConvectiveTerm.ConvectiveFormulation) sample_mf sample_src 0
            sample_its) = .ok pc ∧
        pd.values_quad 1 = pc.values_quad 1 + 3 * 1) ∧
    (∃ pd pc,
      Except.map ConvectiveIntegrators.pressure
          (local_rhs_ppe_nbc_convective_add_face
            (sample_op.set_formulation_convective_term_bc
              FormulationConvectiveTerm.DivergenceFormulation) sample_mf sample_src 0
            sample_its) = .ok pd ∧
        Except.map ConvectiveIntegrators.pressure
          (local_rhs_ppe_nbc_convective_add_face
            (sample_op.set_formulation_convective_term_bc
              FormulationConvectiveTerm.ConvectiveFormulation) sample_mf sample_src 0
            sample_its) = .ok pc ∧
        pd.values_quad 1 = pc.values_quad 1 - 3 * 1) := by
  have hdiv : ∀ q, q < sample_mf.n_q_points sample_its.pressure.quad_index 0 →
      sample_mf.evaluate_divergence sample_its.velocity.dof_index
        sample_its.velocity.quad_index 0 sample_src_divergence_free q = 0 := by
    intro q hq
    have hq2 : q < 2 := hq
    interval_cases q <;> rfl
  refine ⟨⟨hdiv,
    (convective_formulations_differ_by_divergence sample_op sample_mf
      sample_src_divergence_free 0 sample_its).1 hdiv⟩, ?_, ?_⟩
  · obtain ⟨pd, pc, h1, h2, h3⟩ :=
      (convective_formulations_differ_by_divergence sample_op sample_mf sample_src 0
        sample_its).2.1 (Or.inl rfl)
    refine ⟨pd, pc, h1, h2, ?_⟩
    rw [h3 1 (by decide)]
    simp [dot, Fin.sum_univ_two, sample_mf, sample_src, sample_its, FaceIntegratorU.create,
      FaceIntegratorP.create]
  · obtain ⟨pd, pc, h1, h2, h3⟩ :=
      (convective_formulations_differ_by_divergence sample_op sample_mf sample_src 0
        sample_its).2.2 rfl
    refine ⟨pd, pc, h1, h2, ?_⟩
    rw [h3 1 (by decide)]
    simp [dot, Fin.sum_univ_two, sample_mf, sample_src, sample_its, FaceIntegratorU.create,
      FaceIntegratorP.create]

end FormulationDifference

section InvariantLemmas

/-- An invariant kept by every pass of the range of a loop is kept by the loop. -/
theorem forLoop_invariant_range {σ : Type} (body : Nat → σ → Except String σ)
    (Inv : σ → Prop) (n : Nat) :
    ∀ (first : Nat) (s s' : σ),
      (∀ i t t', first ≤ i → i < first + n → Inv t → body i t = .ok t' → Inv t') →
      Inv s → forLoop body n first s = .ok s' → Inv s' := by
  induction n with
  | zero =>
    intro first s s' _ hs h
    simp only [forLoop] at h
    cases h
    exact hs
  | succ n ih =>
    intro first s s' hinv hs h
    cases hb : body first s with
    | error e =>
      simp only [forLoop, hb] at h
      cases h
    | ok t =>
      simp only [forLoop, hb] at h
      exact ih (first + 1) t s'
        (fun i u u' h1 h2 hu hbu => hinv i u u' (by omega) (by omega) hu hbu)
        (hinv first s t (Nat.le_refl _) (by omega) hs hb) h

/-- An invariant kept by the step at every element of a list is kept by the fold. -/
theorem foldlM_invariant_mem {σ α : Type} (f : σ → α → Except String σ) (Inv : σ → Prop)
    (l : List α) :
    (∀ a ∈ l, ∀ s s', Inv s → f s a = .ok s' → Inv s') →
      ∀ (s s' : σ), Inv s → l.foldlM f s = .ok s' → Inv s' := by
  induction l with
  | nil =>
    intro _ s s' hs h
    simp only [List.foldlM, pure, Except.pure] at h
    cases h
    exact hs
  | cons a l ih =>
    intro hinv s s' hs h
    cases ha : f s a with
    | error e =>
      simp only [List.foldlM, ha, bind, Except.bind] at h
      cases h
    | ok t =>
      simp only [List.foldlM, ha, bind, Except.bind] at h
      exact ih (fun b hb => hinv b (List.mem_cons_of_mem _ hb)) t s'
        (hinv a (List.mem_cons_self _ _) s t hs ha) h

/-- A fold whose step returns at every element of the list, whatever the state, returns. -/
theorem foldlM_ok_of_step {σ α : Type} (f : σ → α → Except String σ) (l : List α) :
    (∀ a ∈ l, ∀ s, ∃ s', f s a = .ok s') → ∀ s : σ, ∃ s', l.foldlM f s = .ok s' := by
  induction l with
  | nil =>
    intro _ s
    exact ⟨s, rfl⟩
  | cons a l ih =>
    intro h s
    obtain ⟨t, ht⟩ := h a (List.mem_cons_self _ _) s
    obtain ⟨s', hs'⟩ := ih (fun b hb => h b (List.mem_cons_of_mem _ hb)) t
    exact ⟨s', by simp only [List.foldlM, ht, bind, Except.bind]; exact hs'⟩

end InvariantLemmas

section NodalDofs

variable {dim : Nat} {R T : Type}

/-- A dof that is no nodal point of a Dirichlet-kind face of the ranges is hit by no nodal
point of any such face. -/
theorem dirichlet_nodal_dof_false (op : OperatorDualSplitting dim R T)
    (mf : MatrixFree dim R) (ranges : List (Nat × Nat)) (k : Nat)
    (h : dirichlet_nodal_dof op mf ranges k = false) :
    ∀ r ∈ ranges, ∀ face, r.1 ≤ face → face < r.2 →
      (op.boundary_descriptor.velocity.get_boundary_type (mf.get_boundary_id face)
          = BoundaryTypeU.Dirichlet ∨
        op.boundary_descriptor.velocity.get_boundary_type (mf.get_boundary_id face)
          = BoundaryTypeU.DirichletCached) →
      ∀ q, q < mf.n_q_points op.quad_index_velocity_nodal_points face → ∀ c : Fin dim,
        mf.dof_indices op.dof_index_velocity face
          (mf.face_to_cell_index_nodal op.dof_index_velocity
            op.quad_index_velocity_nodal_points (mf.interior_face_no face) q) c ≠ k := by
  intro r hr face h1 h2 hkind q hq c heq
  have hmem : face ∈ faces_of_ranges ranges := by
    simp only [faces_of_ranges, List.mem_flatMap, List.mem_range']
    exact ⟨r, hr, face - r.1, by omega, by omega⟩
  have htrue : dirichlet_nodal_dof op mf ranges k = true := by
    simp only [dirichlet_nodal_dof, List.any_eq_true, Bool.and_eq_true, Bool.or_eq_true,
      decide_eq_true_eq, List.mem_range]
    exact ⟨face, hmem, hkind, q, hq, c, List.mem_finRange c, heq⟩
  rw [h] at htrue
  cases htrue

/-- The face body of the interpolation routine returns on a face of recognised kind. -/
theorem interpolate_face_ok (op : OperatorDualSplitting dim R T)
    (mf : MatrixFree dim R) (dof_index quad_index face : Nat)
    (s : FaceIntegratorU dim R × VectorType R)
    (hkind : (op.boundary_descriptor.velocity.get_boundary_type
      (mf.get_boundary_id face)).recognised) :
    ∃ s', local_interpolate_velocity_dirichlet_bc_face op mf dof_index quad_index face s =
      .ok s' := by
  by_cases hd :
      op.boundary_descriptor.velocity.get_boundary_type (mf.get_boundary_id face)
          = BoundaryTypeU.Dirichlet ∨
        op.boundary_descriptor.velocity.get_boundary_type (mf.get_boundary_id face)
          = BoundaryTypeU.DirichletCached
  · obtain ⟨it, hit⟩ := interpolate_loop_ok op mf dof_index quad_index face
      (mf.get_boundary_id face)
      (op.boundary_descriptor.velocity.get_boundary_type (mf.get_boundary_id face)) hd
      (mf.n_q_points s.1.quad_index face - 0) 0 ((s.1.reinit face).read_dof_values mf s.2)
    refine ⟨(it, it.set_dof_values mf s.2), ?_⟩
    unfold local_interpolate_velocity_dirichlet_bc_face forRange
    simp only [if_pos hd]
    erw [hit]
    rfl
  · have hn :
        op.boundary_descriptor.velocity.get_boundary_type (mf.get_boundary_id face)
            = BoundaryTypeU.Neumann ∨
          op.boundary_descriptor.velocity.get_boundary_type (mf.get_boundary_id face)
            = BoundaryTypeU.Symmetry := by
      unfold BoundaryTypeU.recognised at hkind
      tauto
    refine ⟨s, ?_⟩
    unfold local_interpolate_velocity_dirichlet_bc_face
    simp only [if_neg hd, if_pos hn]

end NodalDofs

section InterpolationZero

variable {dim : Nat} {R T : Type} [CommRing R]

/-- The face body of the interpolation routine keeps the indices of the integrator and a zero
entry `k` of the destination vector, if no nodal point of the face is the dof `k`. -/
theorem interpolate_face_keeps_zero (op : OperatorDualSplitting dim R T)
    (mf : MatrixFree dim R) (dof_index quad_index face k : Nat)
    (s s' : FaceIntegratorU dim R × VectorType R)
    (hdi : s.1.dof_index = dof_index) (hqi : s.1.quad_index = quad_index)
    (hzero : s.2 k = 0)
    (hmiss :
      (op.boundary_descriptor.velocity.get_boundary_type (mf.get_boundary_id face)
          = BoundaryTypeU.Dirichlet ∨
        op.boundary_descriptor.velocity.get_boundary_type (mf.get_boundary_id face)
          = BoundaryTypeU.DirichletCached) →
      ∀ q, q < mf.n_q_points quad_index face → ∀ c : Fin dim,
        mf.dof_indices dof_index face
          (mf.face_to_cell_index_nodal dof_index quad_index (mf.interior_face_no face) q) c
          ≠ k)
    (hrun : local_interpolate_velocity_dirichlet_bc_face op mf dof_index quad_index face s =
      .ok s') :
    s'.1.dof_index = dof_index ∧ s'.1.quad_index = quad_index ∧ s'.2 k = 0 := by
  by_cases hkind :
      op.boundary_descriptor.velocity.get_boundary_type (mf.get_boundary_id face)
          = BoundaryTypeU.Dirichlet ∨
        op.boundary_descriptor.velocity.get_boundary_type (mf.get_boundary_id face)
          = BoundaryTypeU.DirichletCached
  · obtain ⟨it, hloop, hd, hq, hface, _, hkeep⟩ :=
      forLoop_submit_dof_value
        (local_interpolate_velocity_dirichlet_bc_q op mf dof_index quad_index face
          (mf.get_boundary_id face)
          (op.boundary_descriptor.velocity.get_boundary_type (mf.get_boundary_id face)))
        (fun q =>
          if op.boundary_descriptor.velocity.get_boundary_type (mf.get_boundary_id face)
              = BoundaryTypeU.Dirichlet then
            op.boundary_descriptor.velocity.dirichlet_bc (mf.get_boundary_id face)
              (mf.quadrature_point quad_index face q) op.evaluation_time
          else op.boundary_descriptor.velocity.dirichlet_cached_data face q quad_index)
        (mf.face_to_cell_index_nodal dof_index quad_index (mf.interior_face_no face))
        quad_index face (mf.n_q_points s.1.quad_index face - 0) 0
        ((s.1.reinit face).read_dof_values mf s.2) hqi rfl
        (by
          intro q t _ _ htq htf
          rcases hkind with hk | hk
          · simp [local_interpolate_velocity_dirichlet_bc_q, hk,
              FaceIntegratorU.quadrature_point, htq, htf]
            rfl
          · simp [local_interpolate_velocity_dirichlet_bc_q, hk]
            rfl)
    have hface_run :
        local_interpolate_velocity_dirichlet_bc_face op mf dof_index quad_index face s =
          .ok (it, it.set_dof_values mf s.2) := by
      unfold local_interpolate_velocity_dirichlet_bc_face forRange
      simp only [if_pos hkind]
      erw [hloop]
      rfl
    rw [hface_run] at hrun
    cases hrun
    have hd2 : it.dof_index = dof_index := by
      rw [hd]
      exact hdi
    have hq2 : it.quad_index = quad_index := by
      rw [hq]
      exact hqi
    refine ⟨hd2, hq2, ?_⟩
    unfold FaceIntegratorU.set_dof_values
    apply foldl_update_keep
      (fun p : Nat × Fin dim => mf.dof_indices it.dof_index it.face p.1 p.2)
      (fun p : Nat × Fin dim => it.values_dofs p.1 p.2) k 0 _ s.2 hzero
    intro b hb hkey
    have hb2 : b.1 < mf.dofs_per_component it.dof_index :=
      (mem_local_dof_pairs dim _ b.1 b.2).mp hb
    have hface2 : it.face = face := hface
    rw [hd2, hface2] at hkey
    have hnot : ∀ q, 0 ≤ q → q < 0 + (mf.n_q_points s.1.quad_index face - 0) →
        mf.face_to_cell_index_nodal dof_index quad_index (mf.interior_face_no face) q
          ≠ b.1 := by
      intro q _ hq3 heq
      have hq4 : q < mf.n_q_points quad_index face := by
        rw [hqi] at hq3
        omega
      apply hmiss hkind q hq4 b.2
      rw [heq]
      exact hkey
    show it.values_dofs b.1 b.2 = 0
    rw [hkeep b.1 hnot]
    rw [hd2] at hb2
    simp [FaceIntegratorU.read_dof_values, FaceIntegratorU.reinit, hdi, hb2, hkey, hzero]
  · by_cases hkind2 :
        op.boundary_descriptor.velocity.get_boundary_type (mf.get_boundary_id face)
            = BoundaryTypeU.Neumann ∨
          op.boundary_descriptor.velocity.get_boundary_type (mf.get_boundary_id face)
            = BoundaryTypeU.Symmetry
    · unfold local_interpolate_velocity_dirichlet_bc_face at hrun
      simp only [if_neg hkind, if_pos hkind2] at hrun
      cases hrun
      exact ⟨hdi, hqi, hzero⟩
    · unfold local_interpolate_velocity_dirichlet_bc_face at hrun
      simp only [if_neg hkind, if_neg hkind2] at hrun
      cases hrun

/-- The routine `local_interpolate_velocity_dirichlet_bc_boundary_face` as its face loop
followed by the projection to the destination vector. -/
theorem interpolate_boundary_face_eq (op : OperatorDualSplitting dim R T)
    (mf : MatrixFree dim R) (v : VectorType R) (r : Nat × Nat) :
    local_interpolate_velocity_dirichlet_bc_boundary_face op mf v r =
      (forLoop
        (fun face s => local_interpolate_velocity_dirichlet_bc_face op mf op.dof_index_velocity
          op.quad_index_velocity_nodal_points face s)
        (r.2 - r.1) r.1
        (FaceIntegratorU.create op.dof_index_velocity op.quad_index_velocity_nodal_points, v)
        >>= fun t => (.ok t.2 : Except String (VectorType R))) :=
  rfl

/-- The routine `interpolate_velocity_dirichlet_bc` as the fold over the face ranges, from the
zero vector, of the boundary-face routine at the new evaluation time. -/
theorem interpolate_velocity_dirichlet_bc_eq (op : OperatorDualSplitting dim R T)
    (mf : MatrixFree dim R) (ranges : List (Nat × Nat)) (dst : VectorType R) (time : T) :
    interpolate_velocity_dirichlet_bc op mf ranges dst time =
      (List.foldlM
        (local_interpolate_velocity_dirichlet_bc_boundary_face (op.set_evaluation_time time)
          mf) (fun _ => (0 : R)) ranges
        >>= fun d =>
          (.ok (op.set_evaluation_time time, d) :
            Except String (OperatorDualSplitting dim R T × VectorType R))) :=
  rfl

/-- The boundary-face routine of the interpolation returns on a range of faces of recognised
kinds. -/
theorem interpolate_boundary_face_ok (op : OperatorDualSplitting dim R T)
    (mf : MatrixFree dim R) (v : VectorType R) (r : Nat × Nat)
    (hkinds : ∀ face, r.1 ≤ face → face < r.2 →
      (op.boundary_descriptor.velocity.get_boundary_type
        (mf.get_boundary_id face)).recognised) :
    ∃ v', local_interpolate_velocity_dirichlet_bc_boundary_face op mf v r = .ok v' := by
  obtain ⟨t, ht⟩ := forLoop_ok_of_body
    (fun face s => local_interpolate_velocity_dirichlet_bc_face op mf op.dof_index_velocity
      op.quad_index_velocity_nodal_points face s)
    (r.2 - r.1) r.1
    (FaceIntegratorU.create op.dof_index_velocity op.quad_index_velocity_nodal_points, v)
    (fun face t h1 h2 => interpolate_face_ok op mf _ _ face t (hkinds face h1 (by omega)))
  refine ⟨t.2, ?_⟩
  rw [interpolate_boundary_face_eq, ht]
  rfl

/-- The boundary-face routine of the interpolation keeps a zero entry `k` of the destination
vector, if no nodal point of a Dirichlet-kind face of the range is the dof `k`. -/
theorem interpolate_boundary_face_keeps_zero (op : OperatorDualSplitting dim R T)
    (mf : MatrixFree dim R) (v v' : VectorType R) (r : Nat × Nat) (k : Nat)
    (hmiss : ∀ face, r.1 ≤ face → face < r.2 →
      (op.boundary_descriptor.velocity.get_boundary_type (mf.get_boundary_id face)
          = BoundaryTypeU.Dirichlet ∨
        op.boundary_descriptor.velocity.get_boundary_type (mf.get_boundary_id face)
          = BoundaryTypeU.DirichletCached) →
      ∀ q, q < mf.n_q_points op.quad_index_velocity_nodal_points face → ∀ c : Fin dim,
        mf.dof_indices op.dof_index_velocity face
          (mf.face_to_cell_index_nodal op.dof_index_velocity
            op.quad_index_velocity_nodal_points (mf.interior_face_no face) q) c ≠ k)
    (hv : v k = 0)
    (hrun : local_interpolate_velocity_dirichlet_bc_boundary_face op mf v r = .ok v') :
    v' k = 0 := by
  rw [interpolate_boundary_face_eq] at hrun
  cases hloop : forLoop
      (fun face s => local_interpolate_velocity_dirichlet_bc_face op mf op.dof_index_velocity
        op.quad_index_velocity_nodal_points face s)
      (r.2 - r.1) r.1
      (FaceIntegratorU.create op.dof_index_velocity op.quad_index_velocity_nodal_points, v) with
  | error e =>
    rw [hloop] at hrun
    cases hrun
  | ok t =>
    rw [hloop] at hrun
    cases hrun
    have hinv := forLoop_invariant_range
      (fun face s => local_interpolate_velocity_dirichlet_bc_face op mf op.dof_index_velocity
        op.quad_index_velocity_nodal_points face s)
      (fun s : FaceIntegratorU dim R × VectorType R =>
        s.1.dof_index = op.dof_index_velocity ∧
          s.1.quad_index = op.quad_index_velocity_nodal_points ∧ s.2 k = 0)
      (r.2 - r.1) r.1 _ t
      (fun face s s' h1 h2 hs hb =>
        interpolate_face_keeps_zero op mf _ _ face k s s' hs.1 hs.2.1 hs.2.2
          (fun hkind => hmiss face h1 (by omega) hkind) hb)
      ⟨rfl, rfl, hv⟩ hloop
    exact hinv.2.2

/-- C27: the result of `interpolate_velocity_dirichlet_bc` is the same for any two
destination vectors on entry; the routine returns if every face of the ranges has a
recognised velocity kind; and in the vector it returns every degree of freedom that is not a
nodal point of a face of velocity kind Dirichlet or DirichletCached is zero. -/
theorem interpolate_velocity_dirichlet_bc_independent_of_dst
    (op : OperatorDualSplitting dim R T) (mf : MatrixFree dim R)
    (ranges : List (Nat × Nat)) (time : T) :
    (∀ dst1 dst2 : VectorType R,
      interpolate_velocity_dirichlet_bc op mf ranges dst1 time =
        interpolate_velocity_dirichlet_bc op mf ranges dst2 time) ∧
    ((∀ r ∈ ranges, ∀ face, r.1 ≤ face → face < r.2 →
        (op.boundary_descriptor.velocity.get_boundary_type
          (mf.get_boundary_id face)).recognised) →
      ∀ dst : VectorType R,
        ∃ result, interpolate_velocity_dirichlet_bc op mf ranges dst time = .ok result) ∧
    (∀ (dst : VectorType R) (result : OperatorDualSplitting dim R T × VectorType R),
      interpolate_velocity_dirichlet_bc op mf ranges dst time = .ok result →
      ∀ k, dirichlet_nodal_dof op mf ranges k = false → result.2 k = 0) := by
  refine ⟨fun _ _ => rfl, ?_, ?_⟩
  · intro hkinds dst
    obtain ⟨d, hd⟩ := foldlM_ok_of_step
      (local_interpolate_velocity_dirichlet_bc_boundary_face (op.set_evaluation_time time) mf)
      ranges
      (fun r hr s => interpolate_boundary_face_ok (op.set_evaluation_time time) mf s r
        (hkinds r hr))
      (fun _ => 0)
    refine ⟨(op.set_evaluation_time time, d), ?_⟩
    rw [interpolate_velocity_dirichlet_bc_eq, hd]
    rfl
  · intro dst result hrun k hk
    have hmiss := dirichlet_nodal_dof_false op mf ranges k hk
    rw [interpolate_velocity_dirichlet_bc_eq] at hrun
    cases hfold : List.foldlM
        (local_interpolate_velocity_dirichlet_bc_boundary_face (op.set_evaluation_time time)
          mf) (fun _ => (0 : R)) ranges with
    | error e =>
      rw [hfold] at hrun
      cases hrun
    | ok d =>
      rw [hfold] at hrun
      cases hrun
      exact foldlM_invariant_mem
        (local_interpolate_velocity_dirichlet_bc_boundary_face (op.set_evaluation_time time)
          mf) (fun v : VectorType R => v k = 0) ranges
        (fun r hr v v' hv hstep =>
          interpolate_boundary_face_keeps_zero (op.set_evaluation_time time) mf v v' r k
            (hmiss r hr) hv hstep)
        (fun _ => 0) d rfl hfold

/-- C27, on the sample configuration with the boundary faces 0 to 3 (kinds Dirichlet, cached
Dirichlet, Neumann, symmetry): the routine returns, the results from the destination vectors
`0, 1, 2, ...` and zero are the same, and the dofs 4 and 10, which are dofs of the cells next
to the faces 0 and 1 but no nodal points of these faces, are zero in the result. -/
theorem interpolate_velocity_dirichlet_bc_independent_of_dst_witness :
    ∃ result,
      interpolate_velocity_dirichlet_bc sample_op sample_mf [(0, 4)] sample_src 5 =
          .ok result ∧
        interpolate_velocity_dirichlet_bc sample_op sample_mf [(0, 4)] sample_src 5 =
          interpolate_velocity_dirichlet_bc sample_op sample_mf [(0, 4)] (fun _ => 0) 5 ∧
        dirichlet_nodal_dof sample_op sample_mf [(0, 4)] 4 = false ∧ result.2 4 = 0 ∧
        dirichlet_nodal_dof sample_op sample_mf [(0, 4)] 10 = false ∧ result.2 10 = 0 ∧
        dirichlet_nodal_dof sample_op sample_mf [(0, 4)] 3 = true := by
  obtain ⟨result, hres⟩ :=
    (interpolate_velocity_dirichlet_bc_independent_of_dst sample_op sample_mf [(0, 4)] 5).2.1
      (by
        intro r hr face h1 h2
        simp only [List.mem_singleton] at hr
        subst hr
        have h3 : face < 4 := h2
        interval_cases face <;> simp [BoundaryTypeU.recognised, sample_op, sample_mf])
      sample_src
  have hzero :=
    (interpolate_velocity_dirichlet_bc_independent_of_dst sample_op sample_mf [(0, 4)] 5).2.2
      sample_src result hres
  exact ⟨result, hres,
    (interpolate_velocity_dirichlet_bc_independent_of_dst sample_op sample_mf [(0, 4)] 5).1
      sample_src (fun _ => 0),
    by decide, hzero 4 (by decide), by decide, hzero 10 (by decide), by decide⟩

end InterpolationZero

section UnrollLemmas

/-- The index `d + n * v` determines the component `d < n` and the lane `v`. -/
theorem unroll_index_injective (n d v d' v' : Nat) (hd : d < n) (hd' : d' < n)
    (h : d + n * v = d' + n * v') : d = d' ∧ v = v' := by
  have h1 : (d + n * v) % n = d := by
    rw [Nat.add_mul_mod_self_left]
    exact Nat.mod_eq_of_lt hd
  have h2 : (d' + n * v') % n = d' := by
    rw [Nat.add_mul_mod_self_left]
    exact Nat.mod_eq_of_lt hd'
  have hdd : d = d' := by
    rw [← h1, ← h2, h]
  subst hdd
  have hn : 0 < n := by omega
  have h3 : n * v = n * v' := by omega
  exact ⟨rfl, Nat.eq_of_mul_eq_mul_left hn h3⟩

/-- The index `d + n * v` of a component `d < n` of a lane `v < size` is below `n * size`. -/
theorem unroll_index_lt (n size d v : Nat) (hd : d < n) (hv : v < size) :
    d + n * v < n * size := by
  have h1 : n * (v + 1) ≤ n * size := Nat.mul_le_mul_left n hv
  have h2 : n * (v + 1) = n * v + n := by ring
  omega

/-- Every index below `n * size` is the index `d + n * v` of a component `d < n` of a lane
`v < size`. -/
theorem unroll_index_surjective (n size i : Nat) (hi : i < n * size) :
    ∃ d v, d < n ∧ v < size ∧ i = d + n * v := by
  have hn : 0 < n := by
    rcases Nat.eq_zero_or_pos n with h | h
    · subst h
      simp at hi
    · exact h
  refine ⟨i % n, i / n, Nat.mod_lt _ hn, ?_, (Nat.mod_add_div i n).symm⟩
  exact Nat.div_lt_of_lt_mul hi

/-- The pairs of the unrolling loops are those of a component below `n` and a lane below
`size`. -/
theorem mem_unroll_pairs (n size d v : Nat) :
    (d, v) ∈ unroll_pairs n size ↔ d < n ∧ v < size := by
  simp [unroll_pairs, List.mem_flatMap, List.mem_range, List.mem_map]

/-- After the unrolling loops the entry `d + n * v` of the buffer is component `d` of lane
`v`. -/
theorem unroll_get {R : Type} (n size : Nat) (local_values : Nat → Nat → R)
    (buffer : Nat → R) (d v : Nat) (hd : d < n) (hv : v < size) :
    unroll n size local_values buffer (d + n * v) = local_values d v := by
  unfold unroll
  have h := foldl_update_mem (fun p : Nat × Nat => p.1 + n * p.2)
    (fun p : Nat × Nat => local_values p.1 p.2) (d, v) (unroll_pairs n size) buffer
    ((mem_unroll_pairs n size d v).mpr ⟨hd, hv⟩)
    (by
      intro b hb hkey
      have hb2 := (mem_unroll_pairs n size b.1 b.2).mp hb
      obtain ⟨h1, h2⟩ := unroll_index_injective n b.1 b.2 d v hb2.1 hd hkey
      show local_values b.1 b.2 = local_values d v
      rw [h1, h2])
  exact h

/-- The first `n * active_faces` entries of the unrolled buffer are the components of the
lanes below `active_faces`, lane after lane. -/
theorem read_array_unroll {R : Type} (n size : Nat) (local_values : Nat → Nat → R)
    (buffer : Nat → R) :
    ∀ active_faces, active_faces ≤ size →
      read_array (n * active_faces) (unroll n size local_values buffer) =
        lane_components n active_faces local_values := by
  intro active_faces
  induction active_faces with
  | zero =>
    intro _
    simp [read_array, lane_components]
  | succ a ih =>
    intro h
    have e : n * (a + 1) = n * a + n := by ring
    have ih2 := ih (by omega)
    unfold read_array at ih2 ⊢
    unfold lane_components at ih2 ⊢
    rw [e, List.range_add, List.map_append, ih2, List.range_succ, List.flatMap_append]
    congr 1
    simp only [List.map_map, List.flatMap_singleton]
    apply List.map_congr_left
    intro d hd
    have hd2 : d < n := List.mem_range.mp hd
    simp only [Function.comp]
    have e2 : n * a + d = d + n * a := by omega
    rw [e2]
    exact unroll_get n size local_values buffer d a hd2 (by omega)

end UnrollLemmas

section UnrolledBuffer

variable {dim data_dim lanes : Nat} {R : Type}

/-- C24: for a face batch with `active_faces` real entries and `active_faces <= lanes`, with
`n` for `dim` or `data_dim`: the index `d + n * v` maps the pairs of a component `d < n` and a
lane `v < lanes` one-to-one onto the indices below `n * lanes`; after the unrolling loops the
entry `d + n * v` is component `d` of lane `v`, so the first `n * active_faces` entries, which
are what preCICE is told to read, are the components of the lanes below `active_faces` and no
entry of them belongs to a padding lane; accordingly one pass of the quadrature loop of
`define_coupling_mesh` hands `setMeshVertices` the coordinates of the lanes below
`active_faces` of the quadrature point, and one pass of the quadrature loop of
`write_data_factory` with `data_dim > 1` hands `writeBlockVectorData` the components of the
lanes below `active_faces` of the value. -/
theorem unrolled_buffer_holds_active_lanes (s : QuadSurface dim data_dim lanes R)
    (active_faces : Nat) (h : active_faces ≤ lanes) :
    (∀ n d v : Nat, d < n → v < lanes → d + n * v < n * lanes) ∧
    (∀ n d v d' v' : Nat, d < n → d' < n → d + n * v = d' + n * v' → d = d' ∧ v = v') ∧
    (∀ n i : Nat, i < n * lanes → ∃ d v, d < n ∧ v < lanes ∧ i = d + n * v) ∧
    (∀ (n : Nat) (local_values : Nat → Nat → R) (buffer : Nat → R),
      (∀ d v, d < n → v < lanes →
        unroll n lanes local_values buffer (d + n * v) = local_values d v) ∧
      read_array (n * active_faces) (unroll n lanes local_values buffer) =
        lane_components n active_faces local_values ∧
      (∀ i, i < n * active_faces →
        i / n < active_faces ∧
          unroll n lanes local_values buffer i = local_values (i % n) (i / n))) ∧
    (∀ (face q : Nat) (st : DefineState R),
      ∃ st', s.define_coupling_mesh_q face active_faces q st = .ok st' ∧
        st'.precice.calls = st.precice.calls ++
          [PreciceCall.setMeshVertices s.mesh_id active_faces
            (lane_components dim active_faces
              (s.matrix_free.quadrature_point s.mf_quad_index face q))]) ∧
    (∀ (write_data_id : Int) (get_write_value : FEFaceIntegrator R → Nat → Nat → Nat → R)
        (phi : FEFaceIntegrator R) (q : Nat) (st : WriteState R) (node_ids : List Int),
      data_dim > 1 → s.coupling_nodes_ids[st.index]? = some node_ids →
      ∃ st',
        s.write_data_factory_q write_data_id get_write_value phi active_faces q st = .ok st' ∧
        st'.precice.calls = st.precice.calls ++
          [PreciceCall.writeBlockVectorData write_data_id active_faces
            (node_ids.take active_faces)
            (lane_components data_dim active_faces (get_write_value phi q))]) := by
  refine ⟨fun n d v hd hv => unroll_index_lt n lanes d v hd hv,
    fun n d v d' v' hd hd' he => unroll_index_injective n d v d' v' hd hd' he,
    fun n i hi => unroll_index_surjective n lanes i hi, ?_, ?_, ?_⟩
  · intro n local_values buffer
    refine ⟨fun d v hd hv => unroll_get n lanes local_values buffer d v hd hv,
      read_array_unroll n lanes local_values buffer active_faces h, ?_⟩
    intro i hi
    have hn : 0 < n := by
      rcases Nat.eq_zero_or_pos n with h0 | h0
      · subst h0
        simp at hi
      · exact h0
    have hdiv : i / n < active_faces := Nat.div_lt_of_lt_mul hi
    refine ⟨hdiv, ?_⟩
    have hget := unroll_get n lanes local_values buffer (i % n) (i / n) (Nat.mod_lt _ hn)
      (by omega)
    rw [Nat.mod_add_div] at hget
    exact hget
  · intro face q st
    refine ⟨_, rfl, ?_⟩
    simp only [SolverInterface.setMeshVertices]
    rw [read_array_unroll dim lanes _ _ active_faces h]
  · intro write_data_id get_write_value phi q st node_ids hdim hindex
    refine ⟨_, by simp only [QuadSurface.write_data_factory_q, hindex, hdim, if_true]; rfl, ?_⟩
    simp only [SolverInterface.writeBlockVectorData]
    rw [read_array_unroll data_dim lanes _ _ active_faces h]

/-- C24, on the sample surface (two dimensions, two lanes) at quadrature point 0 of face 3,
a batch with one real entry and one padding lane: `setMeshVertices` is handed the two
coordinates 3000, 3010 of lane 0 and no coordinate of lane 1. -/
theorem unrolled_buffer_holds_active_lanes_witness :
    1 ≤ 2 ∧
      ∃ st', sample_quad_surface.define_coupling_mesh_q 3 1 0 sample_define_state = .ok st' ∧
        st'.precice.calls = [PreciceCall.setMeshVertices 0 1 [3000, 3010]] := by
  obtain ⟨st', h1, h2⟩ :=
    (unrolled_buffer_holds_active_lanes sample_quad_surface 1 (by decide)).2.2.2.2.1 3 0
      sample_define_state
  exact ⟨by decide, st', h1, h2⟩

end UnrolledBuffer

section AssertLemmas

/-- An `Assert` passes in a release build and on a condition that holds. -/
theorem Assert_ok (debug cond : Bool) (exc : String) (h : debug = true → cond = true) :
    Assert debug cond exc = .ok () := by
  cases debug <;> cases cond <;> simp [Assert] at h ⊢

/-- An `Assert` throws in a debug build on a condition that does not hold. -/
theorem Assert_error (debug cond : Bool) (exc : String) (hd : debug = true)
    (hc : cond = false) : Assert debug cond exc = .error exc := by
  subst hd hc
  rfl

/-- An `Assert` that has passed: in a debug build the condition holds. -/
theorem Assert_passed (debug cond : Bool) (exc : String) (u : Unit)
    (h : Assert debug cond exc = .ok u) : debug = true → cond = true := by
  cases debug <;> cases cond <;> simp [Assert] at h ⊢

end AssertLemmas

section ListLemmas

/-- Pairing the elements of a list with one face and zipping with a second list applies the
function at that face to the elements of the second list, as far as the first list goes. -/
theorem zipWith_map_face {α β γ : Type} (h : Nat → β → γ) (face : Nat) :
    ∀ (xs : List α) (ys : List β),
      List.zipWith (fun (p : Nat × α) (y : β) => h p.1 y) (xs.map fun x => (face, x)) ys =
        (ys.take xs.length).map (h face) := by
  intro xs
  induction xs with
  | nil =>
    intro ys
    simp
  | cons x xs ih =>
    intro ys
    cases ys with
    | nil => simp
    | cons y ys => simp [ih ys]

/-- Zipping an appended list: the first part takes as many elements of the second list as it
has, the second part the rest. -/
theorem zipWith_append_drop {α β γ : Type} (g : α → β → γ) (a b : List α) (l : List β)
    (h : a.length ≤ l.length) :
    List.zipWith g (a ++ b) l =
      List.zipWith g a (l.take a.length) ++ List.zipWith g b (l.drop a.length) := by
  have hl : (l.take a.length).length = a.length := by
    rw [List.length_take]
    omega
  conv_lhs => rw [← List.take_append_drop a.length l]
  exact List.zipWith_append g a b (l.take a.length) (l.drop a.length) hl.symm

/-- Resizing a vector of id arrays to its own length leaves it unchanged. -/
theorem resize_ids_length (lanes : Nat) (ids : List (List Int)) :
    resize_ids lanes ids ids.length = ids := by
  simp [resize_ids]

end ListLemmas

section SurfaceLoops

variable {dim data_dim lanes : Nat} {R : Type}

/-- The interface points from `first` on: those of the face `first` followed by those from
`first + 1` on. -/
theorem interface_points_from_succ (s : QuadSurface dim data_dim lanes R)
    (first count : Nat) :
    s.interface_points_from first (count + 1) =
      (if s.matrix_free.get_boundary_id first = s.dealii_boundary_surface_id then
        (List.range (s.matrix_free.n_q_points s.mf_quad_index first)).map
          fun q => (first, q)
       else []) ++ s.interface_points_from (first + 1) count := by
  simp [QuadSurface.interface_points_from, List.range'_succ]

/-- The number of interface points is the sum of `n_q_points` over the interface faces. -/
theorem interface_points_from_length (s : QuadSurface dim data_dim lanes R) (count : Nat) :
    ∀ first, (s.interface_points_from first count).length =
      ((List.range' first count).map fun face =>
        if s.matrix_free.get_boundary_id face = s.dealii_boundary_surface_id then
          s.matrix_free.n_q_points s.mf_quad_index face
        else 0).sum := by
  induction count with
  | zero =>
    intro first
    simp [QuadSurface.interface_points_from]
  | succ count ih =>
    intro first
    rw [interface_points_from_succ, List.length_append, ih (first + 1), List.range'_succ,
      List.map_cons, List.sum_cons]
    congr 1
    split_ifs <;> simp

/-- The quadrature loop of `define_coupling_mesh` returns and stores one id array for each
of its passes. -/
theorem define_q_loop (s : QuadSurface dim data_dim lanes R) (face active_faces n : Nat) :
    ∀ (q0 : Nat) (st : DefineState R),
      ∃ st', forLoop (s.define_coupling_mesh_q face active_faces) n q0 st = .ok st' ∧
        st'.coupling_nodes_ids.length = st.coupling_nodes_ids.length + n ∧
        st'.size = st.size + n := by
  induction n with
  | zero =>
    intro q0 st
    exact ⟨st, rfl, rfl, rfl⟩
  | succ n ih =>
    intro q0 st
    obtain ⟨st', h1, h2, h3⟩ := ih (q0 + 1)
      { precice := (st.precice.setMeshVertices dim s.mesh_id active_faces
          (unroll dim lanes (s.matrix_free.quadrature_point s.mf_quad_index face q0)
            st.unrolled_vertices) st.node_ids).1
        coupling_nodes_ids := st.coupling_nodes_ids ++
          [read_array lanes (st.precice.setMeshVertices dim s.mesh_id active_faces
            (unroll dim lanes (s.matrix_free.quadrature_point s.mf_quad_index face q0)
              st.unrolled_vertices) st.node_ids).2]
        unrolled_vertices :=
          unroll dim lanes (s.matrix_free.quadrature_point s.mf_quad_index face q0)
            st.unrolled_vertices
        node_ids := (st.precice.setMeshVertices dim s.mesh_id active_faces
          (unroll dim lanes (s.matrix_free.quadrature_point s.mf_quad_index face q0)
            st.unrolled_vertices) st.node_ids).2
        size := st.size + 1 }
    refine ⟨st', ?_, ?_, ?_⟩
    · simp only [forLoop, QuadSurface.define_coupling_mesh_q]
      exact h1
    · rw [h2]
      simp only [List.length_append, List.length_singleton]
      omega
    · rw [h3]
      show st.size + 1 + n = st.size + (n + 1)
      omega

/-- The face loop of `define_coupling_mesh` returns and stores one id array for each
interface point of its faces. -/
theorem define_face_loop (s : QuadSurface dim data_dim lanes R) (count : Nat) :
    ∀ (first : Nat) (st : DefineState R),
      ∃ st', forLoop s.define_coupling_mesh_face count first st = .ok st' ∧
        st'.coupling_nodes_ids.length =
          st.coupling_nodes_ids.length + (s.interface_points_from first count).length ∧
        st'.size = st.size + (s.interface_points_from first count).length := by
  induction count with
  | zero =>
    intro first st
    exact ⟨st, rfl, by simp [QuadSurface.interface_points_from],
      by simp [QuadSurface.interface_points_from]⟩
  | succ count ih =>
    intro first st
    by_cases hb : s.matrix_free.get_boundary_id first = s.dealii_boundary_surface_id
    · obtain ⟨st1, h1, h2, h3⟩ := define_q_loop s first
        (s.matrix_free.n_active_entries_per_face_batch first)
        (s.matrix_free.n_q_points s.mf_quad_index first) 0 st
      obtain ⟨st', h4, h5, h6⟩ := ih (first + 1) st1
      have hbody : s.define_coupling_mesh_face first st = .ok st1 := by
        simp only [QuadSurface.define_coupling_mesh_face, hb, ne_eq, not_true_eq_false,
          if_false, forRange, Nat.sub_zero]
        exact h1
      refine ⟨st', ?_, ?_, ?_⟩
      · simp only [forLoop, hbody]
        exact h4
      · rw [h5, h2, interface_points_from_succ]
        simp only [hb, if_true, List.length_append, List.length_map, List.length_range]
        omega
      · rw [h6, h3, interface_points_from_succ]
        simp only [hb, if_true, List.length_append, List.length_map, List.length_range]
        omega
    · obtain ⟨st', h4, h5, h6⟩ := ih (first + 1) st
      have hbody : s.define_coupling_mesh_face first st = .ok st := by
        simp [QuadSurface.define_coupling_mesh_face, hb]
      refine ⟨st', ?_, ?_, ?_⟩
      · simp only [forLoop, hbody]
        exact h4
      · rw [h5, interface_points_from_succ]
        simp [hb]
      · rw [h6, interface_points_from_succ]
        simp [hb]

/-- The quadrature loop of `write_data_factory`, started at a position of the iterator from
which `n` stored id arrays are left: it returns, the iterator has advanced by `n`, and the
passes have handed preCICE the next `n` stored id arrays, in their order, each cut to the real
entries of the batch. -/
theorem write_q_loop (s : QuadSurface dim data_dim lanes R) (write_data_id : Int)
    (get_write_value : FEFaceIntegrator R → Nat → Nat → Nat → R) (phi : FEFaceIntegrator R)
    (active_faces n : Nat) :
    ∀ (q0 : Nat) (st : WriteState R), st.index + n ≤ s.coupling_nodes_ids.length →
      ∃ st',
        forLoop (s.write_data_factory_q write_data_id get_write_value phi active_faces) n q0
            st = .ok st' ∧
          st'.index = st.index + n ∧
          ∃ new, st'.precice.calls = st.precice.calls ++ new ∧
            new.map PreciceCall.value_indices =
              ((s.coupling_nodes_ids.drop st.index).take n).map
                (fun ids => ids.take active_faces) := by
  induction n with
  | zero =>
    intro q0 st _
    exact ⟨st, rfl, rfl, [], by simp, by simp⟩
  | succ n ih =>
    intro q0 st hlen
    have hlt : st.index < s.coupling_nodes_ids.length := by omega
    have hget : s.coupling_nodes_ids[st.index]? = some (s.coupling_nodes_ids[st.index]) :=
      List.getElem?_eq_getElem hlt
    have hdrop : s.coupling_nodes_ids.drop st.index =
        s.coupling_nodes_ids[st.index] :: s.coupling_nodes_ids.drop (st.index + 1) :=
      List.drop_eq_getElem_cons hlt
    by_cases hdim : data_dim > 1
    · obtain ⟨st', h1, h2, new, h3, h4⟩ := ih (q0 + 1)
        { precice := st.precice.writeBlockVectorData data_dim write_data_id active_faces
            (s.coupling_nodes_ids[st.index])
            (unroll data_dim lanes (get_write_value phi q0) st.unrolled_local_data)
          unrolled_local_data :=
            unroll data_dim lanes (get_write_value phi q0) st.unrolled_local_data
          index := st.index + 1 } (by simp only; omega)
      refine ⟨st', ?_, ?_, ?_⟩
      · simp only [forLoop, QuadSurface.write_data_factory_q, hget, hdim, if_true]
        exact h1
      · rw [h2]
        simp only
        omega
      · refine ⟨PreciceCall.writeBlockVectorData write_data_id active_faces
          ((s.coupling_nodes_ids[st.index]).take active_faces)
          (read_array (data_dim * active_faces)
            (unroll data_dim lanes (get_write_value phi q0) st.unrolled_local_data)) :: new,
          ?_, ?_⟩
        · rw [h3]
          simp [SolverInterface.writeBlockVectorData]
        · rw [hdrop]
          simp only [List.map_cons, List.take_succ_cons, h4, PreciceCall.value_indices]
    · obtain ⟨st', h1, h2, new, h3, h4⟩ := ih (q0 + 1)
        { precice := st.precice.writeBlockScalarData write_data_id active_faces
            (s.coupling_nodes_ids[st.index]) (get_write_value phi q0 0)
          unrolled_local_data := st.unrolled_local_data
          index := st.index + 1 } (by simp only; omega)
      refine ⟨st', ?_, ?_, ?_⟩
      · simp only [forLoop, QuadSurface.write_data_factory_q, hget, hdim, if_false]
        exact h1
      · rw [h2]
        simp only
        omega
      · refine ⟨PreciceCall.writeBlockScalarData write_data_id active_faces
          ((s.coupling_nodes_ids[st.index]).take active_faces)
          (read_array active_faces (get_write_value phi q0 0)) :: new, ?_, ?_⟩
        · rw [h3]
          simp [SolverInterface.writeBlockScalarData]
        · rw [hdrop]
          simp only [List.map_cons, List.take_succ_cons, h4, PreciceCall.value_indices]

end SurfaceLoops

section SurfaceWriteLoop

variable {dim data_dim lanes : Nat} {R : Type}

/-- The face loop of `write_data_factory`, started at a position of the iterator from which
as many stored id arrays are left as its faces have interface points: it returns, the
iterator has advanced by that number, and the passes have handed preCICE the next stored id
arrays, one for each interface point in the order of the points, each cut to the real entries
of the batch of the point. -/
theorem write_face_loop (s : QuadSurface dim data_dim lanes R) (data_vector : Nat → R)
    (write_data_id : Int) (get_write_value : FEFaceIntegrator R → Nat → Nat → Nat → R)
    (count : Nat) :
    ∀ (first : Nat) (st : WriteState R),
      st.index + (s.interface_points_from first count).length ≤ s.coupling_nodes_ids.length →
      ∃ st',
        forLoop (s.write_data_factory_face data_vector write_data_id get_write_value) count
            first st = .ok st' ∧
          st'.index = st.index + (s.interface_points_from first count).length ∧
          ∃ new, st'.precice.calls = st.precice.calls ++ new ∧
            new.map PreciceCall.value_indices =
              List.zipWith
                (fun (p : Nat × Nat) (ids : List Int) =>
                  ids.take (s.matrix_free.n_active_entries_per_face_batch p.1))
                (s.interface_points_from first count) (s.coupling_nodes_ids.drop st.index) := by
  induction count with
  | zero =>
    intro first st _
    exact ⟨st, rfl, by simp [QuadSurface.interface_points_from], [], by simp,
      by simp [QuadSurface.interface_points_from]⟩
  | succ count ih =>
    intro first st hlen
    rw [interface_points_from_succ] at hlen ⊢
    by_cases hb : s.matrix_free.get_boundary_id first = s.dealii_boundary_surface_id
    · simp only [hb, if_true, List.length_append, List.length_map, List.length_range]
        at hlen ⊢
      obtain ⟨st1, h1, h2, new1, h3, h4⟩ := write_q_loop s write_data_id get_write_value
        { dof_index := s.mf_dof_index, quad_index := s.mf_quad_index, face := first,
          dof_values := data_vector }
        (s.matrix_free.n_active_entries_per_face_batch first)
        (s.matrix_free.n_q_points s.mf_quad_index first) 0 st (by omega)
      obtain ⟨st', h5, h6, new2, h7, h8⟩ := ih (first + 1) st1 (by rw [h2]; omega)
      have hbody :
          s.write_data_factory_face data_vector write_data_id get_write_value first st =
            .ok st1 := by
        simp only [QuadSurface.write_data_factory_face, hb, ne_eq, not_true_eq_false,
          if_false, forRange, Nat.sub_zero]
        exact h1
      refine ⟨st', ?_, ?_, new1 ++ new2, ?_, ?_⟩
      · simp only [forLoop, hbody]
        exact h5
      · rw [h6, h2]
        omega
      · rw [h7, h3, List.append_assoc]
      · rw [List.map_append, h4, h8, h2]
        rw [zipWith_append_drop _ _ _ _ (by simp; omega)]
        simp only [List.length_map, List.length_range, List.drop_drop]
        congr 1
        rw [zipWith_map_face
          (fun face (ids : List Int) =>
            ids.take (s.matrix_free.n_active_entries_per_face_batch face)) first]
        simp
    · simp only [hb, if_false, List.nil_append] at hlen ⊢
      obtain ⟨st', h5, h6, new2, h7, h8⟩ := ih (first + 1) st hlen
      have hbody :
          s.write_data_factory_face data_vector write_data_id get_write_value first st =
            .ok st := by
        simp [QuadSurface.write_data_factory_face, hb]
      refine ⟨st', ?_, h6, new2, h7, h8⟩
      simp only [forLoop, hbody]
      exact h5

end SurfaceWriteLoop

section SurfaceDefine

variable {dim data_dim lanes : Nat} {R : Type}

/-- A call of `QuadSurface::define_coupling_mesh` on an empty id list that returns: in a
debug build the mesh id is not -1; the surface returned has one id array for each interface
point, and the same matrix-free object, surface id, indices and mesh id. -/
theorem define_coupling_mesh_of_empty (debug : Bool) (s s1 : QuadSurface dim data_dim lanes R)
    (unrolled_vertices : Nat → R) (node_ids : Nat → Int)
    (hempty : s.coupling_nodes_ids = [])
    (hdef : s.define_coupling_mesh debug unrolled_vertices node_ids = .ok s1) :
    (debug = true → s.mesh_id ≠ -1) ∧
      s1.coupling_nodes_ids.length = s.interface_points.length ∧
      s1.matrix_free = s.matrix_free ∧
      s1.dealii_boundary_surface_id = s.dealii_boundary_surface_id ∧
      s1.mf_quad_index = s.mf_quad_index ∧ s1.mf_dof_index = s.mf_dof_index ∧
      s1.mesh_id = s.mesh_id := by
  unfold QuadSurface.define_coupling_mesh at hdef
  cases hA : Assert debug (decide (s.mesh_id ≠ -1)) "ExcNotInitialized" with
  | error e =>
    simp only [hA, bind, Except.bind] at hdef
    cases hdef
  | ok u1 =>
    have hmesh := Assert_passed debug _ _ u1 hA
    obtain ⟨st', hloop, hlen, hsize⟩ := define_face_loop s
      s.matrix_free.n_boundary_face_batches s.matrix_free.n_inner_face_batches
      { precice := s.precice, coupling_nodes_ids := s.coupling_nodes_ids,
        unrolled_vertices := unrolled_vertices, node_ids := node_ids, size := 0 }
    simp only [hA, bind, Except.bind, hempty, List.length_nil, gt_iff_lt, lt_self_iff_false,
      if_false, forRange, Nat.add_sub_cancel] at hdef
    rw [hempty] at hloop hlen
    rw [hloop] at hdef
    simp only [List.length_nil, Nat.zero_add] at hlen hsize
    cases hA2 : Assert debug
        (decide (st'.size * lanes ≥ st'.precice.getMeshVertexSize s.mesh_id))
        "ExcInternalError" with
    | error e =>
      simp only [hA2] at hdef
      cases hdef
    | ok u2 =>
      simp only [hA2] at hdef
      cases hdef
      refine ⟨by simpa using hmesh, ?_, ?_, ?_, rfl, rfl, ?_⟩
      · simp only [QuadSurface.interface_points]
        rw [hsize, ← hlen, resize_ids_length]
      · split_ifs <;> rfl
      · split_ifs <;> rfl
      · split_ifs <;> rfl

end SurfaceDefine

section SurfaceClaims

variable {dim data_dim lanes : Nat} {R : Type}

/-- A call of `QuadSurface::define_coupling_mesh` on a non-empty id list: in a debug build
with mesh id -1 the first `Assert` throws; otherwise the surface is returned as it is. -/
theorem quad_define_coupling_mesh_nonempty (debug : Bool)
    (s : QuadSurface dim data_dim lanes R) (unrolled_vertices : Nat → R)
    (node_ids : Nat → Int) (h : s.coupling_nodes_ids ≠ []) :
    s.define_coupling_mesh debug unrolled_vertices node_ids =
      if debug = true ∧ s.mesh_id = -1 then .error "ExcNotInitialized" else .ok s := by
  have hlen : s.coupling_nodes_ids.length > 0 := List.length_pos.mpr h
  unfold QuadSurface.define_coupling_mesh
  by_cases hc : debug = true ∧ s.mesh_id = -1
  · have hA := Assert_error debug (decide (s.mesh_id ≠ -1)) "ExcNotInitialized" hc.1
      (by simp [hc.2])
    simp only [hA, bind, Except.bind, if_pos hc]
  · have hA := Assert_ok debug (decide (s.mesh_id ≠ -1)) "ExcNotInitialized"
      (by
        intro hd
        have hm : s.mesh_id ≠ -1 := fun hm => hc ⟨hd, hm⟩
        simp [hm])
    simp only [hA, bind, Except.bind, if_pos hlen, if_neg hc]

/-- A call of `ExaDGSurface::define_coupling_mesh` on a non-empty id list: in a debug build
with mesh id -1 the `Assert` throws; otherwise the surface is returned as it is. -/
theorem exadg_define_coupling_mesh_nonempty [Inhabited R] (debug : Bool)
    (s : ExaDGSurface dim data_dim lanes R) (vec : List (List R))
    (h : s.coupling_nodes_ids ≠ []) :
    s.define_coupling_mesh debug vec =
      if debug = true ∧ s.mesh_id = -1 then .error "ExcNotInitialized" else .ok s := by
  have hlen : s.coupling_nodes_ids.length > 0 := List.length_pos.mpr h
  unfold ExaDGSurface.define_coupling_mesh
  by_cases hc : debug = true ∧ s.mesh_id = -1
  · have hA := Assert_error debug (decide (s.mesh_id ≠ -1)) "ExcNotInitialized" hc.1
      (by simp [hc.2])
    simp only [hA, bind, Except.bind, if_pos hc]
  · have hA := Assert_ok debug (decide (s.mesh_id ≠ -1)) "ExcNotInitialized"
      (by
        intro hd
        have hm : s.mesh_id ≠ -1 := fun hm => hc ⟨hd, hm⟩
        simp [hm])
    simp only [hA, bind, Except.bind, if_pos hlen, if_neg hc]

/-- A call of `QuadSurface::define_coupling_mesh` that returns leaves the mesh id as it is,
and in a debug build the mesh id is not -1. -/
theorem quad_define_coupling_mesh_mesh_id (debug : Bool)
    (s s1 : QuadSurface dim data_dim lanes R) (unrolled_vertices : Nat → R)
    (node_ids : Nat → Int)
    (hdef : s.define_coupling_mesh debug unrolled_vertices node_ids = .ok s1) :
    (debug = true → s.mesh_id ≠ -1) ∧ s1.mesh_id = s.mesh_id := by
  by_cases hempty : s.coupling_nodes_ids = []
  · obtain ⟨h1, _, _, _, _, _, h2⟩ :=
      define_coupling_mesh_of_empty debug s s1 unrolled_vertices node_ids hempty hdef
    exact ⟨h1, h2⟩
  · rw [quad_define_coupling_mesh_nonempty debug s unrolled_vertices node_ids hempty] at hdef
    by_cases hc : debug = true ∧ s.mesh_id = -1
    · rw [if_pos hc] at hdef
      cases hdef
    · rw [if_neg hc] at hdef
      cases hdef
      exact ⟨fun hd hm => hc ⟨hd, hm⟩, rfl⟩

/-- A call of `ExaDGSurface::define_coupling_mesh` that returns leaves the mesh id as it is,
and in a debug build the mesh id is not -1. -/
theorem exadg_define_coupling_mesh_mesh_id [Inhabited R] (debug : Bool)
    (s s1 : ExaDGSurface dim data_dim lanes R) (vec : List (List R))
    (hdef : s.define_coupling_mesh debug vec = .ok s1) :
    (debug = true → s.mesh_id ≠ -1) ∧ s1.mesh_id = s.mesh_id := by
  unfold ExaDGSurface.define_coupling_mesh at hdef
  cases hA : Assert debug (decide (s.mesh_id ≠ -1)) "ExcNotInitialized" with
  | error e =>
    simp only [hA, bind, Except.bind] at hdef
    cases hdef
  | ok u1 =>
    have hmesh := Assert_passed debug _ _ u1 hA
    simp only [hA, bind, Except.bind] at hdef
    refine ⟨by simpa using hmesh, ?_⟩
    split_ifs at hdef <;> cases hdef <;> rfl

/-- C25: `define_coupling_mesh` of `QuadSurface` and of `ExaDGSurface` defines the coupling
surface at most once. A call made while `coupling_nodes_ids` is not empty either returns the
surface exactly as it was (no call to preCICE, the ids unchanged) or, in a debug build with
mesh id -1, throws in the first `Assert` before anything is done; it returns whenever the
build is a release build or the mesh id is set. A call after a call that has returned with at
least one id stored returns the surface exactly as it was. -/
theorem define_coupling_mesh_at_most_once [Inhabited R] (debug : Bool)
    (quad : QuadSurface dim data_dim lanes R) (exadg : ExaDGSurface dim data_dim lanes R)
    (unrolled_vertices : Nat → R) (node_ids : Nat → Int) (vec : List (List R)) :
    (quad.coupling_nodes_ids ≠ [] →
      (quad.define_coupling_mesh debug unrolled_vertices node_ids = .ok quad ∨
        quad.define_coupling_mesh debug unrolled_vertices node_ids =
          .error "ExcNotInitialized") ∧
      ((debug = true → quad.mesh_id ≠ -1) →
        quad.define_coupling_mesh debug unrolled_vertices node_ids = .ok quad)) ∧
    (∀ quad1, quad.define_coupling_mesh debug unrolled_vertices node_ids = .ok quad1 →
      quad1.coupling_nodes_ids ≠ [] →
      ∀ (unrolled_vertices1 : Nat → R) (node_ids1 : Nat → Int),
        quad1.define_coupling_mesh debug unrolled_vertices1 node_ids1 = .ok quad1) ∧
    (exadg.coupling_nodes_ids ≠ [] →
      (exadg.define_coupling_mesh debug vec = .ok exadg ∨
        exadg.define_coupling_mesh debug vec = .error "ExcNotInitialized") ∧
      ((debug = true → exadg.mesh_id ≠ -1) →
        exadg.define_coupling_mesh debug vec = .ok exadg)) ∧
    (∀ exadg1, exadg.define_coupling_mesh debug vec = .ok exadg1 →
      exadg1.coupling_nodes_ids ≠ [] →
      ∀ vec1 : List (List R), exadg1.define_coupling_mesh debug vec1 = .ok exadg1) := by
  refine ⟨?_, ?_, ?_, ?_⟩
  · intro h
    rw [quad_define_coupling_mesh_nonempty debug quad unrolled_vertices node_ids h]
    constructor
    · by_cases hc : debug = true ∧ quad.mesh_id = -1
      · exact Or.inr (if_pos hc)
      · exact Or.inl (if_neg hc)
    · intro hm
      exact if_neg (fun hc => hm hc.1 hc.2)
  · intro quad1 hdef hne unrolled_vertices1 node_ids1
    obtain ⟨hm, he⟩ :=
      quad_define_coupling_mesh_mesh_id debug quad quad1 unrolled_vertices node_ids hdef
    rw [quad_define_coupling_mesh_nonempty debug quad1 unrolled_vertices1 node_ids1 hne]
    exact if_neg (fun hc => hm hc.1 (he ▸ hc.2))
  · intro h
    rw [exadg_define_coupling_mesh_nonempty debug exadg vec h]
    constructor
    · by_cases hc : debug = true ∧ exadg.mesh_id = -1
      · exact Or.inr (if_pos hc)
      · exact Or.inl (if_neg hc)
    · intro hm
      exact if_neg (fun hc => hm hc.1 hc.2)
  · intro exadg1 hdef hne vec1
    obtain ⟨hm, he⟩ := exadg_define_coupling_mesh_mesh_id debug exadg exadg1 vec hdef
    rw [exadg_define_coupling_mesh_nonempty debug exadg1 vec1 hne]
    exact if_neg (fun hc => hm hc.1 (he ▸ hc.2))

end SurfaceClaims

section SurfaceClaimsWrite

variable {dim data_dim lanes : Nat} {R : Type}

/-- C25, on the sample surfaces in a debug build: the first call of `define_coupling_mesh`
on the quadrature-point surface returns with ids stored and a second call returns the surface
unchanged; the first call on the shallow wrapper with two points stores the ids 50 and 51 and
a second call, with other points, returns the surface unchanged. -/
theorem define_coupling_mesh_at_most_once_witness :
    (∃ quad1,
      sample_quad_surface.define_coupling_mesh true (fun _ => 0) (fun _ => 0) = .ok quad1 ∧
        quad1.coupling_nodes_ids ≠ [] ∧
        quad1.define_coupling_mesh true (fun _ => 1) (fun _ => 1) = .ok quad1) ∧
    (∃ exadg1,
      sample_exadg_surface.define_coupling_mesh true [[1, 2], [3, 4]] = .ok exadg1 ∧
        exadg1.coupling_nodes_ids = [50, 51] ∧
        exadg1.define_coupling_mesh true [[5, 6]] = .ok exadg1) := by
  constructor
  · obtain ⟨quad1, hq⟩ : ∃ quad1,
        sample_quad_surface.define_coupling_mesh true (fun _ => 0) (fun _ => 0) = .ok quad1 :=
      ⟨_, rfl⟩
    have hlen := (define_coupling_mesh_of_empty true sample_quad_surface quad1 _ _ rfl hq).2.1
    have hne : quad1.coupling_nodes_ids ≠ [] := by
      intro h0
      rw [h0] at hlen
      revert hlen
      decide
    exact ⟨quad1, hq, hne,
      (define_coupling_mesh_at_most_once true sample_quad_surface sample_exadg_surface
        (fun _ => 0) (fun _ => 0) [[1, 2], [3, 4]]).2.1 quad1 hq hne (fun _ => 1)
        (fun _ => 1)⟩
  · obtain ⟨exadg1, he, hids⟩ : ∃ exadg1,
        sample_exadg_surface.define_coupling_mesh true [[1, 2], [3, 4]] = .ok exadg1 ∧
          exadg1.coupling_nodes_ids = [50, 51] :=
      ⟨_, rfl, rfl⟩
    have hne : exadg1.coupling_nodes_ids ≠ [] := by
      rw [hids]
      decide
    exact ⟨exadg1, he, hids,
      (define_coupling_mesh_at_most_once true sample_quad_surface sample_exadg_surface
        (fun _ => 0) (fun _ => 0) [[1, 2], [3, 4]]).2.2.2 exadg1 he hne [[5, 6]]⟩

/-- The function `write_data_factory` up to the end of its face loop on a surface that holds
one id array for each interface point: in a debug build with write data id -1 or without
stored ids an `Assert` throws `ExcNotInitialized`; otherwise the loops return, the iterator
ends at `end()`, and the passes have handed preCICE the stored id arrays, one for each
interface point in the order of the points, each cut to the real entries of its batch. -/
theorem write_data_factory_loop_spec (debug : Bool) (s : QuadSurface dim data_dim lanes R)
    (data_vector : Nat → R) (write_data_id : Int)
    (get_write_value : FEFaceIntegrator R → Nat → Nat → Nat → R)
    (unrolled_local_data : Nat → R)
    (hlen : s.coupling_nodes_ids.length = s.interface_points.length) :
    (¬ (debug = true → write_data_id ≠ -1 ∧ s.coupling_nodes_ids ≠ []) →
      s.write_data_factory_loop debug data_vector write_data_id get_write_value
        unrolled_local_data = .error "ExcNotInitialized") ∧
    ((debug = true → write_data_id ≠ -1 ∧ s.coupling_nodes_ids ≠ []) →
      ∃ st,
        s.write_data_factory_loop debug data_vector write_data_id get_write_value
          unrolled_local_data = .ok st ∧
        st.index = s.coupling_nodes_ids.length ∧
        ∃ new, st.precice.calls = s.precice.calls ++ new ∧
          new.map PreciceCall.value_indices =
            List.zipWith
              (fun (p : Nat × Nat) (ids : List Int) =>
                ids.take (s.matrix_free.n_active_entries_per_face_batch p.1))
              s.interface_points s.coupling_nodes_ids) := by
  constructor
  · intro hnot
    have hd : debug = true := by
      by_contra hd
      exact hnot (fun h => absurd h hd)
    have hor : write_data_id = -1 ∨ s.coupling_nodes_ids = [] := by
      by_contra hor
      push_neg at hor
      exact hnot (fun _ => hor)
    unfold QuadSurface.write_data_factory_loop
    by_cases hw : write_data_id = -1
    · have hA := Assert_error debug (decide (write_data_id ≠ -1)) "ExcNotInitialized" hd
        (by simp [hw])
      simp only [hA, bind, Except.bind]
    · have hA := Assert_ok debug (decide (write_data_id ≠ -1)) "ExcNotInitialized"
        (fun _ => by simp [hw])
      have he : s.coupling_nodes_ids = [] := hor.resolve_left hw
      have hA2 := Assert_error debug (decide (s.coupling_nodes_ids.length > 0))
        "ExcNotInitialized" hd (by simp [he])
      simp only [hA, hA2, bind, Except.bind]
  · intro hpass
    have hA := Assert_ok debug (decide (write_data_id ≠ -1)) "ExcNotInitialized"
      (fun hd => by simp [(hpass hd).1])
    have hA2 := Assert_ok debug (decide (s.coupling_nodes_ids.length > 0))
      "ExcNotInitialized"
      (fun hd => by simp [List.length_pos, (hpass hd).2])
    obtain ⟨st, h1, h2, new, h3, h4⟩ := write_face_loop s data_vector write_data_id
      get_write_value s.matrix_free.n_boundary_face_batches
      s.matrix_free.n_inner_face_batches
      { precice := s.precice, unrolled_local_data := unrolled_local_data, index := 0 }
      (by
        show 0 + (s.interface_points_from _ _).length ≤ _
        rw [hlen]
        simp [QuadSurface.interface_points])
    refine ⟨st, ?_, ?_, new, h3, ?_⟩
    · unfold QuadSurface.write_data_factory_loop
      simp only [hA, hA2, bind, Except.bind, forRange, Nat.add_sub_cancel]
      exact h1
    · rw [h2, hlen]
      simp [QuadSurface.interface_points]
    · rw [h4]
      simp [QuadSurface.interface_points]

end SurfaceClaimsWrite

section StoredIdsConsumed

variable {dim data_dim lanes : Nat} {R : Type}

/-- C26: if `define_coupling_mesh` was run on an empty id list and has returned, and
`write_data_factory` is then run on the surface it left (the same face batches, boundary ids,
surface id and numbers of quadrature points), then: the number of stored id arrays is the sum
of `n_q_points` over the faces whose boundary id is the surface id, which is the number of
interface points; the run never throws `ExcInternalError`, that is the iterator is never at
`end()` when it is dereferenced; unless a debug build stops at one of the two initial
`Assert`s, the loops return with the iterator at `end()`, having handed preCICE the stored id
arrays one for each interface point, in the order in which they were stored; and so does
`write_data_factory` itself. -/
theorem write_data_consumes_stored_ids (debug : Bool)
    (s s1 : QuadSurface dim data_dim lanes R) (unrolled_vertices : Nat → R)
    (node_ids : Nat → Int) (data_vector : Nat → R) (write_data_id : Int)
    (get_write_value : FEFaceIntegrator R → Nat → Nat → Nat → R)
    (unrolled_local_data : Nat → R)
    (hempty : s.coupling_nodes_ids = [])
    (hdef : s.define_coupling_mesh debug unrolled_vertices node_ids = .ok s1) :
    s1.coupling_nodes_ids.length = s.n_interface_q_points ∧
    s1.coupling_nodes_ids.length = s.interface_points.length ∧
    s1.interface_points = s.interface_points ∧
    s1.write_data_factory_loop debug data_vector write_data_id get_write_value
        unrolled_local_data ≠ .error "ExcInternalError" ∧
    (∀ k, k < s.interface_points.length → ∃ ids, s1.coupling_nodes_ids[k]? = some ids) ∧
    ((debug = true → write_data_id ≠ -1 ∧ s1.coupling_nodes_ids ≠ []) →
      (∃ st,
        s1.write_data_factory_loop debug data_vector write_data_id get_write_value
          unrolled_local_data = .ok st ∧
        st.index = s1.coupling_nodes_ids.length ∧
        ∃ new, st.precice.calls = s1.precice.calls ++ new ∧
          new.map PreciceCall.value_indices =
            List.zipWith
              (fun (p : Nat × Nat) (ids : List Int) =>
                ids.take (s.matrix_free.n_active_entries_per_face_batch p.1))
              s.interface_points s1.coupling_nodes_ids) ∧
      ∃ s2,
        s1.write_data_factory debug data_vector write_data_id get_write_value
          unrolled_local_data = .ok s2) := by
  obtain ⟨_, hlen, hmf, hid, hqi, _, _⟩ :=
    define_coupling_mesh_of_empty debug s s1 unrolled_vertices node_ids hempty hdef
  have hpoints : s1.interface_points = s.interface_points := by
    simp only [QuadSurface.interface_points, QuadSurface.interface_points_from, hmf, hid, hqi]
  have hlen1 : s1.coupling_nodes_ids.length = s1.interface_points.length := by
    rw [hpoints]
    exact hlen
  obtain ⟨herr, hok⟩ := write_data_factory_loop_spec debug s1 data_vector write_data_id
    get_write_value unrolled_local_data hlen1
  refine ⟨?_, hlen, hpoints, ?_, ?_, ?_⟩
  · rw [hlen]
    exact interface_points_from_length s _ _
  · by_cases hpass : debug = true → write_data_id ≠ -1 ∧ s1.coupling_nodes_ids ≠ []
    · obtain ⟨st, hst, _⟩ := hok hpass
      rw [hst]
      intro h
      cases h
    · rw [herr hpass]
      intro h
      simp at h
  · intro k hk
    have hk1 : k < s1.coupling_nodes_ids.length := by omega
    exact ⟨s1.coupling_nodes_ids[k], List.getElem?_eq_getElem hk1⟩
  · intro hpass
    obtain ⟨st, hst, hidx, new, hcalls, hnew⟩ := hok hpass
    refine ⟨⟨st, hst, hidx, new, hcalls, ?_⟩, ?_⟩
    · rw [hnew, hpoints, hmf]
    · refine ⟨{ s1 with precice := st.precice }, ?_⟩
      unfold QuadSurface.write_data_factory
      rw [hst]
      rfl

/-- C26, on the sample surface in a debug build (interface faces 1 and 3 with two quadrature
points each, face 3 with one real entry): `define_coupling_mesh` stores four id arrays, and
`write_data_factory` returns with the iterator at position 4, the end, having handed preCICE
the ids 50 and 51, then 52 and 53, then 54, then 55. -/
theorem write_data_consumes_stored_ids_witness :
    ∃ s1,
      sample_quad_surface.define_coupling_mesh true (fun _ => 0) (fun _ => 0) = .ok s1 ∧
        s1.coupling_nodes_ids = [[50, 51], [52, 53], [54, 53], [55, 53]] ∧
        ∃ st,
          s1.write_data_factory_loop true (fun i => (i : ℤ)) 3 sample_surface_mf.get_value
            (fun _ => 0) = .ok st ∧
          st.index = 4 ∧
          ∃ new, st.precice.calls = s1.precice.calls ++ new ∧
            new.map PreciceCall.value_indices = [[50, 51], [52, 53], [54], [55]] := by
  obtain ⟨s1, hdef, hids⟩ : ∃ s1,
      sample_quad_surface.define_coupling_mesh true (fun _ => 0) (fun _ => 0) = .ok s1 ∧
        s1.coupling_nodes_ids = [[50, 51], [52, 53], [54, 53], [55, 53]] :=
    ⟨_, rfl, rfl⟩
  obtain ⟨⟨st, hst, hidx, new, hcalls, hnew⟩, _⟩ :=
    (write_data_consumes_stored_ids true sample_quad_surface s1 (fun _ => 0) (fun _ => 0)
      (fun i => (i : ℤ)) 3 sample_surface_mf.get_value (fun _ => 0) rfl hdef).2.2.2.2.2
      (by
        intro _
        rw [hids]
        decide)
  refine ⟨s1, hdef, hids, st, hst, ?_, new, hcalls, ?_⟩
  · rw [hidx, hids]
    rfl
  · rw [hnew, hids]
    rfl

end StoredIdsConsumed

section MultigridOrderExample

/-- C21, on the sample preconditioner of type `ReactionConvectionDiffusion` on an unsteady
problem with the levels 0 to 2, with a moving mesh and an empty log: the calls of `update()`
in their order. -/
theorem update_order_witness :
    ({ sample_mg_reaction_convection_diffusion with mesh_is_moving := true }.update sample_env
        sample_pde_operator).log =
      [Event.update_matrix_free,
        Event.update_after_mesh_movement 0, Event.update_after_mesh_movement 1,
        Event.update_after_mesh_movement 2,
        Event.set_time 0, Event.set_time 1, Event.set_time 2,
        Event.set_scaling_factor_mass_matrix 0, Event.set_scaling_factor_mass_matrix 1,
        Event.set_scaling_factor_mass_matrix 2,
        Event.pde_operator_get_velocity,
        Event.set_velocity_copy 2, Event.interpolate 2, Event.set_velocity_copy 1,
        Event.interpolate 1, Event.set_velocity_copy 0,
        Event.update_smoothers, Event.update_coarse_solver false] :=
  (update_order sample_env
    { sample_mg_reaction_convection_diffusion with mesh_is_moving := true }
    sample_pde_operator).trans (by decide)

end MultigridOrderExample

section ErrorCalculatorCounter

variable {K V : Type} [LinearOrderedField K]

/-- One call of `evaluate` either changes nothing or records one calculation and replaces the
counter by its successor modulo `2^32`. -/
theorem evaluate_cases (c : ErrorCalculator K V) (velocity pressure : V) (time : K)
    (time_step_number : Int) :
    c.evaluate velocity pressure time time_step_number = c ∨
      c.evaluate velocity pressure time time_step_number =
        { c with
          error_counter := (c.error_counter + 1) % 2 ^ 32
          calculations := c.calculations ++ [(velocity, pressure, time)] } := by
  unfold ErrorCalculator.evaluate
  simp only [ErrorCalculator.do_evaluate]
  split_ifs
  · exact Or.inr rfl
  · exact Or.inl rfl
  · exact Or.inr rfl
  · exact Or.inl rfl

/-- After a sequence of calls the counter is the number of calculations made, modulo `2^32`,
if it was so before, and each call has added at most one calculation. -/
theorem evaluate_calls_counter_mod (calls : List (V × V × K × Int)) :
    ∀ c : ErrorCalculator K V, c.error_counter = c.calculations.length % 2 ^ 32 →
      (c.evaluate_calls calls).error_counter =
          (c.evaluate_calls calls).calculations.length % 2 ^ 32 ∧
        (c.evaluate_calls calls).calculations.length ≤ c.calculations.length + calls.length := by
  induction calls with
  | nil =>
    intro c h
    exact ⟨h, Nat.le_refl _⟩
  | cons call calls ih =>
    intro c h
    simp only [ErrorCalculator.evaluate_calls, List.foldl_cons, List.length_cons]
    rcases evaluate_cases c call.1 call.2.1 call.2.2.1 call.2.2.2 with h1 | h1
    · rw [h1]
      obtain ⟨h2, h3⟩ := ih c h
      exact ⟨h2, by simp only [ErrorCalculator.evaluate_calls] at h3; omega⟩
    · rw [h1]
      obtain ⟨h2, h3⟩ := ih
        { c with
          error_counter := (c.error_counter + 1) % 2 ^ 32
          calculations := c.calculations ++ [(call.1, call.2.1, call.2.2.1)] }
        (by
          simp only [List.length_append, List.length_singleton]
          rw [h]
          omega)
      refine ⟨h2, ?_⟩
      simp only [ErrorCalculator.evaluate_calls, List.length_append, List.length_singleton]
        at h3
      omega

/-- A sequence of `n` calls of `evaluate` with the time step number -1 on a calculator with
an analytical solution makes `n` calculations. -/
theorem evaluate_calls_steady (velocity pressure : V) (time : K) (n : Nat) :
    ∀ c : ErrorCalculator K V, c.error_data.analytical_solution_available = true →
      (c.evaluate_calls
        (List.replicate n (velocity, pressure, time, -1))).calculations.length =
        c.calculations.length + n := by
  induction n with
  | zero =>
    intro c _
    rfl
  | succ n ih =>
    intro c h
    have hstep : c.evaluate velocity pressure time (-1) =
        { c with
          error_counter := (c.error_counter + 1) % 2 ^ 32
          calculations := c.calculations ++ [(velocity, pressure, time)] } := by
      simp [ErrorCalculator.evaluate, ErrorCalculator.do_evaluate, h]
    simp only [ErrorCalculator.evaluate_calls, List.replicate_succ, List.foldl_cons]
    rw [hstep]
    have h2 := ih
      { c with
        error_counter := (c.error_counter + 1) % 2 ^ 32
        calculations := c.calculations ++ [(velocity, pressure, time)] } h
    simp only [ErrorCalculator.evaluate_calls, List.length_append, List.length_singleton] at h2
    rw [h2]
    omega

/-- A call of `evaluate` with the time step number -1 on a calculator with an analytical
solution records one calculation and replaces the counter by its successor modulo `2^32`. -/
theorem evaluate_steady (c : ErrorCalculator K V) (velocity pressure : V) (time : K)
    (h : c.error_data.analytical_solution_available = true) :
    c.evaluate velocity pressure time (-1) =
      { c with
        error_counter := (c.error_counter + 1) % 2 ^ 32
        calculations := c.calculations ++ [(velocity, pressure, time)] } := by
  simp [ErrorCalculator.evaluate, ErrorCalculator.do_evaluate, h]

/-- The counter after a call of `evaluate` with the time step number -1 on a calculator with
an analytical solution is its successor modulo `2^32`. -/
theorem evaluate_steady_counter (c : ErrorCalculator K V) (velocity pressure : V) (time : K)
    (h : c.error_data.analytical_solution_available = true) :
    (c.evaluate velocity pressure time (-1)).error_counter =
      (c.error_counter + 1) % 2 ^ 32 := by
  rw [evaluate_steady c velocity pressure time h]

/-- Calls of `evaluate` leave the member `error_data` as it is. -/
theorem evaluate_calls_error_data (calls : List (V × V × K × Int)) :
    ∀ c : ErrorCalculator K V, (c.evaluate_calls calls).error_data = c.error_data := by
  induction calls with
  | nil =>
    intro c
    rfl
  | cons call calls ih =>
    intro c
    simp only [ErrorCalculator.evaluate_calls, List.foldl_cons]
    rcases evaluate_cases c call.1 call.2.1 call.2.2.1 call.2.2.2 with h1 | h1
    · rw [h1]
      exact ih c
    · rw [h1]
      exact ih _

/-- C30 (amended): `evaluate` as a step on the counter `error_counter`. Without an analytical
solution nothing is calculated and the calculator is unchanged. With one, for a negative time
step number exactly one calculation is made and the counter is replaced by its successor
modulo `2^32`; for a time step number `>= 0` this happens if and only if
`time > error_calc_start_time + error_counter * error_calc_interval_time - 1e-10`, and
otherwise nothing changes. Hence, while the counter is below `2^32 - 1`, a call does not
decrease it, raises it by at most one and by exactly the number of calculations it makes; and
after fewer than `2^32` calls on a newly constructed calculator (counter 0), whatever `setup`
has installed, the counter is the number of calculations made. -/
theorem evaluate_counter (c : ErrorCalculator K V) (velocity pressure : V) (time : K)
    (time_step_number : Int) :
    (c.error_data.analytical_solution_available = false →
      c.evaluate velocity pressure time time_step_number = c) ∧
    (c.error_data.analytical_solution_available = true → time_step_number < 0 →
      c.evaluate velocity pressure time time_step_number =
        { c with
          error_counter := (c.error_counter + 1) % 2 ^ 32
          calculations := c.calculations ++ [(velocity, pressure, time)] }) ∧
    (c.error_data.analytical_solution_available = true → time_step_number ≥ 0 →
      (time > c.error_data.error_calc_start_time +
          (c.error_counter : K) * c.error_data.error_calc_interval_time - 1 / 10 ^ 10 →
        c.evaluate velocity pressure time time_step_number =
          { c with
            error_counter := (c.error_counter + 1) % 2 ^ 32
            calculations := c.calculations ++ [(velocity, pressure, time)] }) ∧
      (¬ time > c.error_data.error_calc_start_time +
          (c.error_counter : K) * c.error_data.error_calc_interval_time - 1 / 10 ^ 10 →
        c.evaluate velocity pressure time time_step_number = c)) ∧
    (c.error_counter + 1 < 2 ^ 32 →
      (c.error_counter + 1) % 2 ^ 32 = c.error_counter + 1 ∧
      c.error_counter ≤ (c.evaluate velocity pressure time time_step_number).error_counter ∧
      (c.evaluate velocity pressure time time_step_number).error_counter ≤
        c.error_counter + 1 ∧
      (c.evaluate velocity pressure time time_step_number).error_counter - c.error_counter =
        (c.evaluate velocity pressure time time_step_number).calculations.length -
          c.calculations.length) ∧
    (∀ (error_data error_data_in : ErrorCalculationData K) (calls : List (V × V × K × Int)),
      calls.length < 2 ^ 32 →
      (((ErrorCalculator.construct error_data : ErrorCalculator K V).setup
          error_data_in).evaluate_calls calls).error_counter =
        (((ErrorCalculator.construct error_data : ErrorCalculator K V).setup
          error_data_in).evaluate_calls calls).calculations.length) := by
  refine ⟨?_, ?_, ?_, ?_, ?_⟩
  · intro h
    simp [ErrorCalculator.evaluate, h]
  · intro h hn
    have hn2 : ¬ time_step_number ≥ 0 := by omega
    simp [ErrorCalculator.evaluate, ErrorCalculator.do_evaluate, h, hn2]
  · intro h hn
    constructor
    · intro ht
      simp only [ErrorCalculator.evaluate, ErrorCalculator.do_evaluate, h, hn, ht, if_true]
    · intro ht
      simp only [ErrorCalculator.evaluate, h, hn, ht, if_true, if_false]
  · intro hb
    have hmod : (c.error_counter + 1) % 2 ^ 32 = c.error_counter + 1 := Nat.mod_eq_of_lt hb
    refine ⟨hmod, ?_, ?_, ?_⟩
    · rcases evaluate_cases c velocity pressure time time_step_number with h | h <;> rw [h]
      simp only [hmod]
      exact Nat.le_succ _
    · rcases evaluate_cases c velocity pressure time time_step_number with h | h <;> rw [h]
      · exact Nat.le_succ _
      · simp only [hmod]
        exact Nat.le_refl _
    · rcases evaluate_cases c velocity pressure time time_step_number with h | h <;> rw [h]
      · simp
      · simp only [hmod]
        simp
  · intro error_data error_data_in calls hlen
    obtain ⟨h1, h2⟩ := evaluate_calls_counter_mod calls
      ((ErrorCalculator.construct error_data : ErrorCalculator K V).setup error_data_in) rfl
    rw [h1]
    apply Nat.mod_eq_of_lt
    have h3 : ((ErrorCalculator.construct error_data : ErrorCalculator K V).setup
        error_data_in).calculations.length = 0 := rfl
    omega

/-- C30 (amended), on the sample calculator (errors due from time 0 on at intervals of 1/2):
the calls at the times 0, 1/10, 1/2 of the time steps 0, 1, 2 calculate, skip, calculate, so
the counter is 1, 1, 2; a call with time step number -1 calculates whatever the time is;
without an analytical solution nothing is calculated. -/
theorem evaluate_counter_witness :
    (sample_error_calculator.evaluate 7 8 0 0).error_counter = 1 ∧
    ((sample_error_calculator.evaluate 7 8 0 0).evaluate 7 8 (1 / 10) 1).error_counter = 1 ∧
    (((sample_error_calculator.evaluate 7 8 0 0).evaluate 7 8 (1 / 10) 1).evaluate 7 8 (1 / 2)
      2).error_counter = 2 ∧
    (sample_error_calculator.evaluate 7 8 (-5) (-1)).calculations = [(7, 8, -5)] ∧
    (sample_error_calculator.setup
        { analytical_solution_available := false, error_calc_start_time := 0,
          error_calc_interval_time := 1 / 2 }).evaluate 7 8 0 0 =
      sample_error_calculator.setup
        { analytical_solution_available := false, error_calc_start_time := 0,
          error_calc_interval_time := 1 / 2 } := by
  have h1 := ((evaluate_counter sample_error_calculator 7 8 0 0).2.2.1 rfl (by decide)).1
    (by norm_num [sample_error_calculator, ErrorCalculator.setup, ErrorCalculator.construct])
  have h2 := ((evaluate_counter (sample_error_calculator.evaluate 7 8 0 0) 7 8 (1 / 10)
    1).2.2.1 (by rw [h1]; rfl) (by decide)).2
    (by
      rw [h1]
      norm_num [sample_error_calculator, ErrorCalculator.setup, ErrorCalculator.construct])
  have h3 := ((evaluate_counter
    ((sample_error_calculator.evaluate 7 8 0 0).evaluate 7 8 (1 / 10) 1) 7 8 (1 / 2)
    2).2.2.1 (by rw [h2, h1]; rfl) (by decide)).1
    (by
      rw [h2, h1]
      norm_num [sample_error_calculator, ErrorCalculator.setup, ErrorCalculator.construct])
  have h4 := (evaluate_counter sample_error_calculator 7 8 (-5) (-1)).2.1 rfl (by decide)
  have h5 := (evaluate_counter
    (sample_error_calculator.setup
      { analytical_solution_available := false, error_calc_start_time := 0,
        error_calc_interval_time := 1 / 2 }) 7 8 0 0).1 rfl
  refine ⟨?_, ?_, ?_, ?_, h5⟩
  · rw [h1]
    rfl
  · rw [h2, h1]
    rfl
  · rw [h3, h2, h1]
    rfl
  · rw [h4]
    rfl

end ErrorCalculatorCounter

section ErrorCalculatorWrap

/-- C30, the claim as stated fails: after `2^32 - 1` calls with the time step number -1 on
the sample calculator (counter 0 at the start) the counter is `2^32 - 1`; the next call makes
a calculation and leaves the counter at 0, so the counter has decreased; and after these
`2^32` calls the counter is 0 while `2^32` calculations have been made. -/
theorem evaluate_counter_counterexample :
    (sample_error_calculator.evaluate_calls (sample_steady_calls 4294967295)).error_counter =
        4294967295 ∧
      ((sample_error_calculator.evaluate_calls (sample_steady_calls 4294967295)).evaluate
        7 8 0 (-1)).error_counter = 0 ∧
      (sample_error_calculator.evaluate_calls (sample_steady_calls 4294967296)).error_counter =
        0 ∧
      (sample_error_calculator.evaluate_calls
        (sample_steady_calls 4294967296)).calculations.length = 4294967296 := by
  have hlen1 : (sample_error_calculator.evaluate_calls
      (sample_steady_calls 4294967295)).calculations.length = 0 + 4294967295 :=
    evaluate_calls_steady (7 : ℤ) (8 : ℤ) (0 : ℚ) 4294967295 sample_error_calculator rfl
  have hlen2 : (sample_error_calculator.evaluate_calls
      (sample_steady_calls 4294967296)).calculations.length = 0 + 4294967296 :=
    evaluate_calls_steady (7 : ℤ) (8 : ℤ) (0 : ℚ) 4294967296 sample_error_calculator rfl
  have hc1 := (evaluate_calls_counter_mod (sample_steady_calls 4294967295)
    sample_error_calculator rfl).1
  have hc2 := (evaluate_calls_counter_mod (sample_steady_calls 4294967296)
    sample_error_calculator rfl).1
  rw [hlen1] at hc1
  rw [hlen2] at hc2
  have havail : (sample_error_calculator.evaluate_calls
      (sample_steady_calls 4294967295)).error_data.analytical_solution_available = true := by
    rw [evaluate_calls_error_data]
    rfl
  refine ⟨?_, ?_, ?_, ?_⟩
  · rw [hc1]
    norm_num
  · rw [evaluate_steady_counter _ 7 8 0 havail, hc1]
    norm_num
  · rw [hc2]
    norm_num
  · rw [hlen2]

end ErrorCalculatorWrap

section SingleFacePasses

variable {dim : Nat} {R : Type}

/-- A face loop over the single face `face`: the face body is run once, on the newly
constructed integrators, and what it leaves in the pressure integrator is integrated and
scattered into the destination vector; an error of the face body is the error of the loop. -/
theorem single_face_pass {σ : Type} (mf : MatrixFree dim R) (P : σ → FaceIntegratorP R)
    (body : Nat → σ → Except String σ) (face : Nat) (s0 : σ) (dst : VectorType R) :
    (do
      let r ← forRange face (face + 1)
        (fun face (s : σ × VectorType R) => do
          let its ← body face s.1
          .ok (its, (P its).integrate_scatter mf s.2))
        (s0, dst)
      (.ok r.2 : Except String (VectorType R))) =
    match body face s0 with
    | .error e => .error e
    | .ok s => .ok ((P s).integrate_scatter mf dst) := by
  have e : face + 1 - face = 1 := by omega
  simp only [forRange, e, forLoop]
  cases hb : body face s0 <;> simp [bind, Except.bind]

/-- A face loop over a single face whose face body returns adds to the destination vector a
vector that does not depend on the destination vector, when `distribute_local_to_global` adds
into its destination. -/
theorem single_face_pass_adds [CommRing R] {σ : Type} (mf : MatrixFree dim R)
    (hadd : ∀ (d face : Nat) (values : Nat → R) (v : VectorType R) (i : Nat),
      mf.distribute_local_to_global d face values v i =
        v i + mf.distribute_local_to_global d face values (fun _ => 0) i)
    (P : σ → FaceIntegratorP R) (body : Nat → σ → Except String σ) (face : Nat) (s0 : σ)
    (hret : ∃ s, body face s0 = .ok s) :
    ∃ k : VectorType R, ∀ dst : VectorType R,
      (do
        let r ← forRange face (face + 1)
          (fun face (s : σ × VectorType R) => do
            let its ← body face s.1
            .ok (its, (P its).integrate_scatter mf s.2))
          (s0, dst)
        (.ok r.2 : Except String (VectorType R))) = .ok (fun i => dst i + k i) := by
  obtain ⟨s, hs⟩ := hret
  refine ⟨(P s).integrate_scatter mf (fun _ => 0), ?_⟩
  intro dst
  rw [single_face_pass mf P body face s0 dst, hs]
  simp only [FaceIntegratorP.integrate_scatter]
  congr 1
  funext i
  exact hadd _ _ _ _ _

/-- Passes over single-face ranges whose faces are each in exactly one of two masks, each
face adding to the destination vector a vector of its own: the pass over all faces and the
passes over the faces of either mask return, and what the pass over all faces adds is the
sum of what the two others add. -/
theorem single_face_passes_split [CommRing R]
    (bf : VectorType R → Nat × Nat → Except String (VectorType R))
    (dmask nmask : Nat → Bool) (faces : List Nat)
    (hmask : ∀ face ∈ faces, (dmask face = true ∧ nmask face = false) ∨
      (dmask face = false ∧ nmask face = true))
    (hbf : ∀ face ∈ faces, ∃ k : VectorType R, ∀ dst : VectorType R,
      bf dst (face, face + 1) = .ok (fun i => dst i + k i)) :
    ∀ a d n : VectorType R, ∃ dM dD dN : VectorType R,
      (faces.map fun f => (f, f + 1)).foldlM bf a = .ok dM ∧
      ((faces.filter dmask).map fun f => (f, f + 1)).foldlM bf d = .ok dD ∧
      ((faces.filter nmask).map fun f => (f, f + 1)).foldlM bf n = .ok dN ∧
      ∀ i, dM i - a i = (dD i - d i) + (dN i - n i) := by
  induction faces with
  | nil =>
    intro a d n
    exact ⟨a, d, n, rfl, rfl, rfl, fun i => by simp⟩
  | cons f fs ih =>
    intro a d n
    obtain ⟨k, hk⟩ := hbf f (List.mem_cons_self _ _)
    have ih2 := ih (fun face hf => hmask face (List.mem_cons_of_mem _ hf))
      (fun face hf => hbf face (List.mem_cons_of_mem _ hf))
    rcases hmask f (List.mem_cons_self _ _) with ⟨h1, h2⟩ | ⟨h1, h2⟩
    · obtain ⟨dM, dD, dN, hM, hD, hN, hrel⟩ :=
        ih2 (fun i => a i + k i) (fun i => d i + k i) n
      refine ⟨dM, dD, dN, ?_, ?_, ?_, ?_⟩
      · simp only [List.map_cons, List.foldlM, hk a, bind, Except.bind]
        exact hM
      · simp only [List.filter_cons, h1, if_true, List.map_cons, List.foldlM, hk d, bind,
          Except.bind]
        exact hD
      · simp only [List.filter_cons, h2, Bool.false_eq_true, if_false]
        exact hN
      · intro i
        have := hrel i
        simp only at this
        linear_combination this
    · obtain ⟨dM, dD, dN, hM, hD, hN, hrel⟩ :=
        ih2 (fun i => a i + k i) d (fun i => n i + k i)
      refine ⟨dM, dD, dN, ?_, ?_, ?_, ?_⟩
      · simp only [List.map_cons, List.foldlM, hk a, bind, Except.bind]
        exact hM
      · simp only [List.filter_cons, h1, Bool.false_eq_true, if_false]
        exact hD
      · simp only [List.filter_cons, h2, if_true, List.map_cons, List.foldlM, hk n, bind,
          Except.bind]
        exact hN
      · intro i
        have := hrel i
        simp only at this
        linear_combination this

end SingleFacePasses

section RangePasses

variable {dim : Nat} {R : Type}

/-- Two runs of quadrature loops whose passes submit the same value, or throw the same
error, on integrators with the same quadrature index and face: both throw the same error, or
both return their integrator with new values, which agree on the slots of the loop and on
every slot on which the integrators agreed before. -/
theorem forLoop_submit_agree
    (b1 b2 : Nat → FaceIntegratorP R → Except String (FaceIntegratorP R))
    (hb : ∀ q (it1 it2 : FaceIntegratorP R), it1.quad_index = it2.quad_index →
      it1.face = it2.face →
      (∃ e, b1 q it1 = .error e ∧ b2 q it2 = .error e) ∨
      (∃ v, b1 q it1 = .ok (it1.submit_value v q) ∧ b2 q it2 = .ok (it2.submit_value v q)))
    (n : Nat) :
    ∀ (first : Nat) (it1 it2 : FaceIntegratorP R), it1.quad_index = it2.quad_index →
      it1.face = it2.face →
      (∃ e, forLoop b1 n first it1 = .error e ∧ forLoop b2 n first it2 = .error e) ∨
      (∃ v1 v2 : Nat → R,
        forLoop b1 n first it1 = .ok { it1 with values_quad := v1 } ∧
        forLoop b2 n first it2 = .ok { it2 with values_quad := v2 } ∧
        ∀ q, ((first ≤ q ∧ q < first + n) ∨ it1.values_quad q = it2.values_quad q) →
          v1 q = v2 q) := by
  induction n with
  | zero =>
    intro first it1 it2 _ _
    refine Or.inr ⟨it1.values_quad, it2.values_quad, rfl, rfl, ?_⟩
    intro q hq
    rcases hq with hq | hq
    · omega
    · exact hq
  | succ n ih =>
    intro first it1 it2 hqi hf
    rcases hb first it1 it2 hqi hf with ⟨e, h1, h2⟩ | ⟨v, h1, h2⟩
    · exact Or.inl ⟨e, by simp only [forLoop, h1], by simp only [forLoop, h2]⟩
    · rcases ih (first + 1) (it1.submit_value v first) (it2.submit_value v first) hqi hf with
        ⟨e, h3, h4⟩ | ⟨v1, v2, h3, h4, h5⟩
      · exact Or.inl ⟨e, by simp only [forLoop, h1, h3], by simp only [forLoop, h2, h4]⟩
      · refine Or.inr ⟨v1, v2, ?_, ?_, ?_⟩
        · simp only [forLoop, h1, h3]
          rfl
        · simp only [forLoop, h2, h4]
          rfl
        · intro q hq
          apply h5
          by_cases hqf : q = first
          · right
            subst hqf
            simp [FaceIntegratorP.submit_value]
          · rcases hq with hq | hq
            · left
              omega
            · right
              simp [FaceIntegratorP.submit_value, Function.update_noteq hqf, hq]

/-- A face loop over a range whose face body, on whatever integrators related to the newly
constructed ones the loop carries, throws the same error or scatters the same values as on
the newly constructed integrators: the pass over the range is the sequence of the passes over
its faces, each as a range of its own. -/
theorem range_pass_eq_single_face_passes {σ : Type} (mf : MatrixFree dim R)
    (P : σ → FaceIntegratorP R) (body : Nat → σ → Except String σ) (E : σ → Prop) (s0 : σ)
    (hdet : ∀ face s, E s →
      (∃ e, body face s = .error e ∧ body face s0 = .error e) ∨
      (∃ r r0, body face s = .ok r ∧ body face s0 = .ok r0 ∧ E r ∧
        ∀ dst, (P r).integrate_scatter mf dst = (P r0).integrate_scatter mf dst))
    (n : Nat) :
    ∀ (first : Nat) (s : σ) (dst : VectorType R), E s →
      (do
        let r ← forLoop
          (fun face (s : σ × VectorType R) => do
            let its ← body face s.1
            .ok (its, (P its).integrate_scatter mf s.2))
          n first (s, dst)
        (.ok r.2 : Except String (VectorType R))) =
      ((List.range' first n).map fun f => (f, f + 1)).foldlM
        (fun dst (r : Nat × Nat) => do
          let r ← forRange r.1 r.2
            (fun face (s : σ × VectorType R) => do
              let its ← body face s.1
              .ok (its, (P its).integrate_scatter mf s.2))
            (s0, dst)
          (.ok r.2 : Except String (VectorType R)))
        dst := by
  induction n with
  | zero =>
    intro first s dst _
    rfl
  | succ n ih =>
    intro first s dst hs
    have hpass := single_face_pass mf P body first s0 dst
    simp only [List.range', List.map_cons, List.foldlM]
    rw [hpass]
    rcases hdet first s hs with ⟨e, h1, h2⟩ | ⟨r, r0, h1, h2, h3, h4⟩
    · simp only [forLoop, h1, h2, bind, Except.bind]
    · simp only [forLoop, h1, h2, bind, Except.bind]
      rw [← h4 dst]
      exact ih (first + 1) r _ h3

/-- A loop over ranges of faces, each of which is passed like the sequence of its faces as
ranges of their own, is the loop over the faces of the ranges as ranges of their own. -/
theorem ranges_pass_eq_single_face_passes
    (bf : VectorType R → Nat × Nat → Except String (VectorType R))
    (hbf : ∀ (dst : VectorType R) (r : Nat × Nat),
      bf dst r = ((List.range' r.1 (r.2 - r.1)).map fun f => (f, f + 1)).foldlM bf dst)
    (ranges : List (Nat × Nat)) :
    ∀ dst : VectorType R,
      ranges.foldlM bf dst =
        ((faces_of_ranges ranges).map fun f => (f, f + 1)).foldlM bf dst := by
  induction ranges with
  | nil =>
    intro dst
    rfl
  | cons r rs ih =>
    intro dst
    simp only [faces_of_ranges, List.flatMap_cons, List.map_append, List.foldlM_append,
      List.foldlM_cons]
    rw [hbf dst r]
    congr 1
    funext d
    exact ih d

/-- Two runs of a quadrature loop over the points of a face, on pressure integrators with
the same indices, whose passes submit the same value or throw the same error: both throw the
same error, or both return, keep the indices, and what is integrated and scattered is the
same, when `integrate` reads the values at the quadrature points of the face only. -/
theorem quadrature_loop_agree (mf : MatrixFree dim R)
    (hint : ∀ (d qi face : Nat) (v w : Nat → R),
      (∀ q, q < mf.n_q_points qi face → v q = w q) →
      mf.integrate d qi face v = mf.integrate d qi face w)
    (b1 b2 : Nat → FaceIntegratorP R → Except String (FaceIntegratorP R))
    (hb : ∀ q (it1 it2 : FaceIntegratorP R), it1.quad_index = it2.quad_index →
      it1.face = it2.face →
      (∃ e, b1 q it1 = .error e ∧ b2 q it2 = .error e) ∨
      (∃ v, b1 q it1 = .ok (it1.submit_value v q) ∧ b2 q it2 = .ok (it2.submit_value v q)))
    (face : Nat) (it1 it2 : FaceIntegratorP R) (hd : it1.dof_index = it2.dof_index)
    (hq : it1.quad_index = it2.quad_index) :
    (∃ e,
      forLoop b1 (mf.n_q_points it1.quad_index face - 0) 0 (it1.reinit face) = .error e ∧
      forLoop b2 (mf.n_q_points it2.quad_index face - 0) 0 (it2.reinit face) = .error e) ∨
    (∃ r1 r2,
      forLoop b1 (mf.n_q_points it1.quad_index face - 0) 0 (it1.reinit face) = .ok r1 ∧
      forLoop b2 (mf.n_q_points it2.quad_index face - 0) 0 (it2.reinit face) = .ok r2 ∧
      r1.dof_index = it1.dof_index ∧ r1.quad_index = it1.quad_index ∧
      r2.dof_index = it2.dof_index ∧ r2.quad_index = it2.quad_index ∧
      ∀ dst, r1.integrate_scatter mf dst = r2.integrate_scatter mf dst) := by
  rw [← hq]
  rcases forLoop_submit_agree b1 b2 hb (mf.n_q_points it1.quad_index face - 0) 0
      (it1.reinit face) (it2.reinit face) hq rfl with ⟨e, h1, h2⟩ | ⟨v1, v2, h1, h2, h3⟩
  · exact Or.inl ⟨e, h1, h2⟩
  · refine Or.inr ⟨_, _, h1, h2, rfl, rfl, rfl, hq.symm, ?_⟩
    intro dst
    simp only [FaceIntegratorP.integrate_scatter, FaceIntegratorP.reinit, ← hd, ← hq]
    rw [hint it1.dof_index it1.quad_index face v1 v2
      (fun q hq2 => h3 q (Or.inl ⟨Nat.zero_le _, by omega⟩))]

/-- Two quadrature loops that throw the same error or return integrators that scatter the
same, each followed by the packing of its result into a record of integrators: the two
throw the same error or return records whose pressure integrators scatter the same, and the
first record has every property that the packing gives it with a pressure integrator of the
indices of the first loop. -/
theorem map_loop_agree {σ : Type} (mf : MatrixFree dim R) (P : σ → FaceIntegratorP R)
    (Q : σ → Prop) (f1 f2 : FaceIntegratorP R → σ)
    (l1 l2 : Except String (FaceIntegratorP R)) (it1 it2 : FaceIntegratorP R)
    (hf1 : ∀ p, P (f1 p) = p) (hf2 : ∀ p, P (f2 p) = p)
    (hQ : ∀ p : FaceIntegratorP R, p.dof_index = it1.dof_index →
      p.quad_index = it1.quad_index → Q (f1 p))
    (h : (∃ e, l1 = .error e ∧ l2 = .error e) ∨
      (∃ r1 r2, l1 = .ok r1 ∧ l2 = .ok r2 ∧
        r1.dof_index = it1.dof_index ∧ r1.quad_index = it1.quad_index ∧
        r2.dof_index = it2.dof_index ∧ r2.quad_index = it2.quad_index ∧
        ∀ dst, r1.integrate_scatter mf dst = r2.integrate_scatter mf dst)) :
    (∃ e, Except.map f1 l1 = .error e ∧ Except.map f2 l2 = .error e) ∨
    (∃ r r0, Except.map f1 l1 = .ok r ∧ Except.map f2 l2 = .ok r0 ∧ Q r ∧
      ∀ dst, (P r).integrate_scatter mf dst = (P r0).integrate_scatter mf dst) := by
  rcases h with ⟨e, h1, h2⟩ | ⟨r1, r2, h1, h2, h3, h4, _, _, h7⟩
  · exact Or.inl ⟨e, by rw [h1]; rfl, by rw [h2]; rfl⟩
  · refine Or.inr ⟨f1 r1, f2 r2, by rw [h1]; rfl, by rw [h2]; rfl, hQ r1 h3 h4, ?_⟩
    intro dst
    rw [hf1, hf2]
    exact h7 dst

end RangePasses

section FaceAgreement

variable {dim : Nat} {R T : Type} [CommRing R]

/-- The passes of the quadrature loop of the body-force divergence routine on two pressure
integrators with the same quadrature index and face submit the same value or throw the same
error. -/
theorem div_term_body_forces_q_agree (op : OperatorDualSplitting dim R T)
    (mf : MatrixFree dim R) (kind : BoundaryTypeU) (q : Nat) (it1 it2 : FaceIntegratorP R)
    (hq : it1.quad_index = it2.quad_index) (hf : it1.face = it2.face) :
    (∃ e, local_rhs_ppe_div_term_body_forces_q op mf kind q it1 = .error e ∧
      local_rhs_ppe_div_term_body_forces_q op mf kind q it2 = .error e) ∨
    (∃ v, local_rhs_ppe_div_term_body_forces_q op mf kind q it1 = .ok (it1.submit_value v q) ∧
      local_rhs_ppe_div_term_body_forces_q op mf kind q it2 = .ok (it2.submit_value v q)) := by
  unfold local_rhs_ppe_div_term_body_forces_q
  simp only [FaceIntegratorP.quadrature_point, FaceIntegratorP.get_normal_vector, ← hq, ← hf]
  split_ifs
  · exact Or.inr ⟨_, rfl, rfl⟩
  · exact Or.inr ⟨_, rfl, rfl⟩
  · exact Or.inl ⟨_, rfl, rfl⟩

/-- The face body of the body-force divergence routine on two pressure integrators with the
same indices: both runs throw the same error, or both return, keep the indices and scatter
the same. -/
theorem div_term_body_forces_face_agree (op : OperatorDualSplitting dim R T)
    (mf : MatrixFree dim R)
    (hint : ∀ (d qi face : Nat) (v w : Nat → R),
      (∀ q, q < mf.n_q_points qi face → v q = w q) →
      mf.integrate d qi face v = mf.integrate d qi face w)
    (face : Nat) (it1 it2 : FaceIntegratorP R) (hd : it1.dof_index = it2.dof_index)
    (hq : it1.quad_index = it2.quad_index) :
    (∃ e, local_rhs_ppe_div_term_body_forces_face op mf face it1 = .error e ∧
      local_rhs_ppe_div_term_body_forces_face op mf face it2 = .error e) ∨
    (∃ r1 r2, local_rhs_ppe_div_term_body_forces_face op mf face it1 = .ok r1 ∧
      local_rhs_ppe_div_term_body_forces_face op mf face it2 = .ok r2 ∧
      r1.dof_index = it1.dof_index ∧ r1.quad_index = it1.quad_index ∧
      r2.dof_index = it2.dof_index ∧ r2.quad_index = it2.quad_index ∧
      ∀ dst, r1.integrate_scatter mf dst = r2.integrate_scatter mf dst) :=
  quadrature_loop_agree mf hint _ _
    (fun q a b => div_term_body_forces_q_agree op mf _ q a b) face it1 it2 hd hq

/-- The passes of the quadrature loop of the body-force pressure-Neumann routine on two
pressure integrators with the same quadrature index and face submit the same value or throw
the same error. -/
theorem nbc_body_force_q_agree (op : OperatorDualSplitting dim R T)
    (mf : MatrixFree dim R) (kind : BoundaryTypeP) (q : Nat) (it1 it2 : FaceIntegratorP R)
    (hq : it1.quad_index = it2.quad_index) (hf : it1.face = it2.face) :
    (∃ e, local_rhs_ppe_nbc_body_force_term_add_q op mf kind q it1 = .error e ∧
      local_rhs_ppe_nbc_body_force_term_add_q op mf kind q it2 = .error e) ∨
    (∃ v, local_rhs_ppe_nbc_body_force_term_add_q op mf kind q it1 =
        .ok (it1.submit_value v q) ∧
      local_rhs_ppe_nbc_body_force_term_add_q op mf kind q it2 =
        .ok (it2.submit_value v q)) := by
  unfold local_rhs_ppe_nbc_body_force_term_add_q
  simp only [FaceIntegratorP.quadrature_point, FaceIntegratorP.get_normal_vector, ← hq, ← hf]
  split_ifs
  · exact Or.inr ⟨_, rfl, rfl⟩
  · exact Or.inr ⟨_, rfl, rfl⟩
  · exact Or.inl ⟨_, rfl, rfl⟩

/-- The face body of the body-force pressure-Neumann routine on two pressure integrators with
the same indices: both runs throw the same error, or both return, keep the indices and
scatter the same. -/
theorem nbc_body_force_face_agree (op : OperatorDualSplitting dim R T)
    (mf : MatrixFree dim R)
    (hint : ∀ (d qi face : Nat) (v w : Nat → R),
      (∀ q, q < mf.n_q_points qi face → v q = w q) →
      mf.integrate d qi face v = mf.integrate d qi face w)
    (face : Nat) (it1 it2 : FaceIntegratorP R) (hd : it1.dof_index = it2.dof_index)
    (hq : it1.quad_index = it2.quad_index) :
    (∃ e, local_rhs_ppe_nbc_body_force_term_add_face op mf face it1 = .error e ∧
      local_rhs_ppe_nbc_body_force_term_add_face op mf face it2 = .error e) ∨
    (∃ r1 r2, local_rhs_ppe_nbc_body_force_term_add_face op mf face it1 = .ok r1 ∧
      local_rhs_ppe_nbc_body_force_term_add_face op mf face it2 = .ok r2 ∧
      r1.dof_index = it1.dof_index ∧ r1.quad_index = it1.quad_index ∧
      r2.dof_index = it2.dof_index ∧ r2.quad_index = it2.quad_index ∧
      ∀ dst, r1.integrate_scatter mf dst = r2.integrate_scatter mf dst) :=
  quadrature_loop_agree mf hint _ _
    (fun q a b => nbc_body_force_q_agree op mf _ q a b) face it1 it2 hd hq

end FaceAgreement

section FaceAgreementComposite

variable {dim : Nat} {R T : Type} [CommRing R]

/-- The face body of the numerical-time-derivative routine is its quadrature loop followed
by the packing of the two integrators. -/
theorem nbc_numerical_time_derivative_face_eq (op : OperatorDualSplitting dim R T)
    (data : MatrixFree dim R) (acceleration : VectorType R) (face : Nat)
    (its : TimeDerivativeIntegrators dim R) :
    local_rhs_ppe_nbc_numerical_time_derivative_add_face op data acceleration face its =
      Except.map
        (fun p => ({ integrator_velocity :=
                      (its.integrator_velocity.reinit face).gather_evaluate data acceleration
                        true false
                     integrator_pressure := p } : TimeDerivativeIntegrators dim R))
        (forLoop
          (local_rhs_ppe_nbc_numerical_time_derivative_add_q data
            (op.boundary_descriptor.pressure.get_boundary_type (data.get_boundary_id face))
            ((its.integrator_velocity.reinit face).gather_evaluate data acceleration true false))
          (data.n_q_points its.integrator_pressure.quad_index face - 0) 0
          (its.integrator_pressure.reinit face)) := by
  unfold local_rhs_ppe_nbc_numerical_time_derivative_add_face forRange
  simp only [FaceIntegratorP.n_q_points, FaceIntegratorP.reinit]
  cases forLoop _ _ _ _ <;> rfl

/-- The face body of the viscous routine is its quadrature loop followed by the packing of
the two integrators. -/
theorem nbc_viscous_face_eq (op : OperatorDualSplitting dim R T)
    (mf : MatrixFree dim R) (src : VectorType R) (face : Nat)
    (its : ViscousIntegrators dim R) :
    local_rhs_ppe_nbc_viscous_add_face op mf src face its =
      Except.map
        (fun p => ({ omega := (its.omega.reinit face).gather_evaluate mf src false true
                     pressure := p } : ViscousIntegrators dim R))
        (forLoop
          (local_rhs_ppe_nbc_viscous_add_q op mf
            (op.boundary_descriptor.pressure.get_boundary_type (mf.get_boundary_id face)) face
            ((its.omega.reinit face).gather_evaluate mf src false true))
          (mf.n_q_points its.pressure.quad_index face - 0) 0 (its.pressure.reinit face)) := by
  unfold local_rhs_ppe_nbc_viscous_add_face forRange
  simp only [FaceIntegratorP.n_q_points, FaceIntegratorP.reinit]
  cases forLoop _ _ _ _ <;> rfl

/-- The face body of the convective divergence routine is its quadrature loop followed by
the packing of the three integrators. -/
theorem div_term_convective_face_eq (op : OperatorDualSplitting dim R T)
    (mf : MatrixFree dim R) (src : VectorType R) (face : Nat)
    (its : ConvectiveIntegrators dim R) :
    local_rhs_ppe_div_term_convective_term_face op mf src face its =
      Except.map
        (fun p => ({ velocity := (its.velocity.reinit face).gather_evaluate mf src true true
                     pressure := p
                     grid_velocity :=
                      if op.param.ale_formulation then
                        (its.grid_velocity.reinit face).gather_evaluate mf op.grid_velocity
                          true false
                      else its.grid_velocity } : ConvectiveIntegrators dim R))
        (forLoop
          (local_rhs_ppe_div_term_convective_term_q op mf
            (op.boundary_descriptor.velocity.get_boundary_type (mf.get_boundary_id face))
            ((its.velocity.reinit face).gather_evaluate mf src true true)
            (if op.param.ale_formulation then
              (its.grid_velocity.reinit face).gather_evaluate mf op.grid_velocity true false
             else its.grid_velocity))
          (mf.n_q_points its.pressure.quad_index face - 0) 0 (its.pressure.reinit face)) := by
  unfold local_rhs_ppe_div_term_convective_term_face forRange
  simp only [FaceIntegratorP.n_q_points, FaceIntegratorP.reinit]
  cases forLoop _ _ _ _ <;> rfl

/-- The face body of the convective pressure-Neumann routine is its quadrature loop followed
by the packing of the three integrators. -/
theorem nbc_convective_face_eq (op : OperatorDualSplitting dim R T)
    (mf : MatrixFree dim R) (src : VectorType R) (face : Nat)
    (its : ConvectiveIntegrators dim R) :
    local_rhs_ppe_nbc_convective_add_face op mf src face its =
      Except.map
        (fun p => ({ velocity := (its.velocity.reinit face).gather_evaluate mf src true true
                     pressure := p
                     grid_velocity :=
                      if op.param.ale_formulation then
                        (its.grid_velocity.reinit face).gather_evaluate mf op.grid_velocity
                          true false
                      else its.grid_velocity } : ConvectiveIntegrators dim R))
        (forLoop
          (local_rhs_ppe_nbc_convective_add_q op mf
            (op.boundary_descriptor.pressure.get_boundary_type (mf.get_boundary_id face))
            ((its.velocity.reinit face).gather_evaluate mf src true true)
            (if op.param.ale_formulation then
              (its.grid_velocity.reinit face).gather_evaluate mf op.grid_velocity true false
             else its.grid_velocity))
          (mf.n_q_points its.pressure.quad_index face - 0) 0 (its.pressure.reinit face)) := by
  unfold local_rhs_ppe_nbc_convective_add_face forRange
  simp only [FaceIntegratorP.n_q_points, FaceIntegratorP.reinit]
  cases forLoop _ _ _ _ <;> rfl

end FaceAgreementComposite

section FaceAgreementPasses

variable {dim : Nat} {R T : Type} [CommRing R]

/-- The passes of the quadrature loop of the numerical-time-derivative routine, with
velocity integrators on the same face that hold the same values, on two pressure integrators:
the same value is submitted or the same error thrown. -/
theorem nbc_numerical_time_derivative_q_agree (data : MatrixFree dim R) (kind : BoundaryTypeP)
    (v1 v2 : FaceIntegratorU dim R) (hvq : v1.quad_index = v2.quad_index)
    (hvf : v1.face = v2.face) (hv : v1.get_value = v2.get_value) (q : Nat)
    (it1 it2 : FaceIntegratorP R) :
    (∃ e, local_rhs_ppe_nbc_numerical_time_derivative_add_q data kind v1 q it1 = .error e ∧
      local_rhs_ppe_nbc_numerical_time_derivative_add_q data kind v2 q it2 = .error e) ∨
    (∃ v, local_rhs_ppe_nbc_numerical_time_derivative_add_q data kind v1 q it1 =
        .ok (it1.submit_value v q) ∧
      local_rhs_ppe_nbc_numerical_time_derivative_add_q data kind v2 q it2 =
        .ok (it2.submit_value v q)) := by
  unfold local_rhs_ppe_nbc_numerical_time_derivative_add_q
  simp only [FaceIntegratorU.get_normal_vector, ← hvq, ← hvf, ← hv]
  split_ifs
  · exact Or.inr ⟨_, rfl, rfl⟩
  · exact Or.inr ⟨_, rfl, rfl⟩
  · exact Or.inl ⟨_, rfl, rfl⟩

/-- The passes of the quadrature loop of the viscous routine, with vorticity integrators
that hold the same gradients, on two pressure integrators with the same quadrature index and
face: the same value is submitted or the same error thrown. -/
theorem nbc_viscous_q_agree (op : OperatorDualSplitting dim R T) (mf : MatrixFree dim R)
    (kind : BoundaryTypeP) (face : Nat) (o1 o2 : FaceIntegratorU dim R)
    (hg : o1.get_gradient = o2.get_gradient) (q : Nat) (it1 it2 : FaceIntegratorP R)
    (hq : it1.quad_index = it2.quad_index) (hf : it1.face = it2.face) :
    (∃ e, local_rhs_ppe_nbc_viscous_add_q op mf kind face o1 q it1 = .error e ∧
      local_rhs_ppe_nbc_viscous_add_q op mf kind face o2 q it2 = .error e) ∨
    (∃ v, local_rhs_ppe_nbc_viscous_add_q op mf kind face o1 q it1 =
        .ok (it1.submit_value v q) ∧
      local_rhs_ppe_nbc_viscous_add_q op mf kind face o2 q it2 =
        .ok (it2.submit_value v q)) := by
  unfold local_rhs_ppe_nbc_viscous_add_q
  simp only [FaceIntegratorP.get_normal_vector, ← hq, ← hf, ← hg]
  split_ifs
  · exact Or.inr ⟨_, rfl, rfl⟩
  · exact Or.inr ⟨_, rfl, rfl⟩
  · exact Or.inl ⟨_, rfl, rfl⟩

/-- The passes of the quadrature loop of the convective divergence routine, with velocity
integrators that hold the same values, gradients and divergences and, in the arbitrary
Lagrangian-Eulerian case, grid-velocity integrators that hold the same values, on two
pressure integrators with the same quadrature index and face: the same value is submitted or
the same error thrown. -/
theorem div_term_convective_q_agree (op : OperatorDualSplitting dim R T)
    (mf : MatrixFree dim R) (kind : BoundaryTypeU) (v1 g1 v2 g2 : FaceIntegratorU dim R)
    (hv : v1.get_value = v2.get_value) (hg : v1.get_gradient = v2.get_gradient)
    (hd : v1.get_divergence = v2.get_divergence)
    (hgv : op.param.ale_formulation = true → g1.get_value = g2.get_value) (q : Nat)
    (it1 it2 : FaceIntegratorP R) (hq : it1.quad_index = it2.quad_index)
    (hf : it1.face = it2.face) :
    (∃ e, local_rhs_ppe_div_term_convective_term_q op mf kind v1 g1 q it1 = .error e ∧
      local_rhs_ppe_div_term_convective_term_q op mf kind v2 g2 q it2 = .error e) ∨
    (∃ v, local_rhs_ppe_div_term_convective_term_q op mf kind v1 g1 q it1 =
        .ok (it1.submit_value v q) ∧
      local_rhs_ppe_div_term_convective_term_q op mf kind v2 g2 q it2 =
        .ok (it2.submit_value v q)) := by
  unfold local_rhs_ppe_div_term_convective_term_q
  simp only [FaceIntegratorP.get_normal_vector, ← hq, ← hf, ← hv, ← hg, ← hd]
  cases hale : op.param.ale_formulation
  · cases kind <;> cases op.param.formulation_convective_term_bc <;>
      first
      | exact Or.inr ⟨_, rfl, rfl⟩
      | exact Or.inl ⟨_, rfl, rfl⟩
  · have hgq : g2.get_value = g1.get_value := (hgv hale).symm
    rw [hgq]
    cases kind <;> cases op.param.formulation_convective_term_bc <;>
      first
      | exact Or.inr ⟨_, rfl, rfl⟩
      | exact Or.inl ⟨_, rfl, rfl⟩

/-- The passes of the quadrature loop of the convective pressure-Neumann routine, with
velocity integrators that hold the same values, gradients and divergences and, in the
arbitrary Lagrangian-Eulerian case, grid-velocity integrators that hold the same values, on
two pressure integrators with the same quadrature index and face: the same value is submitted
or the same error thrown. -/
theorem nbc_convective_q_agree (op : OperatorDualSplitting dim R T)
    (mf : MatrixFree dim R) (kind : BoundaryTypeP) (v1 g1 v2 g2 : FaceIntegratorU dim R)
    (hv : v1.get_value = v2.get_value) (hg : v1.get_gradient = v2.get_gradient)
    (hd : v1.get_divergence = v2.get_divergence)
    (hgv : op.param.ale_formulation = true → g1.get_value = g2.get_value) (q : Nat)
    (it1 it2 : FaceIntegratorP R) (hq : it1.quad_index = it2.quad_index)
    (hf : it1.face = it2.face) :
    (∃ e, local_rhs_ppe_nbc_convective_add_q op mf kind v1 g1 q it1 = .error e ∧
      local_rhs_ppe_nbc_convective_add_q op mf kind v2 g2 q it2 = .error e) ∨
    (∃ v, local_rhs_ppe_nbc_convective_add_q op mf kind v1 g1 q it1 =
        .ok (it1.submit_value v q) ∧
      local_rhs_ppe_nbc_convective_add_q op mf kind v2 g2 q it2 =
        .ok (it2.submit_value v q)) := by
  unfold local_rhs_ppe_nbc_convective_add_q
  simp only [FaceIntegratorP.get_normal_vector, ← hq, ← hf, ← hv, ← hg, ← hd]
  cases hale : op.param.ale_formulation
  · cases kind <;> cases op.param.formulation_convective_term_bc <;>
      first
      | exact Or.inr ⟨_, rfl, rfl⟩
      | exact Or.inl ⟨_, rfl, rfl⟩
  · have hgq : g2.get_value = g1.get_value := (hgv hale).symm
    rw [hgq]
    cases kind <;> cases op.param.formulation_convective_term_bc <;>
      first
      | exact Or.inr ⟨_, rfl, rfl⟩
      | exact Or.inl ⟨_, rfl, rfl⟩

end FaceAgreementPasses

section FaceDeterminacy

variable {dim : Nat} {R T : Type} [CommRing R]

/-- The face body of the numerical-time-derivative routine on integrators with the indices
of the newly constructed ones: it throws the same error as on the newly constructed ones, or
both return, the indices are kept and the pressure integrators scatter the same. -/
theorem nbc_numerical_time_derivative_face_agree (op : OperatorDualSplitting dim R T)
    (mf : MatrixFree dim R)
    (hint : ∀ (d qi face : Nat) (v w : Nat → R),
      (∀ q, q < mf.n_q_points qi face → v q = w q) →
      mf.integrate d qi face v = mf.integrate d qi face w)
    (src : VectorType R) (face : Nat) (s s0 : TimeDerivativeIntegrators dim R)
    (hs : s.integrator_pressure.dof_index = s0.integrator_pressure.dof_index ∧
      s.integrator_pressure.quad_index = s0.integrator_pressure.quad_index ∧
      s.integrator_velocity.dof_index = s0.integrator_velocity.dof_index ∧
      s.integrator_velocity.quad_index = s0.integrator_velocity.quad_index) :
    (∃ e, local_rhs_ppe_nbc_numerical_time_derivative_add_face op mf src face s = .error e ∧
      local_rhs_ppe_nbc_numerical_time_derivative_add_face op mf src face s0 = .error e) ∨
    (∃ r r0, local_rhs_ppe_nbc_numerical_time_derivative_add_face op mf src face s = .ok r ∧
      local_rhs_ppe_nbc_numerical_time_derivative_add_face op mf src face s0 = .ok r0 ∧
      (r.integrator_pressure.dof_index = s0.integrator_pressure.dof_index ∧
        r.integrator_pressure.quad_index = s0.integrator_pressure.quad_index ∧
        r.integrator_velocity.dof_index = s0.integrator_velocity.dof_index ∧
        r.integrator_velocity.quad_index = s0.integrator_velocity.quad_index) ∧
      ∀ dst, r.integrator_pressure.integrate_scatter mf dst =
        r0.integrator_pressure.integrate_scatter mf dst) := by
  obtain ⟨h1, h2, h3, h4⟩ := hs
  rw [nbc_numerical_time_derivative_face_eq op mf src face s,
    nbc_numerical_time_derivative_face_eq op mf src face s0]
  refine map_loop_agree mf TimeDerivativeIntegrators.integrator_pressure _ _ _ _ _
    s.integrator_pressure s0.integrator_pressure ?_ ?_ ?_ ?_
  · intro p
    rfl
  · intro p
    rfl
  · intro p hp1 hp2
    exact ⟨hp1.trans h1, hp2.trans h2, h3, h4⟩
  · refine quadrature_loop_agree mf hint _ _ ?_ face _ _ h1 h2
    intro q a b _ _
    refine nbc_numerical_time_derivative_q_agree mf _ _ _ ?_ ?_ ?_ q a b
    · exact h4
    · rfl
    · simp only [FaceIntegratorU.gather_evaluate, FaceIntegratorU.reinit, h3, h4, if_true]

/-- The face body of the viscous routine on integrators with the indices of the newly
constructed ones: it throws the same error as on the newly constructed ones, or both return,
the indices are kept and the pressure integrators scatter the same. -/
theorem nbc_viscous_face_agree (op : OperatorDualSplitting dim R T)
    (mf : MatrixFree dim R)
    (hint : ∀ (d qi face : Nat) (v w : Nat → R),
      (∀ q, q < mf.n_q_points qi face → v q = w q) →
      mf.integrate d qi face v = mf.integrate d qi face w)
    (src : VectorType R) (face : Nat) (s s0 : ViscousIntegrators dim R)
    (hs : s.pressure.dof_index = s0.pressure.dof_index ∧
      s.pressure.quad_index = s0.pressure.quad_index ∧
      s.omega.dof_index = s0.omega.dof_index ∧
      s.omega.quad_index = s0.omega.quad_index) :
    (∃ e, local_rhs_ppe_nbc_viscous_add_face op mf src face s = .error e ∧
      local_rhs_ppe_nbc_viscous_add_face op mf src face s0 = .error e) ∨
    (∃ r r0, local_rhs_ppe_nbc_viscous_add_face op mf src face s = .ok r ∧
      local_rhs_ppe_nbc_viscous_add_face op mf src face s0 = .ok r0 ∧
      (r.pressure.dof_index = s0.pressure.dof_index ∧
        r.pressure.quad_index = s0.pressure.quad_index ∧
        r.omega.dof_index = s0.omega.dof_index ∧
        r.omega.quad_index = s0.omega.quad_index) ∧
      ∀ dst, r.pressure.integrate_scatter mf dst = r0.pressure.integrate_scatter mf dst) := by
  obtain ⟨h1, h2, h3, h4⟩ := hs
  rw [nbc_viscous_face_eq op mf src face s, nbc_viscous_face_eq op mf src face s0]
  refine map_loop_agree mf ViscousIntegrators.pressure _ _ _ _ _ s.pressure s0.pressure
    ?_ ?_ ?_ ?_
  · intro p
    rfl
  · intro p
    rfl
  · intro p hp1 hp2
    exact ⟨hp1.trans h1, hp2.trans h2, h3, h4⟩
  · refine quadrature_loop_agree mf hint _ _ ?_ face _ _ h1 h2
    intro q a b hq hf
    refine nbc_viscous_q_agree op mf _ face _ _ ?_ q a b hq hf
    simp only [FaceIntegratorU.gather_evaluate, FaceIntegratorU.reinit, h3, h4, if_true]

/-- The face body of the convective divergence routine on integrators with the indices of
the newly constructed ones: it throws the same error as on the newly constructed ones, or
both return, the indices are kept and the pressure integrators scatter the same. -/
theorem div_term_convective_face_agree (op : OperatorDualSplitting dim R T)
    (mf : MatrixFree dim R)
    (hint : ∀ (d qi face : Nat) (v w : Nat → R),
      (∀ q, q < mf.n_q_points qi face → v q = w q) →
      mf.integrate d qi face v = mf.integrate d qi face w)
    (src : VectorType R) (face : Nat) (s s0 : ConvectiveIntegrators dim R)
    (hs : s.pressure.dof_index = s0.pressure.dof_index ∧
      s.pressure.quad_index = s0.pressure.quad_index ∧
      s.velocity.dof_index = s0.velocity.dof_index ∧
      s.velocity.quad_index = s0.velocity.quad_index ∧
      s.grid_velocity.dof_index = s0.grid_velocity.dof_index ∧
      s.grid_velocity.quad_index = s0.grid_velocity.quad_index) :
    (∃ e, local_rhs_ppe_div_term_convective_term_face op mf src face s = .error e ∧
      local_rhs_ppe_div_term_convective_term_face op mf src face s0 = .error e) ∨
    (∃ r r0, local_rhs_ppe_div_term_convective_term_face op mf src face s = .ok r ∧
      local_rhs_ppe_div_term_convective_term_face op mf src face s0 = .ok r0 ∧
      (r.pressure.dof_index = s0.pressure.dof_index ∧
        r.pressure.quad_index = s0.pressure.quad_index ∧
        r.velocity.dof_index = s0.velocity.dof_index ∧
        r.velocity.quad_index = s0.velocity.quad_index ∧
        r.grid_velocity.dof_index = s0.grid_velocity.dof_index ∧
        r.grid_velocity.quad_index = s0.grid_velocity.quad_index) ∧
      ∀ dst, r.pressure.integrate_scatter mf dst = r0.pressure.integrate_scatter mf dst) := by
  obtain ⟨h1, h2, h3, h4, h5, h6⟩ := hs
  rw [div_term_convective_face_eq op mf src face s,
    div_term_convective_face_eq op mf src face s0]
  refine map_loop_agree mf ConvectiveIntegrators.pressure _ _ _ _ _ s.pressure s0.pressure
    ?_ ?_ ?_ ?_
  · intro p
    rfl
  · intro p
    rfl
  · intro p hp1 hp2
    refine ⟨hp1.trans h1, hp2.trans h2, h3, h4, ?_, ?_⟩
    · cases op.param.ale_formulation
      · exact h5
      · exact h5
    · cases op.param.ale_formulation
      · exact h6
      · exact h6
  · refine quadrature_loop_agree mf hint _ _ ?_ face _ _ h1 h2
    intro q a b hq hf
    refine div_term_convective_q_agree op mf _ _ _ _ _ ?_ ?_ ?_ ?_ q a b hq hf
    · simp only [FaceIntegratorU.gather_evaluate, FaceIntegratorU.reinit, h3, h4, if_true]
    · simp only [FaceIntegratorU.gather_evaluate, FaceIntegratorU.reinit, h3, h4, if_true]
    · simp only [FaceIntegratorU.gather_evaluate, FaceIntegratorU.reinit, h3, h4, if_true]
    · intro hale
      simp only [hale, FaceIntegratorU.gather_evaluate, FaceIntegratorU.reinit, h5, h6,
        if_true]

/-- The face body of the convective pressure-Neumann routine on integrators with the indices
of the newly constructed ones: it throws the same error as on the newly constructed ones, or
both return, the indices are kept and the pressure integrators scatter the same. -/
theorem nbc_convective_face_agree (op : OperatorDualSplitting dim R T)
    (mf : MatrixFree dim R)
    (hint : ∀ (d qi face : Nat) (v w : Nat → R),
      (∀ q, q < mf.n_q_points qi face → v q = w q) →
      mf.integrate d qi face v = mf.integrate d qi face w)
    (src : VectorType R) (face : Nat) (s s0 : ConvectiveIntegrators dim R)
    (hs : s.pressure.dof_index = s0.pressure.dof_index ∧
      s.pressure.quad_index = s0.pressure.quad_index ∧
      s.velocity.dof_index = s0.velocity.dof_index ∧
      s.velocity.quad_index = s0.velocity.quad_index ∧
      s.grid_velocity.dof_index = s0.grid_velocity.dof_index ∧
      s.grid_velocity.quad_index = s0.grid_velocity.quad_index) :
    (∃ e, local_rhs_ppe_nbc_convective_add_face op mf src face s = .error e ∧
      local_rhs_ppe_nbc_convective_add_face op mf src face s0 = .error e) ∨
    (∃ r r0, local_rhs_ppe_nbc_convective_add_face op mf src face s = .ok r ∧
      local_rhs_ppe_nbc_convective_add_face op mf src face s0 = .ok r0 ∧
      (r.pressure.dof_index = s0.pressure.dof_index ∧
        r.pressure.quad_index = s0.pressure.quad_index ∧
        r.velocity.dof_index = s0.velocity.dof_index ∧
        r.velocity.quad_index = s0.velocity.quad_index ∧
        r.grid_velocity.dof_index = s0.grid_velocity.dof_index ∧
        r.grid_velocity.quad_index = s0.grid_velocity.quad_index) ∧
      ∀ dst, r.pressure.integrate_scatter mf dst = r0.pressure.integrate_scatter mf dst) := by
  obtain ⟨h1, h2, h3, h4, h5, h6⟩ := hs
  rw [nbc_convective_face_eq op mf src face s, nbc_convective_face_eq op mf src face s0]
  refine map_loop_agree mf ConvectiveIntegrators.pressure _ _ _ _ _ s.pressure s0.pressure
    ?_ ?_ ?_ ?_
  · intro p
    rfl
  · intro p
    rfl
  · intro p hp1 hp2
    refine ⟨hp1.trans h1, hp2.trans h2, h3, h4, ?_, ?_⟩
    · cases op.param.ale_formulation
      · exact h5
      · exact h5
    · cases op.param.ale_formulation
      · exact h6
      · exact h6
  · refine quadrature_loop_agree mf hint _ _ ?_ face _ _ h1 h2
    intro q a b hq hf
    refine nbc_convective_q_agree op mf _ _ _ _ _ ?_ ?_ ?_ ?_ q a b hq hf
    · simp only [FaceIntegratorU.gather_evaluate, FaceIntegratorU.reinit, h3, h4, if_true]
    · simp only [FaceIntegratorU.gather_evaluate, FaceIntegratorU.reinit, h3, h4, if_true]
    · simp only [FaceIntegratorU.gather_evaluate, FaceIntegratorU.reinit, h3, h4, if_true]
    · intro hale
      simp only [hale, FaceIntegratorU.gather_evaluate, FaceIntegratorU.reinit, h5, h6,
        if_true]

end FaceDeterminacy

section RangesAsFaces

variable {dim : Nat} {R T : Type} [CommRing R]

/-- The body-force divergence routine on a range of faces is the sequence of its passes over
the faces of the range, each as a range of its own, when `integrate` reads the values at the
quadrature points of the face only. -/
theorem div_term_body_forces_boundary_face_eq_passes (op : OperatorDualSplitting dim R T)
    (mf : MatrixFree dim R)
    (hint : ∀ (d qi face : Nat) (v w : Nat → R),
      (∀ q, q < mf.n_q_points qi face → v q = w q) →
      mf.integrate d qi face v = mf.integrate d qi face w)
    (dst : VectorType R) (r : Nat × Nat) :
    local_rhs_ppe_div_term_body_forces_boundary_face op mf dst r =
      ((List.range' r.1 (r.2 - r.1)).map fun f => (f, f + 1)).foldlM
        (local_rhs_ppe_div_term_body_forces_boundary_face op mf) dst :=
  range_pass_eq_single_face_passes mf (fun s => s)
    (local_rhs_ppe_div_term_body_forces_face op mf)
    (fun s => s.dof_index = op.dof_index_pressure ∧ s.quad_index = op.quad_index_pressure)
    (FaceIntegratorP.create op.dof_index_pressure op.quad_index_pressure)
    (fun face s hs => by
      rcases div_term_body_forces_face_agree op mf hint face s
          (FaceIntegratorP.create op.dof_index_pressure op.quad_index_pressure) hs.1 hs.2 with
        ⟨e, h1, h2⟩ | ⟨r1, r2, h1, h2, h3, h4, _, _, h7⟩
      · exact Or.inl ⟨e, h1, h2⟩
      · exact Or.inr ⟨r1, r2, h1, h2, ⟨h3.trans hs.1, h4.trans hs.2⟩, h7⟩)
    (r.2 - r.1) r.1 _ dst ⟨rfl, rfl⟩

/-- The body-force pressure-Neumann routine on a range of faces is the sequence of its passes
over the faces of the range, each as a range of its own, when `integrate` reads the values at
the quadrature points of the face only. -/
theorem nbc_body_force_boundary_face_eq_passes (op : OperatorDualSplitting dim R T)
    (mf : MatrixFree dim R)
    (hint : ∀ (d qi face : Nat) (v w : Nat → R),
      (∀ q, q < mf.n_q_points qi face → v q = w q) →
      mf.integrate d qi face v = mf.integrate d qi face w)
    (dst : VectorType R) (r : Nat × Nat) :
    local_rhs_ppe_nbc_body_force_term_add_boundary_face op mf dst r =
      ((List.range' r.1 (r.2 - r.1)).map fun f => (f, f + 1)).foldlM
        (local_rhs_ppe_nbc_body_force_term_add_boundary_face op mf) dst :=
  range_pass_eq_single_face_passes mf (fun s => s)
    (local_rhs_ppe_nbc_body_force_term_add_face op mf)
    (fun s => s.dof_index = op.dof_index_pressure ∧ s.quad_index = op.quad_index_pressure)
    (FaceIntegratorP.create op.dof_index_pressure op.quad_index_pressure)
    (fun face s hs => by
      rcases nbc_body_force_face_agree op mf hint face s
          (FaceIntegratorP.create op.dof_index_pressure op.quad_index_pressure) hs.1 hs.2 with
        ⟨e, h1, h2⟩ | ⟨r1, r2, h1, h2, h3, h4, _, _, h7⟩
      · exact Or.inl ⟨e, h1, h2⟩
      · exact Or.inr ⟨r1, r2, h1, h2, ⟨h3.trans hs.1, h4.trans hs.2⟩, h7⟩)
    (r.2 - r.1) r.1 _ dst ⟨rfl, rfl⟩

/-- The numerical-time-derivative routine on a range of faces is the sequence of its passes
over the faces of the range, each as a range of its own, when `integrate` reads the values at
the quadrature points of the face only. -/
theorem nbc_numerical_time_derivative_boundary_face_eq_passes
    (op : OperatorDualSplitting dim R T) (mf : MatrixFree dim R)
    (hint : ∀ (d qi face : Nat) (v w : Nat → R),
      (∀ q, q < mf.n_q_points qi face → v q = w q) →
      mf.integrate d qi face v = mf.integrate d qi face w)
    (src dst : VectorType R) (r : Nat × Nat) :
    local_rhs_ppe_nbc_numerical_time_derivative_add_boundary_face op mf src dst r =
      ((List.range' r.1 (r.2 - r.1)).map fun f => (f, f + 1)).foldlM
        (local_rhs_ppe_nbc_numerical_time_derivative_add_boundary_face op mf src) dst :=
  range_pass_eq_single_face_passes mf TimeDerivativeIntegrators.integrator_pressure
    (local_rhs_ppe_nbc_numerical_time_derivative_add_face op mf src)
    (fun s =>
      s.integrator_pressure.dof_index = op.dof_index_pressure ∧
      s.integrator_pressure.quad_index = op.quad_index_velocity_standard ∧
      s.integrator_velocity.dof_index = op.dof_index_velocity ∧
      s.integrator_velocity.quad_index = op.quad_index_velocity_standard)
    { integrator_velocity :=
        FaceIntegratorU.create op.dof_index_velocity op.quad_index_velocity_standard
      integrator_pressure :=
        FaceIntegratorP.create op.dof_index_pressure op.quad_index_velocity_standard }
    (fun face s hs => nbc_numerical_time_derivative_face_agree op mf hint src face s _ hs)
    (r.2 - r.1) r.1 _ dst ⟨rfl, rfl, rfl, rfl⟩

/-- The viscous routine on a range of faces is the sequence of its passes over the faces of
the range, each as a range of its own, when `integrate` reads the values at the quadrature
points of the face only. -/
theorem nbc_viscous_boundary_face_eq_passes (op : OperatorDualSplitting dim R T)
    (mf : MatrixFree dim R)
    (hint : ∀ (d qi face : Nat) (v w : Nat → R),
      (∀ q, q < mf.n_q_points qi face → v q = w q) →
      mf.integrate d qi face v = mf.integrate d qi face w)
    (src dst : VectorType R) (r : Nat × Nat) :
    local_rhs_ppe_nbc_viscous_add_boundary_face op mf src dst r =
      ((List.range' r.1 (r.2 - r.1)).map fun f => (f, f + 1)).foldlM
        (local_rhs_ppe_nbc_viscous_add_boundary_face op mf src) dst :=
  range_pass_eq_single_face_passes mf ViscousIntegrators.pressure
    (local_rhs_ppe_nbc_viscous_add_face op mf src)
    (fun s =>
      s.pressure.dof_index = op.quad_index_pressure ∧
      s.pressure.quad_index = op.quad_index_velocity_standard ∧
      s.omega.dof_index = op.dof_index_velocity ∧
      s.omega.quad_index = op.quad_index_velocity_standard)
    { omega := FaceIntegratorU.create op.dof_index_velocity op.quad_index_velocity_standard
      pressure := FaceIntegratorP.create op.quad_index_pressure op.quad_index_velocity_standard }
    (fun face s hs => nbc_viscous_face_agree op mf hint src face s _ hs)
    (r.2 - r.1) r.1 _ dst ⟨rfl, rfl, rfl, rfl⟩

/-- The convective divergence routine on a range of faces is the sequence of its passes over
the faces of the range, each as a range of its own, when `integrate` reads the values at the
quadrature points of the face only. -/
theorem div_term_convective_boundary_face_eq_passes (op : OperatorDualSplitting dim R T)
    (mf : MatrixFree dim R)
    (hint : ∀ (d qi face : Nat) (v w : Nat → R),
      (∀ q, q < mf.n_q_points qi face → v q = w q) →
      mf.integrate d qi face v = mf.integrate d qi face w)
    (src dst : VectorType R) (r : Nat × Nat) :
    local_rhs_ppe_div_term_convective_term_boundary_face op mf src dst r =
      ((List.range' r.1 (r.2 - r.1)).map fun f => (f, f + 1)).foldlM
        (local_rhs_ppe_div_term_convective_term_boundary_face op mf src) dst :=
  range_pass_eq_single_face_passes mf ConvectiveIntegrators.pressure
    (local_rhs_ppe_div_term_convective_term_face op mf src)
    (fun s =>
      s.pressure.dof_index = op.dof_index_pressure ∧
      s.pressure.quad_index = op.quad_index_velocity_overintegration ∧
      s.velocity.dof_index = op.dof_index_velocity ∧
      s.velocity.quad_index = op.quad_index_velocity_overintegration ∧
      s.grid_velocity.dof_index = op.dof_index_velocity ∧
      s.grid_velocity.quad_index = op.quad_index_velocity_overintegration)
    { velocity :=
        FaceIntegratorU.create op.dof_index_velocity op.quad_index_velocity_overintegration
      pressure :=
        FaceIntegratorP.create op.dof_index_pressure op.quad_index_velocity_overintegration
      grid_velocity :=
        FaceIntegratorU.create op.dof_index_velocity op.quad_index_velocity_overintegration }
    (fun face s hs => div_term_convective_face_agree op mf hint src face s _ hs)
    (r.2 - r.1) r.1 _ dst ⟨rfl, rfl, rfl, rfl, rfl, rfl⟩

/-- The convective pressure-Neumann routine on a range of faces is the sequence of its passes
over the faces of the range, each as a range of its own, when `integrate` reads the values at
the quadrature points of the face only. -/
theorem nbc_convective_boundary_face_eq_passes (op : OperatorDualSplitting dim R T)
    (mf : MatrixFree dim R)
    (hint : ∀ (d qi face : Nat) (v w : Nat → R),
      (∀ q, q < mf.n_q_points qi face → v q = w q) →
      mf.integrate d qi face v = mf.integrate d qi face w)
    (src dst : VectorType R) (r : Nat × Nat) :
    local_rhs_ppe_nbc_convective_add_boundary_face op mf src dst r =
      ((List.range' r.1 (r.2 - r.1)).map fun f => (f, f + 1)).foldlM
        (local_rhs_ppe_nbc_convective_add_boundary_face op mf src) dst :=
  range_pass_eq_single_face_passes mf ConvectiveIntegrators.pressure
    (local_rhs_ppe_nbc_convective_add_face op mf src)
    (fun s =>
      s.pressure.dof_index = op.dof_index_pressure ∧
      s.pressure.quad_index = op.quad_index_velocity_overintegration ∧
      s.velocity.dof_index = op.dof_index_velocity ∧
      s.velocity.quad_index = op.quad_index_velocity_overintegration ∧
      s.grid_velocity.dof_index = op.dof_index_velocity ∧
      s.grid_velocity.quad_index = op.quad_index_velocity_overintegration)
    { velocity :=
        FaceIntegratorU.create op.dof_index_velocity op.quad_index_velocity_overintegration
      pressure :=
        FaceIntegratorP.create op.dof_index_pressure op.quad_index_velocity_overintegration
      grid_velocity :=
        FaceIntegratorU.create op.dof_index_velocity op.quad_index_velocity_overintegration }
    (fun face s hs => nbc_convective_face_agree op mf hint src face s _ hs)
    (r.2 - r.1) r.1 _ dst ⟨rfl, rfl, rfl, rfl, rfl, rfl⟩

end RangesAsFaces

section BodyForceEntryPoints

variable {dim : Nat} {R T : Type} [CommRing R]

/-- C1: `rhs_ppe_div_term_body_forces_add`, called with the time `t`, stores `t` as the
evaluation time and runs `local_rhs_ppe_div_term_body_forces_boundary_face` of the operator
with that evaluation time on every range of boundary faces; that routine runs, on every face
of its range, the quadrature loop on the pressure integrator it constructed and scatters the
result into the destination vector. On a face whose velocity kind is Dirichlet or
DirichletCached the quadrature loop does not throw and the value submitted at every
quadrature point `q` of the face is `-(f_rhs(x_q, t) . n_q)`, with `f_rhs` the function
`field_functions->right_hand_side`, `x_q` the quadrature point and `n_q` the normal vector at
`q`; the pass over the range of that one face, and so the call on it, returns the
destination vector into which these values have been integrated and distributed, the call
also the operator with evaluation time `t`. When `integrate` reads the values at the
quadrature points of the face only, the passes over any ranges are the sequence of the
passes over their faces, each as a range of its own. -/
theorem div_term_body_forces_dirichlet (op : OperatorDualSplitting dim R T)
    (mf : MatrixFree dim R) (t : T) (face : Nat) (integrator : FaceIntegratorP R)
    (hkind :
      op.boundary_descriptor.velocity.get_boundary_type (mf.get_boundary_id face)
          = BoundaryTypeU.Dirichlet ∨
        op.boundary_descriptor.velocity.get_boundary_type (mf.get_boundary_id face)
          = BoundaryTypeU.DirichletCached) :
    (∃ it : FaceIntegratorP R,
      local_rhs_ppe_div_term_body_forces_face (op.set_evaluation_time t) mf face integrator
          = .ok it ∧
        ∀ q, q < mf.n_q_points integrator.quad_index face →
          it.values_quad q =
            -(dot (op.field_functions.right_hand_side
                    (mf.quadrature_point integrator.quad_index face q) t)
                  (mf.normal_vector integrator.quad_index face q))) ∧
    (∀ (ranges : List (Nat × Nat)) (dst : VectorType R),
      rhs_ppe_div_term_body_forces_add op mf ranges dst t =
        match ranges.foldlM
          (local_rhs_ppe_div_term_body_forces_boundary_face (op.set_evaluation_time t) mf)
          dst with
        | .error e => .error e
        | .ok d => .ok (op.set_evaluation_time t, d)) ∧
    (∀ (dst : VectorType R) (first second : Nat),
      local_rhs_ppe_div_term_body_forces_boundary_face (op.set_evaluation_time t) mf dst
          (first, second) =
        match forLoop
          (fun face (s : FaceIntegratorP R × VectorType R) =>
            match local_rhs_ppe_div_term_body_forces_face (op.set_evaluation_time t) mf face
              s.1 with
            | .error e => .error e
            | .ok it => .ok (it, it.integrate_scatter mf s.2))
          (second - first) first
          (FaceIntegratorP.create op.dof_index_pressure op.quad_index_pressure, dst) with
        | .error e => .error e
        | .ok r => .ok r.2) ∧
    (∃ it : FaceIntegratorP R,
      local_rhs_ppe_div_term_body_forces_face (op.set_evaluation_time t) mf face
          (FaceIntegratorP.create op.dof_index_pressure op.quad_index_pressure) = .ok it ∧
        (∀ q, q < mf.n_q_points op.quad_index_pressure face →
          it.values_quad q =
            -(dot (op.field_functions.right_hand_side
                    (mf.quadrature_point op.quad_index_pressure face q) t)
                  (mf.normal_vector op.quad_index_pressure face q))) ∧
        ∀ dst : VectorType R,
          local_rhs_ppe_div_term_body_forces_boundary_face (op.set_evaluation_time t) mf dst
              (face, face + 1) =
            .ok (mf.distribute_local_to_global op.dof_index_pressure face
              (mf.integrate op.dof_index_pressure op.quad_index_pressure face it.values_quad)
              dst) ∧
          rhs_ppe_div_term_body_forces_add op mf [(face, face + 1)] dst t =
            .ok (op.set_evaluation_time t,
              mf.distribute_local_to_global op.dof_index_pressure face
                (mf.integrate op.dof_index_pressure op.quad_index_pressure face
                  it.values_quad)
                dst)) ∧
    ((∀ (d qi face : Nat) (v w : Nat → R),
        (∀ q, q < mf.n_q_points qi face → v q = w q) →
        mf.integrate d qi face v = mf.integrate d qi face w) →
      ∀ (ranges : List (Nat × Nat)) (dst : VectorType R),
        ranges.foldlM
            (local_rhs_ppe_div_term_body_forces_boundary_face (op.set_evaluation_time t) mf)
            dst =
          ((faces_of_ranges ranges).map fun f => (f, f + 1)).foldlM
            (local_rhs_ppe_div_term_body_forces_boundary_face (op.set_evaluation_time t) mf)
            dst) := by
  refine ⟨div_term_body_forces_face_dirichlet op mf t face integrator hkind, ?_, ?_, ?_, ?_⟩
  · intro ranges dst
    simp only [rhs_ppe_div_term_body_forces_add, MatrixFree.loop]
    cases List.foldlM
      (local_rhs_ppe_div_term_body_forces_boundary_face (op.set_evaluation_time t) mf)
      dst ranges <;> rfl
  · intro dst first second
    unfold local_rhs_ppe_div_term_body_forces_boundary_face forRange
    have hbody :
        (fun face (s : FaceIntegratorP R × VectorType R) => (do
          let integrator ←
            local_rhs_ppe_div_term_body_forces_face (op.set_evaluation_time t) mf face s.1
          .ok (integrator, integrator.integrate_scatter mf s.2) :
            Except String (FaceIntegratorP R × VectorType R))) =
        fun face (s : FaceIntegratorP R × VectorType R) =>
          match local_rhs_ppe_div_term_body_forces_face (op.set_evaluation_time t) mf face
            s.1 with
          | .error e => .error e
          | .ok it => .ok (it, it.integrate_scatter mf s.2) := by
      funext face s
      cases local_rhs_ppe_div_term_body_forces_face (op.set_evaluation_time t) mf face
        s.1 <;> rfl
    have hcreate :
        (FaceIntegratorP.create (op.set_evaluation_time t).dof_index_pressure
          (op.set_evaluation_time t).quad_index_pressure : FaceIntegratorP R) =
        FaceIntegratorP.create op.dof_index_pressure op.quad_index_pressure := rfl
    simp only [hbody, hcreate]
    cases forLoop _ (second - first) first
      ((FaceIntegratorP.create op.dof_index_pressure op.quad_index_pressure :
        FaceIntegratorP R), dst) <;> rfl
  · obtain ⟨it, hit, hval⟩ := div_term_body_forces_face_dirichlet op mf t face
      (FaceIntegratorP.create op.dof_index_pressure op.quad_index_pressure) hkind
    obtain ⟨h1, h2, h3⟩ := div_term_body_forces_face_indices (op.set_evaluation_time t) mf
      face _ it hit
    refine ⟨it, hit, hval, ?_⟩
    intro dst
    have hpass := single_face_pass mf (fun s => s)
      (local_rhs_ppe_div_term_body_forces_face (op.set_evaluation_time t) mf) face
      (FaceIntegratorP.create op.dof_index_pressure op.quad_index_pressure) dst
    rw [hit] at hpass
    have hbf : local_rhs_ppe_div_term_body_forces_boundary_face (op.set_evaluation_time t)
        mf dst (face, face + 1) = .ok (it.integrate_scatter mf dst) := hpass
    constructor
    · rw [hbf]
      simp only [FaceIntegratorP.integrate_scatter, h1, h2, h3, FaceIntegratorP.create]
    · simp only [rhs_ppe_div_term_body_forces_add, MatrixFree.loop, List.foldlM, hbf, bind,
        Except.bind, pure, Except.pure]
      simp only [FaceIntegratorP.integrate_scatter, h1, h2, h3, FaceIntegratorP.create]
  · intro hint ranges dst
    exact ranges_pass_eq_single_face_passes _
      (div_term_body_forces_boundary_face_eq_passes (op.set_evaluation_time t) mf hint)
      ranges dst

/-- C1, on the sample configuration: the call of `rhs_ppe_div_term_body_forces_add` with the
time 5 on the range of face 0 (velocity kind Dirichlet) returns the operator with evaluation
time 5 and the destination vector into which the submitted values have been integrated and
distributed; the value submitted at the point `q = 1`, where `x = (0, 1)`, the body force
`(5, 4)` and the normal `(1, 0)`, is -5. -/
theorem div_term_body_forces_dirichlet_witness :
    ∃ it : FaceIntegratorP ℤ,
      rhs_ppe_div_term_body_forces_add sample_op sample_mf [(0, 0 + 1)] sample_src 5 =
          .ok (sample_op.set_evaluation_time 5,
            sample_mf.distribute_local_to_global 1 0 (sample_mf.integrate 1 1 0 it.values_quad)
              sample_src) ∧
        it.values_quad 1 = -5 := by
  obtain ⟨it, _, hq, hr⟩ :=
    (div_term_body_forces_dirichlet sample_op sample_mf 5 0 (FaceIntegratorP.create 1 1)
      (Or.inl rfl)).2.2.2.1
  refine ⟨it, (hr sample_src).2, ?_⟩
  rw [hq 1 (by decide)]
  simp [dot, Fin.sum_univ_two, sample_mf, sample_op]

end BodyForceEntryPoints

section BodyForceNeumannEntryPoint

variable {dim : Nat} {R T : Type} [CommRing R]

/-- C7: `rhs_ppe_nbc_body_force_term_add`, called with the time `t`, stores `t` as the
evaluation time and runs `local_rhs_ppe_nbc_body_force_term_add_boundary_face` of the operator
with that evaluation time on every range of boundary faces; that routine runs, on every face
of its range, the quadrature loop on the pressure integrator it constructed and scatters the
result into the destination vector. The quadrature loop does not throw on a face of pressure
kind Neumann or Dirichlet; on a Neumann face the value submitted at every quadrature point
`q` is `n_q . f_rhs(x_q, t)` and on a Dirichlet face it is exactly zero, whatever `f_rhs` is;
the pass over the range of one such face, and so the call on it, returns the destination
vector into which these values have been integrated and distributed, the call also the
operator with evaluation time `t`. When `integrate` reads the values at the quadrature points
of the face only, the passes over any ranges are the sequence of the passes over their
faces, each as a range of its own. -/
theorem nbc_body_force_value (op : OperatorDualSplitting dim R T)
    (data : MatrixFree dim R) (t : T) (face : Nat) (integrator : FaceIntegratorP R) :
    (op.boundary_descriptor.pressure.get_boundary_type (data.get_boundary_id face)
        = BoundaryTypeP.Neumann →
      ∃ it : FaceIntegratorP R,
        local_rhs_ppe_nbc_body_force_term_add_face (op.set_evaluation_time t) data face
            integrator = .ok it ∧
          ∀ q, q < data.n_q_points integrator.quad_index face →
            it.values_quad q =
              dot (data.normal_vector integrator.quad_index face q)
                  (op.field_functions.right_hand_side
                    (data.quadrature_point integrator.quad_index face q) t)) ∧
    (op.boundary_descriptor.pressure.get_boundary_type (data.get_boundary_id face)
        = BoundaryTypeP.Dirichlet →
      ∃ it : FaceIntegratorP R,
        local_rhs_ppe_nbc_body_force_term_add_face (op.set_evaluation_time t) data face
            integrator = .ok it ∧
          ∀ q, q < data.n_q_points integrator.quad_index face → it.values_quad q = 0) ∧
    (∀ (ranges : List (Nat × Nat)) (dst : VectorType R),
      rhs_ppe_nbc_body_force_term_add op data ranges dst t =
        match ranges.foldlM
          (local_rhs_ppe_nbc_body_force_term_add_boundary_face (op.set_evaluation_time t) data)
          dst with
        | .error e => .error e
        | .ok d => .ok (op.set_evaluation_time t, d)) ∧
    (∀ (dst : VectorType R) (first second : Nat),
      local_rhs_ppe_nbc_body_force_term_add_boundary_face (op.set_evaluation_time t) data dst
          (first, second) =
        match forLoop
          (fun face (s : FaceIntegratorP R × VectorType R) =>
            match local_rhs_ppe_nbc_body_force_term_add_face (op.set_evaluation_time t) data
              face s.1 with
            | .error e => .error e
            | .ok it => .ok (it, it.integrate_scatter data s.2))
          (second - first) first
          (FaceIntegratorP.create op.dof_index_pressure op.quad_index_pressure, dst) with
        | .error e => .error e
        | .ok r => .ok r.2) ∧
    (op.boundary_descriptor.pressure.get_boundary_type (data.get_boundary_id face)
        = BoundaryTypeP.Neumann →
      ∃ it : FaceIntegratorP R,
        local_rhs_ppe_nbc_body_force_term_add_face (op.set_evaluation_time t) data face
            (FaceIntegratorP.create op.dof_index_pressure op.quad_index_pressure) = .ok it ∧
          (∀ q, q < data.n_q_points op.quad_index_pressure face →
            it.values_quad q =
              dot (data.normal_vector op.quad_index_pressure face q)
                  (op.field_functions.right_hand_side
                    (data.quadrature_point op.quad_index_pressure face q) t)) ∧
          ∀ dst : VectorType R,
            local_rhs_ppe_nbc_body_force_term_add_boundary_face (op.set_evaluation_time t)
                data dst (face, face + 1) =
              .ok (data.distribute_local_to_global op.dof_index_pressure face
                (data.integrate op.dof_index_pressure op.quad_index_pressure face
                  it.values_quad)
                dst) ∧
            rhs_ppe_nbc_body_force_term_add op data [(face, face + 1)] dst t =
              .ok (op.set_evaluation_time t,
                data.distribute_local_to_global op.dof_index_pressure face
                  (data.integrate op.dof_index_pressure op.quad_index_pressure face
                    it.values_quad)
                  dst)) ∧
    (op.boundary_descriptor.pressure.get_boundary_type (data.get_boundary_id face)
        = BoundaryTypeP.Dirichlet →
      ∃ it : FaceIntegratorP R,
        local_rhs_ppe_nbc_body_force_term_add_face (op.set_evaluation_time t) data face
            (FaceIntegratorP.create op.dof_index_pressure op.quad_index_pressure) = .ok it ∧
          (∀ q, q < data.n_q_points op.quad_index_pressure face → it.values_quad q = 0) ∧
          ∀ dst : VectorType R,
            local_rhs_ppe_nbc_body_force_term_add_boundary_face (op.set_evaluation_time t)
                data dst (face, face + 1) =
              .ok (data.distribute_local_to_global op.dof_index_pressure face
                (data.integrate op.dof_index_pressure op.quad_index_pressure face
                  it.values_quad)
                dst) ∧
            rhs_ppe_nbc_body_force_term_add op data [(face, face + 1)] dst t =
              .ok (op.set_evaluation_time t,
                data.distribute_local_to_global op.dof_index_pressure face
                  (data.integrate op.dof_index_pressure op.quad_index_pressure face
                    it.values_quad)
                  dst)) ∧
    ((∀ (d qi face : Nat) (v w : Nat → R),
        (∀ q, q < data.n_q_points qi face → v q = w q) →
        data.integrate d qi face v = data.integrate d qi face w) →
      ∀ (ranges : List (Nat × Nat)) (dst : VectorType R),
        ranges.foldlM
            (local_rhs_ppe_nbc_body_force_term_add_boundary_face (op.set_evaluation_time t)
              data)
            dst =
          ((faces_of_ranges ranges).map fun f => (f, f + 1)).foldlM
            (local_rhs_ppe_nbc_body_force_term_add_boundary_face (op.set_evaluation_time t)
              data)
            dst) := by
  have hentry : ∀ (it : FaceIntegratorP R),
      local_rhs_ppe_nbc_body_force_term_add_face (op.set_evaluation_time t) data face
          (FaceIntegratorP.create op.dof_index_pressure op.quad_index_pressure) = .ok it →
        ∀ dst : VectorType R,
          local_rhs_ppe_nbc_body_force_term_add_boundary_face (op.set_evaluation_time t)
              data dst (face, face + 1) =
            .ok (data.distribute_local_to_global op.dof_index_pressure face
              (data.integrate op.dof_index_pressure op.quad_index_pressure face
                it.values_quad)
              dst) ∧
          rhs_ppe_nbc_body_force_term_add op data [(face, face + 1)] dst t =
            .ok (op.set_evaluation_time t,
              data.distribute_local_to_global op.dof_index_pressure face
                (data.integrate op.dof_index_pressure op.quad_index_pressure face
                  it.values_quad)
                dst) := by
    intro it hit dst
    obtain ⟨h1, h2, h3⟩ := nbc_body_force_face_indices (op.set_evaluation_time t) data
      face _ it hit
    have hpass := single_face_pass data (fun s => s)
      (local_rhs_ppe_nbc_body_force_term_add_face (op.set_evaluation_time t) data) face
      (FaceIntegratorP.create op.dof_index_pressure op.quad_index_pressure) dst
    rw [hit] at hpass
    have hbf : local_rhs_ppe_nbc_body_force_term_add_boundary_face
        (op.set_evaluation_time t) data dst (face, face + 1) =
        .ok (it.integrate_scatter data dst) := hpass
    constructor
    · rw [hbf]
      simp only [FaceIntegratorP.integrate_scatter, h1, h2, h3, FaceIntegratorP.create]
    · simp only [rhs_ppe_nbc_body_force_term_add, MatrixFree.loop, List.foldlM, hbf, bind,
        Except.bind, pure, Except.pure]
      simp only [FaceIntegratorP.integrate_scatter, h1, h2, h3, FaceIntegratorP.create]
  refine ⟨(nbc_body_force_face_value op data t face integrator).1,
    (nbc_body_force_face_value op data t face integrator).2, ?_, ?_, ?_, ?_, ?_⟩
  · intro ranges dst
    simp only [rhs_ppe_nbc_body_force_term_add, MatrixFree.loop]
    cases List.foldlM
      (local_rhs_ppe_nbc_body_force_term_add_boundary_face (op.set_evaluation_time t) data)
      dst ranges <;> rfl
  · intro dst first second
    unfold local_rhs_ppe_nbc_body_force_term_add_boundary_face forRange
    have hbody :
        (fun face (s : FaceIntegratorP R × VectorType R) => (do
          let integrator ←
            local_rhs_ppe_nbc_body_force_term_add_face (op.set_evaluation_time t) data face
              s.1
          .ok (integrator, integrator.integrate_scatter data s.2) :
            Except String (FaceIntegratorP R × VectorType R))) =
        fun face (s : FaceIntegratorP R × VectorType R) =>
          match local_rhs_ppe_nbc_body_force_term_add_face (op.set_evaluation_time t) data
            face s.1 with
          | .error e => .error e
          | .ok it => .ok (it, it.integrate_scatter data s.2) := by
      funext face s
      cases local_rhs_ppe_nbc_body_force_term_add_face (op.set_evaluation_time t) data face
        s.1 <;> rfl
    have hcreate :
        (FaceIntegratorP.create (op.set_evaluation_time t).dof_index_pressure
          (op.set_evaluation_time t).quad_index_pressure : FaceIntegratorP R) =
        FaceIntegratorP.create op.dof_index_pressure op.quad_index_pressure := rfl
    simp only [hbody, hcreate]
    cases forLoop _ (second - first) first
      ((FaceIntegratorP.create op.dof_index_pressure op.quad_index_pressure :
        FaceIntegratorP R), dst) <;> rfl
  · intro hkind
    obtain ⟨it, hit, hval⟩ := (nbc_body_force_face_value op data t face
      (FaceIntegratorP.create op.dof_index_pressure op.quad_index_pressure)).1 hkind
    exact ⟨it, hit, hval, hentry it hit⟩
  · intro hkind
    obtain ⟨it, hit, hval⟩ := (nbc_body_force_face_value op data t face
      (FaceIntegratorP.create op.dof_index_pressure op.quad_index_pressure)).2 hkind
    exact ⟨it, hit, hval, hentry it hit⟩
  · intro hint ranges dst
    exact ranges_pass_eq_single_face_passes _
      (nbc_body_force_boundary_face_eq_passes (op.set_evaluation_time t) data hint)
      ranges dst

/-- C7, on the sample configuration: the call of `rhs_ppe_nbc_body_force_term_add` with the
time 5 on the range of face 0 (pressure kind Neumann) and on the range of face 1 (pressure
kind Dirichlet) returns the operator with evaluation time 5 and the destination vector into
which the submitted values have been integrated and distributed; at the point `q = 1` of face
0, where `x = (0, 1)`, the body force is `(5, 4)` and the normal `(1, 0)`, the submitted value
is 5, and on face 1 it is 0. -/
theorem nbc_body_force_value_witness :
    (∃ it : FaceIntegratorP ℤ,
      rhs_ppe_nbc_body_force_term_add sample_op sample_mf [(0, 0 + 1)] sample_src 5 =
          .ok (sample_op.set_evaluation_time 5,
            sample_mf.distribute_local_to_global 1 0 (sample_mf.integrate 1 1 0 it.values_quad)
              sample_src) ∧
        it.values_quad 1 = 5) ∧
    (∃ it : FaceIntegratorP ℤ,
      rhs_ppe_nbc_body_force_term_add sample_op sample_mf [(1, 1 + 1)] sample_src 5 =
          .ok (sample_op.set_evaluation_time 5,
            sample_mf.distribute_local_to_global 1 1 (sample_mf.integrate 1 1 1 it.values_quad)
              sample_src) ∧
        it.values_quad 1 = 0) := by
  constructor
  · obtain ⟨it, _, hq, hr⟩ :=
      (nbc_body_force_value sample_op sample_mf 5 0 (FaceIntegratorP.create 1 1)).2.2.2.2.1
        rfl
    refine ⟨it, (hr sample_src).2, ?_⟩
    rw [hq 1 (by decide)]
    simp [dot, Fin.sum_univ_two, sample_mf, sample_op]
  · obtain ⟨it, _, hq, hr⟩ :=
      (nbc_body_force_value sample_op sample_mf 5 1
        (FaceIntegratorP.create 1 1)).2.2.2.2.2.1 rfl
    exact ⟨it, (hr sample_src).2, hq 1 (by decide)⟩

end BodyForceNeumannEntryPoint

section Superposition

variable {dim : Nat} {R T : Type} [CommRing R]

/-- C14: each of the six right-hand-side routines, run by `loop` on ranges of boundary
faces that are all of recognised kinds (and, for the two convective routines, with a
recognised formulation selector), where `distribute_local_to_global` adds into its
destination vector and `integrate` reads the values at the quadrature points of the face
only: the pass over these ranges, a pass over ranges whose faces are the Dirichlet-kind
faces among them and a pass over ranges whose faces are the Neumann-kind faces among them
all return, and what the pass over all faces has added to the destination vector is the sum
of what the two other passes have added (kinds of the velocity for the two divergence
routines, of the pressure for the four pressure-Neumann routines). -/
theorem assembly_superposition (op : OperatorDualSplitting dim R T) (mf : MatrixFree dim R)
    (src dst : VectorType R) (t : T)
    (ranges ranges_dirichlet ranges_neumann : List (Nat × Nat))
    (hadd : ∀ (d face : Nat) (values : Nat → R) (v : VectorType R) (i : Nat),
      mf.distribute_local_to_global d face values v i =
        v i + mf.distribute_local_to_global d face values (fun _ => 0) i)
    (hint : ∀ (d qi face : Nat) (v w : Nat → R),
      (∀ q, q < mf.n_q_points qi face → v q = w q) →
      mf.integrate d qi face v = mf.integrate d qi face w) :
    ((∀ face ∈ faces_of_ranges ranges, (op.boundary_descriptor.velocity.get_boundary_type
          (mf.get_boundary_id face)).recognised) →
      faces_of_ranges ranges_dirichlet =
        (faces_of_ranges ranges).filter (velocity_dirichlet_faces op mf) →
      faces_of_ranges ranges_neumann =
        (faces_of_ranges ranges).filter (velocity_neumann_faces op mf) →
      (∃ dM dD dN : VectorType R,
        rhs_ppe_div_term_body_forces_add op mf ranges dst t =
            .ok (op.set_evaluation_time t, dM) ∧
          rhs_ppe_div_term_body_forces_add op mf ranges_dirichlet dst t =
            .ok (op.set_evaluation_time t, dD) ∧
          rhs_ppe_div_term_body_forces_add op mf ranges_neumann dst t =
            .ok (op.set_evaluation_time t, dN) ∧
          ∀ i, dM i - dst i = (dD i - dst i) + (dN i - dst i)) ∧
      (op.param.formulation_convective_term_bc.recognised →
        ∃ dM dD dN : VectorType R,
          rhs_ppe_div_term_convective_term_add op mf ranges dst src = .ok dM ∧
            rhs_ppe_div_term_convective_term_add op mf ranges_dirichlet dst src = .ok dD ∧
            rhs_ppe_div_term_convective_term_add op mf ranges_neumann dst src = .ok dN ∧
            ∀ i, dM i - dst i = (dD i - dst i) + (dN i - dst i))) ∧
    ((∀ face ∈ faces_of_ranges ranges, (op.boundary_descriptor.pressure.get_boundary_type
          (mf.get_boundary_id face)).recognised) →
      faces_of_ranges ranges_dirichlet =
        (faces_of_ranges ranges).filter (pressure_dirichlet_faces op mf) →
      faces_of_ranges ranges_neumann =
        (faces_of_ranges ranges).filter (pressure_neumann_faces op mf) →
      (∃ dM dD dN : VectorType R,
        rhs_ppe_nbc_numerical_time_derivative_add op mf ranges dst src = .ok dM ∧
          rhs_ppe_nbc_numerical_time_derivative_add op mf ranges_dirichlet dst src = .ok dD ∧
          rhs_ppe_nbc_numerical_time_derivative_add op mf ranges_neumann dst src = .ok dN ∧
          ∀ i, dM i - dst i = (dD i - dst i) + (dN i - dst i)) ∧
      (∃ dM dD dN : VectorType R,
        rhs_ppe_nbc_body_force_term_add op mf ranges dst t =
            .ok (op.set_evaluation_time t, dM) ∧
          rhs_ppe_nbc_body_force_term_add op mf ranges_dirichlet dst t =
            .ok (op.set_evaluation_time t, dD) ∧
          rhs_ppe_nbc_body_force_term_add op mf ranges_neumann dst t =
            .ok (op.set_evaluation_time t, dN) ∧
          ∀ i, dM i - dst i = (dD i - dst i) + (dN i - dst i)) ∧
      (op.param.formulation_convective_term_bc.recognised →
        ∃ dM dD dN : VectorType R,
          rhs_ppe_nbc_convective_add op mf ranges dst src = .ok dM ∧
            rhs_ppe_nbc_convective_add op mf ranges_dirichlet dst src = .ok dD ∧
            rhs_ppe_nbc_convective_add op mf ranges_neumann dst src = .ok dN ∧
            ∀ i, dM i - dst i = (dD i - dst i) + (dN i - dst i)) ∧
      (∃ dM dD dN : VectorType R,
        rhs_ppe_nbc_viscous_add op mf ranges dst src = .ok dM ∧
          rhs_ppe_nbc_viscous_add op mf ranges_dirichlet dst src = .ok dD ∧
          rhs_ppe_nbc_viscous_add op mf ranges_neumann dst src = .ok dN ∧
          ∀ i, dM i - dst i = (dD i - dst i) + (dN i - dst i))) := by
  have key : ∀ (bf : VectorType R → Nat × Nat → Except String (VectorType R))
      (dmask nmask : Nat → Bool),
      (∀ (d : VectorType R) (r : Nat × Nat),
        bf d r = ((List.range' r.1 (r.2 - r.1)).map fun f => (f, f + 1)).foldlM bf d) →
      (∀ face ∈ faces_of_ranges ranges, (dmask face = true ∧ nmask face = false) ∨
        (dmask face = false ∧ nmask face = true)) →
      (∀ face ∈ faces_of_ranges ranges, ∃ k : VectorType R, ∀ d : VectorType R,
        bf d (face, face + 1) = .ok (fun i => d i + k i)) →
      faces_of_ranges ranges_dirichlet = (faces_of_ranges ranges).filter dmask →
      faces_of_ranges ranges_neumann = (faces_of_ranges ranges).filter nmask →
      ∃ dM dD dN : VectorType R,
        ranges.foldlM bf dst = .ok dM ∧ ranges_dirichlet.foldlM bf dst = .ok dD ∧
          ranges_neumann.foldlM bf dst = .ok dN ∧
          ∀ i, dM i - dst i = (dD i - dst i) + (dN i - dst i) := by
    intro bf dmask nmask hflat hmask hbf hD hN
    obtain ⟨dM, dD, dN, h1, h2, h3, hrel⟩ :=
      single_face_passes_split bf dmask nmask (faces_of_ranges ranges) hmask hbf dst dst dst
    refine ⟨dM, dD, dN, ?_, ?_, ?_, hrel⟩
    · rw [ranges_pass_eq_single_face_passes bf hflat ranges dst]
      exact h1
    · rw [ranges_pass_eq_single_face_passes bf hflat ranges_dirichlet dst, hD]
      exact h2
    · rw [ranges_pass_eq_single_face_passes bf hflat ranges_neumann dst, hN]
      exact h3
  constructor
  · intro hk hD hN
    have hmask := fun face hf => velocity_masks_partition op mf face (hk face hf)
    constructor
    · obtain ⟨dM, dD, dN, h1, h2, h3, hrel⟩ := key
        (local_rhs_ppe_div_term_body_forces_boundary_face (op.set_evaluation_time t) mf)
        (velocity_dirichlet_faces op mf) (velocity_neumann_faces op mf)
        (div_term_body_forces_boundary_face_eq_passes (op.set_evaluation_time t) mf hint)
        hmask
        (fun face hf => single_face_pass_adds mf hadd (fun s => s)
          (local_rhs_ppe_div_term_body_forces_face (op.set_evaluation_time t) mf) face
          (FaceIntegratorP.create op.dof_index_pressure op.quad_index_pressure)
          ((div_term_body_forces_face_cases (op.set_evaluation_time t) mf face _).2
            (hk face hf)))
        hD hN
      refine ⟨dM, dD, dN, ?_, ?_, ?_, hrel⟩
      · simp only [rhs_ppe_div_term_body_forces_add, MatrixFree.loop, h1, bind, Except.bind]
      · simp only [rhs_ppe_div_term_body_forces_add, MatrixFree.loop, h2, bind, Except.bind]
      · simp only [rhs_ppe_div_term_body_forces_add, MatrixFree.loop, h3, bind, Except.bind]
    · intro hform
      exact key (local_rhs_ppe_div_term_convective_term_boundary_face op mf src)
        (velocity_dirichlet_faces op mf) (velocity_neumann_faces op mf)
        (div_term_convective_boundary_face_eq_passes op mf hint src) hmask
        (fun face hf => single_face_pass_adds mf hadd ConvectiveIntegrators.pressure
          (local_rhs_ppe_div_term_convective_term_face op mf src) face _
          ((div_term_convective_face_cases op mf src face _).2.2 (hk face hf) hform))
        hD hN
  · intro hk hD hN
    have hmask := fun face hf => pressure_masks_partition op mf face (hk face hf)
    refine ⟨?_, ?_, ?_, ?_⟩
    · exact key (local_rhs_ppe_nbc_numerical_time_derivative_add_boundary_face op mf src)
        (pressure_dirichlet_faces op mf) (pressure_neumann_faces op mf)
        (nbc_numerical_time_derivative_boundary_face_eq_passes op mf hint src) hmask
        (fun face hf => single_face_pass_adds mf hadd
          TimeDerivativeIntegrators.integrator_pressure
          (local_rhs_ppe_nbc_numerical_time_derivative_add_face op mf src) face _
          ((nbc_numerical_time_derivative_face_cases op mf src face _).2 (hk face hf)))
        hD hN
    · obtain ⟨dM, dD, dN, h1, h2, h3, hrel⟩ := key
        (local_rhs_ppe_nbc_body_force_term_add_boundary_face (op.set_evaluation_time t) mf)
        (pressure_dirichlet_faces op mf) (pressure_neumann_faces op mf)
        (nbc_body_force_boundary_face_eq_passes (op.set_evaluation_time t) mf hint) hmask
        (fun face hf => single_face_pass_adds mf hadd (fun s => s)
          (local_rhs_ppe_nbc_body_force_term_add_face (op.set_evaluation_time t) mf) face
          (FaceIntegratorP.create op.dof_index_pressure op.quad_index_pressure)
          ((nbc_body_force_face_cases (op.set_evaluation_time t) mf face _).2 (hk face hf)))
        hD hN
      refine ⟨dM, dD, dN, ?_, ?_, ?_, hrel⟩
      · simp only [rhs_ppe_nbc_body_force_term_add, MatrixFree.loop, h1, bind, Except.bind]
      · simp only [rhs_ppe_nbc_body_force_term_add, MatrixFree.loop, h2, bind, Except.bind]
      · simp only [rhs_ppe_nbc_body_force_term_add, MatrixFree.loop, h3, bind, Except.bind]
    · intro hform
      exact key (local_rhs_ppe_nbc_convective_add_boundary_face op mf src)
        (pressure_dirichlet_faces op mf) (pressure_neumann_faces op mf)
        (nbc_convective_boundary_face_eq_passes op mf hint src) hmask
        (fun face hf => single_face_pass_adds mf hadd ConvectiveIntegrators.pressure
          (local_rhs_ppe_nbc_convective_add_face op mf src) face _
          ((nbc_convective_face_cases op mf src face _).2.2 (hk face hf) hform))
        hD hN
    · exact key (local_rhs_ppe_nbc_viscous_add_boundary_face op mf src)
        (pressure_dirichlet_faces op mf) (pressure_neumann_faces op mf)
        (nbc_viscous_boundary_face_eq_passes op mf hint src) hmask
        (fun face hf => single_face_pass_adds mf hadd ViscousIntegrators.pressure
          (local_rhs_ppe_nbc_viscous_add_face op mf src) face _
          ((nbc_viscous_face_cases op mf src face _).2 (hk face hf)))
        hD hN

end Superposition

section SuperpositionExample

/-- C14, on the sample configuration with the assembly that sums the submitted values over
the faces and their quadrature points: the two divergence routines on the one range of the
faces 0 to 3 (velocity kinds Dirichlet, DirichletCached, Neumann, Symmetry), with the faces
0 and 1 and the faces 2 and 3 as the ranges of the Dirichlet-kind and of the Neumann-kind
faces; the four pressure-Neumann routines on the one range of the faces 0 and 1 (pressure
kinds Neumann, Dirichlet), with face 1 and face 0 as the two ranges. -/
theorem assembly_superposition_witness :
    ((∃ dM dD dN : VectorType ℤ,
        rhs_ppe_div_term_body_forces_add sample_op sample_mf_sum [(0, 4)] sample_src 5 =
            .ok (sample_op.set_evaluation_time 5, dM) ∧
          rhs_ppe_div_term_body_forces_add sample_op sample_mf_sum [(0, 2)] sample_src
              5 = .ok (sample_op.set_evaluation_time 5, dD) ∧
          rhs_ppe_div_term_body_forces_add sample_op sample_mf_sum [(2, 4)] sample_src
              5 = .ok (sample_op.set_evaluation_time 5, dN) ∧
          ∀ i, dM i - sample_src i = (dD i - sample_src i) + (dN i - sample_src i)) ∧
      (∃ dM dD dN : VectorType ℤ,
        rhs_ppe_div_term_convective_term_add sample_op sample_mf_sum [(0, 4)]
            sample_src sample_src = .ok dM ∧
          rhs_ppe_div_term_convective_term_add sample_op sample_mf_sum [(0, 2)]
              sample_src sample_src = .ok dD ∧
          rhs_ppe_div_term_convective_term_add sample_op sample_mf_sum [(2, 4)]
              sample_src sample_src = .ok dN ∧
          ∀ i, dM i - sample_src i = (dD i - sample_src i) + (dN i - sample_src i))) ∧
    ((∃ dM dD dN : VectorType ℤ,
        rhs_ppe_nbc_numerical_time_derivative_add sample_op sample_mf_sum [(0, 2)]
            sample_src sample_src = .ok dM ∧
          rhs_ppe_nbc_numerical_time_derivative_add sample_op sample_mf_sum [(1, 2)]
              sample_src sample_src = .ok dD ∧
          rhs_ppe_nbc_numerical_time_derivative_add sample_op sample_mf_sum [(0, 1)]
              sample_src sample_src = .ok dN ∧
          ∀ i, dM i - sample_src i = (dD i - sample_src i) + (dN i - sample_src i)) ∧
      (∃ dM dD dN : VectorType ℤ,
        rhs_ppe_nbc_body_force_term_add sample_op sample_mf_sum [(0, 2)] sample_src 5 =
            .ok (sample_op.set_evaluation_time 5, dM) ∧
          rhs_ppe_nbc_body_force_term_add sample_op sample_mf_sum [(1, 2)] sample_src
              5 = .ok (sample_op.set_evaluation_time 5, dD) ∧
          rhs_ppe_nbc_body_force_term_add sample_op sample_mf_sum [(0, 1)] sample_src
              5 = .ok (sample_op.set_evaluation_time 5, dN) ∧
          ∀ i, dM i - sample_src i = (dD i - sample_src i) + (dN i - sample_src i)) ∧
      (∃ dM dD dN : VectorType ℤ,
        rhs_ppe_nbc_convective_add sample_op sample_mf_sum [(0, 2)] sample_src
            sample_src = .ok dM ∧
          rhs_ppe_nbc_convective_add sample_op sample_mf_sum [(1, 2)] sample_src
              sample_src = .ok dD ∧
          rhs_ppe_nbc_convective_add sample_op sample_mf_sum [(0, 1)] sample_src
              sample_src = .ok dN ∧
          ∀ i, dM i - sample_src i = (dD i - sample_src i) + (dN i - sample_src i)) ∧
      (∃ dM dD dN : VectorType ℤ,
        rhs_ppe_nbc_viscous_add sample_op sample_mf_sum [(0, 2)] sample_src
            sample_src = .ok dM ∧
          rhs_ppe_nbc_viscous_add sample_op sample_mf_sum [(1, 2)] sample_src
              sample_src = .ok dD ∧
          rhs_ppe_nbc_viscous_add sample_op sample_mf_sum [(0, 1)] sample_src
              sample_src = .ok dN ∧
          ∀ i, dM i - sample_src i = (dD i - sample_src i) + (dN i - sample_src i))) := by
  have hadd : ∀ (d face : Nat) (values : Nat → ℤ) (v : VectorType ℤ) (i : Nat),
      sample_mf_sum.distribute_local_to_global d face values v i =
        v i + sample_mf_sum.distribute_local_to_global d face values (fun _ => 0) i := by
    intro d face values v i
    simp [sample_mf_sum, sample_mf]
  have hint : ∀ (d qi face : Nat) (v w : Nat → ℤ),
      (∀ q, q < sample_mf_sum.n_q_points qi face → v q = w q) →
      sample_mf_sum.integrate d qi face v =
        sample_mf_sum.integrate d qi face w := by
    intro d qi face v w h
    funext i
    have h0 := h 0 (show 0 < 2 by decide)
    have h1 := h 1 (show 1 < 2 by decide)
    simp only [sample_mf_sum, h0, h1]
  have hU := (assembly_superposition sample_op sample_mf_sum sample_src sample_src 5
    [(0, 4)] [(0, 2)] [(2, 4)] hadd hint).1 (by decide) (by decide) (by decide)
  have hP := (assembly_superposition sample_op sample_mf_sum sample_src sample_src 5
    [(0, 2)] [(1, 2)] [(0, 1)] hadd hint).2 (by decide) (by decide) (by decide)
  exact ⟨⟨hU.1, hU.2 (Or.inl rfl)⟩, hP.1, hP.2.1, hP.2.2.1 (Or.inl rfl), hP.2.2.2⟩

end SuperpositionExample

end ExaDG
